import Mathlib

/-! CoastalME: between-polygon redistribution of unconsolidated beach sediment.

A shallow embedding of `do_beach_sediment_movement.cpp` and of the parts of
`coast_polygon.cpp` that it uses.

Modelling conventions.

* C++ `double` quantities are exact rationals (`ℚ`); C++ `int` values are `Int`.
* `m_VCoast[nCoast].pGetPolygon(n)` is an index into the polygon vector of coast `nCoast`.
  A read outside the vector yields `emptyPolygon`, a write outside the vector is dropped;
  theorems which depend on an index being valid say so in a hypothesis.
* `nDoUnconsDepositionOnPolygon` and `nDoUnconsErosionOnPolygon` place sediment on raster cells
  and are external to this file. They are a parameter `ext : Collaborator`: the returned status and
  depth may depend on the call and on every placement call made before it. Each call is recorded in
  `placementLog`.
* Writing to the log file (`LogStream`, the `WritePolygon...` routines) changes no simulation
  field and is left out.
* `INT_NODATA` and `RTN_OK` are declared in `cme.h`; they are parameters of the definitions which
  use them.
-/

namespace CoastalME

/-! ## Data model -/

/-- Sediment size class handed to the placement routines (`TEXTURE_FINE`, `TEXTURE_SAND`,
`TEXTURE_COARSE`). -/
inductive Texture where
  | TEXTURE_FINE
  | TEXTURE_SAND
  | TEXTURE_COARSE
  deriving DecidableEq, Repr

/-- Modelled from the spec: the edge-policy configuration, one of closed, open, recirculate
(the constants `GRID_EDGE_CLOSED`, `GRID_EDGE_OPEN`, `GRID_EDGE_RECIRCULATE` of `cme.h`). -/
inductive GridEdge where
  | GRID_EDGE_CLOSED
  | GRID_EDGE_OPEN
  | GRID_EDGE_RECIRCULATE
  deriving DecidableEq, Repr

/-- The fields of `CGeomCoastPolygon` read or written by the sediment routing code. -/
structure CGeomCoastPolygon where
  m_bDownCoastThisIter : Bool
  m_nGlobalID : Int
  m_nCoastID : Int
  m_dPotentialErosionAllUncons : ℚ
  m_dErosionUnconsFine : ℚ
  m_dErosionUnconsSand : ℚ
  m_dErosionUnconsCoarse : ℚ
  m_dDepositionUnconsFine : ℚ
  m_dDepositionUnconsSand : ℚ
  m_dDepositionUnconsCoarse : ℚ
  m_dCliffCollapseTalusSand : ℚ
  m_dCliffCollapseTalusCoarse : ℚ
  m_dSandFromPlatformErosion : ℚ
  m_dCoarseFromPlatformErosion : ℚ
  m_dStoredUnconsFine : ℚ
  m_dStoredUnconsSand : ℚ
  m_dStoredUnconsCoarse : ℚ
  m_VnUpCoastAdjacentPolygon : List Int
  m_VnDownCoastAdjacentPolygon : List Int
  m_VnCircularityWith : List Int
  m_VdUpCoastAdjacentPolygonBoundaryShare : List ℚ
  m_VdDownCoastAdjacentPolygonBoundaryShare : List ℚ

/-- The polygon as the constructor of `CGeomCoastPolygon` leaves it: every depth zero, every
vector empty, the down-coast flag false. -/
def emptyPolygon : CGeomCoastPolygon :=
  { m_bDownCoastThisIter := false, m_nGlobalID := 0, m_nCoastID := 0,
    m_dPotentialErosionAllUncons := 0,
    m_dErosionUnconsFine := 0, m_dErosionUnconsSand := 0, m_dErosionUnconsCoarse := 0,
    m_dDepositionUnconsFine := 0, m_dDepositionUnconsSand := 0, m_dDepositionUnconsCoarse := 0,
    m_dCliffCollapseTalusSand := 0, m_dCliffCollapseTalusCoarse := 0,
    m_dSandFromPlatformErosion := 0, m_dCoarseFromPlatformErosion := 0,
    m_dStoredUnconsFine := 0, m_dStoredUnconsSand := 0, m_dStoredUnconsCoarse := 0,
    m_VnUpCoastAdjacentPolygon := [], m_VnDownCoastAdjacentPolygon := [],
    m_VnCircularityWith := [],
    m_VdUpCoastAdjacentPolygonBoundaryShare := [],
    m_VdDownCoastAdjacentPolygonBoundaryShare := [] }

namespace CGeomCoastPolygon

/-- Is sediment movement on this polygon down-coast this iteration? -/
def bDownCoastThisIter (p : CGeomCoastPolygon) : Bool := p.m_bDownCoastThisIter

/-- Get the coast ID. -/
def nGetCoastID (p : CGeomCoastPolygon) : Int := p.m_nCoastID

/-- Potential erosion of all size classes, a value at most zero. -/
def dGetPotentialErosion (p : CGeomCoastPolygon) : ℚ := p.m_dPotentialErosionAllUncons

/-- Sets this timestep's erosion of fine sediment on this polygon. -/
def SetErosionUnconsFine (p : CGeomCoastPolygon) (dDepth : ℚ) : CGeomCoastPolygon :=
  { p with m_dErosionUnconsFine := dDepth }

/-- Returns this timestep's erosion of fine sediment on this polygon. -/
def dGetErosionUnconsFine (p : CGeomCoastPolygon) : ℚ := p.m_dErosionUnconsFine

/-- Sets this timestep's erosion of sand-sized sediment on this polygon. -/
def SetErosionUnconsSand (p : CGeomCoastPolygon) (dDepth : ℚ) : CGeomCoastPolygon :=
  { p with m_dErosionUnconsSand := dDepth }

/-- Returns this timestep's erosion of sand-sized sediment on this polygon. -/
def dGetErosionUnconsSand (p : CGeomCoastPolygon) : ℚ := p.m_dErosionUnconsSand

/-- Sets this timestep's erosion of coarse sediment on this polygon. -/
def SetErosionUnconsCoarse (p : CGeomCoastPolygon) (dDepth : ℚ) : CGeomCoastPolygon :=
  { p with m_dErosionUnconsCoarse := dDepth }

/-- Returns this timestep's erosion of coarse sediment on this polygon. -/
def dGetErosionUnconsCoarse (p : CGeomCoastPolygon) : ℚ := p.m_dErosionUnconsCoarse

/-- Returns this timestep's erosion of all size classes on this polygon. -/
def dGetErosionAllUncons (p : CGeomCoastPolygon) : ℚ :=
  p.m_dErosionUnconsFine + p.m_dErosionUnconsSand + p.m_dErosionUnconsCoarse

/-- Returns this timestep's deposition of fine sediment on this polygon. -/
def dGetDepositionUnconsFine (p : CGeomCoastPolygon) : ℚ := p.m_dDepositionUnconsFine

/-- Adds a depth of sand-sized sediment to this timestep's deposition on this polygon. -/
def AddDepositionUnconsSand (p : CGeomCoastPolygon) (dDepth : ℚ) : CGeomCoastPolygon :=
  { p with m_dDepositionUnconsSand := p.m_dDepositionUnconsSand + dDepth }

/-- Returns this timestep's deposition of sand-sized sediment on this polygon. -/
def dGetDepositionUnconsSand (p : CGeomCoastPolygon) : ℚ := p.m_dDepositionUnconsSand

/-- Adds a depth of coarse sediment to this timestep's deposition on this polygon. -/
def AddDepositionUnconsCoarse (p : CGeomCoastPolygon) (dDepth : ℚ) : CGeomCoastPolygon :=
  { p with m_dDepositionUnconsCoarse := p.m_dDepositionUnconsCoarse + dDepth }

/-- Returns this timestep's deposition of coarse sediment on this polygon. -/
def dGetDepositionUnconsCoarse (p : CGeomCoastPolygon) : ℚ := p.m_dDepositionUnconsCoarse

/-- Returns this timestep's deposition of all size classes on this polygon. -/
def dGetDepositionAllUncons (p : CGeomCoastPolygon) : ℚ :=
  p.m_dDepositionUnconsFine + p.m_dDepositionUnconsSand + p.m_dDepositionUnconsCoarse

/-- Gets a single up-coast adjacent polygon. -/
def nGetUpCoastAdjacentPolygon (p : CGeomCoastPolygon) (nIndex : Nat) : Int :=
  p.m_VnUpCoastAdjacentPolygon.getD nIndex 0

/-- Gets the number of up-coast adjacent polygons. -/
def nGetNumUpCoastAdjacentPolygons (p : CGeomCoastPolygon) : Nat :=
  p.m_VnUpCoastAdjacentPolygon.length

/-- Gets a single down-coast adjacent polygon. -/
def nGetDownCoastAdjacentPolygon (p : CGeomCoastPolygon) (nIndex : Nat) : Int :=
  p.m_VnDownCoastAdjacentPolygon.getD nIndex 0

/-- Gets the number of down-coast adjacent polygons. -/
def nGetNumDownCoastAdjacentPolygons (p : CGeomCoastPolygon) : Nat :=
  p.m_VnDownCoastAdjacentPolygon.length

/-- Gets the boundary share of one up-coast adjacent polygon. -/
def dGetUpCoastAdjacentPolygonBoundaryShare (p : CGeomCoastPolygon) (nIndex : Nat) : ℚ :=
  p.m_VdUpCoastAdjacentPolygonBoundaryShare.getD nIndex 0

/-- Gets the boundary share of one down-coast adjacent polygon. -/
def dGetDownCoastAdjacentPolygonBoundaryShare (p : CGeomCoastPolygon) (nIndex : Nat) : ℚ :=
  p.m_VdDownCoastAdjacentPolygonBoundaryShare.getD nIndex 0

/-- Add a circularity to this polygon. -/
def AddCircularity (p : CGeomCoastPolygon) (nPoly : Int) : CGeomCoastPolygon :=
  { p with m_VnCircularityWith := p.m_VnCircularityWith ++ [nPoly] }

/-- Get all circularities for this polygon. -/
def VnGetCircularities (p : CGeomCoastPolygon) : List Int := p.m_VnCircularityWith

/-- Sand deposited from cliff collapse in this polygon. -/
def dGetCliffCollapseUnconsSandDeposition (p : CGeomCoastPolygon) : ℚ :=
  p.m_dCliffCollapseTalusSand

/-- Coarse sediment deposited from cliff collapse in this polygon. -/
def dGetCliffCollapseUnconsCoarseDeposition (p : CGeomCoastPolygon) : ℚ :=
  p.m_dCliffCollapseTalusCoarse

/-- Sand derived from shore platform erosion in this polygon. -/
def dGetUnconsSandFromShorePlatform (p : CGeomCoastPolygon) : ℚ := p.m_dSandFromPlatformErosion

/-- Coarse sediment derived from shore platform erosion in this polygon. -/
def dGetUnconsCoarseFromShorePlatform (p : CGeomCoastPolygon) : ℚ :=
  p.m_dCoarseFromPlatformErosion

/-- Get the fine sediment stored in this polygon. -/
def dGetStoredUnconsFine (p : CGeomCoastPolygon) : ℚ := p.m_dStoredUnconsFine

/-- Set the sand stored in this polygon. -/
def SetStoredUnconsSand (p : CGeomCoastPolygon) (dDepth : ℚ) : CGeomCoastPolygon :=
  { p with m_dStoredUnconsSand := dDepth }

/-- Get the sand stored in this polygon. -/
def dGetStoredUnconsSand (p : CGeomCoastPolygon) : ℚ := p.m_dStoredUnconsSand

/-- Set the coarse sediment stored in this polygon. -/
def SetStoredUnconsCoarse (p : CGeomCoastPolygon) (dDepth : ℚ) : CGeomCoastPolygon :=
  { p with m_dStoredUnconsCoarse := dDepth }

/-- Get the coarse sediment stored in this polygon. -/
def dGetStoredUnconsCoarse (p : CGeomCoastPolygon) : ℚ := p.m_dStoredUnconsCoarse

end CGeomCoastPolygon

/-- Which of the two external placement routines a call went to. -/
inductive PlacementKind where
  | deposition
  | erosion
  deriving DecidableEq, Repr

/-- One call of `nDoUnconsDepositionOnPolygon` or `nDoUnconsErosionOnPolygon`: the coast, the
polygon, the size class and the target depth passed in. -/
structure PlacementCall where
  kind : PlacementKind
  nCoast : Nat
  nPoly : Int
  nTexture : Texture
  dTarget : ℚ
  deriving DecidableEq, Repr

/-- The external placement routines: given the calls made so far and the present call, the
returned status and the depth actually deposited or eroded. -/
abbrev Collaborator := List PlacementCall → PlacementCall → Int × ℚ

/-- The fields of `CSimulation` read or written by the sediment routing code, and the record of
placement calls. -/
structure CSimulation where
  m_VCoast : List (List CGeomCoastPolygon)
  m_nUnconsSedimentHandlingAtGridEdges : GridEdge
  m_dFineErodibilityNormalized : ℚ
  m_dSandErodibilityNormalized : ℚ
  m_dCoarseErodibilityNormalized : ℚ
  m_dThisIterDepositionSandDiff : ℚ
  m_dThisIterDepositionCoarseDiff : ℚ
  m_dThisIterBeachErosionFine : ℚ
  m_dThisIterBeachErosionSand : ℚ
  m_dThisIterBeachErosionCoarse : ℚ
  m_dThisIterLeftGridUnconsSand : ℚ
  m_dThisIterLeftGridUnconsCoarse : ℚ
  placementLog : List PlacementCall

/-! ## Access to the polygons of a coast -/

/-- The polygon vector of coast `nCoast` (`m_VCoast[nCoast]`). -/
def CSimulation.coast (s : CSimulation) (nCoast : Nat) : List CGeomCoastPolygon :=
  s.m_VCoast.getD nCoast []

/-- The number of polygons of a coast (`m_VCoast[nCoast].nGetNumPolygons()`). -/
def CSimulation.nGetNumPolygons (s : CSimulation) (nCoast : Nat) : Nat :=
  (s.coast nCoast).length

/-- The polygon with index `nPoly` of coast `nCoast` (`m_VCoast[nCoast].pGetPolygon(nPoly)`). -/
def CSimulation.pGetPolygon (s : CSimulation) (nCoast : Nat) (nPoly : Int) : CGeomCoastPolygon :=
  if 0 ≤ nPoly then (s.coast nCoast).getD nPoly.toNat emptyPolygon else emptyPolygon

/-- A write through the pointer `m_VCoast[nCoast].pGetPolygon(nPoly)`: the polygon with that
index is replaced by its image under `f`. -/
def CSimulation.updPolygon (s : CSimulation) (nCoast : Nat) (nPoly : Int)
    (f : CGeomCoastPolygon → CGeomCoastPolygon) : CSimulation :=
  if 0 ≤ nPoly then
    { s with m_VCoast := s.m_VCoast.modify (List.modify f nPoly.toNat) nCoast }
  else s

/-! ## The comparison function and the sort -/

/-- The comparison `nVLeft < nVRight` of two `vector<int>`: lexicographic, a proper prefix being
less than the longer vector. -/
def vectorLess : List Int → List Int → Bool
  | [], [] => false
  | [], _ :: _ => true
  | _ :: _, [] => false
  | a :: as, b :: bs => if a < b then true else if b < a then false else vectorLess as bs

/-- The last statements of `bPolygonAndAdjCompare`: `bDownCoast = nVLeft[1]`, then the comparison
of the whole vectors, ascending when sediment goes down-coast and descending when it goes
up-coast. The result is `none` when `nVLeft` has no second item to read. -/
def compareByDirection (nVLeft nVRight : List Int) : Option Bool :=
  match nVLeft.get? 1 with
  | none => none
  | some bDownCoast =>
    if bDownCoast ≠ 0 then some (vectorLess nVLeft nVRight)
    else some (vectorLess nVRight nVLeft)

/-- Function used to sort polygons before doing the polygon-to-polygon source-target pattern.
For both arguments the first value is the polygon coast ID, the second value is the down- or
up-coast direction, and subsequent numbers are adjacent polygon coast IDs in that direction. The
result is `some true` when the first argument must be ordered before the second. -/
def bPolygonAndAdjCompare (INT_NODATA : Int) (nVLeft nVRight : List Int) : Option Bool :=
  if 3 ≤ nVLeft.length ∧ 3 ≤ nVRight.length then
    -- Polygons at the grid edge are processed last, so put LHS grid-edge polygons on the RHS
    if nVLeft.getD 2 0 = INT_NODATA then some false
    -- Polygons at the grid edge are processed last, so keep RHS grid-edge polygons where they are
    else if nVRight.getD 2 0 = INT_NODATA then some true
    -- Does the LHS polygon have the RHS polygon as one of its adjacent polygons?
    else if (nVLeft.drop 2).contains (nVRight.getD 0 0) then some true
    -- Does the RHS polygon have the LHS polygon as one of its adjacent polygons?
    else if (nVRight.drop 2).contains (nVLeft.getD 0 0) then some false
    else compareByDirection nVLeft nVRight
  else compareByDirection nVLeft nVRight

/-- Insertion of `x` into a list: `x` goes after the leading items that the comparison orders
before it. -/
def insertSorted {α : Type} (comp : α → α → Bool) (x : α) : List α → List α
  | [] => [x]
  | y :: ys => if comp y x then y :: insertSorted comp x ys else x :: y :: ys

/-- The library routine `std::stable_sort`, as a stable insertion sort: an item is moved in front
of an earlier item only when `comp` orders it before that item. Every stable sort returns this
sequence when `comp` is a strict weak ordering on the items. -/
def stable_sort {α : Type} (comp : α → α → Bool) : List α → List α
  | [] => []
  | x :: xs => insertSorted comp x (stable_sort comp xs)

/-! ## The routing pass -/

/-- The array item built for one polygon: its coast ID, its direction, then the IDs of the
adjacent polygons in that direction. -/
def nVPolyAndAdj (pPoly : CGeomCoastPolygon) : List Int :=
  if pPoly.bDownCoastThisIter then
    pPoly.nGetCoastID :: 1 :: pPoly.m_VnDownCoastAdjacentPolygon
  else
    pPoly.nGetCoastID :: 0 :: pPoly.m_VnUpCoastAdjacentPolygon

/-- The unsorted array of all polygons of a coast with their adjacent polygons. -/
def nVVPolyAndAdjacent (s : CSimulation) (nCoast : Nat) : List (List Int) :=
  (s.coast nCoast).map nVPolyAndAdj

/-- The comparison handed to `stable_sort`: `bPolygonAndAdjCompare` returned true. -/
def compareBefore (INT_NODATA : Int) (nVLeft nVRight : List Int) : Bool :=
  bPolygonAndAdjCompare INT_NODATA nVLeft nVRight == some true

/-- The array sorted with `bPolygonAndAdjCompare`. -/
def sortedPolyAndAdjacent (INT_NODATA : Int) (s : CSimulation) (nCoast : Nat) : List (List Int) :=
  stable_sort (compareBefore INT_NODATA) (nVVPolyAndAdjacent s nCoast)

/-- Update the values of pre-existing unconsolidated sediment of the polygon with index `nPoly`
(the loop body of `AllPolygonsUpdateStoredUncons`): sand and coarse only. -/
def updateStoredUncons (s : CSimulation) (nCoast : Nat) (nPoly : Nat) : CSimulation :=
  let pPolygon := s.pGetPolygon nCoast nPoly
  let dSand := pPolygon.dGetStoredUnconsSand + pPolygon.dGetUnconsSandFromShorePlatform
    + pPolygon.dGetCliffCollapseUnconsSandDeposition
  let s1 := s.updPolygon nCoast nPoly (fun p => p.SetStoredUnconsSand dSand)
  let pPolygon1 := s1.pGetPolygon nCoast nPoly
  let dCoarse := pPolygon1.dGetStoredUnconsCoarse + pPolygon1.dGetUnconsCoarseFromShorePlatform
    + pPolygon1.dGetCliffCollapseUnconsCoarseDeposition
  s1.updPolygon nCoast nPoly (fun p => p.SetStoredUnconsCoarse dCoarse)

/-- Update the values of pre-existing unconsolidated sediment to include sediment derived from
platform erosion and cliff collapse, for every polygon of the coast. -/
def AllPolygonsUpdateStoredUncons (s : CSimulation) (nCoast : Nat) : CSimulation :=
  (List.range (s.nGetNumPolygons nCoast)).foldl (fun t nPoly => updateStoredUncons t nCoast nPoly) s

/-- Add a circularity between the polygon `nPoly` being walked and the earlier source polygon
`nSource`, on both of them. -/
def addCircularityPair (s : CSimulation) (nCoast : Nat) (nPoly nSource : Int) : CSimulation :=
  (s.updPolygon nCoast nPoly (fun p => p.AddCircularity nSource)).updPolygon nCoast nSource
    (fun p => p.AddCircularity nPoly)

/-- The inner loop of the circularity check over the adjacent polygons of one array item: an
adjacent polygon found among the source polygons gives a circularity. -/
def checkCircularities (nCoast : Nat) (nPoly : Int) (VnSourcePolygons : List Int) :
    List Int → CSimulation → CSimulation
  | [], s => s
  | nAdj :: rest, s =>
    if VnSourcePolygons.contains nAdj then
      checkCircularities nCoast nPoly VnSourcePolygons rest (addCircularityPair s nCoast nPoly nAdj)
    else checkCircularities nCoast nPoly VnSourcePolygons rest s

/-- The check for circularities over the sorted array: the first item of every array item is
added to the source polygons, and every item after the second is looked up among them. -/
def circularityWalk (nCoast : Nat) : List (List Int) → List Int → CSimulation → CSimulation
  | [], _, s => s
  | [] :: rest, VnSourcePolygons, s => circularityWalk nCoast rest VnSourcePolygons s
  | (nPoly :: items) :: rest, VnSourcePolygons, s =>
    circularityWalk nCoast rest (VnSourcePolygons ++ [nPoly])
      (checkCircularities nCoast nPoly (VnSourcePolygons ++ [nPoly]) (items.drop 1) s)

/-- Modelled from the spec: the template `tMin` of `cme.h`, the smaller of two values. -/
def tMin (a b : ℚ) : ℚ := if a < b then a else b

/-- A call of the external routine `nDoUnconsDepositionOnPolygon`: the status, the depth
deposited, and the simulation with the call recorded. -/
def nDoUnconsDepositionOnPolygon (ext : Collaborator) (s : CSimulation) (nCoast : Nat)
    (nPoly : Int) (nTexture : Texture) (dTarget : ℚ) : Int × ℚ × CSimulation :=
  let call : PlacementCall := ⟨PlacementKind.deposition, nCoast, nPoly, nTexture, dTarget⟩
  ((ext s.placementLog call).1, (ext s.placementLog call).2,
    { s with placementLog := s.placementLog ++ [call] })

/-- A call of the external routine `nDoUnconsErosionOnPolygon`: the status, the depth eroded,
and the simulation with the call recorded. -/
def nDoUnconsErosionOnPolygon (ext : Collaborator) (s : CSimulation) (nCoast : Nat)
    (nPoly : Int) (nTexture : Texture) (dTarget : ℚ) : Int × ℚ × CSimulation :=
  let call : PlacementCall := ⟨PlacementKind.erosion, nCoast, nPoly, nTexture, dTarget⟩
  ((ext s.placementLog call).1, (ext s.placementLog call).2,
    { s with placementLog := s.placementLog ++ [call] })

/-- Deposition of coarse sediment on polygon `nPoly`. The first component is `some nRet` when the
function returns `nRet` at once. -/
def depositCoarse (RTN_OK : Int) (ext : Collaborator) (s : CSimulation) (nCoast : Nat)
    (nPoly : Int) : Option Int × CSimulation :=
  let dCoarseDepositionTarget := (s.pGetPolygon nCoast nPoly).dGetDepositionUnconsCoarse
  if dCoarseDepositionTarget > 0 then
    let r := nDoUnconsDepositionOnPolygon ext s nCoast nPoly Texture.TEXTURE_COARSE
      dCoarseDepositionTarget
    if r.1 ≠ RTN_OK then (some r.1, r.2.2)
    else
      let dCoarseNotDeposited := dCoarseDepositionTarget - r.2.1
      if dCoarseNotDeposited > 0 then
        (none, { r.2.2 with m_dThisIterDepositionCoarseDiff :=
          r.2.2.m_dThisIterDepositionCoarseDiff + dCoarseNotDeposited })
      else (none, r.2.2)
  else (none, s)

/-- Deposition of sand on polygon `nPoly`. The first component is `some nRet` when the function
returns `nRet` at once. -/
def depositSand (RTN_OK : Int) (ext : Collaborator) (s : CSimulation) (nCoast : Nat)
    (nPoly : Int) : Option Int × CSimulation :=
  let dSandDepositionTarget := (s.pGetPolygon nCoast nPoly).dGetDepositionUnconsSand
  if dSandDepositionTarget > 0 then
    let r := nDoUnconsDepositionOnPolygon ext s nCoast nPoly Texture.TEXTURE_SAND
      dSandDepositionTarget
    if r.1 ≠ RTN_OK then (some r.1, r.2.2)
    else
      let dSandNotDeposited := dSandDepositionTarget - r.2.1
      if dSandNotDeposited > 0 then
        (none, { r.2.2 with m_dThisIterDepositionSandDiff :=
          r.2.2.m_dThisIterDepositionSandDiff + dSandNotDeposited })
      else (none, r.2.2)
  else (none, s)

/-- Supply-limited erosion of fine sediment on polygon `nPoly`. The first component is
`some nRet` when the function returns `nRet` at once. -/
def erodeFine (RTN_OK : Int) (ext : Collaborator) (s : CSimulation) (nCoast : Nat)
    (nPoly : Int) (dPotentialErosion : ℚ) : Option Int × CSimulation :=
  let dExistingUnconsFine := (s.pGetPolygon nCoast nPoly).dGetStoredUnconsFine
  if dExistingUnconsFine > 0 then
    let dFinePotentialErosion := dPotentialErosion * s.m_dFineErodibilityNormalized
    let dFineErosionTarget := tMin dFinePotentialErosion dExistingUnconsFine
    let r := nDoUnconsErosionOnPolygon ext s nCoast nPoly Texture.TEXTURE_FINE dFineErosionTarget
    if r.1 ≠ RTN_OK then (some r.1, r.2.2)
    else if r.2.1 > 0 then
      let s1 := { r.2.2 with m_dThisIterBeachErosionFine :=
        r.2.2.m_dThisIterBeachErosionFine + r.2.1 }
      (none, s1.updPolygon nCoast nPoly (fun p => p.SetErosionUnconsFine (-r.2.1)))
    else (none, r.2.2)
  else (none, s)

/-- Supply-limited erosion of sand on polygon `nPoly`. The components are the status when the
function returns at once, the depth `dSandEroded`, and the simulation. -/
def erodeSand (RTN_OK : Int) (ext : Collaborator) (s : CSimulation) (nCoast : Nat)
    (nPoly : Int) (dPotentialErosion : ℚ) : Option Int × ℚ × CSimulation :=
  let dExistingUnconsSand := (s.pGetPolygon nCoast nPoly).dGetStoredUnconsSand
  if dExistingUnconsSand > 0 then
    let dSandPotentialErosion := dPotentialErosion * s.m_dSandErodibilityNormalized
    let dSandErosionTarget := tMin dSandPotentialErosion dExistingUnconsSand
    -- Sand which could not be deposited on the previously-processed polygon is added in
    let dSandErosionTarget1 :=
      if s.m_dThisIterDepositionSandDiff > 0 then dSandErosionTarget + s.m_dThisIterDepositionSandDiff
      else dSandErosionTarget
    let s1 :=
      if s.m_dThisIterDepositionSandDiff > 0 then { s with m_dThisIterDepositionSandDiff := 0 }
      else s
    let r := nDoUnconsErosionOnPolygon ext s1 nCoast nPoly Texture.TEXTURE_SAND dSandErosionTarget1
    if r.1 ≠ RTN_OK then (some r.1, r.2.1, r.2.2)
    else if r.2.1 > 0 then
      let s2 := { r.2.2 with m_dThisIterBeachErosionSand :=
        r.2.2.m_dThisIterBeachErosionSand + r.2.1 }
      (none, r.2.1, s2.updPolygon nCoast nPoly (fun p => p.SetErosionUnconsSand (-r.2.1)))
    else (none, r.2.1, r.2.2)
  else (none, 0, s)

/-- Supply-limited erosion of coarse sediment on polygon `nPoly`. The components are the status
when the function returns at once, the depth `dCoarseEroded`, and the simulation. -/
def erodeCoarse (RTN_OK : Int) (ext : Collaborator) (s : CSimulation) (nCoast : Nat)
    (nPoly : Int) (dPotentialErosion : ℚ) : Option Int × ℚ × CSimulation :=
  let dExistingUnconsCoarse := (s.pGetPolygon nCoast nPoly).dGetStoredUnconsCoarse
  if dExistingUnconsCoarse > 0 then
    let dCoarsePotentialErosion := dPotentialErosion * s.m_dCoarseErodibilityNormalized
    let dCoarseErosionTarget := tMin dCoarsePotentialErosion dExistingUnconsCoarse
    -- Coarse sediment which could not be deposited on the previously-processed polygon is added in
    let dCoarseErosionTarget1 :=
      if s.m_dThisIterDepositionCoarseDiff > 0 then
        dCoarseErosionTarget + s.m_dThisIterDepositionCoarseDiff
      else dCoarseErosionTarget
    let s1 :=
      if s.m_dThisIterDepositionCoarseDiff > 0 then { s with m_dThisIterDepositionCoarseDiff := 0 }
      else s
    let r := nDoUnconsErosionOnPolygon ext s1 nCoast nPoly Texture.TEXTURE_COARSE
      dCoarseErosionTarget1
    if r.1 ≠ RTN_OK then (some r.1, r.2.1, r.2.2)
    else if r.2.1 > 0 then
      let s2 := { r.2.2 with m_dThisIterBeachErosionCoarse :=
        r.2.2.m_dThisIterBeachErosionCoarse + r.2.1 }
      (none, r.2.1, s2.updPolygon nCoast nPoly (fun p => p.SetErosionUnconsCoarse (-r.2.1)))
    else (none, r.2.1, r.2.2)
  else (none, 0, s)

/-- The grid-edge handling chosen by `m_nUnconsSedimentHandlingAtGridEdges` for the polygon at
the end of the coastline: closed edges change nothing, open edges send the eroded sand and coarse
sediment off-grid, re-circulating edges add it to the deposition of polygon 0. -/
def exportAtGridEdge (s : CSimulation) (nCoast : Nat) (dSandEroded dCoarseEroded : ℚ) :
    CSimulation :=
  match s.m_nUnconsSedimentHandlingAtGridEdges with
  | GridEdge.GRID_EDGE_CLOSED => s
  | GridEdge.GRID_EDGE_OPEN =>
    { s with
      m_dThisIterLeftGridUnconsSand := s.m_dThisIterLeftGridUnconsSand + dSandEroded,
      m_dThisIterLeftGridUnconsCoarse := s.m_dThisIterLeftGridUnconsCoarse + dCoarseEroded }
  | GridEdge.GRID_EDGE_RECIRCULATE =>
    let nOtherEndPoly : Int := 0
    let s1 :=
      if dSandEroded > 0 then
        s.updPolygon nCoast nOtherEndPoly (fun p => p.AddDepositionUnconsSand dSandEroded)
      else s
    if dCoarseEroded > 0 then
      s1.updPolygon nCoast nOtherEndPoly (fun p => p.AddDepositionUnconsCoarse dCoarseEroded)
    else s1

/-- The export to an adjacent polygon which is not the grid edge: its sand and coarse deposition
grow by the eroded depth times the boundary share. -/
def exportToAdjacent (s : CSimulation) (nCoast : Nat) (nAdjPoly : Int) (dBoundaryShare : ℚ)
    (dSandEroded dCoarseEroded : ℚ) : CSimulation :=
  let s1 :=
    if dSandEroded > 0 then
      s.updPolygon nCoast nAdjPoly (fun p => p.AddDepositionUnconsSand (dSandEroded * dBoundaryShare))
    else s
  if dCoarseEroded > 0 then
    s1.updPolygon nCoast nAdjPoly
      (fun p => p.AddDepositionUnconsCoarse (dCoarseEroded * dBoundaryShare))
  else s1

/-- One turn of the loop which moves eroded sediment down-coast: slot `nn` of the down-coast
adjacent polygons of polygon `nPoly`. -/
def exportSlotDownCoast (INT_NODATA : Int) (nCoast : Nat) (nNumPolygons : Int) (nPoly : Int)
    (dSandEroded dCoarseEroded : ℚ) (s : CSimulation) (nn : Nat) : CSimulation :=
  let pPolygon := s.pGetPolygon nCoast nPoly
  let nAdjPoly := pPolygon.nGetDownCoastAdjacentPolygon nn
  if nAdjPoly = INT_NODATA then
    -- This polygon is at the grid edge
    if nPoly = 0 then s
    else if nPoly = nNumPolygons - 1 then exportAtGridEdge s nCoast dSandEroded dCoarseEroded
    else s
  else
    exportToAdjacent s nCoast nAdjPoly (pPolygon.dGetDownCoastAdjacentPolygonBoundaryShare nn)
      dSandEroded dCoarseEroded

/-- One turn of the loop which moves eroded sediment up-coast: slot `nn` of the up-coast adjacent
polygons of polygon `nPoly`. -/
def exportSlotUpCoast (INT_NODATA : Int) (nCoast : Nat) (nNumPolygons : Int) (nPoly : Int)
    (dSandEroded dCoarseEroded : ℚ) (s : CSimulation) (nn : Nat) : CSimulation :=
  let pPolygon := s.pGetPolygon nCoast nPoly
  let nAdjPoly := pPolygon.nGetUpCoastAdjacentPolygon nn
  if nAdjPoly = INT_NODATA then
    -- This polygon is at the grid edge
    if nPoly = nNumPolygons - 1 then s
    else if nPoly = 0 then exportAtGridEdge s nCoast dSandEroded dCoarseEroded
    else s
  else
    exportToAdjacent s nCoast nAdjPoly (pPolygon.dGetUpCoastAdjacentPolygonBoundaryShare nn)
      dSandEroded dCoarseEroded

/-- Where the sand and coarse sediment eroded on polygon `nPoly` goes: the loop over its adjacent
polygons in the direction of sediment movement. -/
def exportSediment (INT_NODATA : Int) (s : CSimulation) (nCoast : Nat) (nNumPolygons : Int)
    (nPoly : Int) (dSandEroded dCoarseEroded : ℚ) : CSimulation :=
  let pPolygon := s.pGetPolygon nCoast nPoly
  if pPolygon.bDownCoastThisIter then
    (List.range pPolygon.nGetNumDownCoastAdjacentPolygons).foldl
      (exportSlotDownCoast INT_NODATA nCoast nNumPolygons nPoly dSandEroded dCoarseEroded) s
  else
    (List.range pPolygon.nGetNumUpCoastAdjacentPolygons).foldl
      (exportSlotUpCoast INT_NODATA nCoast nNumPolygons nPoly dSandEroded dCoarseEroded) s

/-- The erosion of one polygon in the sequence fine, sand, coarse, followed by the export of the
eroded sand and coarse sediment. -/
def erodeAndExport (INT_NODATA RTN_OK : Int) (ext : Collaborator) (s : CSimulation)
    (nCoast : Nat) (nNumPolygons : Int) (nPoly : Int) (dPotentialErosion : ℚ) :
    Option Int × CSimulation :=
  match erodeFine RTN_OK ext s nCoast nPoly dPotentialErosion with
  | (some nRet, s1) => (some nRet, s1)
  | (none, s1) =>
    match erodeSand RTN_OK ext s1 nCoast nPoly dPotentialErosion with
    | (some nRet, _, s2) => (some nRet, s2)
    | (none, dSandEroded, s2) =>
      match erodeCoarse RTN_OK ext s2 nCoast nPoly dPotentialErosion with
      | (some nRet, _, s3) => (some nRet, s3)
      | (none, dCoarseEroded, s3) =>
        if dSandEroded + dCoarseEroded > 0 then
          (none, exportSediment INT_NODATA s3 nCoast nNumPolygons nPoly dSandEroded dCoarseEroded)
        else (none, s3)

/-- The deposition on one polygon: coarse sediment first, then sand. -/
def depositCoarseAndSand (RTN_OK : Int) (ext : Collaborator) (s : CSimulation) (nCoast : Nat)
    (nPoly : Int) : Option Int × CSimulation :=
  match depositCoarse RTN_OK ext s nCoast nPoly with
  | (some nRet, s1) => (some nRet, s1)
  | (none, s1) => depositSand RTN_OK ext s1 nCoast nPoly

/-- The body of the loop over the sorted polygons: deposition of coarse sediment and of sand,
then erosion and export when the polygon has potential erosion. -/
def doPolygon (INT_NODATA RTN_OK : Int) (ext : Collaborator) (s : CSimulation) (nCoast : Nat)
    (nNumPolygons : Int) (nPoly : Int) : Option Int × CSimulation :=
  match depositCoarseAndSand RTN_OK ext s nCoast nPoly with
  | (some nRet, s2) => (some nRet, s2)
  | (none, s2) =>
    let dPotentialErosion := -(s2.pGetPolygon nCoast nPoly).dGetPotentialErosion
    if dPotentialErosion > 0 then
      erodeAndExport INT_NODATA RTN_OK ext s2 nCoast nNumPolygons nPoly dPotentialErosion
    else (none, s2)

/-- The loop which processes all polygons in the sorted sequence; the polygon processed is the
first item of each array item. -/
def doAllPolygons (INT_NODATA RTN_OK : Int) (ext : Collaborator) (nCoast : Nat)
    (nNumPolygons : Int) : List (List Int) → CSimulation → Option Int × CSimulation
  | [], s => (none, s)
  | nVPoly :: rest, s =>
    match doPolygon INT_NODATA RTN_OK ext s nCoast nNumPolygons (nVPoly.getD 0 0) with
    | (some nRet, s1) => (some nRet, s1)
    | (none, s1) => doAllPolygons INT_NODATA RTN_OK ext nCoast nNumPolygons rest s1

/-- The body of the loop over coasts in `nDoAllActualBeachErosionAndDeposition`: the update of
the stored sediment, the sort, the check for circularities, and the movement of sediment. -/
def doCoast (INT_NODATA RTN_OK : Int) (ext : Collaborator) (s : CSimulation) (nCoast : Nat) :
    Option Int × CSimulation :=
  let s1 := AllPolygonsUpdateStoredUncons s nCoast
  let nVVSorted := sortedPolyAndAdjacent INT_NODATA s1 nCoast
  let s2 := circularityWalk nCoast nVVSorted [] s1
  doAllPolygons INT_NODATA RTN_OK ext nCoast (s2.nGetNumPolygons nCoast) nVVSorted s2

/-- The loop over the coasts `nCoast, nCoast + 1, ...` of which `nCoasts` remain. -/
def doCoastsFrom (INT_NODATA RTN_OK : Int) (ext : Collaborator) :
    Nat → Nat → CSimulation → Int × CSimulation
  | 0, _, s => (RTN_OK, s)
  | nCoasts + 1, nCoast, s =>
    match doCoast INT_NODATA RTN_OK ext s nCoast with
    | (some nRet, s1) => (nRet, s1)
    | (none, s1) => doCoastsFrom INT_NODATA RTN_OK ext nCoasts (nCoast + 1) s1

/-- Does between-polygon and within-polygon actual (supply-limited) redistribution of transported
beach sediment. The result is the returned status and the simulation as the call leaves it. -/
def nDoAllActualBeachErosionAndDeposition (INT_NODATA RTN_OK : Int) (ext : Collaborator)
    (s : CSimulation) : Int × CSimulation :=
  doCoastsFrom INT_NODATA RTN_OK ext s.m_VCoast.length 0 s

/-- The change made to one polygon by `AllPolygonsUpdateStoredUncons`. -/
def storedUnconsUpdated (p : CGeomCoastPolygon) : CGeomCoastPolygon :=
  { p with
    m_dStoredUnconsSand :=
      p.m_dStoredUnconsSand + p.m_dSandFromPlatformErosion + p.m_dCliffCollapseTalusSand,
    m_dStoredUnconsCoarse :=
      p.m_dStoredUnconsCoarse + p.m_dCoarseFromPlatformErosion + p.m_dCliffCollapseTalusCoarse }

/-! ## Concrete simulations used to evaluate the definitions -/

/-- A polygon with the given coast ID, direction, potential erosion, stored depths (fine, sand,
coarse) and adjacent polygons with their boundary shares in the direction of movement. -/
def examplePolygon (nID : Int) (bDownCoast : Bool) (dPotential dFine dSand dCoarse : ℚ)
    (VnAdjacent : List Int) (VdShare : List ℚ) : CGeomCoastPolygon :=
  { emptyPolygon with
    m_bDownCoastThisIter := bDownCoast
    m_nGlobalID := nID
    m_nCoastID := nID
    m_dPotentialErosionAllUncons := dPotential
    m_dStoredUnconsFine := dFine
    m_dStoredUnconsSand := dSand
    m_dStoredUnconsCoarse := dCoarse
    m_VnUpCoastAdjacentPolygon := if bDownCoast then [] else VnAdjacent
    m_VnDownCoastAdjacentPolygon := if bDownCoast then VnAdjacent else []
    m_VdUpCoastAdjacentPolygonBoundaryShare := if bDownCoast then [] else VdShare
    m_VdDownCoastAdjacentPolygonBoundaryShare := if bDownCoast then VdShare else [] }

/-- A simulation with one coast, the given edge handling and erodibilities (fine, sand, coarse),
and every total zero. -/
def exampleSimulation (polygons : List CGeomCoastPolygon) (nEdges : GridEdge)
    (dFine dSand dCoarse : ℚ) : CSimulation :=
  { m_VCoast := [polygons]
    m_nUnconsSedimentHandlingAtGridEdges := nEdges
    m_dFineErodibilityNormalized := dFine
    m_dSandErodibilityNormalized := dSand
    m_dCoarseErodibilityNormalized := dCoarse
    m_dThisIterDepositionSandDiff := 0
    m_dThisIterDepositionCoarseDiff := 0
    m_dThisIterBeachErosionFine := 0
    m_dThisIterBeachErosionSand := 0
    m_dThisIterBeachErosionCoarse := 0
    m_dThisIterLeftGridUnconsSand := 0
    m_dThisIterLeftGridUnconsCoarse := 0
    placementLog := [] }

/-- Placement routines which always succeed (status 0) and place the whole target depth. -/
def placeAll : Collaborator := fun _ call => (0, call.dTarget)

/-- Placement routines which always succeed (status 0); erosion removes the whole target depth
(nothing when the target is below zero), deposition places three units less than the target. -/
def placeShort : Collaborator := fun _ call =>
  match call.kind with
  | PlacementKind.deposition => (0, call.dTarget - 3)
  | PlacementKind.erosion => (0, if call.dTarget < 0 then 0 else call.dTarget)

/-- The index `nPoly` is that of a polygon of coast `nCoast`. -/
def CSimulation.hasPolygon (s : CSimulation) (nCoast : Nat) (nPoly : Int) : Prop :=
  0 ≤ nPoly ∧ nPoly < s.nGetNumPolygons nCoast

/-- A simulation which starts a pass with three units of undeposited sand carried forward: one
down-coast polygon at the grid edge with four units of stored sand. -/
def supplyLimitSim : CSimulation :=
  { exampleSimulation [examplePolygon 0 true (-10) 0 4 0 [-9999] [1]] GridEdge.GRID_EDGE_OPEN 0 1 0 with
    m_dThisIterDepositionSandDiff := 3 }

/-- A simulation with one down-coast polygon that has stored fine, sand and coarse sediment, and
two units of undeposited sand and coarse sediment carried forward. -/
def carrySim : CSimulation :=
  { exampleSimulation [examplePolygon 0 true (-10) 5 4 6 [-9999] [1]] GridEdge.GRID_EDGE_OPEN
      (1 / 2) (1 / 4) (1 / 4) with
    m_dThisIterDepositionSandDiff := 2
    m_dThisIterDepositionCoarseDiff := 2 }

/-- The call of the deposition routine made for coarse sediment on polygon `nPoly`: the target is
the polygon's coarse deposition. -/
def coarseDepositionCall (s : CSimulation) (nCoast : Nat) (nPoly : Int) : PlacementCall :=
  ⟨PlacementKind.deposition, nCoast, nPoly, Texture.TEXTURE_COARSE,
    (s.pGetPolygon nCoast nPoly).dGetDepositionUnconsCoarse⟩

/-- The call of the deposition routine made for sand on polygon `nPoly`: the target is the
polygon's sand deposition. -/
def sandDepositionCall (s : CSimulation) (nCoast : Nat) (nPoly : Int) : PlacementCall :=
  ⟨PlacementKind.deposition, nCoast, nPoly, Texture.TEXTURE_SAND,
    (s.pGetPolygon nCoast nPoly).dGetDepositionUnconsSand⟩

/-- A simulation whose only polygon has a coarse deposition of four units and a sand deposition
of five units, and no potential erosion. -/
def depositionSim : CSimulation :=
  exampleSimulation
    [{ examplePolygon 0 true 0 0 0 0 [-9999] [1] with
        m_dDepositionUnconsSand := 5
        m_dDepositionUnconsCoarse := 4 }]
    GridEdge.GRID_EDGE_OPEN 0 1 0

/-- The call of the erosion routine made for fine sediment on polygon `nPoly`: the target is the
smaller of potential erosion times fine erodibility and the stored fine depth. -/
def fineErosionCall (s : CSimulation) (nCoast : Nat) (nPoly : Int) (dPotentialErosion : ℚ) :
    PlacementCall :=
  ⟨PlacementKind.erosion, nCoast, nPoly, Texture.TEXTURE_FINE,
    tMin (dPotentialErosion * s.m_dFineErodibilityNormalized)
      (s.pGetPolygon nCoast nPoly).dGetStoredUnconsFine⟩

/-- The call of the erosion routine made for sand on polygon `nPoly`: the target is the smaller
of potential erosion times sand erodibility and the stored sand depth, plus the undeposited sand
carried forward when that is above zero. -/
def sandErosionCall (s : CSimulation) (nCoast : Nat) (nPoly : Int) (dPotentialErosion : ℚ) :
    PlacementCall :=
  ⟨PlacementKind.erosion, nCoast, nPoly, Texture.TEXTURE_SAND,
    if s.m_dThisIterDepositionSandDiff > 0 then
      tMin (dPotentialErosion * s.m_dSandErodibilityNormalized)
        (s.pGetPolygon nCoast nPoly).dGetStoredUnconsSand + s.m_dThisIterDepositionSandDiff
    else
      tMin (dPotentialErosion * s.m_dSandErodibilityNormalized)
        (s.pGetPolygon nCoast nPoly).dGetStoredUnconsSand⟩

/-- The call of the erosion routine made for coarse sediment on polygon `nPoly`: the target is
the smaller of potential erosion times coarse erodibility and the stored coarse depth, plus the
undeposited coarse sediment carried forward when that is above zero. -/
def coarseErosionCall (s : CSimulation) (nCoast : Nat) (nPoly : Int) (dPotentialErosion : ℚ) :
    PlacementCall :=
  ⟨PlacementKind.erosion, nCoast, nPoly, Texture.TEXTURE_COARSE,
    if s.m_dThisIterDepositionCoarseDiff > 0 then
      tMin (dPotentialErosion * s.m_dCoarseErodibilityNormalized)
        (s.pGetPolygon nCoast nPoly).dGetStoredUnconsCoarse + s.m_dThisIterDepositionCoarseDiff
    else
      tMin (dPotentialErosion * s.m_dCoarseErodibilityNormalized)
        (s.pGetPolygon nCoast nPoly).dGetStoredUnconsCoarse⟩

/-- A simulation with two down-coast polygons: polygon 0 exports to polygon 1 with boundary
share 1/2, polygon 1 is at the grid edge. -/
def exportSim : CSimulation :=
  exampleSimulation
    [examplePolygon 0 true (-10) 0 10 0 [1] [1 / 2], examplePolygon 1 true 0 0 5 0 [-9999] [1]]
    GridEdge.GRID_EDGE_OPEN 0 1 0

/-! ## Quantities used to state the mass balance -/

/-- The part of a polygon that the geometry collaborator supplies and the routing code only
reads: direction flag, coast ID, adjacent polygons and boundary shares in both directions. -/
def topology (p : CGeomCoastPolygon) :
    Bool × Int × List Int × List Int × List ℚ × List ℚ :=
  (p.m_bDownCoastThisIter, p.m_nCoastID, p.m_VnUpCoastAdjacentPolygon,
    p.m_VnDownCoastAdjacentPolygon, p.m_VdUpCoastAdjacentPolygonBoundaryShare,
    p.m_VdDownCoastAdjacentPolygonBoundaryShare)

/-- The adjacent polygons of a polygon in its direction of sediment movement. -/
def transportAdjacent (p : CGeomCoastPolygon) : List Int :=
  if p.bDownCoastThisIter then p.m_VnDownCoastAdjacentPolygon else p.m_VnUpCoastAdjacentPolygon

/-- The boundary share read for slot `nn` in the direction of sediment movement. -/
def transportShare (p : CGeomCoastPolygon) (nn : Nat) : ℚ :=
  if p.bDownCoastThisIter then p.dGetDownCoastAdjacentPolygonBoundaryShare nn
  else p.dGetUpCoastAdjacentPolygonBoundaryShare nn

/-- The sum of the boundary shares read for the slots of the adjacent polygons in the direction
of sediment movement. -/
def sumTransportShares (p : CGeomCoastPolygon) : ℚ :=
  ((List.range (transportAdjacent p).length).map (transportShare p)).sum

/-- The sum over the polygons of a coast of this timestep's sand deposition. -/
def sumDepositionSand (s : CSimulation) (nCoast : Nat) : ℚ :=
  ((s.coast nCoast).map CGeomCoastPolygon.dGetDepositionUnconsSand).sum

/-- The sum over the polygons of a coast of this timestep's coarse deposition. -/
def sumDepositionCoarse (s : CSimulation) (nCoast : Nat) : ℚ :=
  ((s.coast nCoast).map CGeomCoastPolygon.dGetDepositionUnconsCoarse).sum

instance (s : CSimulation) (nCoast : Nat) (nPoly : Int) : Decidable (s.hasPolygon nCoast nPoly) := by
  unfold CSimulation.hasPolygon
  exact inferInstance

/-- A simulation with three down-coast polygons: polygon 0 exports to polygons 1 and 2 with
boundary shares 1/4 and 3/4, polygon 1 exports to polygon 2, polygon 2 is at the grid edge. -/
def shareSim : CSimulation :=
  exampleSimulation
    [examplePolygon 0 true (-10) 0 10 0 [1, 2] [1 / 4, 3 / 4],
     examplePolygon 1 true (-10) 0 5 0 [2] [1],
     examplePolygon 2 true 0 0 5 0 [-9999] [1]]
    GridEdge.GRID_EDGE_OPEN 0 1 0

/-- The routing of polygon `i` of a coast with `n` polygons conserves exported sediment: either
every adjacent polygon in its direction of movement is a polygon of the coast and the boundary
shares over those slots sum to 1, or the coast has at least two polygons and its only slot is the
grid edge, the polygon being the last one when sediment moves down-coast and polygon 0 when it
moves up-coast. -/
def conservingPolygon (INT_NODATA : Int) (n i : Nat) (p : CGeomCoastPolygon) : Prop :=
  p.nGetCoastID = i
  ∧ (((∀ a ∈ transportAdjacent p, a ≠ INT_NODATA ∧ 0 ≤ a ∧ a < n) ∧ sumTransportShares p = 1)
    ∨ (transportAdjacent p = [INT_NODATA] ∧ 2 ≤ n
        ∧ (if p.bDownCoastThisIter then i + 1 = n else i = 0)))

instance (INT_NODATA : Int) (n i : Nat) (p : CGeomCoastPolygon) :
    Decidable (conservingPolygon INT_NODATA n i p) := by
  unfold conservingPolygon
  exact inferInstance

/-- Every polygon of coast `nCoast` is a `conservingPolygon`. -/
def conservingCoast (INT_NODATA : Int) (s : CSimulation) (nCoast : Nat) : Prop :=
  ∀ i : Nat, i < s.nGetNumPolygons nCoast →
    conservingPolygon INT_NODATA (s.nGetNumPolygons nCoast) i (s.pGetPolygon nCoast i)

instance (INT_NODATA : Int) (s : CSimulation) (nCoast : Nat) :
    Decidable (conservingCoast INT_NODATA s nCoast) := by
  unfold conservingCoast
  exact inferInstance

/-- What the deposition and erosion steps leave alone: for every polygon its topology and its
sand and coarse deposition, and the grid-edge handling and the two off-grid totals. -/
def routingView (nCoast : Nat) (s : CSimulation) :
    List ((Bool × Int × List Int × List Int × List ℚ × List ℚ) × ℚ × ℚ) × GridEdge × ℚ × ℚ :=
  ((s.coast nCoast).map (fun p =>
      (topology p, p.dGetDepositionUnconsSand, p.dGetDepositionUnconsCoarse)),
    s.m_nUnconsSedimentHandlingAtGridEdges,
    s.m_dThisIterLeftGridUnconsSand, s.m_dThisIterLeftGridUnconsCoarse)

/-- A simulation with two down-coast polygons and open grid edges: polygon 0 has potential
erosion and ten units of stored sand and exports everything to polygon 1; polygon 1 is at the
grid edge and has no potential erosion. -/
def massSim : CSimulation :=
  exampleSimulation
    [examplePolygon 0 true (-10) 0 10 0 [1] [1], examplePolygon 1 true 0 0 5 0 [-9999] [1]]
    GridEdge.GRID_EDGE_OPEN 0 1 0

/-- The two polygons of `massSim`, both with potential erosion, with closed grid edges. -/
def closedSim : CSimulation :=
  exampleSimulation
    [examplePolygon 0 true (-10) 0 10 0 [1] [1], examplePolygon 1 true (-10) 0 5 0 [-9999] [1]]
    GridEdge.GRID_EDGE_CLOSED 0 1 0

/-- The two polygons of `massSim`, both with potential erosion, with open grid edges: polygon 1
stores five units of sand. -/
def shortfallSim : CSimulation :=
  exampleSimulation
    [examplePolygon 0 true (-10) 0 10 0 [1] [1], examplePolygon 1 true (-10) 0 5 0 [-9999] [1]]
    GridEdge.GRID_EDGE_OPEN 0 1 0

/-- A simulation whose only polygon has a sand deposition of five units and a coarse deposition
of four units, potential erosion, and stored sand and coarse sediment. -/
def absorbSim : CSimulation :=
  exampleSimulation
    [{ examplePolygon 0 true (-10) 0 5 6 [-9999] [1] with
        m_dDepositionUnconsSand := 5
        m_dDepositionUnconsCoarse := 4 }]
    GridEdge.GRID_EDGE_OPEN 0 (1 / 2) (1 / 2)

/-! ## Quantities used to state the processing order -/

/-- The array item `d` names the polygon of the array item `e` among its adjacent polygons, that
polygon's ID not being the grid-edge value. -/
def namesPolygon (INT_NODATA : Int) (d e : List Int) : Prop :=
  e.getD 0 0 ≠ INT_NODATA ∧ e.getD 0 0 ∈ d.drop 2

instance (INT_NODATA : Int) (d e : List Int) : Decidable (namesPolygon INT_NODATA d e) := by
  unfold namesPolygon
  exact inferInstance

/-- Sources before targets: no array item of the sequence names the polygon of an earlier
item. -/
def sourcesBeforeTargets (INT_NODATA : Int) (l : List (List Int)) : Prop :=
  l.Pairwise (fun x y => ¬ namesPolygon INT_NODATA y x)

instance (INT_NODATA : Int) (l : List (List Int)) :
    Decidable (sourcesBeforeTargets INT_NODATA l) := by
  unfold sourcesBeforeTargets
  exact inferInstance

/-- The adjacency relation of a list of array items contains no cycle: the polygons can be
ranked so that every item ranks below each polygon of the list that it names. -/
def acyclicAdjacency (INT_NODATA : Int) (l : List (List Int)) : Prop :=
  ∃ rank : Int → Nat, ∀ d ∈ l, ∀ e ∈ l,
    namesPolygon INT_NODATA d e → rank (d.getD 0 0) < rank (e.getD 0 0)

/-- The comparison is a strict weak ordering on the items of a list: it never orders two items
both ways, and two items it does not order the first before the second compose. -/
def strictWeakOn (comp : List Int → List Int → Bool) (l : List (List Int)) : Prop :=
  (∀ a ∈ l, ∀ b ∈ l, comp a b = true → comp b a = false)
  ∧ (∀ a ∈ l, ∀ b ∈ l, ∀ c ∈ l, comp a b = false → comp b c = false → comp a c = false)

instance (comp : List Int → List Int → Bool) (l : List (List Int)) :
    Decidable (strictWeakOn comp l) := by
  unfold strictWeakOn
  exact inferInstance

/-- What a pass with closed grid edges must leave alone: the two off-grid totals, observed only
while the grid-edge handling is `GRID_EDGE_CLOSED`. -/
def closedView (s : CSimulation) : Option (ℚ × ℚ) :=
  if s.m_nUnconsSedimentHandlingAtGridEdges = GridEdge.GRID_EDGE_CLOSED then
    some (s.m_dThisIterLeftGridUnconsSand, s.m_dThisIterLeftGridUnconsCoarse)
  else none

/-- A simulation with two down-coast polygons and the given grid-edge handling: polygon 0 exports
to polygon 1, polygon 1 is at the grid edge, has potential erosion and stores ten units of
sand. -/
def downCoastEdgeSim (nEdges : GridEdge) : CSimulation :=
  exampleSimulation
    [examplePolygon 0 true 0 0 5 0 [1] [1], examplePolygon 1 true (-10) 0 10 0 [-9999] [1]]
    nEdges 0 1 0

/-- A simulation with two up-coast polygons and the given grid-edge handling: polygon 1 exports
to polygon 0, polygon 0 is at the grid edge, has potential erosion and stores ten units of
sand. -/
def upCoastEdgeSim (nEdges : GridEdge) : CSimulation :=
  exampleSimulation
    [examplePolygon 0 false (-10) 0 10 0 [-9999] [1], examplePolygon 1 false 0 0 5 0 [0] [1]]
    nEdges 0 1 0

/-- A simulation with three polygons of which polygon 0 names polygon 1 and polygon 2 is at the
grid edge, sediment moving down-coast, and polygon 1 names polygon 0, sediment moving up-coast:
polygons 0 and 1 name each other. -/
def mutualSim : CSimulation :=
  exampleSimulation
    [examplePolygon 0 true 0 0 0 0 [1] [1], examplePolygon 1 false 0 0 0 0 [0] [1],
      examplePolygon 2 true 0 0 0 0 [-9999] [1]]
    GridEdge.GRID_EDGE_OPEN 0 1 0

/-- A simulation with three down-coast polygons of which polygon 0 names polygon 1 only, polygon 1
names polygon 2 only and polygon 2 names polygon 0 only. -/
def cycleSim : CSimulation :=
  exampleSimulation
    [examplePolygon 0 true 0 0 0 0 [1] [1], examplePolygon 1 true 0 0 0 0 [2] [1],
      examplePolygon 2 true 0 0 0 0 [0] [1]]
    GridEdge.GRID_EDGE_OPEN 0 1 0

/-! ## Quantities used to state the check for circularities -/

/-- The circularities found by the check over a sequence of array items, as pairs of the polygon
being walked and the adjacent polygon found among the source polygons, in the order in which they
are found. -/
def circularityPairs : List (List Int) → List Int → List (Int × Int)
  | [], _ => []
  | [] :: rest, VnSourcePolygons => circularityPairs rest VnSourcePolygons
  | (nPoly :: items) :: rest, VnSourcePolygons =>
    ((items.drop 1).filter (VnSourcePolygons ++ [nPoly]).contains).map
        (fun nAdj => (nPoly, nAdj))
      ++ circularityPairs rest (VnSourcePolygons ++ [nPoly])

/-- The number of times polygon `nWith` is in the circularity list of polygon `nPoly`. -/
def countCircularity (s : CSimulation) (nCoast : Nat) (nPoly nWith : Int) : Nat :=
  (s.pGetPolygon nCoast nPoly).VnGetCircularities.count nWith

/-- No array item of the sequence has among its adjacent polygons its own polygon or the polygon
of an item placed before it. -/
def noBackwardAdjacency (l : List (List Int)) : Prop :=
  (∀ d ∈ l, ∀ nPoly ∈ d.head?, nPoly ∉ d.drop 2)
  ∧ l.Pairwise (fun e d => ∀ nPoly ∈ e.head?, nPoly ∉ d.drop 2)

instance (l : List (List Int)) : Decidable (noBackwardAdjacency l) := by
  unfold noBackwardAdjacency
  exact inferInstance

/-! ## The writes of a pass -/

/-- One write of `nDoAllActualBeachErosionAndDeposition` and `AllPolygonsUpdateStoredUncons` to
the simulation, with the condition under which the code makes it. -/
inductive PassWrite : CSimulation → CSimulation → Prop
  /-- The write `SetStoredUnconsSand` in `AllPolygonsUpdateStoredUncons`. -/
  | storedSand (s : CSimulation) (nCoast : Nat) (nPoly : Int) :
    PassWrite s (s.updPolygon nCoast nPoly (fun p => p.SetStoredUnconsSand
      ((s.pGetPolygon nCoast nPoly).dGetStoredUnconsSand
        + (s.pGetPolygon nCoast nPoly).dGetUnconsSandFromShorePlatform
        + (s.pGetPolygon nCoast nPoly).dGetCliffCollapseUnconsSandDeposition)))
  /-- The write `SetStoredUnconsCoarse` in `AllPolygonsUpdateStoredUncons`. -/
  | storedCoarse (s : CSimulation) (nCoast : Nat) (nPoly : Int) :
    PassWrite s (s.updPolygon nCoast nPoly (fun p => p.SetStoredUnconsCoarse
      ((s.pGetPolygon nCoast nPoly).dGetStoredUnconsCoarse
        + (s.pGetPolygon nCoast nPoly).dGetUnconsCoarseFromShorePlatform
        + (s.pGetPolygon nCoast nPoly).dGetCliffCollapseUnconsCoarseDeposition)))
  /-- The write `AddCircularity` in the check for circularities. -/
  | circularity (s : CSimulation) (nCoast : Nat) (nPoly nWith : Int) :
    PassWrite s (s.updPolygon nCoast nPoly (fun p => p.AddCircularity nWith))
  /-- A call of one of the two placement routines; a call of the deposition routine is for
  sand or for coarse sediment. -/
  | placementCall (s : CSimulation) (call : PlacementCall)
    (h : call.kind = PlacementKind.deposition → call.nTexture ≠ Texture.TEXTURE_FINE) :
    PassWrite s { s with placementLog := s.placementLog ++ [call] }
  /-- Sand which could not be deposited is added to `m_dThisIterDepositionSandDiff`. -/
  | undepositedSand (s : CSimulation) (x : ℚ) (hx : x > 0) :
    PassWrite s { s with m_dThisIterDepositionSandDiff := s.m_dThisIterDepositionSandDiff + x }
  /-- Coarse sediment which could not be deposited is added to
  `m_dThisIterDepositionCoarseDiff`. -/
  | undepositedCoarse (s : CSimulation) (x : ℚ) (hx : x > 0) :
    PassWrite s { s with
      m_dThisIterDepositionCoarseDiff := s.m_dThisIterDepositionCoarseDiff + x }
  /-- The undeposited sand total, above zero, is set to zero. -/
  | absorbedSand (s : CSimulation) (h : s.m_dThisIterDepositionSandDiff > 0) :
    PassWrite s { s with m_dThisIterDepositionSandDiff := 0 }
  /-- The undeposited coarse total, above zero, is set to zero. -/
  | absorbedCoarse (s : CSimulation) (h : s.m_dThisIterDepositionCoarseDiff > 0) :
    PassWrite s { s with m_dThisIterDepositionCoarseDiff := 0 }
  /-- An eroded depth above zero is added to `m_dThisIterBeachErosionFine`. -/
  | totalFine (s : CSimulation) (e : ℚ) (he : e > 0) :
    PassWrite s { s with m_dThisIterBeachErosionFine := s.m_dThisIterBeachErosionFine + e }
  /-- An eroded depth above zero is added to `m_dThisIterBeachErosionSand`. -/
  | totalSand (s : CSimulation) (e : ℚ) (he : e > 0) :
    PassWrite s { s with m_dThisIterBeachErosionSand := s.m_dThisIterBeachErosionSand + e }
  /-- An eroded depth above zero is added to `m_dThisIterBeachErosionCoarse`. -/
  | totalCoarse (s : CSimulation) (e : ℚ) (he : e > 0) :
    PassWrite s { s with m_dThisIterBeachErosionCoarse := s.m_dThisIterBeachErosionCoarse + e }
  /-- The write `SetErosionUnconsFine` with minus an eroded depth above zero. -/
  | ledgerFine (s : CSimulation) (nCoast : Nat) (nPoly : Int) (e : ℚ) (he : e > 0) :
    PassWrite s (s.updPolygon nCoast nPoly (fun p => p.SetErosionUnconsFine (-e)))
  /-- The write `SetErosionUnconsSand` with minus an eroded depth above zero. -/
  | ledgerSand (s : CSimulation) (nCoast : Nat) (nPoly : Int) (e : ℚ) (he : e > 0) :
    PassWrite s (s.updPolygon nCoast nPoly (fun p => p.SetErosionUnconsSand (-e)))
  /-- The write `SetErosionUnconsCoarse` with minus an eroded depth above zero. -/
  | ledgerCoarse (s : CSimulation) (nCoast : Nat) (nPoly : Int) (e : ℚ) (he : e > 0) :
    PassWrite s (s.updPolygon nCoast nPoly (fun p => p.SetErosionUnconsCoarse (-e)))
  /-- Open grid edges: the eroded sand and coarse sediment go off-grid. -/
  | leftGrid (s : CSimulation) (dSandEroded dCoarseEroded : ℚ) :
    PassWrite s { s with
      m_dThisIterLeftGridUnconsSand := s.m_dThisIterLeftGridUnconsSand + dSandEroded
      m_dThisIterLeftGridUnconsCoarse := s.m_dThisIterLeftGridUnconsCoarse + dCoarseEroded }
  /-- The write `AddDepositionUnconsSand` on an adjacent polygon: eroded sand above zero times a
  boundary share of the exporting polygon. -/
  | exportedSand (s : CSimulation) (nCoast : Nat) (nPoly nAdjPoly : Int) (nn : Nat)
    (dSandEroded dBoundaryShare : ℚ) (h : dSandEroded > 0)
    (hShare : dBoundaryShare = (s.pGetPolygon nCoast nPoly).dGetDownCoastAdjacentPolygonBoundaryShare nn
      ∨ dBoundaryShare = (s.pGetPolygon nCoast nPoly).dGetUpCoastAdjacentPolygonBoundaryShare nn) :
    PassWrite s (s.updPolygon nCoast nAdjPoly
      (fun p => p.AddDepositionUnconsSand (dSandEroded * dBoundaryShare)))
  /-- The write `AddDepositionUnconsCoarse` on an adjacent polygon: eroded coarse sediment above
  zero times a boundary share of the exporting polygon. -/
  | exportedCoarse (s : CSimulation) (nCoast : Nat) (nPoly nAdjPoly : Int) (nn : Nat)
    (dCoarseEroded dBoundaryShare : ℚ) (h : dCoarseEroded > 0)
    (hShare : dBoundaryShare = (s.pGetPolygon nCoast nPoly).dGetDownCoastAdjacentPolygonBoundaryShare nn
      ∨ dBoundaryShare = (s.pGetPolygon nCoast nPoly).dGetUpCoastAdjacentPolygonBoundaryShare nn) :
    PassWrite s (s.updPolygon nCoast nAdjPoly
      (fun p => p.AddDepositionUnconsCoarse (dCoarseEroded * dBoundaryShare)))
  /-- Re-circulating grid edges: `AddDepositionUnconsSand` on polygon 0 with eroded sand above
  zero. -/
  | recirculatedSand (s : CSimulation) (nCoast : Nat) (dSandEroded : ℚ) (h : dSandEroded > 0) :
    PassWrite s (s.updPolygon nCoast 0 (fun p => p.AddDepositionUnconsSand dSandEroded))
  /-- Re-circulating grid edges: `AddDepositionUnconsCoarse` on polygon 0 with eroded coarse
  sediment above zero. -/
  | recirculatedCoarse (s : CSimulation) (nCoast : Nat) (dCoarseEroded : ℚ)
    (h : dCoarseEroded > 0) :
    PassWrite s (s.updPolygon nCoast 0 (fun p => p.AddDepositionUnconsCoarse dCoarseEroded))

/-- The simulation `t` is reached from `s` by a sequence of writes of a pass. -/
def PassWrites (s t : CSimulation) : Prop := Relation.ReflTransGen PassWrite s t

/-- The fields of a polygon which a pass only reads: direction flag, global ID, coast ID,
potential erosion, fine deposition, the cliff collapse and shore platform contributions, the
stored fine depth, and the adjacent polygons and boundary shares in both directions; that is,
every field but the stored sand and coarse depths, the three erosion depths, the sand and coarse
deposition and the circularity list. -/
def readOnlyFields (p : CGeomCoastPolygon) :
    (Bool × Int × Int × ℚ × ℚ) × (ℚ × ℚ × ℚ × ℚ × ℚ)
      × (List Int × List Int × List ℚ × List ℚ) :=
  ((p.m_bDownCoastThisIter, p.m_nGlobalID, p.m_nCoastID, p.m_dPotentialErosionAllUncons,
      p.m_dDepositionUnconsFine),
    (p.m_dCliffCollapseTalusSand, p.m_dCliffCollapseTalusCoarse, p.m_dSandFromPlatformErosion,
      p.m_dCoarseFromPlatformErosion, p.m_dStoredUnconsFine),
    (p.m_VnUpCoastAdjacentPolygon, p.m_VnDownCoastAdjacentPolygon,
      p.m_VdUpCoastAdjacentPolygonBoundaryShare, p.m_VdDownCoastAdjacentPolygonBoundaryShare))

/-- The read-only fields of every polygon of every coast. -/
def readOnlyView (s : CSimulation) :
    List (List ((Bool × Int × Int × ℚ × ℚ) × (ℚ × ℚ × ℚ × ℚ × ℚ)
      × (List Int × List Int × List ℚ × List ℚ))) :=
  s.m_VCoast.map (List.map readOnlyFields)

/-- The sign conditions on the depths which a pass writes: the three erosion depths are not
above zero, the three deposition depths and the three stored depths are not below zero. -/
def ledgerSigns (p : CGeomCoastPolygon) : Prop :=
  (p.dGetErosionUnconsFine ≤ 0 ∧ p.dGetErosionUnconsSand ≤ 0 ∧ p.dGetErosionUnconsCoarse ≤ 0)
  ∧ (0 ≤ p.dGetDepositionUnconsFine ∧ 0 ≤ p.dGetDepositionUnconsSand
    ∧ 0 ≤ p.dGetDepositionUnconsCoarse)
  ∧ (0 ≤ p.dGetStoredUnconsFine ∧ 0 ≤ p.dGetStoredUnconsSand ∧ 0 ≤ p.dGetStoredUnconsCoarse)

/-- The sign conditions on what a pass is given: the shore platform and cliff collapse
contributions and all boundary shares are not below zero. -/
def inputSigns (p : CGeomCoastPolygon) : Prop :=
  (0 ≤ p.dGetUnconsSandFromShorePlatform ∧ 0 ≤ p.dGetUnconsCoarseFromShorePlatform
    ∧ 0 ≤ p.dGetCliffCollapseUnconsSandDeposition ∧ 0 ≤ p.dGetCliffCollapseUnconsCoarseDeposition)
  ∧ (∀ x ∈ p.m_VdUpCoastAdjacentPolygonBoundaryShare, 0 ≤ x)
  ∧ (∀ x ∈ p.m_VdDownCoastAdjacentPolygonBoundaryShare, 0 ≤ x)

instance (p : CGeomCoastPolygon) : Decidable (ledgerSigns p) := by
  unfold ledgerSigns
  exact inferInstance

instance (p : CGeomCoastPolygon) : Decidable (inputSigns p) := by
  unfold inputSigns
  exact inferInstance

/-! ## The placement calls of a pass and what they returned -/

/-- The calls `new`, made in this order after the calls `done`, each with the status and the depth
which the placement routines returned for it. -/
def placementResults (ext : Collaborator) (done : List PlacementCall) :
    List PlacementCall → List (PlacementCall × Int × ℚ)
  | [] => []
  | call :: rest => (call, ext done call) :: placementResults ext (done ++ [call]) rest

/-- The statuses returned for the calls `new` made after the calls `done`. -/
def callStatuses (ext : Collaborator) (done new : List PlacementCall) : List Int :=
  (placementResults ext done new).map (fun r => r.2.1)

/-- The statuses of the calls made agree with the outcome of a step: when the step does not
return at once every status is `RTN_OK`; when it returns `nRet` at once, `nRet` is not `RTN_OK`,
it is the status of the last call made, and every status before it is `RTN_OK`. -/
def CallsOutcome (RTN_OK : Int) (statuses : List Int) (res : Option Int) : Prop :=
  match res with
  | none => ∀ st ∈ statuses, st = RTN_OK
  | some nRet => nRet ≠ RTN_OK ∧ ∃ oks, statuses = oks ++ [nRet] ∧ ∀ st ∈ oks, st = RTN_OK

/-- A step from `s` to `t` with outcome `res` has made exactly the calls `new`, recorded after
those of `s`, and their statuses agree with the outcome. -/
def Calls (RTN_OK : Int) (ext : Collaborator) (s t : CSimulation) (res : Option Int)
    (new : List PlacementCall) : Prop :=
  t.placementLog = s.placementLog ++ new
  ∧ CallsOutcome RTN_OK (callStatuses ext s.placementLog new) res

/-- No call for a polygon comes after an erosion call for that polygon unless it is an erosion
call: within the calls, a deposition call which follows an erosion call is for another
polygon. -/
def noDepositionAfterErosion (calls : List PlacementCall) : Prop :=
  calls.Pairwise (fun a b => a.kind = PlacementKind.erosion → b.kind = PlacementKind.deposition →
    a.nPoly ≠ b.nPoly)

instance (calls : List PlacementCall) : Decidable (noDepositionAfterErosion calls) := by
  unfold noDepositionAfterErosion
  exact inferInstance

/-- The simulation `t` is what a step from `s` leaves when it returns the status `nRet` of a
placement call at once: a sequence of writes of the pass leads from `s` to a simulation `t0`, the
call is made there and returns `nRet`, and `t` is `t0` with that call recorded and nothing else
written. -/
def StoppedAtCall (ext : Collaborator) (s t : CSimulation) (nRet : Int) : Prop :=
  ∃ (t0 : CSimulation) (call : PlacementCall), PassWrites s t0
    ∧ t = { t0 with placementLog := t0.placementLog ++ [call] }
    ∧ (ext t0.placementLog call).1 = nRet

/-- A simulation with three down-coast polygons and re-circulating grid edges in which polygon 1,
which is not at the end of the coast, has the grid-edge value in slot 0 of its adjacent polygons
and polygon 2 in slot 1, with half of the boundary each. -/
def anomalySim : CSimulation :=
  exampleSimulation
    [examplePolygon 0 true 0 0 0 0 [1] [1],
      examplePolygon 1 true (-10) 0 10 0 [-9999, 2] [1 / 2, 1 / 2],
      examplePolygon 2 true 0 0 0 0 [-9999] [1]]
    GridEdge.GRID_EDGE_RECIRCULATE 0 1 0

/-- A simulation with two down-coast polygons of which polygon 0 has no adjacent polygon and
polygon 1 names polygon 0: no polygon is named by a polygon which it names. -/
def backwardSim : CSimulation :=
  exampleSimulation
    [examplePolygon 0 true 0 0 0 0 [] [], examplePolygon 1 true 0 0 0 0 [0] [1]]
    GridEdge.GRID_EDGE_OPEN 0 1 0

/-! ## The scenario of three polygons in a line -/

/-- The scenario of three polygons in a line: one coast of three polygons with the coast IDs 0,
1, 2, all moving sediment down-coast, polygon 0 naming polygon 1 and polygon 1 naming polygon 2,
each with the whole boundary, and polygon 2 naming the grid edge; open grid edges; the sand and
coarse deposition of every polygon and every total of the simulation zero. -/
def lineScenario (INT_NODATA : Int) (s : CSimulation) : Prop :=
  (s.m_VCoast.length = 1 ∧ s.nGetNumPolygons 0 = 3)
  ∧ (∀ i ∈ ([0, 1, 2] : List Nat),
      (s.pGetPolygon 0 i).bDownCoastThisIter = true ∧ (s.pGetPolygon 0 i).nGetCoastID = i
      ∧ (s.pGetPolygon 0 i).dGetDepositionUnconsSand = 0
      ∧ (s.pGetPolygon 0 i).dGetDepositionUnconsCoarse = 0)
  ∧ ((s.pGetPolygon 0 0).m_VnDownCoastAdjacentPolygon = [1]
    ∧ (s.pGetPolygon 0 0).m_VdDownCoastAdjacentPolygonBoundaryShare = [1]
    ∧ (s.pGetPolygon 0 1).m_VnDownCoastAdjacentPolygon = [2]
    ∧ (s.pGetPolygon 0 1).m_VdDownCoastAdjacentPolygonBoundaryShare = [1]
    ∧ (s.pGetPolygon 0 2).m_VnDownCoastAdjacentPolygon = [INT_NODATA]
    ∧ INT_NODATA ≠ 1 ∧ INT_NODATA ≠ 2)
  ∧ s.m_nUnconsSedimentHandlingAtGridEdges = GridEdge.GRID_EDGE_OPEN
  ∧ (s.m_dThisIterDepositionSandDiff = 0 ∧ s.m_dThisIterDepositionCoarseDiff = 0
    ∧ s.m_dThisIterBeachErosionFine = 0 ∧ s.m_dThisIterBeachErosionSand = 0
    ∧ s.m_dThisIterBeachErosionCoarse = 0
    ∧ s.m_dThisIterLeftGridUnconsSand = 0 ∧ s.m_dThisIterLeftGridUnconsCoarse = 0)

instance (INT_NODATA : Int) (s : CSimulation) : Decidable (lineScenario INT_NODATA s) := by
  unfold lineScenario
  exact inferInstance

/-- The scenario of three polygons in a line with sand only: polygon 0 has ten units of stored
sand, polygons 1 and 2 five units each, and every polygon has a potential erosion of ten
units. -/
def lineSim : CSimulation :=
  exampleSimulation
    [examplePolygon 0 true (-10) 0 10 0 [1] [1], examplePolygon 1 true (-10) 0 5 0 [2] [1],
      examplePolygon 2 true (-10) 0 5 0 [-9999] [1]]
    GridEdge.GRID_EDGE_OPEN 0 1 0

/-- The depth of sand which the deposition routine returned as deposited, summed over the calls
`new` made after the calls `done`. -/
def sandActuallyDeposited (ext : Collaborator) (done new : List PlacementCall) : ℚ :=
  (((placementResults ext done new).filter (fun r =>
      decide (r.1.kind = PlacementKind.deposition ∧ r.1.nTexture = Texture.TEXTURE_SAND))).map
    (fun r => r.2.2)).sum

/-- The depth of sand which the erosion routine returned as eroded, summed over the calls `new`
made after the calls `done`. -/
def sandActuallyEroded (ext : Collaborator) (done new : List PlacementCall) : ℚ :=
  (((placementResults ext done new).filter (fun r =>
      decide (r.1.kind = PlacementKind.erosion ∧ r.1.nTexture = Texture.TEXTURE_SAND))).map
    (fun r => r.2.2)).sum

/-- Placement routines of which the second call made fails with status 7; every other call
succeeds (status 0) and places the whole target depth. -/
def placeFailSecond : Collaborator := fun done call =>
  if done.length = 1 then (7, 0) else (0, call.dTarget)

/-! ## The operations of a polygon -/

namespace CGeomCoastPolygon

/-- Set a flag to say whether sediment movement on this polygon is downcoast this iteration. -/
def SetDownCoastThisIter (p : CGeomCoastPolygon) (bFlag : Bool) : CGeomCoastPolygon :=
  { p with m_bDownCoastThisIter := bFlag }

/-- Adds in potential erosion of unconsolidated sediment (all size classes) on this polygon. -/
def AddPotentialErosion (p : CGeomCoastPolygon) (dDepth : ℚ) : CGeomCoastPolygon :=
  { p with m_dPotentialErosionAllUncons := p.m_dPotentialErosionAllUncons + dDepth }

/-- Sets all up-coast adjacent polygons. -/
def SetUpCoastAdjacentPolygons (p : CGeomCoastPolygon) (pnVPolygons : List Int) :
    CGeomCoastPolygon :=
  { p with m_VnUpCoastAdjacentPolygon := pnVPolygons }

/-- Sets all down-coast adjacent polygons. -/
def SetDownCoastAdjacentPolygons (p : CGeomCoastPolygon) (pnVPolygons : List Int) :
    CGeomCoastPolygon :=
  { p with m_VnDownCoastAdjacentPolygon := pnVPolygons }

/-- Sets the boundary shares for all up-coast adjacent polygons. -/
def SetUpCoastAdjacentPolygonBoundaryShares (p : CGeomCoastPolygon) (pdVShares : List ℚ) :
    CGeomCoastPolygon :=
  { p with m_VdUpCoastAdjacentPolygonBoundaryShare := pdVShares }

/-- Sets the boundary shares for all down-coast adjacent polygons. -/
def SetDownCoastAdjacentPolygonBoundaryShares (p : CGeomCoastPolygon) (pdVShares : List ℚ) :
    CGeomCoastPolygon :=
  { p with m_VdDownCoastAdjacentPolygonBoundaryShare := pdVShares }

/-- Add to the this-iteration total of sand deposited from cliff collapse in this polygon. -/
def AddCliffCollapseUnconsSandDeposition (p : CGeomCoastPolygon) (dDepth : ℚ) :
    CGeomCoastPolygon :=
  { p with m_dCliffCollapseTalusSand := p.m_dCliffCollapseTalusSand + dDepth }

/-- Add to the this-iteration total of coarse sediment deposited from cliff collapse in this
polygon. -/
def AddCliffCollapseUnconsCoarseDeposition (p : CGeomCoastPolygon) (dDepth : ℚ) :
    CGeomCoastPolygon :=
  { p with m_dCliffCollapseTalusCoarse := p.m_dCliffCollapseTalusCoarse + dDepth }

/-- Add to the this-iteration total of sand derived from shore platform erosion in this
polygon. -/
def AddUnconsSandFromShorePlatform (p : CGeomCoastPolygon) (dDepth : ℚ) : CGeomCoastPolygon :=
  { p with m_dSandFromPlatformErosion := p.m_dSandFromPlatformErosion + dDepth }

/-- Add to the this-iteration total of coarse sediment derived from shore platform erosion in
this polygon. -/
def AddUnconsCoarseFromShorePlatform (p : CGeomCoastPolygon) (dDepth : ℚ) : CGeomCoastPolygon :=
  { p with m_dCoarseFromPlatformErosion := p.m_dCoarseFromPlatformErosion + dDepth }

/-- Set the fine sediment stored in this polygon. -/
def SetStoredUnconsFine (p : CGeomCoastPolygon) (dDepth : ℚ) : CGeomCoastPolygon :=
  { p with m_dStoredUnconsFine := dDepth }

end CGeomCoastPolygon

/-- The polygon as the constructor of `CGeomCoastPolygon` leaves it, with the two IDs given to
the constructor: every depth zero, every vector empty, the down-coast flag false. -/
def constructedPolygon (nGlobalID nCoastID : Int) : CGeomCoastPolygon :=
  { emptyPolygon with
    m_nGlobalID := nGlobalID
    m_nCoastID := nCoastID }

/-- A call of a member function of `CGeomCoastPolygon` which writes a member variable, with its
arguments. The member functions which write only member variables outside `CGeomCoastPolygon`
as declared here (`SetNumCellsInPolygon`, `SetSeawaterVolume`, `SetAvgUnconsD50`,
`AddCliffCollapseErosionFine`, `AddCliffCollapseErosionSand`, `AddCliffCollapseErosionCoarse`)
are the one constructor `outsideModel`. -/
inductive PolygonOp where
  | SetDownCoastThisIter (bFlag : Bool)
  | AddPotentialErosion (dDepth : ℚ)
  | SetErosionUnconsFine (dDepth : ℚ)
  | SetErosionUnconsSand (dDepth : ℚ)
  | SetErosionUnconsCoarse (dDepth : ℚ)
  | AddDepositionUnconsSand (dDepth : ℚ)
  | AddDepositionUnconsCoarse (dDepth : ℚ)
  | SetUpCoastAdjacentPolygons (pnVPolygons : List Int)
  | SetDownCoastAdjacentPolygons (pnVPolygons : List Int)
  | SetUpCoastAdjacentPolygonBoundaryShares (pdVShares : List ℚ)
  | SetDownCoastAdjacentPolygonBoundaryShares (pdVShares : List ℚ)
  | AddCircularity (nPoly : Int)
  | AddCliffCollapseUnconsSandDeposition (dDepth : ℚ)
  | AddCliffCollapseUnconsCoarseDeposition (dDepth : ℚ)
  | AddUnconsSandFromShorePlatform (dDepth : ℚ)
  | AddUnconsCoarseFromShorePlatform (dDepth : ℚ)
  | SetStoredUnconsFine (dDepth : ℚ)
  | SetStoredUnconsSand (dDepth : ℚ)
  | SetStoredUnconsCoarse (dDepth : ℚ)
  | outsideModel

/-- The polygon after one call of a member function. -/
def PolygonOp.apply (p : CGeomCoastPolygon) : PolygonOp → CGeomCoastPolygon
  | PolygonOp.SetDownCoastThisIter bFlag => p.SetDownCoastThisIter bFlag
  | PolygonOp.AddPotentialErosion dDepth => p.AddPotentialErosion dDepth
  | PolygonOp.SetErosionUnconsFine dDepth => p.SetErosionUnconsFine dDepth
  | PolygonOp.SetErosionUnconsSand dDepth => p.SetErosionUnconsSand dDepth
  | PolygonOp.SetErosionUnconsCoarse dDepth => p.SetErosionUnconsCoarse dDepth
  | PolygonOp.AddDepositionUnconsSand dDepth => p.AddDepositionUnconsSand dDepth
  | PolygonOp.AddDepositionUnconsCoarse dDepth => p.AddDepositionUnconsCoarse dDepth
  | PolygonOp.SetUpCoastAdjacentPolygons pnVPolygons => p.SetUpCoastAdjacentPolygons pnVPolygons
  | PolygonOp.SetDownCoastAdjacentPolygons pnVPolygons =>
    p.SetDownCoastAdjacentPolygons pnVPolygons
  | PolygonOp.SetUpCoastAdjacentPolygonBoundaryShares pdVShares =>
    p.SetUpCoastAdjacentPolygonBoundaryShares pdVShares
  | PolygonOp.SetDownCoastAdjacentPolygonBoundaryShares pdVShares =>
    p.SetDownCoastAdjacentPolygonBoundaryShares pdVShares
  | PolygonOp.AddCircularity nPoly => p.AddCircularity nPoly
  | PolygonOp.AddCliffCollapseUnconsSandDeposition dDepth =>
    p.AddCliffCollapseUnconsSandDeposition dDepth
  | PolygonOp.AddCliffCollapseUnconsCoarseDeposition dDepth =>
    p.AddCliffCollapseUnconsCoarseDeposition dDepth
  | PolygonOp.AddUnconsSandFromShorePlatform dDepth => p.AddUnconsSandFromShorePlatform dDepth
  | PolygonOp.AddUnconsCoarseFromShorePlatform dDepth =>
    p.AddUnconsCoarseFromShorePlatform dDepth
  | PolygonOp.SetStoredUnconsFine dDepth => p.SetStoredUnconsFine dDepth
  | PolygonOp.SetStoredUnconsSand dDepth => p.SetStoredUnconsSand dDepth
  | PolygonOp.SetStoredUnconsCoarse dDepth => p.SetStoredUnconsCoarse dDepth
  | PolygonOp.outsideModel => p

/-- The polygon after a sequence of calls of member functions. -/
def applyOps (ops : List PolygonOp) (p : CGeomCoastPolygon) : CGeomCoastPolygon :=
  ops.foldl PolygonOp.apply p

/-! ## Linear coasts -/

/-- A line of down-coast polygons: polygon `i` of the coast has the coast ID `i`, moves sediment
down-coast and has as only down-coast adjacent polygon the polygon `i + 1`, or the grid edge
when it is the last polygon. -/
def downLine (INT_NODATA : Int) (s : CSimulation) (nCoast : Nat) : Prop :=
  ∀ i : Nat, i < s.nGetNumPolygons nCoast →
    (s.pGetPolygon nCoast i).bDownCoastThisIter = true
    ∧ (s.pGetPolygon nCoast i).nGetCoastID = i
    ∧ (s.pGetPolygon nCoast i).m_VnDownCoastAdjacentPolygon
      = [if (i : Int) + 1 < s.nGetNumPolygons nCoast then (i : Int) + 1 else INT_NODATA]

/-- A line of up-coast polygons: polygon `i` of the coast has the coast ID `i`, moves sediment
up-coast and has as only up-coast adjacent polygon the polygon `i - 1`, or the grid edge when it
is polygon 0. -/
def upLine (INT_NODATA : Int) (s : CSimulation) (nCoast : Nat) : Prop :=
  ∀ i : Nat, i < s.nGetNumPolygons nCoast →
    (s.pGetPolygon nCoast i).bDownCoastThisIter = false
    ∧ (s.pGetPolygon nCoast i).nGetCoastID = i
    ∧ (s.pGetPolygon nCoast i).m_VnUpCoastAdjacentPolygon
      = [if 0 < (i : Int) then (i : Int) - 1 else INT_NODATA]

instance (INT_NODATA : Int) (s : CSimulation) (nCoast : Nat) :
    Decidable (downLine INT_NODATA s nCoast) := by
  unfold downLine
  exact inferInstance

instance (INT_NODATA : Int) (s : CSimulation) (nCoast : Nat) :
    Decidable (upLine INT_NODATA s nCoast) := by
  unfold upLine
  exact inferInstance

/-- A simulation with two down-coast polygons of which polygon 0 names polygon 1 and polygon 1
names polygon 0 twice. -/
def repeatSim : CSimulation :=
  exampleSimulation
    [examplePolygon 0 true 0 0 0 0 [1] [1], examplePolygon 1 true 0 0 0 0 [0, 0] [1 / 2, 1 / 2]]
    GridEdge.GRID_EDGE_OPEN 0 1 0

/-- A simulation whose only polygon names itself. -/
def selfSim : CSimulation :=
  exampleSimulation [examplePolygon 0 true 0 0 0 0 [0] [1]] GridEdge.GRID_EDGE_OPEN 0 1 0

/-! ## Quantities used to state the erosion totals -/

/-- The sum over the polygons of a coast of this timestep's erosion of fine sediment. -/
def sumErosionFine (s : CSimulation) (nCoast : Nat) : ℚ :=
  ((s.coast nCoast).map CGeomCoastPolygon.dGetErosionUnconsFine).sum

/-- The sum over the polygons of a coast of this timestep's erosion of sand. -/
def sumErosionSand (s : CSimulation) (nCoast : Nat) : ℚ :=
  ((s.coast nCoast).map CGeomCoastPolygon.dGetErosionUnconsSand).sum

/-- The sum over the polygons of a coast of this timestep's erosion of coarse sediment. -/
def sumErosionCoarse (s : CSimulation) (nCoast : Nat) : ℚ :=
  ((s.coast nCoast).map CGeomCoastPolygon.dGetErosionUnconsCoarse).sum

/-- A step from `t` to `u` which works on polygon `nPoly` keeps the total `tot` in step with the
depth `get` of the polygons: the total plus the sum of the depths is unchanged, and the depth of
every other polygon is unchanged. -/
def LedgerKept (get : CGeomCoastPolygon → ℚ) (tot : CSimulation → ℚ) (nCoast : Nat)
    (nPoly : Int) (t u : CSimulation) : Prop :=
  tot u + ((u.coast nCoast).map get).sum = tot t + ((t.coast nCoast).map get).sum
  ∧ ∀ m : Int, m ≠ nPoly → get (u.pGetPolygon nCoast m) = get (t.pGetPolygon nCoast m)

/-! ## Quantities used to compare the two export branches -/

/-- The polygon index with the two ends of a coast of `nNumPolygons` polygons exchanged: index 0
becomes `nNumPolygons - 1`, index `nNumPolygons - 1` becomes 0, every other index is kept. -/
def exchangedEnds (nNumPolygons nPoly : Int) : Int :=
  if nPoly = 0 then nNumPolygons - 1 else if nPoly = nNumPolygons - 1 then 0 else nPoly

/-- The change from simulation `s` to simulation `t` of what the export writes, seen at polygon
`i` of coast `nCoast`: the off-grid totals of sand and of coarse sediment, and the sand and the
coarse deposition of the polygon. -/
def exportChange (s t : CSimulation) (nCoast : Nat) (i : Int) : ℚ × ℚ × ℚ × ℚ :=
  (t.m_dThisIterLeftGridUnconsSand - s.m_dThisIterLeftGridUnconsSand,
    t.m_dThisIterLeftGridUnconsCoarse - s.m_dThisIterLeftGridUnconsCoarse,
    (t.pGetPolygon nCoast i).dGetDepositionUnconsSand
      - (s.pGetPolygon nCoast i).dGetDepositionUnconsSand,
    (t.pGetPolygon nCoast i).dGetDepositionUnconsCoarse
      - (s.pGetPolygon nCoast i).dGetDepositionUnconsCoarse)

/-- What the export for polygon `nPoly` of coast `nCoast` reads and does not write: the handling
of the grid edges, the number of polygons of the coast, and the adjacent polygons of the polygon
with their boundary shares, up-coast and down-coast. -/
def exportInputs (nCoast : Nat) (nPoly : Int) (t : CSimulation) :
    GridEdge × Nat × List Int × List ℚ × List Int × List ℚ :=
  (t.m_nUnconsSedimentHandlingAtGridEdges, t.nGetNumPolygons nCoast,
    (t.pGetPolygon nCoast nPoly).m_VnUpCoastAdjacentPolygon,
    (t.pGetPolygon nCoast nPoly).m_VdUpCoastAdjacentPolygonBoundaryShare,
    (t.pGetPolygon nCoast nPoly).m_VnDownCoastAdjacentPolygon,
    (t.pGetPolygon nCoast nPoly).m_VdDownCoastAdjacentPolygonBoundaryShare)

/-! ## The placement call at which a pass stops -/

/-- The erosion of polygon `nPoly`, started in the simulation `a` with the potential erosion
`dPotentialErosion`, makes the placement call `call` in the simulation `e`: the call for fine
sediment in `a` itself; the call for sand in what the erosion of fine sediment left, that
erosion not having returned at once, with the undeposited sand carried forward set to zero when
it was above zero; the call for coarse sediment in what the erosion of sand left, neither
erosion having returned at once, with the undeposited coarse sediment carried forward set to
zero when it was above zero. A call is made only when the polygon stores sediment of the
class. -/
def erosionCallMadeAt (RTN_OK : Int) (ext : Collaborator) (a : CSimulation) (nCoast : Nat)
    (nPoly : Int) (dPotentialErosion : ℚ) (e : CSimulation) (call : PlacementCall) : Prop :=
  let b := (erodeFine RTN_OK ext a nCoast nPoly dPotentialErosion).2
  let c := (erodeSand RTN_OK ext b nCoast nPoly dPotentialErosion).2.2
  (0 < (a.pGetPolygon nCoast nPoly).dGetStoredUnconsFine
    ∧ e = a ∧ call = fineErosionCall a nCoast nPoly dPotentialErosion)
  ∨ ((erodeFine RTN_OK ext a nCoast nPoly dPotentialErosion).1 = none
    ∧ 0 < (b.pGetPolygon nCoast nPoly).dGetStoredUnconsSand
    ∧ e = { b with m_dThisIterDepositionSandDiff :=
        if b.m_dThisIterDepositionSandDiff > 0 then 0 else b.m_dThisIterDepositionSandDiff }
    ∧ call = sandErosionCall b nCoast nPoly dPotentialErosion)
  ∨ ((erodeFine RTN_OK ext a nCoast nPoly dPotentialErosion).1 = none
    ∧ (erodeSand RTN_OK ext b nCoast nPoly dPotentialErosion).1 = none
    ∧ 0 < (c.pGetPolygon nCoast nPoly).dGetStoredUnconsCoarse
    ∧ e = { c with m_dThisIterDepositionCoarseDiff :=
        if c.m_dThisIterDepositionCoarseDiff > 0 then 0 else c.m_dThisIterDepositionCoarseDiff }
    ∧ call = coarseErosionCall c nCoast nPoly dPotentialErosion)

/-- The processing of polygon `nPoly`, started in the simulation `s`, makes the placement call
`call` in the simulation `e`: the deposition call for coarse sediment in `s` itself; the
deposition call for sand in what the deposition of coarse sediment left, that deposition not
having returned at once; an erosion call, as in `erosionCallMadeAt`, after the whole deposition,
which has not returned at once, when the polygon has potential erosion. A deposition call is
made only when the deposition of the class on the polygon is above zero. -/
def callMadeAt (RTN_OK : Int) (ext : Collaborator) (s : CSimulation) (nCoast : Nat)
    (nPoly : Int) (e : CSimulation) (call : PlacementCall) : Prop :=
  let s1 := (depositCoarse RTN_OK ext s nCoast nPoly).2
  let a := (depositCoarseAndSand RTN_OK ext s nCoast nPoly).2
  (0 < (s.pGetPolygon nCoast nPoly).dGetDepositionUnconsCoarse
    ∧ e = s ∧ call = coarseDepositionCall s nCoast nPoly)
  ∨ ((depositCoarse RTN_OK ext s nCoast nPoly).1 = none
    ∧ 0 < (s1.pGetPolygon nCoast nPoly).dGetDepositionUnconsSand
    ∧ e = s1 ∧ call = sandDepositionCall s1 nCoast nPoly)
  ∨ ((depositCoarseAndSand RTN_OK ext s nCoast nPoly).1 = none
    ∧ 0 < -(a.pGetPolygon nCoast nPoly).dGetPotentialErosion
    ∧ erosionCallMadeAt RTN_OK ext a nCoast nPoly
        (-(a.pGetPolygon nCoast nPoly).dGetPotentialErosion) e call)

/-! ## Theorems -/

theorem coast_updPolygon (s : CSimulation) (nCoast : Nat) (nPoly : Int)
    (f : CGeomCoastPolygon → CGeomCoastPolygon) :
    (s.updPolygon nCoast nPoly f).coast nCoast =
      if 0 ≤ nPoly then (s.coast nCoast).modify f nPoly.toNat else s.coast nCoast := by
  unfold CSimulation.updPolygon CSimulation.coast
  split
  · simp only [List.getD_eq_getElem?_getD, List.getElem?_modify]
    simp
    cases h : s.m_VCoast[nCoast]? <;> simp
  · rfl

theorem coast_updateStoredUncons (s : CSimulation) (nCoast nPoly : Nat) :
    (updateStoredUncons s nCoast nPoly).coast nCoast =
      (s.coast nCoast).modify storedUnconsUpdated nPoly := by
  unfold updateStoredUncons
  simp only [coast_updPolygon, Int.ofNat_nonneg, if_true, Int.toNat_ofNat, List.modify_modify_eq,
    CSimulation.pGetPolygon]
  by_cases h : nPoly < (s.coast nCoast).length
  · apply List.ext_getElem? 
    intro i
    simp only [List.getElem?_modify]
    by_cases hi : nPoly = i
    · subst hi
      simp [List.getD_eq_getElem?_getD, List.getElem?_modify, List.getElem?_eq_getElem h, storedUnconsUpdated,
        CGeomCoastPolygon.SetStoredUnconsSand, CGeomCoastPolygon.SetStoredUnconsCoarse,
        CGeomCoastPolygon.dGetStoredUnconsSand, CGeomCoastPolygon.dGetStoredUnconsCoarse,
        CGeomCoastPolygon.dGetUnconsSandFromShorePlatform, CGeomCoastPolygon.dGetUnconsCoarseFromShorePlatform,
        CGeomCoastPolygon.dGetCliffCollapseUnconsSandDeposition, CGeomCoastPolygon.dGetCliffCollapseUnconsCoarseDeposition]
    · simp [hi]
  · rw [List.modify_eq_self (by omega), List.modify_eq_self (by omega)]

theorem coast_foldl_updateStoredUncons (s : CSimulation) (nCoast : Nat) (k i : Nat) :
    (((List.range k).foldl (fun t nPoly => updateStoredUncons t nCoast nPoly) s).coast nCoast)[i]? =
      if i < k then ((s.coast nCoast)[i]?).map storedUnconsUpdated else (s.coast nCoast)[i]? := by
  induction k with
  | zero => simp
  | succ k ih =>
    rw [List.range_succ, List.foldl_append]
    simp only [List.foldl_cons, List.foldl_nil, coast_updateStoredUncons, List.getElem?_modify]
    by_cases hki : k = i
    · subst hki
      simp [ih]
    · have : (i < k + 1) ↔ (i < k) := by omega
      simp [hki, ih, this]

theorem coast_AllPolygonsUpdateStoredUncons (s : CSimulation) (nCoast : Nat) :
    (AllPolygonsUpdateStoredUncons s nCoast).coast nCoast =
      (s.coast nCoast).map storedUnconsUpdated := by
  apply List.ext_getElem?
  intro i
  unfold AllPolygonsUpdateStoredUncons CSimulation.nGetNumPolygons
  rw [coast_foldl_updateStoredUncons]
  by_cases h : i < (s.coast nCoast).length
  · simp [h]
  · simp [h, List.getElem?_eq_none (Nat.le_of_not_lt h)]

/-- C3. Stored-pool update: for every coast and every polygon index, after
`AllPolygonsUpdateStoredUncons` the stored sand is the previous stored sand plus the sand from
shore platform erosion plus the sand talus from cliff collapse, the stored coarse sediment is the
previous stored coarse sediment plus the two coarse contributions, and the stored fine sediment
is unchanged. -/
theorem AllPolygonsUpdateStoredUncons_stored (s : CSimulation) (nCoast : Nat) (nPoly : Int) :
    ((AllPolygonsUpdateStoredUncons s nCoast).pGetPolygon nCoast nPoly).dGetStoredUnconsSand =
        (s.pGetPolygon nCoast nPoly).dGetStoredUnconsSand
          + (s.pGetPolygon nCoast nPoly).dGetUnconsSandFromShorePlatform
          + (s.pGetPolygon nCoast nPoly).dGetCliffCollapseUnconsSandDeposition
    ∧ ((AllPolygonsUpdateStoredUncons s nCoast).pGetPolygon nCoast nPoly).dGetStoredUnconsCoarse =
        (s.pGetPolygon nCoast nPoly).dGetStoredUnconsCoarse
          + (s.pGetPolygon nCoast nPoly).dGetUnconsCoarseFromShorePlatform
          + (s.pGetPolygon nCoast nPoly).dGetCliffCollapseUnconsCoarseDeposition
    ∧ ((AllPolygonsUpdateStoredUncons s nCoast).pGetPolygon nCoast nPoly).dGetStoredUnconsFine =
        (s.pGetPolygon nCoast nPoly).dGetStoredUnconsFine := by
  unfold CSimulation.pGetPolygon
  rw [coast_AllPolygonsUpdateStoredUncons]
  by_cases h0 : 0 ≤ nPoly
  · simp only [h0, if_true, List.getD_eq_getElem?_getD, List.getElem?_map]
    cases h : (s.coast nCoast)[nPoly.toNat]? <;>
      simp [storedUnconsUpdated, emptyPolygon, CGeomCoastPolygon.dGetStoredUnconsSand,
        CGeomCoastPolygon.dGetStoredUnconsCoarse, CGeomCoastPolygon.dGetStoredUnconsFine,
        CGeomCoastPolygon.dGetUnconsSandFromShorePlatform,
        CGeomCoastPolygon.dGetUnconsCoarseFromShorePlatform,
        CGeomCoastPolygon.dGetCliffCollapseUnconsSandDeposition,
        CGeomCoastPolygon.dGetCliffCollapseUnconsCoarseDeposition]
  · simp [h0, emptyPolygon, CGeomCoastPolygon.dGetStoredUnconsSand,
        CGeomCoastPolygon.dGetStoredUnconsCoarse, CGeomCoastPolygon.dGetStoredUnconsFine,
        CGeomCoastPolygon.dGetUnconsSandFromShorePlatform,
        CGeomCoastPolygon.dGetUnconsCoarseFromShorePlatform,
        CGeomCoastPolygon.dGetCliffCollapseUnconsSandDeposition,
        CGeomCoastPolygon.dGetCliffCollapseUnconsCoarseDeposition]

/-! ### Writes to a polygon leave the other simulation fields alone -/

@[simp] theorem updPolygon_m_nUnconsSedimentHandlingAtGridEdges (s : CSimulation) (nCoast : Nat) (nPoly : Int)
    (f : CGeomCoastPolygon → CGeomCoastPolygon) :
    (s.updPolygon nCoast nPoly f).m_nUnconsSedimentHandlingAtGridEdges = s.m_nUnconsSedimentHandlingAtGridEdges := by
  unfold CSimulation.updPolygon; split <;> rfl

@[simp] theorem updPolygon_m_dFineErodibilityNormalized (s : CSimulation) (nCoast : Nat) (nPoly : Int)
    (f : CGeomCoastPolygon → CGeomCoastPolygon) :
    (s.updPolygon nCoast nPoly f).m_dFineErodibilityNormalized = s.m_dFineErodibilityNormalized := by
  unfold CSimulation.updPolygon; split <;> rfl

@[simp] theorem updPolygon_m_dSandErodibilityNormalized (s : CSimulation) (nCoast : Nat) (nPoly : Int)
    (f : CGeomCoastPolygon → CGeomCoastPolygon) :
    (s.updPolygon nCoast nPoly f).m_dSandErodibilityNormalized = s.m_dSandErodibilityNormalized := by
  unfold CSimulation.updPolygon; split <;> rfl

@[simp] theorem updPolygon_m_dCoarseErodibilityNormalized (s : CSimulation) (nCoast : Nat) (nPoly : Int)
    (f : CGeomCoastPolygon → CGeomCoastPolygon) :
    (s.updPolygon nCoast nPoly f).m_dCoarseErodibilityNormalized = s.m_dCoarseErodibilityNormalized := by
  unfold CSimulation.updPolygon; split <;> rfl

@[simp] theorem updPolygon_m_dThisIterDepositionSandDiff (s : CSimulation) (nCoast : Nat) (nPoly : Int)
    (f : CGeomCoastPolygon → CGeomCoastPolygon) :
    (s.updPolygon nCoast nPoly f).m_dThisIterDepositionSandDiff = s.m_dThisIterDepositionSandDiff := by
  unfold CSimulation.updPolygon; split <;> rfl

@[simp] theorem updPolygon_m_dThisIterDepositionCoarseDiff (s : CSimulation) (nCoast : Nat) (nPoly : Int)
    (f : CGeomCoastPolygon → CGeomCoastPolygon) :
    (s.updPolygon nCoast nPoly f).m_dThisIterDepositionCoarseDiff = s.m_dThisIterDepositionCoarseDiff := by
  unfold CSimulation.updPolygon; split <;> rfl

@[simp] theorem updPolygon_m_dThisIterBeachErosionFine (s : CSimulation) (nCoast : Nat) (nPoly : Int)
    (f : CGeomCoastPolygon → CGeomCoastPolygon) :
    (s.updPolygon nCoast nPoly f).m_dThisIterBeachErosionFine = s.m_dThisIterBeachErosionFine := by
  unfold CSimulation.updPolygon; split <;> rfl

@[simp] theorem updPolygon_m_dThisIterBeachErosionSand (s : CSimulation) (nCoast : Nat) (nPoly : Int)
    (f : CGeomCoastPolygon → CGeomCoastPolygon) :
    (s.updPolygon nCoast nPoly f).m_dThisIterBeachErosionSand = s.m_dThisIterBeachErosionSand := by
  unfold CSimulation.updPolygon; split <;> rfl

@[simp] theorem updPolygon_m_dThisIterBeachErosionCoarse (s : CSimulation) (nCoast : Nat) (nPoly : Int)
    (f : CGeomCoastPolygon → CGeomCoastPolygon) :
    (s.updPolygon nCoast nPoly f).m_dThisIterBeachErosionCoarse = s.m_dThisIterBeachErosionCoarse := by
  unfold CSimulation.updPolygon; split <;> rfl

@[simp] theorem updPolygon_m_dThisIterLeftGridUnconsSand (s : CSimulation) (nCoast : Nat) (nPoly : Int)
    (f : CGeomCoastPolygon → CGeomCoastPolygon) :
    (s.updPolygon nCoast nPoly f).m_dThisIterLeftGridUnconsSand = s.m_dThisIterLeftGridUnconsSand := by
  unfold CSimulation.updPolygon; split <;> rfl

@[simp] theorem updPolygon_m_dThisIterLeftGridUnconsCoarse (s : CSimulation) (nCoast : Nat) (nPoly : Int)
    (f : CGeomCoastPolygon → CGeomCoastPolygon) :
    (s.updPolygon nCoast nPoly f).m_dThisIterLeftGridUnconsCoarse = s.m_dThisIterLeftGridUnconsCoarse := by
  unfold CSimulation.updPolygon; split <;> rfl

@[simp] theorem updPolygon_placementLog (s : CSimulation) (nCoast : Nat) (nPoly : Int)
    (f : CGeomCoastPolygon → CGeomCoastPolygon) :
    (s.updPolygon nCoast nPoly f).placementLog = s.placementLog := by
  unfold CSimulation.updPolygon; split <;> rfl

/-! ### Reading a polygon after a write -/

theorem hasPolygon_updPolygon (s : CSimulation) (nCoast : Nat) (nPoly nOther : Int)
    (f : CGeomCoastPolygon → CGeomCoastPolygon) :
    (s.updPolygon nCoast nPoly f).hasPolygon nCoast nOther ↔ s.hasPolygon nCoast nOther := by
  unfold CSimulation.hasPolygon CSimulation.nGetNumPolygons
  rw [coast_updPolygon]
  split <;> simp

theorem pGetPolygon_updPolygon_self (s : CSimulation) (nCoast : Nat) (nPoly : Int)
    (f : CGeomCoastPolygon → CGeomCoastPolygon) (h : s.hasPolygon nCoast nPoly) :
    (s.updPolygon nCoast nPoly f).pGetPolygon nCoast nPoly = f (s.pGetPolygon nCoast nPoly) := by
  obtain ⟨h0, h1⟩ := h
  have hlt : nPoly.toNat < (s.coast nCoast).length := by
    unfold CSimulation.nGetNumPolygons at h1
    omega
  unfold CSimulation.pGetPolygon
  rw [coast_updPolygon]
  simp [h0, List.getD_eq_getElem?_getD, List.getElem?_modify, List.getElem?_eq_getElem hlt]

theorem pGetPolygon_updPolygon_ne (s : CSimulation) (nCoast : Nat) (nPoly nOther : Int)
    (f : CGeomCoastPolygon → CGeomCoastPolygon) (h : nPoly ≠ nOther) :
    (s.updPolygon nCoast nPoly f).pGetPolygon nCoast nOther = s.pGetPolygon nCoast nOther := by
  unfold CSimulation.pGetPolygon
  rw [coast_updPolygon]
  by_cases h0 : 0 ≤ nPoly
  · by_cases h1 : 0 ≤ nOther
    · have hne : nPoly.toNat ≠ nOther.toNat := by omega
      simp [h0, h1, List.getD_eq_getElem?_getD, List.getElem?_modify, hne]
    · simp [h1]
  · simp [h0]

/-- Reading any polygon after a write which keeps the field read. -/
theorem pGetPolygon_updPolygon_field {β : Type} (g : CGeomCoastPolygon → β) (s : CSimulation)
    (nCoast : Nat) (nPoly nOther : Int) (f : CGeomCoastPolygon → CGeomCoastPolygon)
    (hf : ∀ p, g (f p) = g p) :
    g ((s.updPolygon nCoast nPoly f).pGetPolygon nCoast nOther) = g (s.pGetPolygon nCoast nOther) := by
  unfold CSimulation.pGetPolygon
  rw [coast_updPolygon]
  by_cases h0 : 0 ≤ nPoly
  · by_cases h1 : 0 ≤ nOther
    · simp only [h0, h1, if_true, List.getD_eq_getElem?_getD, List.getElem?_modify]
      by_cases hne : nPoly.toNat = nOther.toNat
      · simp only [hne, if_true]
        cases (s.coast nCoast)[nOther.toNat]? <;> simp [hf]
      · simp [hne]
    · simp [h1]
  · simp [h0]

theorem tMin_eq_min (a b : ℚ) : tMin a b = min a b := by
  unfold tMin
  split
  · rw [min_eq_left (le_of_lt ‹a < b›)]
  · rw [min_eq_right (not_lt.mp ‹¬ a < b›)]

/-- C5. Carry-forward absorption: when sand (coarse sediment) is eroded on a polygon with stored
depth above zero while the undeposited sand (coarse sediment) carried forward is above zero, the
erosion target passed on is the smaller of potential times erodibility and the stored depth, plus
the carried value; afterwards that carried value is zero and the carried value of the other class
is as before. The fine target is the smaller of potential times erodibility and the stored fine
depth, and fine erosion touches neither carried value. -/
theorem carry_forward_absorbed (RTN_OK : Int) (ext : Collaborator) (s : CSimulation)
    (nCoast : Nat) (nPoly : Int) (dPotentialErosion : ℚ) :
    (0 < (s.pGetPolygon nCoast nPoly).dGetStoredUnconsSand →
      0 < s.m_dThisIterDepositionSandDiff →
      (erodeSand RTN_OK ext s nCoast nPoly dPotentialErosion).2.2.placementLog =
          s.placementLog ++ [⟨PlacementKind.erosion, nCoast, nPoly, Texture.TEXTURE_SAND,
            min (dPotentialErosion * s.m_dSandErodibilityNormalized)
              (s.pGetPolygon nCoast nPoly).dGetStoredUnconsSand + s.m_dThisIterDepositionSandDiff⟩]
      ∧ (erodeSand RTN_OK ext s nCoast nPoly dPotentialErosion).2.2.m_dThisIterDepositionSandDiff = 0
      ∧ (erodeSand RTN_OK ext s nCoast nPoly dPotentialErosion).2.2.m_dThisIterDepositionCoarseDiff =
          s.m_dThisIterDepositionCoarseDiff)
    ∧ (0 < (s.pGetPolygon nCoast nPoly).dGetStoredUnconsCoarse →
      0 < s.m_dThisIterDepositionCoarseDiff →
      (erodeCoarse RTN_OK ext s nCoast nPoly dPotentialErosion).2.2.placementLog =
          s.placementLog ++ [⟨PlacementKind.erosion, nCoast, nPoly, Texture.TEXTURE_COARSE,
            min (dPotentialErosion * s.m_dCoarseErodibilityNormalized)
              (s.pGetPolygon nCoast nPoly).dGetStoredUnconsCoarse
              + s.m_dThisIterDepositionCoarseDiff⟩]
      ∧ (erodeCoarse RTN_OK ext s nCoast nPoly dPotentialErosion).2.2.m_dThisIterDepositionCoarseDiff
          = 0
      ∧ (erodeCoarse RTN_OK ext s nCoast nPoly dPotentialErosion).2.2.m_dThisIterDepositionSandDiff =
          s.m_dThisIterDepositionSandDiff)
    ∧ (0 < (s.pGetPolygon nCoast nPoly).dGetStoredUnconsFine →
      (erodeFine RTN_OK ext s nCoast nPoly dPotentialErosion).2.placementLog =
          s.placementLog ++ [⟨PlacementKind.erosion, nCoast, nPoly, Texture.TEXTURE_FINE,
            min (dPotentialErosion * s.m_dFineErodibilityNormalized)
              (s.pGetPolygon nCoast nPoly).dGetStoredUnconsFine⟩]
      ∧ (erodeFine RTN_OK ext s nCoast nPoly dPotentialErosion).2.m_dThisIterDepositionSandDiff =
          s.m_dThisIterDepositionSandDiff
      ∧ (erodeFine RTN_OK ext s nCoast nPoly dPotentialErosion).2.m_dThisIterDepositionCoarseDiff =
          s.m_dThisIterDepositionCoarseDiff) := by
  refine ⟨?_, ?_, ?_⟩
  · intro hStored hCarry
    unfold erodeSand
    simp only [gt_iff_lt, hStored, hCarry, if_true, nDoUnconsErosionOnPolygon, tMin_eq_min]
    split
    · simp
    · split <;> simp
  · intro hStored hCarry
    unfold erodeCoarse
    simp only [gt_iff_lt, hStored, hCarry, if_true, nDoUnconsErosionOnPolygon, tMin_eq_min]
    split
    · simp
    · split <;> simp
  · intro hStored
    unfold erodeFine
    simp only [gt_iff_lt, hStored, if_true, nDoUnconsErosionOnPolygon, tMin_eq_min]
    split
    · simp
    · split <;> simp

/-- Witness for C5 on `carrySim`: the sand target is min (10 * 1/4) 4 + 2 = 9/2, the coarse
target is min (10 * 1/4) 6 + 2 = 9/2, and the fine target is min (10 * 1/2) 5 = 5. -/
theorem carry_forward_absorbed_witness :
    (erodeSand 0 placeAll carrySim 0 0 10).2.2.placementLog =
        [⟨PlacementKind.erosion, 0, 0, Texture.TEXTURE_SAND, 9 / 2⟩]
    ∧ (erodeSand 0 placeAll carrySim 0 0 10).2.2.m_dThisIterDepositionSandDiff = 0
    ∧ (erodeCoarse 0 placeAll carrySim 0 0 10).2.2.placementLog =
        [⟨PlacementKind.erosion, 0, 0, Texture.TEXTURE_COARSE, 9 / 2⟩]
    ∧ (erodeFine 0 placeAll carrySim 0 0 10).2.placementLog =
        [⟨PlacementKind.erosion, 0, 0, Texture.TEXTURE_FINE, 5⟩] := by
  have h := carry_forward_absorbed 0 placeAll carrySim 0 0 10
  have hs := h.1 (by decide!) (by decide!)
  have hc := h.2.1 (by decide!) (by decide!)
  have hf := h.2.2 (by decide!)
  refine ⟨?_, hs.2.1, ?_, ?_⟩
  · rw [hs.1]; decide!
  · rw [hc.1]; decide!
  · rw [hf.1]; decide!

/-- C4 (as stated) fails. The pass over `supplyLimitSim` starts with three units of sand carried
forward; its only polygon stores four units of sand, and the erosion routine is called for that
polygon with a sand target of seven units. -/
theorem supply_limit_counterexample :
    ∃ call ∈ (doCoast (-9999) 0 placeAll supplyLimitSim 0).2.placementLog,
      call.kind = PlacementKind.erosion ∧ call.nTexture = Texture.TEXTURE_SAND ∧
      (supplyLimitSim.pGetPolygon call.nCoast call.nPoly).dGetStoredUnconsSand = 4 ∧
      ((doCoast (-9999) 0 placeAll supplyLimitSim 0).2.pGetPolygon call.nCoast
        call.nPoly).dGetStoredUnconsSand = 4 ∧
      call.dTarget = 7 :=
  ⟨⟨PlacementKind.erosion, 0, 0, Texture.TEXTURE_SAND, 7⟩, by decide!, rfl, rfl, by decide!,
    by decide!, rfl⟩

/-- C4 (amended). Supply limit: the fine erosion target passed to the erosion routine is at most
the stored fine depth; the sand (coarse) target is at most the stored sand (coarse) depth plus the
undeposited sand (coarse sediment) carried forward when that is above zero, so it is at most the
stored depth whenever nothing is carried forward. -/
theorem erosion_target_le_stored_add_carry (RTN_OK : Int) (ext : Collaborator)
    (s : CSimulation) (nCoast : Nat) (nPoly : Int) (dPotentialErosion : ℚ) :
    (∃ calls, (erodeFine RTN_OK ext s nCoast nPoly dPotentialErosion).2.placementLog =
        s.placementLog ++ calls ∧
      ∀ call ∈ calls, call.kind = PlacementKind.erosion ∧ call.nTexture = Texture.TEXTURE_FINE ∧
        call.dTarget ≤ (s.pGetPolygon nCoast nPoly).dGetStoredUnconsFine)
    ∧ (∃ calls, (erodeSand RTN_OK ext s nCoast nPoly dPotentialErosion).2.2.placementLog =
        s.placementLog ++ calls ∧
      ∀ call ∈ calls, call.kind = PlacementKind.erosion ∧ call.nTexture = Texture.TEXTURE_SAND ∧
        call.dTarget ≤ (s.pGetPolygon nCoast nPoly).dGetStoredUnconsSand
          + max s.m_dThisIterDepositionSandDiff 0)
    ∧ (∃ calls, (erodeCoarse RTN_OK ext s nCoast nPoly dPotentialErosion).2.2.placementLog =
        s.placementLog ++ calls ∧
      ∀ call ∈ calls, call.kind = PlacementKind.erosion ∧ call.nTexture = Texture.TEXTURE_COARSE ∧
        call.dTarget ≤ (s.pGetPolygon nCoast nPoly).dGetStoredUnconsCoarse
          + max s.m_dThisIterDepositionCoarseDiff 0) := by
  refine ⟨?_, ?_, ?_⟩
  · unfold erodeFine
    by_cases hStored : 0 < (s.pGetPolygon nCoast nPoly).dGetStoredUnconsFine
    · refine ⟨[⟨PlacementKind.erosion, nCoast, nPoly, Texture.TEXTURE_FINE,
        min (dPotentialErosion * s.m_dFineErodibilityNormalized)
          (s.pGetPolygon nCoast nPoly).dGetStoredUnconsFine⟩], ?_, ?_⟩
      · simp only [gt_iff_lt, hStored, if_true, nDoUnconsErosionOnPolygon, tMin_eq_min]
        split
        · simp
        · split <;> simp
      · intro call hcall
        simp only [List.mem_singleton] at hcall
        subst hcall
        exact ⟨rfl, rfl, min_le_right _ _⟩
    · exact ⟨[], by simp [hStored], by simp⟩
  · unfold erodeSand
    by_cases hStored : 0 < (s.pGetPolygon nCoast nPoly).dGetStoredUnconsSand
    · by_cases hCarry : 0 < s.m_dThisIterDepositionSandDiff
      · refine ⟨[⟨PlacementKind.erosion, nCoast, nPoly, Texture.TEXTURE_SAND,
          min (dPotentialErosion * s.m_dSandErodibilityNormalized)
            (s.pGetPolygon nCoast nPoly).dGetStoredUnconsSand + s.m_dThisIterDepositionSandDiff⟩],
          ?_, ?_⟩
        · simp only [gt_iff_lt, hStored, hCarry, if_true, nDoUnconsErosionOnPolygon, tMin_eq_min]
          split
          · simp
          · split <;> simp
        · intro call hcall
          simp only [List.mem_singleton] at hcall
          subst hcall
          refine ⟨rfl, rfl, ?_⟩
          show min _ _ + _ ≤ _
          rw [max_eq_left (le_of_lt hCarry)]
          exact add_le_add_right (min_le_right _ _) _
      · refine ⟨[⟨PlacementKind.erosion, nCoast, nPoly, Texture.TEXTURE_SAND,
          min (dPotentialErosion * s.m_dSandErodibilityNormalized)
            (s.pGetPolygon nCoast nPoly).dGetStoredUnconsSand⟩], ?_, ?_⟩
        · simp only [gt_iff_lt, hStored, hCarry, if_true, if_false, nDoUnconsErosionOnPolygon,
            tMin_eq_min]
          split
          · simp
          · split <;> simp
        · intro call hcall
          simp only [List.mem_singleton] at hcall
          subst hcall
          refine ⟨rfl, rfl, ?_⟩
          show min _ _ ≤ _
          rw [max_eq_right (not_lt.mp hCarry), add_zero]
          exact min_le_right _ _
    · exact ⟨[], by simp [hStored], by simp⟩
  · unfold erodeCoarse
    by_cases hStored : 0 < (s.pGetPolygon nCoast nPoly).dGetStoredUnconsCoarse
    · by_cases hCarry : 0 < s.m_dThisIterDepositionCoarseDiff
      · refine ⟨[⟨PlacementKind.erosion, nCoast, nPoly, Texture.TEXTURE_COARSE,
          min (dPotentialErosion * s.m_dCoarseErodibilityNormalized)
            (s.pGetPolygon nCoast nPoly).dGetStoredUnconsCoarse
            + s.m_dThisIterDepositionCoarseDiff⟩], ?_, ?_⟩
        · simp only [gt_iff_lt, hStored, hCarry, if_true, nDoUnconsErosionOnPolygon, tMin_eq_min]
          split
          · simp
          · split <;> simp
        · intro call hcall
          simp only [List.mem_singleton] at hcall
          subst hcall
          refine ⟨rfl, rfl, ?_⟩
          show min _ _ + _ ≤ _
          rw [max_eq_left (le_of_lt hCarry)]
          exact add_le_add_right (min_le_right _ _) _
      · refine ⟨[⟨PlacementKind.erosion, nCoast, nPoly, Texture.TEXTURE_COARSE,
          min (dPotentialErosion * s.m_dCoarseErodibilityNormalized)
            (s.pGetPolygon nCoast nPoly).dGetStoredUnconsCoarse⟩], ?_, ?_⟩
        · simp only [gt_iff_lt, hStored, hCarry, if_true, if_false, nDoUnconsErosionOnPolygon,
            tMin_eq_min]
          split
          · simp
          · split <;> simp
        · intro call hcall
          simp only [List.mem_singleton] at hcall
          subst hcall
          refine ⟨rfl, rfl, ?_⟩
          show min _ _ ≤ _
          rw [max_eq_right (not_lt.mp hCarry), add_zero]
          exact min_le_right _ _
    · exact ⟨[], by simp [hStored], by simp⟩

/-- C6. Deposition: for coarse sediment first and then for sand, the deposition routine is called
exactly when the polygon's deposition for the class is above zero, with that deposition as the
target; after a call which returns `RTN_OK` and a deposited depth, the undeposited total of the
class grows by target minus deposited when that difference is above zero and is unchanged
otherwise, and the other class's undeposited total is unchanged. -/
theorem deposition_shortfall (RTN_OK : Int) (ext : Collaborator) (s : CSimulation)
    (nCoast : Nat) (nPoly : Int) :
    -- coarse sediment: the call is made if and only if the target is above zero
    ((depositCoarse RTN_OK ext s nCoast nPoly).2.placementLog =
        if 0 < (s.pGetPolygon nCoast nPoly).dGetDepositionUnconsCoarse then
          s.placementLog ++ [coarseDepositionCall s nCoast nPoly]
        else s.placementLog)
    ∧ (0 < (s.pGetPolygon nCoast nPoly).dGetDepositionUnconsCoarse →
        (ext s.placementLog (coarseDepositionCall s nCoast nPoly)).1 = RTN_OK →
        (depositCoarse RTN_OK ext s nCoast nPoly).1 = none
        ∧ (depositCoarse RTN_OK ext s nCoast nPoly).2.m_dThisIterDepositionCoarseDiff =
            s.m_dThisIterDepositionCoarseDiff +
              (if 0 < (s.pGetPolygon nCoast nPoly).dGetDepositionUnconsCoarse
                    - (ext s.placementLog (coarseDepositionCall s nCoast nPoly)).2 then
                (s.pGetPolygon nCoast nPoly).dGetDepositionUnconsCoarse
                  - (ext s.placementLog (coarseDepositionCall s nCoast nPoly)).2
              else 0)
        ∧ (depositCoarse RTN_OK ext s nCoast nPoly).2.m_dThisIterDepositionSandDiff =
            s.m_dThisIterDepositionSandDiff)
    -- sand: the call is made if and only if the target is above zero
    ∧ ((depositSand RTN_OK ext s nCoast nPoly).2.placementLog =
        if 0 < (s.pGetPolygon nCoast nPoly).dGetDepositionUnconsSand then
          s.placementLog ++ [sandDepositionCall s nCoast nPoly]
        else s.placementLog)
    ∧ (0 < (s.pGetPolygon nCoast nPoly).dGetDepositionUnconsSand →
        (ext s.placementLog (sandDepositionCall s nCoast nPoly)).1 = RTN_OK →
        (depositSand RTN_OK ext s nCoast nPoly).1 = none
        ∧ (depositSand RTN_OK ext s nCoast nPoly).2.m_dThisIterDepositionSandDiff =
            s.m_dThisIterDepositionSandDiff +
              (if 0 < (s.pGetPolygon nCoast nPoly).dGetDepositionUnconsSand
                    - (ext s.placementLog (sandDepositionCall s nCoast nPoly)).2 then
                (s.pGetPolygon nCoast nPoly).dGetDepositionUnconsSand
                  - (ext s.placementLog (sandDepositionCall s nCoast nPoly)).2
              else 0)
        ∧ (depositSand RTN_OK ext s nCoast nPoly).2.m_dThisIterDepositionCoarseDiff =
            s.m_dThisIterDepositionCoarseDiff)
    -- coarse sediment is handled first, then sand
    ∧ ((depositCoarse RTN_OK ext s nCoast nPoly).1 = none →
        depositCoarseAndSand RTN_OK ext s nCoast nPoly =
          depositSand RTN_OK ext (depositCoarse RTN_OK ext s nCoast nPoly).2 nCoast nPoly) := by
  refine ⟨?_, ?_, ?_, ?_, ?_⟩
  · unfold depositCoarse coarseDepositionCall nDoUnconsDepositionOnPolygon
    simp only [gt_iff_lt]
    split
    · split
      · rfl
      · split <;> rfl
    · rfl
  · intro hTarget hOK
    unfold coarseDepositionCall at hOK ⊢
    unfold depositCoarse nDoUnconsDepositionOnPolygon
    simp only [gt_iff_lt, hTarget, if_true, hOK, ne_eq, not_true_eq_false, if_false]
    split <;> simp
  · unfold depositSand sandDepositionCall nDoUnconsDepositionOnPolygon
    simp only [gt_iff_lt]
    split
    · split
      · rfl
      · split <;> rfl
    · rfl
  · intro hTarget hOK
    unfold sandDepositionCall at hOK ⊢
    unfold depositSand nDoUnconsDepositionOnPolygon
    simp only [gt_iff_lt, hTarget, if_true, hOK, ne_eq, not_true_eq_false, if_false]
    split <;> simp
  · intro hnone
    unfold depositCoarseAndSand
    cases h : depositCoarse RTN_OK ext s nCoast nPoly with
    | mk nRet s1 =>
      rw [h] at hnone
      simp only at hnone
      subst hnone
      rfl

/-- Witness for C6 on `depositionSim` with routines which deposit three units less than asked:
both calls are made, coarse sediment first, and three units of each class are left undeposited. -/
theorem deposition_shortfall_witness :
    (depositCoarseAndSand 0 placeShort depositionSim 0 0).2.placementLog =
        [⟨PlacementKind.deposition, 0, 0, Texture.TEXTURE_COARSE, 4⟩,
         ⟨PlacementKind.deposition, 0, 0, Texture.TEXTURE_SAND, 5⟩]
    ∧ (depositCoarse 0 placeShort depositionSim 0 0).2.m_dThisIterDepositionCoarseDiff = 3
    ∧ (depositSand 0 placeShort depositionSim 0 0).2.m_dThisIterDepositionSandDiff = 3 := by
  have h := deposition_shortfall 0 placeShort depositionSim 0 0
  obtain ⟨_, hc, _, hs, hcs⟩ := h
  have hc1 := hc (by decide!) (by decide!)
  have hs1 := hs (by decide!) (by decide!)
  refine ⟨?_, ?_, ?_⟩
  · rw [hcs hc1.1]; decide!
  · rw [hc1.2.1]; decide!
  · rw [hs1.2.1]; decide!

/-! ### Views of the polygons that a write leaves alone -/

theorem coast_updPolygon_map {β : Type} (g : CGeomCoastPolygon → β) (s : CSimulation)
    (nCoast : Nat) (nPoly : Int) (f : CGeomCoastPolygon → CGeomCoastPolygon)
    (hf : ∀ p, g (f p) = g p) :
    ((s.updPolygon nCoast nPoly f).coast nCoast).map g = (s.coast nCoast).map g := by
  rw [coast_updPolygon]
  split
  · apply List.ext_getElem?
    intro i
    simp only [List.getElem?_map, List.getElem?_modify]
    split
    · cases (s.coast nCoast)[i]? <;> simp [hf]
    · simp
  · rfl

theorem pGetPolygon_congr {β : Type} (g : CGeomCoastPolygon → β) (s t : CSimulation)
    (nCoast : Nat) (h : (t.coast nCoast).map g = (s.coast nCoast).map g) (nPoly : Int) :
    g (t.pGetPolygon nCoast nPoly) = g (s.pGetPolygon nCoast nPoly) := by
  unfold CSimulation.pGetPolygon
  split
  · have h1 := congrArg (fun l => l[nPoly.toNat]?) h
    simp only [List.getElem?_map] at h1
    simp only [List.getD_eq_getElem?_getD]
    cases ht : (t.coast nCoast)[nPoly.toNat]? <;> cases hs : (s.coast nCoast)[nPoly.toNat]? <;>
      simp_all
  · rfl

theorem nGetNumPolygons_congr {β : Type} (g : CGeomCoastPolygon → β) (s t : CSimulation)
    (nCoast : Nat) (h : (t.coast nCoast).map g = (s.coast nCoast).map g) :
    t.nGetNumPolygons nCoast = s.nGetNumPolygons nCoast := by
  have := congrArg List.length h
  simpa [CSimulation.nGetNumPolygons] using this

/-! ### What each step may write -/

/-- Deposition of coarse sediment writes only the record of calls and the undeposited coarse
total. -/
theorem depositCoarse_preserves {β : Type} (g : CSimulation → β) (RTN_OK : Int)
    (ext : Collaborator) (s : CSimulation) (nCoast : Nat) (nPoly : Int)
    (hg : ∀ l x, g { s with placementLog := l, m_dThisIterDepositionCoarseDiff := x } = g s) :
    g (depositCoarse RTN_OK ext s nCoast nPoly).2 = g s := by
  unfold depositCoarse nDoUnconsDepositionOnPolygon
  simp only
  split
  · split
    · exact hg _ s.m_dThisIterDepositionCoarseDiff
    · split
      · exact hg _ _
      · exact hg _ s.m_dThisIterDepositionCoarseDiff
  · rfl

/-- Deposition of sand writes only the record of calls and the undeposited sand total. -/
theorem depositSand_preserves {β : Type} (g : CSimulation → β) (RTN_OK : Int)
    (ext : Collaborator) (s : CSimulation) (nCoast : Nat) (nPoly : Int)
    (hg : ∀ l x, g { s with placementLog := l, m_dThisIterDepositionSandDiff := x } = g s) :
    g (depositSand RTN_OK ext s nCoast nPoly).2 = g s := by
  unfold depositSand nDoUnconsDepositionOnPolygon
  simp only
  split
  · split
    · exact hg _ s.m_dThisIterDepositionSandDiff
    · split
      · exact hg _ _
      · exact hg _ s.m_dThisIterDepositionSandDiff
  · rfl

/-- Erosion of fine sediment writes only the record of calls, the fine erosion total and the
fine erosion of the polygon. -/
theorem erodeFine_preserves {β : Type} (g : CSimulation → β) (RTN_OK : Int)
    (ext : Collaborator) (s : CSimulation) (nCoast : Nat) (nPoly : Int) (dPotentialErosion : ℚ)
    (hupd : ∀ t x, g (t.updPolygon nCoast nPoly (fun p => p.SetErosionUnconsFine x)) = g t)
    (hg : ∀ l x, g { s with placementLog := l, m_dThisIterBeachErosionFine := x } = g s) :
    g (erodeFine RTN_OK ext s nCoast nPoly dPotentialErosion).2 = g s := by
  unfold erodeFine nDoUnconsErosionOnPolygon
  simp only
  split
  · split
    · exact hg _ s.m_dThisIterBeachErosionFine
    · split
      · exact (hupd _ _).trans (hg _ _)
      · exact hg _ s.m_dThisIterBeachErosionFine
  · rfl

/-- Erosion of sand writes only the record of calls, the undeposited sand total, the sand
erosion total and the sand erosion of the polygon. -/
theorem erodeSand_preserves {β : Type} (g : CSimulation → β) (RTN_OK : Int)
    (ext : Collaborator) (s : CSimulation) (nCoast : Nat) (nPoly : Int) (dPotentialErosion : ℚ)
    (hupd : ∀ t x, g (t.updPolygon nCoast nPoly (fun p => p.SetErosionUnconsSand x)) = g t)
    (hg : ∀ l x y, g { s with
      placementLog := l
      m_dThisIterDepositionSandDiff := x
      m_dThisIterBeachErosionSand := y } = g s) :
    g (erodeSand RTN_OK ext s nCoast nPoly dPotentialErosion).2.2 = g s := by
  unfold erodeSand nDoUnconsErosionOnPolygon
  simp only
  split
  · by_cases hc : s.m_dThisIterDepositionSandDiff > 0
    · simp only [hc, if_true]
      split
      · exact hg _ 0 s.m_dThisIterBeachErosionSand
      · split
        · exact (hupd _ _).trans (hg _ 0 _)
        · exact hg _ 0 s.m_dThisIterBeachErosionSand
    · simp only [hc, if_false]
      split
      · exact hg _ s.m_dThisIterDepositionSandDiff s.m_dThisIterBeachErosionSand
      · split
        · exact (hupd _ _).trans (hg _ s.m_dThisIterDepositionSandDiff _)
        · exact hg _ s.m_dThisIterDepositionSandDiff s.m_dThisIterBeachErosionSand
  · rfl

/-- Erosion of coarse sediment writes only the record of calls, the undeposited coarse total,
the coarse erosion total and the coarse erosion of the polygon. -/
theorem erodeCoarse_preserves {β : Type} (g : CSimulation → β) (RTN_OK : Int)
    (ext : Collaborator) (s : CSimulation) (nCoast : Nat) (nPoly : Int) (dPotentialErosion : ℚ)
    (hupd : ∀ t x, g (t.updPolygon nCoast nPoly (fun p => p.SetErosionUnconsCoarse x)) = g t)
    (hg : ∀ l x y, g { s with
      placementLog := l
      m_dThisIterDepositionCoarseDiff := x
      m_dThisIterBeachErosionCoarse := y } = g s) :
    g (erodeCoarse RTN_OK ext s nCoast nPoly dPotentialErosion).2.2 = g s := by
  unfold erodeCoarse nDoUnconsErosionOnPolygon
  simp only
  split
  · by_cases hc : s.m_dThisIterDepositionCoarseDiff > 0
    · simp only [hc, if_true]
      split
      · exact hg _ 0 s.m_dThisIterBeachErosionCoarse
      · split
        · exact (hupd _ _).trans (hg _ 0 _)
        · exact hg _ 0 s.m_dThisIterBeachErosionCoarse
    · simp only [hc, if_false]
      split
      · exact hg _ s.m_dThisIterDepositionCoarseDiff s.m_dThisIterBeachErosionCoarse
      · split
        · exact (hupd _ _).trans (hg _ s.m_dThisIterDepositionCoarseDiff _)
        · exact hg _ s.m_dThisIterDepositionCoarseDiff s.m_dThisIterBeachErosionCoarse
  · rfl

theorem foldl_preserves {σ ι β : Type} (g : σ → β) (step : σ → ι → σ)
    (h : ∀ t i, g (step t i) = g t) (l : List ι) (s : σ) : g (l.foldl step s) = g s := by
  induction l generalizing s with
  | nil => rfl
  | cons i l ih => rw [List.foldl_cons, ih, h]

/-- The grid-edge handling writes only the two off-grid totals and the sand and coarse
deposition of polygon 0. -/
theorem exportAtGridEdge_preserves {β : Type} (g : CSimulation → β) (s : CSimulation)
    (nCoast : Nat) (dSandEroded dCoarseEroded : ℚ)
    (hupdS : ∀ t i x, g (t.updPolygon nCoast i (fun p => p.AddDepositionUnconsSand x)) = g t)
    (hupdC : ∀ t i x, g (t.updPolygon nCoast i (fun p => p.AddDepositionUnconsCoarse x)) = g t)
    (hg : ∀ (t : CSimulation) a b, g { t with
      m_dThisIterLeftGridUnconsSand := a
      m_dThisIterLeftGridUnconsCoarse := b } = g t) :
    g (exportAtGridEdge s nCoast dSandEroded dCoarseEroded) = g s := by
  unfold exportAtGridEdge
  split
  · rfl
  · exact hg _ _ _
  · simp only
    split <;> split <;> simp only [hupdS, hupdC]

/-- The export to an adjacent polygon writes only the sand and coarse deposition of that
polygon. -/
theorem exportToAdjacent_preserves {β : Type} (g : CSimulation → β) (s : CSimulation)
    (nCoast : Nat) (nAdjPoly : Int) (dBoundaryShare dSandEroded dCoarseEroded : ℚ)
    (hupdS : ∀ t i x, g (t.updPolygon nCoast i (fun p => p.AddDepositionUnconsSand x)) = g t)
    (hupdC : ∀ t i x, g (t.updPolygon nCoast i (fun p => p.AddDepositionUnconsCoarse x)) = g t) :
    g (exportToAdjacent s nCoast nAdjPoly dBoundaryShare dSandEroded dCoarseEroded) = g s := by
  unfold exportToAdjacent
  simp only
  split <;> split <;> simp only [hupdS, hupdC]

/-- The export of eroded sediment writes only the two off-grid totals and the sand and coarse
deposition of polygons. -/
theorem exportSediment_preserves {β : Type} (g : CSimulation → β) (INT_NODATA : Int)
    (s : CSimulation) (nCoast : Nat) (nNumPolygons nPoly : Int) (dSandEroded dCoarseEroded : ℚ)
    (hupdS : ∀ t i x, g (t.updPolygon nCoast i (fun p => p.AddDepositionUnconsSand x)) = g t)
    (hupdC : ∀ t i x, g (t.updPolygon nCoast i (fun p => p.AddDepositionUnconsCoarse x)) = g t)
    (hg : ∀ (t : CSimulation) a b, g { t with
      m_dThisIterLeftGridUnconsSand := a
      m_dThisIterLeftGridUnconsCoarse := b } = g t) :
    g (exportSediment INT_NODATA s nCoast nNumPolygons nPoly dSandEroded dCoarseEroded) = g s := by
  unfold exportSediment
  simp only
  split
  · apply foldl_preserves
    intro t nn
    unfold exportSlotDownCoast
    simp only
    split
    · split
      · rfl
      · split
        · exact exportAtGridEdge_preserves g t nCoast _ _ hupdS hupdC hg
        · rfl
    · exact exportToAdjacent_preserves g t nCoast _ _ _ _ hupdS hupdC
  · apply foldl_preserves
    intro t nn
    unfold exportSlotUpCoast
    simp only
    split
    · split
      · rfl
      · split
        · exact exportAtGridEdge_preserves g t nCoast _ _ hupdS hupdC hg
        · rfl
    · exact exportToAdjacent_preserves g t nCoast _ _ _ _ hupdS hupdC

/-! ### The erosion steps -/

/-- What the fine erosion step does when the polygon stores fine sediment. -/
theorem erodeFine_of_stored (RTN_OK : Int) (ext : Collaborator) (s : CSimulation)
    (nCoast : Nat) (nPoly : Int) (dPotentialErosion : ℚ)
    (hStored : 0 < (s.pGetPolygon nCoast nPoly).dGetStoredUnconsFine) :
    erodeFine RTN_OK ext s nCoast nPoly dPotentialErosion =
      if (ext s.placementLog (fineErosionCall s nCoast nPoly dPotentialErosion)).1 ≠ RTN_OK then
        (some (ext s.placementLog (fineErosionCall s nCoast nPoly dPotentialErosion)).1,
          { s with placementLog :=
              s.placementLog ++ [fineErosionCall s nCoast nPoly dPotentialErosion] })
      else if 0 < (ext s.placementLog (fineErosionCall s nCoast nPoly dPotentialErosion)).2 then
        (none, CSimulation.updPolygon { s with
            placementLog := s.placementLog ++ [fineErosionCall s nCoast nPoly dPotentialErosion]
            m_dThisIterBeachErosionFine := s.m_dThisIterBeachErosionFine
              + (ext s.placementLog (fineErosionCall s nCoast nPoly dPotentialErosion)).2 }
          nCoast nPoly (fun p => p.SetErosionUnconsFine
            (-(ext s.placementLog (fineErosionCall s nCoast nPoly dPotentialErosion)).2)))
      else
        (none, { s with placementLog :=
            s.placementLog ++ [fineErosionCall s nCoast nPoly dPotentialErosion] }) := by
  unfold erodeFine nDoUnconsErosionOnPolygon fineErosionCall
  simp only [gt_iff_lt, hStored, if_true]

/-- What the sand erosion step does when the polygon stores sand. -/
theorem erodeSand_of_stored (RTN_OK : Int) (ext : Collaborator) (s : CSimulation)
    (nCoast : Nat) (nPoly : Int) (dPotentialErosion : ℚ)
    (hStored : 0 < (s.pGetPolygon nCoast nPoly).dGetStoredUnconsSand) :
    erodeSand RTN_OK ext s nCoast nPoly dPotentialErosion =
      if (ext s.placementLog (sandErosionCall s nCoast nPoly dPotentialErosion)).1 ≠ RTN_OK then
        (some (ext s.placementLog (sandErosionCall s nCoast nPoly dPotentialErosion)).1,
          (ext s.placementLog (sandErosionCall s nCoast nPoly dPotentialErosion)).2,
          { s with
            placementLog := s.placementLog ++ [sandErosionCall s nCoast nPoly dPotentialErosion]
            m_dThisIterDepositionSandDiff :=
              if s.m_dThisIterDepositionSandDiff > 0 then 0 else s.m_dThisIterDepositionSandDiff })
      else if 0 < (ext s.placementLog (sandErosionCall s nCoast nPoly dPotentialErosion)).2 then
        (none, (ext s.placementLog (sandErosionCall s nCoast nPoly dPotentialErosion)).2,
          CSimulation.updPolygon { s with
            placementLog := s.placementLog ++ [sandErosionCall s nCoast nPoly dPotentialErosion]
            m_dThisIterDepositionSandDiff :=
              if s.m_dThisIterDepositionSandDiff > 0 then 0 else s.m_dThisIterDepositionSandDiff
            m_dThisIterBeachErosionSand := s.m_dThisIterBeachErosionSand
              + (ext s.placementLog (sandErosionCall s nCoast nPoly dPotentialErosion)).2 }
          nCoast nPoly (fun p => p.SetErosionUnconsSand
            (-(ext s.placementLog (sandErosionCall s nCoast nPoly dPotentialErosion)).2)))
      else
        (none, (ext s.placementLog (sandErosionCall s nCoast nPoly dPotentialErosion)).2,
          { s with
            placementLog := s.placementLog ++ [sandErosionCall s nCoast nPoly dPotentialErosion]
            m_dThisIterDepositionSandDiff :=
              if s.m_dThisIterDepositionSandDiff > 0 then 0
              else s.m_dThisIterDepositionSandDiff }) := by
  unfold erodeSand nDoUnconsErosionOnPolygon sandErosionCall
  simp only [gt_iff_lt, hStored, if_true]
  by_cases hc : 0 < s.m_dThisIterDepositionSandDiff
  · simp only [hc, if_true]
  · simp only [hc, if_false]

/-- What the coarse erosion step does when the polygon stores coarse sediment. -/
theorem erodeCoarse_of_stored (RTN_OK : Int) (ext : Collaborator) (s : CSimulation)
    (nCoast : Nat) (nPoly : Int) (dPotentialErosion : ℚ)
    (hStored : 0 < (s.pGetPolygon nCoast nPoly).dGetStoredUnconsCoarse) :
    erodeCoarse RTN_OK ext s nCoast nPoly dPotentialErosion =
      if (ext s.placementLog (coarseErosionCall s nCoast nPoly dPotentialErosion)).1 ≠ RTN_OK then
        (some (ext s.placementLog (coarseErosionCall s nCoast nPoly dPotentialErosion)).1,
          (ext s.placementLog (coarseErosionCall s nCoast nPoly dPotentialErosion)).2,
          { s with
            placementLog := s.placementLog ++ [coarseErosionCall s nCoast nPoly dPotentialErosion]
            m_dThisIterDepositionCoarseDiff :=
              if s.m_dThisIterDepositionCoarseDiff > 0 then 0
              else s.m_dThisIterDepositionCoarseDiff })
      else if 0 < (ext s.placementLog (coarseErosionCall s nCoast nPoly dPotentialErosion)).2 then
        (none, (ext s.placementLog (coarseErosionCall s nCoast nPoly dPotentialErosion)).2,
          CSimulation.updPolygon { s with
            placementLog := s.placementLog ++ [coarseErosionCall s nCoast nPoly dPotentialErosion]
            m_dThisIterDepositionCoarseDiff :=
              if s.m_dThisIterDepositionCoarseDiff > 0 then 0
              else s.m_dThisIterDepositionCoarseDiff
            m_dThisIterBeachErosionCoarse := s.m_dThisIterBeachErosionCoarse
              + (ext s.placementLog (coarseErosionCall s nCoast nPoly dPotentialErosion)).2 }
          nCoast nPoly (fun p => p.SetErosionUnconsCoarse
            (-(ext s.placementLog (coarseErosionCall s nCoast nPoly dPotentialErosion)).2)))
      else
        (none, (ext s.placementLog (coarseErosionCall s nCoast nPoly dPotentialErosion)).2,
          { s with
            placementLog := s.placementLog ++ [coarseErosionCall s nCoast nPoly dPotentialErosion]
            m_dThisIterDepositionCoarseDiff :=
              if s.m_dThisIterDepositionCoarseDiff > 0 then 0
              else s.m_dThisIterDepositionCoarseDiff }) := by
  unfold erodeCoarse nDoUnconsErosionOnPolygon coarseErosionCall
  simp only [gt_iff_lt, hStored, if_true]
  by_cases hc : 0 < s.m_dThisIterDepositionCoarseDiff
  · simp only [hc, if_true]
  · simp only [hc, if_false]

/-- C8. Erosion bookkeeping: for each size class, when the erosion routine is called for a
polygon of the coast, returns `RTN_OK` and reports an eroded depth above zero, the polygon's
erosion of that class becomes minus that depth and the this-iteration erosion total of the class
grows by that depth; when the reported depth is not above zero neither of them changes. -/
theorem erosion_bookkeeping (RTN_OK : Int) (ext : Collaborator) (s : CSimulation)
    (nCoast : Nat) (nPoly : Int) (dPotentialErosion : ℚ) (hValid : s.hasPolygon nCoast nPoly) :
    (0 < (s.pGetPolygon nCoast nPoly).dGetStoredUnconsFine →
      (ext s.placementLog (fineErosionCall s nCoast nPoly dPotentialErosion)).1 = RTN_OK →
      (0 < (ext s.placementLog (fineErosionCall s nCoast nPoly dPotentialErosion)).2 →
        ((erodeFine RTN_OK ext s nCoast nPoly dPotentialErosion).2.pGetPolygon nCoast
            nPoly).dGetErosionUnconsFine =
          -(ext s.placementLog (fineErosionCall s nCoast nPoly dPotentialErosion)).2
        ∧ (erodeFine RTN_OK ext s nCoast nPoly dPotentialErosion).2.m_dThisIterBeachErosionFine =
          s.m_dThisIterBeachErosionFine
            + (ext s.placementLog (fineErosionCall s nCoast nPoly dPotentialErosion)).2)
      ∧ (¬ 0 < (ext s.placementLog (fineErosionCall s nCoast nPoly dPotentialErosion)).2 →
        ((erodeFine RTN_OK ext s nCoast nPoly dPotentialErosion).2.pGetPolygon nCoast
            nPoly).dGetErosionUnconsFine = (s.pGetPolygon nCoast nPoly).dGetErosionUnconsFine
        ∧ (erodeFine RTN_OK ext s nCoast nPoly dPotentialErosion).2.m_dThisIterBeachErosionFine =
          s.m_dThisIterBeachErosionFine))
    ∧ (0 < (s.pGetPolygon nCoast nPoly).dGetStoredUnconsSand →
      (ext s.placementLog (sandErosionCall s nCoast nPoly dPotentialErosion)).1 = RTN_OK →
      (0 < (ext s.placementLog (sandErosionCall s nCoast nPoly dPotentialErosion)).2 →
        ((erodeSand RTN_OK ext s nCoast nPoly dPotentialErosion).2.2.pGetPolygon nCoast
            nPoly).dGetErosionUnconsSand =
          -(ext s.placementLog (sandErosionCall s nCoast nPoly dPotentialErosion)).2
        ∧ (erodeSand RTN_OK ext s nCoast nPoly dPotentialErosion).2.2.m_dThisIterBeachErosionSand =
          s.m_dThisIterBeachErosionSand
            + (ext s.placementLog (sandErosionCall s nCoast nPoly dPotentialErosion)).2)
      ∧ (¬ 0 < (ext s.placementLog (sandErosionCall s nCoast nPoly dPotentialErosion)).2 →
        ((erodeSand RTN_OK ext s nCoast nPoly dPotentialErosion).2.2.pGetPolygon nCoast
            nPoly).dGetErosionUnconsSand = (s.pGetPolygon nCoast nPoly).dGetErosionUnconsSand
        ∧ (erodeSand RTN_OK ext s nCoast nPoly dPotentialErosion).2.2.m_dThisIterBeachErosionSand =
          s.m_dThisIterBeachErosionSand))
    ∧ (0 < (s.pGetPolygon nCoast nPoly).dGetStoredUnconsCoarse →
      (ext s.placementLog (coarseErosionCall s nCoast nPoly dPotentialErosion)).1 = RTN_OK →
      (0 < (ext s.placementLog (coarseErosionCall s nCoast nPoly dPotentialErosion)).2 →
        ((erodeCoarse RTN_OK ext s nCoast nPoly dPotentialErosion).2.2.pGetPolygon nCoast
            nPoly).dGetErosionUnconsCoarse =
          -(ext s.placementLog (coarseErosionCall s nCoast nPoly dPotentialErosion)).2
        ∧ (erodeCoarse RTN_OK ext s nCoast nPoly
            dPotentialErosion).2.2.m_dThisIterBeachErosionCoarse =
          s.m_dThisIterBeachErosionCoarse
            + (ext s.placementLog (coarseErosionCall s nCoast nPoly dPotentialErosion)).2)
      ∧ (¬ 0 < (ext s.placementLog (coarseErosionCall s nCoast nPoly dPotentialErosion)).2 →
        ((erodeCoarse RTN_OK ext s nCoast nPoly dPotentialErosion).2.2.pGetPolygon nCoast
            nPoly).dGetErosionUnconsCoarse = (s.pGetPolygon nCoast nPoly).dGetErosionUnconsCoarse
        ∧ (erodeCoarse RTN_OK ext s nCoast nPoly
            dPotentialErosion).2.2.m_dThisIterBeachErosionCoarse =
          s.m_dThisIterBeachErosionCoarse)) := by
  refine ⟨?_, ?_, ?_⟩
  · intro hStored hOK
    rw [erodeFine_of_stored RTN_OK ext s nCoast nPoly dPotentialErosion hStored]
    simp only [hOK, ne_eq, not_true_eq_false, if_false]
    constructor
    · intro he
      simp only [he, if_true, updPolygon_m_dThisIterBeachErosionFine, and_true]
      rw [pGetPolygon_updPolygon_self]
      · rfl
      · exact hValid
    · intro he
      simp only [he, if_false, and_true]
      rfl
  · intro hStored hOK
    rw [erodeSand_of_stored RTN_OK ext s nCoast nPoly dPotentialErosion hStored]
    simp only [hOK, ne_eq, not_true_eq_false, if_false]
    constructor
    · intro he
      simp only [he, if_true, updPolygon_m_dThisIterBeachErosionSand, and_true]
      rw [pGetPolygon_updPolygon_self]
      · rfl
      · exact hValid
    · intro he
      simp only [he, if_false, and_true]
      rfl
  · intro hStored hOK
    rw [erodeCoarse_of_stored RTN_OK ext s nCoast nPoly dPotentialErosion hStored]
    simp only [hOK, ne_eq, not_true_eq_false, if_false]
    constructor
    · intro he
      simp only [he, if_true, updPolygon_m_dThisIterBeachErosionCoarse, and_true]
      rw [pGetPolygon_updPolygon_self]
      · rfl
      · exact hValid
    · intro he
      simp only [he, if_false, and_true]
      rfl

/-- Witness for C8 on `carrySim`: its polygon 0 exists; the sand erosion routine is asked for
9/2 and removes it all, so the sand erosion of the polygon becomes -9/2 and the sand erosion
total 9/2. -/
theorem erosion_bookkeeping_witness :
    carrySim.hasPolygon 0 0
    ∧ ((erodeSand 0 placeAll carrySim 0 0 10).2.2.pGetPolygon 0 0).dGetErosionUnconsSand = -(9 / 2)
    ∧ (erodeSand 0 placeAll carrySim 0 0 10).2.2.m_dThisIterBeachErosionSand = 9 / 2 := by
  have hValid : carrySim.hasPolygon 0 0 := by
    unfold CSimulation.hasPolygon
    decide!
  have h := (erosion_bookkeeping 0 placeAll carrySim 0 0 10 hValid).2.1 (by decide!) (by decide!)
  have h1 := h.1 (by decide!)
  refine ⟨hValid, ?_, ?_⟩
  · rw [h1.1]; decide!
  · rw [h1.2]; decide!

/-! ### The export step -/

theorem exportToAdjacent_self (s : CSimulation) (nCoast : Nat) (nAdjPoly : Int)
    (dBoundaryShare dSandEroded dCoarseEroded : ℚ) (h : s.hasPolygon nCoast nAdjPoly) :
    ((exportToAdjacent s nCoast nAdjPoly dBoundaryShare dSandEroded dCoarseEroded).pGetPolygon
        nCoast nAdjPoly).dGetDepositionUnconsSand =
      (s.pGetPolygon nCoast nAdjPoly).dGetDepositionUnconsSand
        + (if 0 < dSandEroded then dSandEroded * dBoundaryShare else 0)
    ∧ ((exportToAdjacent s nCoast nAdjPoly dBoundaryShare dSandEroded dCoarseEroded).pGetPolygon
        nCoast nAdjPoly).dGetDepositionUnconsCoarse =
      (s.pGetPolygon nCoast nAdjPoly).dGetDepositionUnconsCoarse
        + (if 0 < dCoarseEroded then dCoarseEroded * dBoundaryShare else 0) := by
  unfold exportToAdjacent
  simp only [gt_iff_lt]
  by_cases hS : 0 < dSandEroded <;> by_cases hC : 0 < dCoarseEroded <;>
    simp only [hS, hC, if_true, if_false, add_zero]
  · rw [pGetPolygon_updPolygon_self _ _ _ _ ((hasPolygon_updPolygon _ _ _ _ _).mpr h),
      pGetPolygon_updPolygon_self _ _ _ _ h]
    exact ⟨rfl, rfl⟩
  · rw [pGetPolygon_updPolygon_self _ _ _ _ h]
    exact ⟨rfl, rfl⟩
  · rw [pGetPolygon_updPolygon_self _ _ _ _ h]
    exact ⟨rfl, rfl⟩
  · exact ⟨trivial, trivial⟩

theorem exportToAdjacent_other (s : CSimulation) (nCoast : Nat) (nAdjPoly nOther : Int)
    (dBoundaryShare dSandEroded dCoarseEroded : ℚ) (h : nAdjPoly ≠ nOther) :
    (exportToAdjacent s nCoast nAdjPoly dBoundaryShare dSandEroded dCoarseEroded).pGetPolygon
        nCoast nOther = s.pGetPolygon nCoast nOther := by
  unfold exportToAdjacent
  simp only [gt_iff_lt]
  split <;> split <;> simp only [pGetPolygon_updPolygon_ne _ _ _ _ _ h]

theorem exportToAdjacent_leftGrid (s : CSimulation) (nCoast : Nat) (nAdjPoly : Int)
    (dBoundaryShare dSandEroded dCoarseEroded : ℚ) :
    (exportToAdjacent s nCoast nAdjPoly dBoundaryShare dSandEroded
        dCoarseEroded).m_dThisIterLeftGridUnconsSand = s.m_dThisIterLeftGridUnconsSand
    ∧ (exportToAdjacent s nCoast nAdjPoly dBoundaryShare dSandEroded
        dCoarseEroded).m_dThisIterLeftGridUnconsCoarse = s.m_dThisIterLeftGridUnconsCoarse := by
  unfold exportToAdjacent
  simp only [gt_iff_lt]
  split <;> split <;> simp

/-- C9. Export to a neighbour: when slot `nn` of the adjacent polygons of polygon `nPoly` in the
direction of movement holds the ID `nAdj` of a polygon of the coast, not the grid-edge value, the
turn of the export loop for that slot adds the eroded sand times the boundary share of the slot
to the sand deposition of `nAdj` (when the eroded sand is above zero) and the eroded coarse
sediment times that share to its coarse deposition (when the eroded coarse sediment is above
zero); the depositions of the other polygons and the two off-grid totals are unchanged. -/
theorem export_to_neighbour (INT_NODATA : Int) (s : CSimulation) (nCoast : Nat)
    (nNumPolygons nPoly : Int) (dSandEroded dCoarseEroded : ℚ) (nn : Nat) (nAdj : Int)
    (hAdj : nAdj ≠ INT_NODATA) (hValid : s.hasPolygon nCoast nAdj) :
    ((s.pGetPolygon nCoast nPoly).nGetDownCoastAdjacentPolygon nn = nAdj →
      ((exportSlotDownCoast INT_NODATA nCoast nNumPolygons nPoly dSandEroded dCoarseEroded s
          nn).pGetPolygon nCoast nAdj).dGetDepositionUnconsSand =
        (s.pGetPolygon nCoast nAdj).dGetDepositionUnconsSand
          + (if 0 < dSandEroded then
              dSandEroded * (s.pGetPolygon nCoast nPoly).dGetDownCoastAdjacentPolygonBoundaryShare nn
            else 0)
      ∧ ((exportSlotDownCoast INT_NODATA nCoast nNumPolygons nPoly dSandEroded dCoarseEroded s
          nn).pGetPolygon nCoast nAdj).dGetDepositionUnconsCoarse =
        (s.pGetPolygon nCoast nAdj).dGetDepositionUnconsCoarse
          + (if 0 < dCoarseEroded then
              dCoarseEroded
                * (s.pGetPolygon nCoast nPoly).dGetDownCoastAdjacentPolygonBoundaryShare nn
            else 0)
      ∧ (∀ nOther, nOther ≠ nAdj →
          (exportSlotDownCoast INT_NODATA nCoast nNumPolygons nPoly dSandEroded dCoarseEroded s
            nn).pGetPolygon nCoast nOther = s.pGetPolygon nCoast nOther)
      ∧ (exportSlotDownCoast INT_NODATA nCoast nNumPolygons nPoly dSandEroded dCoarseEroded s
          nn).m_dThisIterLeftGridUnconsSand = s.m_dThisIterLeftGridUnconsSand
      ∧ (exportSlotDownCoast INT_NODATA nCoast nNumPolygons nPoly dSandEroded dCoarseEroded s
          nn).m_dThisIterLeftGridUnconsCoarse = s.m_dThisIterLeftGridUnconsCoarse)
    ∧ ((s.pGetPolygon nCoast nPoly).nGetUpCoastAdjacentPolygon nn = nAdj →
      ((exportSlotUpCoast INT_NODATA nCoast nNumPolygons nPoly dSandEroded dCoarseEroded s
          nn).pGetPolygon nCoast nAdj).dGetDepositionUnconsSand =
        (s.pGetPolygon nCoast nAdj).dGetDepositionUnconsSand
          + (if 0 < dSandEroded then
              dSandEroded * (s.pGetPolygon nCoast nPoly).dGetUpCoastAdjacentPolygonBoundaryShare nn
            else 0)
      ∧ ((exportSlotUpCoast INT_NODATA nCoast nNumPolygons nPoly dSandEroded dCoarseEroded s
          nn).pGetPolygon nCoast nAdj).dGetDepositionUnconsCoarse =
        (s.pGetPolygon nCoast nAdj).dGetDepositionUnconsCoarse
          + (if 0 < dCoarseEroded then
              dCoarseEroded * (s.pGetPolygon nCoast nPoly).dGetUpCoastAdjacentPolygonBoundaryShare nn
            else 0)
      ∧ (∀ nOther, nOther ≠ nAdj →
          (exportSlotUpCoast INT_NODATA nCoast nNumPolygons nPoly dSandEroded dCoarseEroded s
            nn).pGetPolygon nCoast nOther = s.pGetPolygon nCoast nOther)
      ∧ (exportSlotUpCoast INT_NODATA nCoast nNumPolygons nPoly dSandEroded dCoarseEroded s
          nn).m_dThisIterLeftGridUnconsSand = s.m_dThisIterLeftGridUnconsSand
      ∧ (exportSlotUpCoast INT_NODATA nCoast nNumPolygons nPoly dSandEroded dCoarseEroded s
          nn).m_dThisIterLeftGridUnconsCoarse = s.m_dThisIterLeftGridUnconsCoarse) := by
  constructor
  · intro hSlot
    unfold exportSlotDownCoast
    simp only [hSlot, hAdj, if_false]
    exact ⟨(exportToAdjacent_self s nCoast nAdj _ _ _ hValid).1,
      (exportToAdjacent_self s nCoast nAdj _ _ _ hValid).2,
      fun nOther hne => exportToAdjacent_other s nCoast nAdj nOther _ _ _ (Ne.symm hne),
      (exportToAdjacent_leftGrid s nCoast nAdj _ _ _).1,
      (exportToAdjacent_leftGrid s nCoast nAdj _ _ _).2⟩
  · intro hSlot
    unfold exportSlotUpCoast
    simp only [hSlot, hAdj, if_false]
    exact ⟨(exportToAdjacent_self s nCoast nAdj _ _ _ hValid).1,
      (exportToAdjacent_self s nCoast nAdj _ _ _ hValid).2,
      fun nOther hne => exportToAdjacent_other s nCoast nAdj nOther _ _ _ (Ne.symm hne),
      (exportToAdjacent_leftGrid s nCoast nAdj _ _ _).1,
      (exportToAdjacent_leftGrid s nCoast nAdj _ _ _).2⟩

/-- Witness for C9 on `exportSim`: polygon 0 eroded 10 units of sand and 4 units of coarse
sediment; slot 0 of its down-coast list holds polygon 1 with share 1/2, whose sand deposition
becomes 5 and coarse deposition 2. -/
theorem export_to_neighbour_witness :
    (1 : Int) ≠ -9999 ∧ exportSim.hasPolygon 0 1
    ∧ ((exportSlotDownCoast (-9999) 0 2 0 10 4 exportSim 0).pGetPolygon 0
        1).dGetDepositionUnconsSand = 5
    ∧ ((exportSlotDownCoast (-9999) 0 2 0 10 4 exportSim 0).pGetPolygon 0
        1).dGetDepositionUnconsCoarse = 2 := by
  have hValid : exportSim.hasPolygon 0 1 := by
    unfold CSimulation.hasPolygon
    decide!
  have h := (export_to_neighbour (-9999) exportSim 0 2 0 10 4 0 1 (by decide) hValid).1
    (by decide!)
  refine ⟨by decide, hValid, ?_, ?_⟩
  · rw [h.1]; decide!
  · rw [h.2.1]; decide!

/-! ### Sums of deposition over a coast -/

theorem sum_map_modify (g : CGeomCoastPolygon → ℚ) (f : CGeomCoastPolygon → CGeomCoastPolygon)
    (l : List CGeomCoastPolygon) (i : Nat) (h : i < l.length) :
    ((l.modify f i).map g).sum =
      (l.map g).sum + (g (f (l.getD i emptyPolygon)) - g (l.getD i emptyPolygon)) := by
  induction l generalizing i with
  | nil => simp at h
  | cons a l ih =>
    cases i with
    | zero => simp; ring
    | succ i =>
      have h1 : i < l.length := by simpa using h
      simp only [List.modify_succ_cons, List.map_cons, List.sum_cons, ih i h1,
        List.getD_cons_succ]
      ring

theorem sumDepositionSand_updPolygon (s : CSimulation) (nCoast : Nat) (nPoly : Int)
    (f : CGeomCoastPolygon → CGeomCoastPolygon) (h : s.hasPolygon nCoast nPoly) :
    sumDepositionSand (s.updPolygon nCoast nPoly f) nCoast =
      sumDepositionSand s nCoast + ((f (s.pGetPolygon nCoast nPoly)).dGetDepositionUnconsSand
        - (s.pGetPolygon nCoast nPoly).dGetDepositionUnconsSand) := by
  obtain ⟨h0, h1⟩ := h
  have hlt : nPoly.toNat < (s.coast nCoast).length := by
    unfold CSimulation.nGetNumPolygons at h1
    omega
  unfold sumDepositionSand CSimulation.pGetPolygon
  rw [coast_updPolygon]
  simp only [h0, if_true]
  exact sum_map_modify _ f _ _ hlt

theorem sumDepositionCoarse_updPolygon (s : CSimulation) (nCoast : Nat) (nPoly : Int)
    (f : CGeomCoastPolygon → CGeomCoastPolygon) (h : s.hasPolygon nCoast nPoly) :
    sumDepositionCoarse (s.updPolygon nCoast nPoly f) nCoast =
      sumDepositionCoarse s nCoast + ((f (s.pGetPolygon nCoast nPoly)).dGetDepositionUnconsCoarse
        - (s.pGetPolygon nCoast nPoly).dGetDepositionUnconsCoarse) := by
  obtain ⟨h0, h1⟩ := h
  have hlt : nPoly.toNat < (s.coast nCoast).length := by
    unfold CSimulation.nGetNumPolygons at h1
    omega
  unfold sumDepositionCoarse CSimulation.pGetPolygon
  rw [coast_updPolygon]
  simp only [h0, if_true]
  exact sum_map_modify _ f _ _ hlt

theorem exportToAdjacent_sums (s : CSimulation) (nCoast : Nat) (nAdjPoly : Int)
    (dBoundaryShare dSandEroded dCoarseEroded : ℚ) (h : s.hasPolygon nCoast nAdjPoly) :
    sumDepositionSand (exportToAdjacent s nCoast nAdjPoly dBoundaryShare dSandEroded
        dCoarseEroded) nCoast =
      sumDepositionSand s nCoast + (if 0 < dSandEroded then dSandEroded * dBoundaryShare else 0)
    ∧ sumDepositionCoarse (exportToAdjacent s nCoast nAdjPoly dBoundaryShare dSandEroded
        dCoarseEroded) nCoast =
      sumDepositionCoarse s nCoast
        + (if 0 < dCoarseEroded then dCoarseEroded * dBoundaryShare else 0) := by
  unfold exportToAdjacent
  simp only [gt_iff_lt]
  have h' : ∀ f, (s.updPolygon nCoast nAdjPoly f).hasPolygon nCoast nAdjPoly :=
    fun f => (hasPolygon_updPolygon _ _ _ _ _).mpr h
  by_cases hS : 0 < dSandEroded <;> by_cases hC : 0 < dCoarseEroded <;>
    simp only [hS, hC, if_true, if_false, add_zero, and_self]
  · rw [sumDepositionSand_updPolygon _ _ _ _ (h' _), sumDepositionCoarse_updPolygon _ _ _ _ (h' _),
      sumDepositionSand_updPolygon _ _ _ _ h, sumDepositionCoarse_updPolygon _ _ _ _ h,
      pGetPolygon_updPolygon_self _ _ _ _ h]
    simp [CGeomCoastPolygon.AddDepositionUnconsSand, CGeomCoastPolygon.AddDepositionUnconsCoarse,
      CGeomCoastPolygon.dGetDepositionUnconsSand, CGeomCoastPolygon.dGetDepositionUnconsCoarse]
  · rw [sumDepositionSand_updPolygon _ _ _ _ h, sumDepositionCoarse_updPolygon _ _ _ _ h]
    simp [CGeomCoastPolygon.AddDepositionUnconsSand,
      CGeomCoastPolygon.dGetDepositionUnconsSand, CGeomCoastPolygon.dGetDepositionUnconsCoarse]
  · rw [sumDepositionSand_updPolygon _ _ _ _ h, sumDepositionCoarse_updPolygon _ _ _ _ h]
    simp [CGeomCoastPolygon.AddDepositionUnconsCoarse,
      CGeomCoastPolygon.dGetDepositionUnconsSand, CGeomCoastPolygon.dGetDepositionUnconsCoarse]

theorem hasPolygon_congr {β : Type} (g : CGeomCoastPolygon → β) (s t : CSimulation)
    (nCoast : Nat) (h : (t.coast nCoast).map g = (s.coast nCoast).map g) (nPoly : Int) :
    t.hasPolygon nCoast nPoly ↔ s.hasPolygon nCoast nPoly := by
  unfold CSimulation.hasPolygon
  rw [nGetNumPolygons_congr g s t nCoast h]

/-- A run of turns of the export loop in which every turn exports to an existing adjacent
polygon: the topology is kept, the sums of deposition grow by the exported depths, and the
off-grid totals are kept. -/
theorem foldl_export_adjacent (s : CSimulation) (nCoast : Nat) (dSandEroded dCoarseEroded : ℚ)
    (a : Nat → Int) (sh : Nat → ℚ) (step : CSimulation → Nat → CSimulation) (l : List Nat)
    (hstep : ∀ t nn, (t.coast nCoast).map topology = (s.coast nCoast).map topology → nn ∈ l →
      step t nn = exportToAdjacent t nCoast (a nn) (sh nn) dSandEroded dCoarseEroded)
    (hvalid : ∀ nn ∈ l, s.hasPolygon nCoast (a nn)) :
    ∀ t, (t.coast nCoast).map topology = (s.coast nCoast).map topology →
      ((l.foldl step t).coast nCoast).map topology = (s.coast nCoast).map topology
      ∧ sumDepositionSand (l.foldl step t) nCoast = sumDepositionSand t nCoast
          + (l.map (fun nn => if 0 < dSandEroded then dSandEroded * sh nn else 0)).sum
      ∧ sumDepositionCoarse (l.foldl step t) nCoast = sumDepositionCoarse t nCoast
          + (l.map (fun nn => if 0 < dCoarseEroded then dCoarseEroded * sh nn else 0)).sum
      ∧ (l.foldl step t).m_dThisIterLeftGridUnconsSand = t.m_dThisIterLeftGridUnconsSand
      ∧ (l.foldl step t).m_dThisIterLeftGridUnconsCoarse = t.m_dThisIterLeftGridUnconsCoarse := by
  induction l with
  | nil => intro t ht; simp [ht]
  | cons nn l ih =>
    intro t ht
    have hmem : nn ∈ nn :: l := List.mem_cons_self nn l
    have hst := hstep t nn ht hmem
    have hval : t.hasPolygon nCoast (a nn) :=
      (hasPolygon_congr topology s t nCoast ht _).mpr (hvalid nn hmem)
    have ht1 : ((step t nn).coast nCoast).map topology = (s.coast nCoast).map topology := by
      rw [hst]
      exact (exportToAdjacent_preserves (fun u => (u.coast nCoast).map topology) t nCoast _ _ _ _
        (fun u i x => coast_updPolygon_map topology u nCoast i _ (fun _ => rfl))
        (fun u i x => coast_updPolygon_map topology u nCoast i _ (fun _ => rfl))).trans ht
    have ih1 := ih (fun u n hu hn => hstep u n hu (List.mem_cons_of_mem _ hn))
      (fun n hn => hvalid n (List.mem_cons_of_mem _ hn)) (step t nn) ht1
    obtain ⟨i1, i2, i3, i4, i5⟩ := ih1
    have hs := exportToAdjacent_sums t nCoast (a nn) (sh nn) dSandEroded dCoarseEroded hval
    have hl := exportToAdjacent_leftGrid t nCoast (a nn) (sh nn) dSandEroded dCoarseEroded
    simp only [List.foldl_cons, List.map_cons, List.sum_cons]
    refine ⟨i1, ?_, ?_, ?_, ?_⟩
    · rw [i2, hst, hs.1]; ring
    · rw [i3, hst, hs.2]; ring
    · rw [i4, hst, hl.1]
    · rw [i5, hst, hl.2]

theorem sum_map_mul_indicator (d : ℚ) (sh : Nat → ℚ) (l : List Nat) :
    (l.map (fun nn => if 0 < d then d * sh nn else 0)).sum =
      if 0 < d then d * (l.map sh).sum else 0 := by
  induction l with
  | nil => simp
  | cons nn l ih =>
    simp only [List.map_cons, List.sum_cons, ih]
    split <;> ring

/-- The export of a polygon whose adjacent polygons in the direction of movement all exist and
are not the grid edge. -/
theorem exportSediment_adjacent (INT_NODATA : Int) (s : CSimulation) (nCoast : Nat)
    (nNumPolygons nPoly : Int) (dSandEroded dCoarseEroded : ℚ)
    (hAdj : ∀ a ∈ transportAdjacent (s.pGetPolygon nCoast nPoly),
      a ≠ INT_NODATA ∧ s.hasPolygon nCoast a) :
    ((exportSediment INT_NODATA s nCoast nNumPolygons nPoly dSandEroded dCoarseEroded).coast
        nCoast).map topology = (s.coast nCoast).map topology
    ∧ sumDepositionSand
        (exportSediment INT_NODATA s nCoast nNumPolygons nPoly dSandEroded dCoarseEroded) nCoast =
      sumDepositionSand s nCoast + (if 0 < dSandEroded then
        dSandEroded * sumTransportShares (s.pGetPolygon nCoast nPoly) else 0)
    ∧ sumDepositionCoarse
        (exportSediment INT_NODATA s nCoast nNumPolygons nPoly dSandEroded dCoarseEroded) nCoast =
      sumDepositionCoarse s nCoast + (if 0 < dCoarseEroded then
        dCoarseEroded * sumTransportShares (s.pGetPolygon nCoast nPoly) else 0)
    ∧ (exportSediment INT_NODATA s nCoast nNumPolygons nPoly dSandEroded
        dCoarseEroded).m_dThisIterLeftGridUnconsSand = s.m_dThisIterLeftGridUnconsSand
    ∧ (exportSediment INT_NODATA s nCoast nNumPolygons nPoly dSandEroded
        dCoarseEroded).m_dThisIterLeftGridUnconsCoarse = s.m_dThisIterLeftGridUnconsCoarse := by
  unfold exportSediment
  simp only
  by_cases hDown : (s.pGetPolygon nCoast nPoly).bDownCoastThisIter = true
  · simp only [hDown, if_true]
    have hlist : transportAdjacent (s.pGetPolygon nCoast nPoly) =
        (s.pGetPolygon nCoast nPoly).m_VnDownCoastAdjacentPolygon := by
      unfold transportAdjacent; simp [hDown]
    have hshare : transportShare (s.pGetPolygon nCoast nPoly) =
        (s.pGetPolygon nCoast nPoly).dGetDownCoastAdjacentPolygonBoundaryShare := by
      funext nn; unfold transportShare; simp [hDown]
    have key := foldl_export_adjacent s nCoast dSandEroded dCoarseEroded
      (fun nn => (s.pGetPolygon nCoast nPoly).nGetDownCoastAdjacentPolygon nn)
      (fun nn => (s.pGetPolygon nCoast nPoly).dGetDownCoastAdjacentPolygonBoundaryShare nn)
      (exportSlotDownCoast INT_NODATA nCoast nNumPolygons nPoly dSandEroded dCoarseEroded)
      (List.range (s.pGetPolygon nCoast nPoly).nGetNumDownCoastAdjacentPolygons)
      (by
        intro t nn ht hnn
        have htopo := pGetPolygon_congr topology s t nCoast ht nPoly
        have h4 : (t.pGetPolygon nCoast nPoly).m_VnDownCoastAdjacentPolygon =
            (s.pGetPolygon nCoast nPoly).m_VnDownCoastAdjacentPolygon :=
          congrArg (fun x => x.2.2.2.1) htopo
        have h6 : (t.pGetPolygon nCoast nPoly).m_VdDownCoastAdjacentPolygonBoundaryShare =
            (s.pGetPolygon nCoast nPoly).m_VdDownCoastAdjacentPolygonBoundaryShare :=
          congrArg (fun x => x.2.2.2.2.2) htopo
        have hlt : nn < (s.pGetPolygon nCoast nPoly).m_VnDownCoastAdjacentPolygon.length := by
          simpa [CGeomCoastPolygon.nGetNumDownCoastAdjacentPolygons] using hnn
        have hne : (s.pGetPolygon nCoast nPoly).m_VnDownCoastAdjacentPolygon.getD nn 0
            ≠ INT_NODATA := by
          apply (hAdj _ _).1
          rw [hlist, List.getD_eq_getElem _ _ hlt]
          exact List.getElem_mem _
        unfold exportSlotDownCoast
        simp only [CGeomCoastPolygon.nGetDownCoastAdjacentPolygon,
          CGeomCoastPolygon.dGetDownCoastAdjacentPolygonBoundaryShare, h4, h6, hne, if_false])
      (by
        intro nn hnn
        have hlt : nn < (s.pGetPolygon nCoast nPoly).m_VnDownCoastAdjacentPolygon.length := by
          simpa [CGeomCoastPolygon.nGetNumDownCoastAdjacentPolygons] using hnn
        apply (hAdj _ _).2
        rw [hlist]
        simp only [CGeomCoastPolygon.nGetDownCoastAdjacentPolygon, List.getD_eq_getElem _ _ hlt]
        exact List.getElem_mem _)
      s rfl
    obtain ⟨k1, k2, k3, k4, k5⟩ := key
    refine ⟨k1, ?_, ?_, k4, k5⟩
    · rw [k2, sum_map_mul_indicator]
      unfold sumTransportShares
      rw [hlist, hshare]
      rfl
    · rw [k3, sum_map_mul_indicator]
      unfold sumTransportShares
      rw [hlist, hshare]
      rfl
  · simp only [hDown, Bool.false_eq_true, if_false]
    have hlist : transportAdjacent (s.pGetPolygon nCoast nPoly) =
        (s.pGetPolygon nCoast nPoly).m_VnUpCoastAdjacentPolygon := by
      unfold transportAdjacent; simp [hDown]
    have hshare : transportShare (s.pGetPolygon nCoast nPoly) =
        (s.pGetPolygon nCoast nPoly).dGetUpCoastAdjacentPolygonBoundaryShare := by
      funext nn; unfold transportShare; simp [hDown]
    have key := foldl_export_adjacent s nCoast dSandEroded dCoarseEroded
      (fun nn => (s.pGetPolygon nCoast nPoly).nGetUpCoastAdjacentPolygon nn)
      (fun nn => (s.pGetPolygon nCoast nPoly).dGetUpCoastAdjacentPolygonBoundaryShare nn)
      (exportSlotUpCoast INT_NODATA nCoast nNumPolygons nPoly dSandEroded dCoarseEroded)
      (List.range (s.pGetPolygon nCoast nPoly).nGetNumUpCoastAdjacentPolygons)
      (by
        intro t nn ht hnn
        have htopo := pGetPolygon_congr topology s t nCoast ht nPoly
        have h3 : (t.pGetPolygon nCoast nPoly).m_VnUpCoastAdjacentPolygon =
            (s.pGetPolygon nCoast nPoly).m_VnUpCoastAdjacentPolygon :=
          congrArg (fun x => x.2.2.1) htopo
        have h5 : (t.pGetPolygon nCoast nPoly).m_VdUpCoastAdjacentPolygonBoundaryShare =
            (s.pGetPolygon nCoast nPoly).m_VdUpCoastAdjacentPolygonBoundaryShare :=
          congrArg (fun x => x.2.2.2.2.1) htopo
        have hlt : nn < (s.pGetPolygon nCoast nPoly).m_VnUpCoastAdjacentPolygon.length := by
          simpa [CGeomCoastPolygon.nGetNumUpCoastAdjacentPolygons] using hnn
        have hne : (s.pGetPolygon nCoast nPoly).m_VnUpCoastAdjacentPolygon.getD nn 0
            ≠ INT_NODATA := by
          apply (hAdj _ _).1
          rw [hlist, List.getD_eq_getElem _ _ hlt]
          exact List.getElem_mem _
        unfold exportSlotUpCoast
        simp only [CGeomCoastPolygon.nGetUpCoastAdjacentPolygon,
          CGeomCoastPolygon.dGetUpCoastAdjacentPolygonBoundaryShare, h3, h5, hne, if_false])
      (by
        intro nn hnn
        have hlt : nn < (s.pGetPolygon nCoast nPoly).m_VnUpCoastAdjacentPolygon.length := by
          simpa [CGeomCoastPolygon.nGetNumUpCoastAdjacentPolygons] using hnn
        apply (hAdj _ _).2
        rw [hlist]
        simp only [CGeomCoastPolygon.nGetUpCoastAdjacentPolygon, List.getD_eq_getElem _ _ hlt]
        exact List.getElem_mem _)
      s rfl
    obtain ⟨k1, k2, k3, k4, k5⟩ := key
    refine ⟨k1, ?_, ?_, k4, k5⟩
    · rw [k2, sum_map_mul_indicator]
      unfold sumTransportShares
      rw [hlist, hshare]
      rfl
    · rw [k3, sum_map_mul_indicator]
      unfold sumTransportShares
      rw [hlist, hshare]
      rfl

/-- C10. Boundary-share distribution: for a polygon whose adjacent polygons in the direction of
movement are all polygons of the coast, none the grid-edge value, and whose boundary shares over
those slots sum to 1, the export of eroded sand and coarse depths (neither below zero) raises the
sum over all polygons of the sand deposition by the eroded sand, and the sum of the coarse
deposition by the eroded coarse sediment; a polygon that fills several slots is counted once for
every slot. -/
theorem boundary_share_distribution (INT_NODATA : Int) (s : CSimulation) (nCoast : Nat)
    (nNumPolygons nPoly : Int) (dSandEroded dCoarseEroded : ℚ)
    (hAdj : ∀ a ∈ transportAdjacent (s.pGetPolygon nCoast nPoly),
      a ≠ INT_NODATA ∧ s.hasPolygon nCoast a)
    (hShares : sumTransportShares (s.pGetPolygon nCoast nPoly) = 1)
    (hSand : 0 ≤ dSandEroded) (hCoarse : 0 ≤ dCoarseEroded) :
    sumDepositionSand
        (exportSediment INT_NODATA s nCoast nNumPolygons nPoly dSandEroded dCoarseEroded) nCoast
      - sumDepositionSand s nCoast = dSandEroded
    ∧ sumDepositionCoarse
        (exportSediment INT_NODATA s nCoast nNumPolygons nPoly dSandEroded dCoarseEroded) nCoast
      - sumDepositionCoarse s nCoast = dCoarseEroded := by
  obtain ⟨_, h2, h3, _, _⟩ := exportSediment_adjacent INT_NODATA s nCoast nNumPolygons nPoly
    dSandEroded dCoarseEroded hAdj
  rw [h2, h3, hShares]
  constructor
  · split
    · ring
    · have : dSandEroded = 0 := le_antisymm (not_lt.mp ‹_›) hSand
      rw [this]; ring
  · split
    · ring
    · have : dCoarseEroded = 0 := le_antisymm (not_lt.mp ‹_›) hCoarse
      rw [this]; ring

/-- Witness for C10 on `shareSim`: polygon 0 exports 10 units of sand and 4 of coarse sediment
to polygons 1 and 2 with shares 1/4 and 3/4; the sums of deposition, zero before, are 10 and 4
afterwards. -/
theorem boundary_share_distribution_witness :
    sumTransportShares (shareSim.pGetPolygon 0 0) = 1
    ∧ sumDepositionSand (exportSediment (-9999) shareSim 0 3 0 10 4) 0 = 10
    ∧ sumDepositionCoarse (exportSediment (-9999) shareSim 0 3 0 10 4) 0 = 4 := by
  have hShares : sumTransportShares (shareSim.pGetPolygon 0 0) = 1 := by decide!
  have h := boundary_share_distribution (-9999) shareSim 0 3 0 10 4 (by decide!) hShares
    (by decide!) (by decide!)
  have h0 : sumDepositionSand shareSim 0 = 0 := by decide!
  have h1 : sumDepositionCoarse shareSim 0 = 0 := by decide!
  rw [h0, h1, sub_zero, sub_zero] at h
  exact ⟨hShares, h.1, h.2⟩

/-! ### Mass balance of one polygon -/

theorem conservingPolygon_congr (INT_NODATA : Int) (n i : Nat) (p q : CGeomCoastPolygon)
    (h : topology p = topology q) :
    conservingPolygon INT_NODATA n i p ↔ conservingPolygon INT_NODATA n i q := by
  cases p; cases q
  simp only [topology, Prod.mk.injEq] at h
  obtain ⟨h1, h2, h3, h4, h5, h6⟩ := h
  subst h1 h2 h3 h4 h5 h6
  exact Iff.rfl

theorem conservingCoast_congr (INT_NODATA : Int) (s t : CSimulation) (nCoast : Nat)
    (h : (t.coast nCoast).map topology = (s.coast nCoast).map topology)
    (hs : conservingCoast INT_NODATA s nCoast) : conservingCoast INT_NODATA t nCoast := by
  intro i hi
  rw [nGetNumPolygons_congr topology s t nCoast h] at hi ⊢
  exact (conservingPolygon_congr INT_NODATA _ i _ _
    (pGetPolygon_congr topology s t nCoast h i)).mpr (hs i hi)

theorem routingView_topology (nCoast : Nat) (s t : CSimulation)
    (h : routingView nCoast t = routingView nCoast s) :
    (t.coast nCoast).map topology = (s.coast nCoast).map topology := by
  have h1 := congrArg (fun v => v.1.map (fun x => x.1)) h
  simpa [routingView, List.map_map, Function.comp] using h1

theorem routingView_sums (nCoast : Nat) (s t : CSimulation)
    (h : routingView nCoast t = routingView nCoast s) :
    sumDepositionSand t nCoast = sumDepositionSand s nCoast
    ∧ sumDepositionCoarse t nCoast = sumDepositionCoarse s nCoast
    ∧ t.m_nUnconsSedimentHandlingAtGridEdges = s.m_nUnconsSedimentHandlingAtGridEdges
    ∧ t.m_dThisIterLeftGridUnconsSand = s.m_dThisIterLeftGridUnconsSand
    ∧ t.m_dThisIterLeftGridUnconsCoarse = s.m_dThisIterLeftGridUnconsCoarse := by
  have h1 := congrArg (fun v => (v.1.map (fun x => x.2.1)).sum) h
  have h2 := congrArg (fun v => (v.1.map (fun x => x.2.2)).sum) h
  have h3 := congrArg (fun v => v.2.1) h
  have h4 := congrArg (fun v => v.2.2.1) h
  have h5 := congrArg (fun v => v.2.2.2) h
  refine ⟨?_, ?_, h3, h4, h5⟩
  · simpa [routingView, sumDepositionSand, List.map_map, Function.comp] using h1
  · simpa [routingView, sumDepositionCoarse, List.map_map, Function.comp] using h2

theorem routingView_updPolygon (nCoast : Nat) (s : CSimulation) (nPoly : Int)
    (f : CGeomCoastPolygon → CGeomCoastPolygon)
    (hf : ∀ p, (topology (f p), (f p).dGetDepositionUnconsSand, (f p).dGetDepositionUnconsCoarse)
      = (topology p, p.dGetDepositionUnconsSand, p.dGetDepositionUnconsCoarse)) :
    routingView nCoast (s.updPolygon nCoast nPoly f) = routingView nCoast s := by
  unfold routingView
  rw [coast_updPolygon_map _ s nCoast nPoly f hf]
  simp

theorem erodeSand_balance (RTN_OK : Int) (ext : Collaborator) (s : CSimulation) (nCoast : Nat)
    (nPoly : Int) (dPotentialErosion : ℚ)
    (hExt : ∀ l call, call.kind = PlacementKind.erosion → 0 ≤ (ext l call).2)
    (hOK : (erodeSand RTN_OK ext s nCoast nPoly dPotentialErosion).1 = none) :
    routingView nCoast (erodeSand RTN_OK ext s nCoast nPoly dPotentialErosion).2.2 =
        routingView nCoast s
    ∧ (erodeSand RTN_OK ext s nCoast nPoly dPotentialErosion).2.2.m_dThisIterBeachErosionSand =
        s.m_dThisIterBeachErosionSand
          + (erodeSand RTN_OK ext s nCoast nPoly dPotentialErosion).2.1
    ∧ 0 ≤ (erodeSand RTN_OK ext s nCoast nPoly dPotentialErosion).2.1
    ∧ (erodeSand RTN_OK ext s nCoast nPoly dPotentialErosion).2.2.m_dThisIterBeachErosionCoarse =
        s.m_dThisIterBeachErosionCoarse := by
  refine ⟨?_, ?_, ?_⟩
  · exact erodeSand_preserves (routingView nCoast) RTN_OK ext s nCoast nPoly dPotentialErosion
      (fun t x => routingView_updPolygon nCoast t nPoly _ (fun _ => rfl)) (fun _ _ _ => rfl)
  · by_cases hStored : 0 < (s.pGetPolygon nCoast nPoly).dGetStoredUnconsSand
    · rw [erodeSand_of_stored RTN_OK ext s nCoast nPoly dPotentialErosion hStored] at hOK ⊢
      have hnn := hExt s.placementLog (sandErosionCall s nCoast nPoly dPotentialErosion) rfl
      split at hOK
      · simp at hOK
      · rw [if_neg ‹_›]
        split
        · simp
        · have h0 : (ext s.placementLog
              (sandErosionCall s nCoast nPoly dPotentialErosion)).2 = 0 :=
            le_antisymm (not_lt.mp ‹_›) hnn
          simp [h0]
    · unfold erodeSand
      simp [hStored]
  · constructor
    · by_cases hStored : 0 < (s.pGetPolygon nCoast nPoly).dGetStoredUnconsSand
      · rw [erodeSand_of_stored RTN_OK ext s nCoast nPoly dPotentialErosion hStored]
        have hnn := hExt s.placementLog (sandErosionCall s nCoast nPoly dPotentialErosion) rfl
        split
        · exact hnn
        · split <;> exact hnn
      · unfold erodeSand
        simp [hStored]
    · exact erodeSand_preserves (fun t => t.m_dThisIterBeachErosionCoarse) RTN_OK ext s nCoast
        nPoly dPotentialErosion (fun t x => by simp) (fun _ _ _ => rfl)

theorem erodeCoarse_balance (RTN_OK : Int) (ext : Collaborator) (s : CSimulation) (nCoast : Nat)
    (nPoly : Int) (dPotentialErosion : ℚ)
    (hExt : ∀ l call, call.kind = PlacementKind.erosion → 0 ≤ (ext l call).2)
    (hOK : (erodeCoarse RTN_OK ext s nCoast nPoly dPotentialErosion).1 = none) :
    routingView nCoast (erodeCoarse RTN_OK ext s nCoast nPoly dPotentialErosion).2.2 =
        routingView nCoast s
    ∧ (erodeCoarse RTN_OK ext s nCoast nPoly dPotentialErosion).2.2.m_dThisIterBeachErosionCoarse =
        s.m_dThisIterBeachErosionCoarse
          + (erodeCoarse RTN_OK ext s nCoast nPoly dPotentialErosion).2.1
    ∧ 0 ≤ (erodeCoarse RTN_OK ext s nCoast nPoly dPotentialErosion).2.1
    ∧ (erodeCoarse RTN_OK ext s nCoast nPoly dPotentialErosion).2.2.m_dThisIterBeachErosionSand =
        s.m_dThisIterBeachErosionSand := by
  refine ⟨?_, ?_, ?_⟩
  · exact erodeCoarse_preserves (routingView nCoast) RTN_OK ext s nCoast nPoly dPotentialErosion
      (fun t x => routingView_updPolygon nCoast t nPoly _ (fun _ => rfl)) (fun _ _ _ => rfl)
  · by_cases hStored : 0 < (s.pGetPolygon nCoast nPoly).dGetStoredUnconsCoarse
    · rw [erodeCoarse_of_stored RTN_OK ext s nCoast nPoly dPotentialErosion hStored] at hOK ⊢
      have hnn := hExt s.placementLog (coarseErosionCall s nCoast nPoly dPotentialErosion) rfl
      split at hOK
      · simp at hOK
      · rw [if_neg ‹_›]
        split
        · simp
        · have h0 : (ext s.placementLog
              (coarseErosionCall s nCoast nPoly dPotentialErosion)).2 = 0 :=
            le_antisymm (not_lt.mp ‹_›) hnn
          simp [h0]
    · unfold erodeCoarse
      simp [hStored]
  · constructor
    · by_cases hStored : 0 < (s.pGetPolygon nCoast nPoly).dGetStoredUnconsCoarse
      · rw [erodeCoarse_of_stored RTN_OK ext s nCoast nPoly dPotentialErosion hStored]
        have hnn := hExt s.placementLog (coarseErosionCall s nCoast nPoly dPotentialErosion) rfl
        split
        · exact hnn
        · split <;> exact hnn
      · unfold erodeCoarse
        simp [hStored]
    · exact erodeCoarse_preserves (fun t => t.m_dThisIterBeachErosionSand) RTN_OK ext s nCoast
        nPoly dPotentialErosion (fun t x => by simp) (fun _ _ _ => rfl)

theorem exportAtGridEdge_balance (s : CSimulation) (nCoast : Nat) (dSandEroded dCoarseEroded : ℚ)
    (hPolicy : s.m_nUnconsSedimentHandlingAtGridEdges ≠ GridEdge.GRID_EDGE_CLOSED)
    (hZero : s.hasPolygon nCoast 0) (hSand : 0 ≤ dSandEroded) (hCoarse : 0 ≤ dCoarseEroded) :
    sumDepositionSand (exportAtGridEdge s nCoast dSandEroded dCoarseEroded) nCoast
        + (exportAtGridEdge s nCoast dSandEroded dCoarseEroded).m_dThisIterLeftGridUnconsSand =
      sumDepositionSand s nCoast + s.m_dThisIterLeftGridUnconsSand + dSandEroded
    ∧ sumDepositionCoarse (exportAtGridEdge s nCoast dSandEroded dCoarseEroded) nCoast
        + (exportAtGridEdge s nCoast dSandEroded dCoarseEroded).m_dThisIterLeftGridUnconsCoarse =
      sumDepositionCoarse s nCoast + s.m_dThisIterLeftGridUnconsCoarse + dCoarseEroded := by
  unfold exportAtGridEdge
  cases hp : s.m_nUnconsSedimentHandlingAtGridEdges with
  | GRID_EDGE_CLOSED => exact absurd hp hPolicy
  | GRID_EDGE_OPEN =>
    simp only
    constructor
    · show sumDepositionSand s nCoast + (s.m_dThisIterLeftGridUnconsSand + dSandEroded) = _
      ring
    · show sumDepositionCoarse s nCoast + (s.m_dThisIterLeftGridUnconsCoarse + dCoarseEroded) = _
      ring
  | GRID_EDGE_RECIRCULATE =>
    simp only [gt_iff_lt]
    have h' : ∀ f, (s.updPolygon nCoast 0 f).hasPolygon nCoast 0 :=
      fun f => (hasPolygon_updPolygon _ _ _ _ _).mpr hZero
    by_cases hS : 0 < dSandEroded <;> by_cases hC : 0 < dCoarseEroded <;>
      simp only [hS, hC, if_true, if_false]
    · rw [sumDepositionSand_updPolygon _ _ _ _ (h' _),
        sumDepositionCoarse_updPolygon _ _ _ _ (h' _),
        sumDepositionSand_updPolygon _ _ _ _ hZero, sumDepositionCoarse_updPolygon _ _ _ _ hZero,
        pGetPolygon_updPolygon_self _ _ _ _ hZero]
      simp [CGeomCoastPolygon.AddDepositionUnconsSand,
        CGeomCoastPolygon.AddDepositionUnconsCoarse,
        CGeomCoastPolygon.dGetDepositionUnconsSand, CGeomCoastPolygon.dGetDepositionUnconsCoarse]
      constructor <;> ring
    · have h0 : dCoarseEroded = 0 := le_antisymm (not_lt.mp hC) hCoarse
      rw [sumDepositionSand_updPolygon _ _ _ _ hZero, sumDepositionCoarse_updPolygon _ _ _ _ hZero]
      simp [h0, CGeomCoastPolygon.AddDepositionUnconsSand,
        CGeomCoastPolygon.dGetDepositionUnconsSand, CGeomCoastPolygon.dGetDepositionUnconsCoarse]
      ring
    · have h0 : dSandEroded = 0 := le_antisymm (not_lt.mp hS) hSand
      rw [sumDepositionSand_updPolygon _ _ _ _ hZero, sumDepositionCoarse_updPolygon _ _ _ _ hZero]
      simp [h0, CGeomCoastPolygon.AddDepositionUnconsCoarse,
        CGeomCoastPolygon.dGetDepositionUnconsSand, CGeomCoastPolygon.dGetDepositionUnconsCoarse]
      ring
    · have h0 : dSandEroded = 0 := le_antisymm (not_lt.mp hS) hSand
      have h1 : dCoarseEroded = 0 := le_antisymm (not_lt.mp hC) hCoarse
      simp [h0, h1]

/-- The export of the sediment eroded on a conserving polygon: the sum of deposition plus the
off-grid total grows by the eroded depth, for sand and for coarse sediment. -/
theorem exportSediment_balance (INT_NODATA : Int) (s : CSimulation) (nCoast : Nat) (i : Nat)
    (dSandEroded dCoarseEroded : ℚ)
    (hGood : conservingPolygon INT_NODATA (s.nGetNumPolygons nCoast) i (s.pGetPolygon nCoast i))
    (hPolicy : s.m_nUnconsSedimentHandlingAtGridEdges ≠ GridEdge.GRID_EDGE_CLOSED)
    (hSand : 0 ≤ dSandEroded) (hCoarse : 0 ≤ dCoarseEroded) :
    sumDepositionSand (exportSediment INT_NODATA s nCoast (s.nGetNumPolygons nCoast) i
        dSandEroded dCoarseEroded) nCoast
      + (exportSediment INT_NODATA s nCoast (s.nGetNumPolygons nCoast) i
        dSandEroded dCoarseEroded).m_dThisIterLeftGridUnconsSand =
      sumDepositionSand s nCoast + s.m_dThisIterLeftGridUnconsSand + dSandEroded
    ∧ sumDepositionCoarse (exportSediment INT_NODATA s nCoast (s.nGetNumPolygons nCoast) i
        dSandEroded dCoarseEroded) nCoast
      + (exportSediment INT_NODATA s nCoast (s.nGetNumPolygons nCoast) i
        dSandEroded dCoarseEroded).m_dThisIterLeftGridUnconsCoarse =
      sumDepositionCoarse s nCoast + s.m_dThisIterLeftGridUnconsCoarse + dCoarseEroded := by
  obtain ⟨_, hRoute⟩ := hGood
  rcases hRoute with ⟨hAdj, hShares⟩ | ⟨hList, hTwo, hEnd⟩
  · have hAdj' : ∀ a ∈ transportAdjacent (s.pGetPolygon nCoast i),
        a ≠ INT_NODATA ∧ s.hasPolygon nCoast a := fun a ha => ⟨(hAdj a ha).1, (hAdj a ha).2⟩
    obtain ⟨_, h2, h3, h4, h5⟩ := exportSediment_adjacent INT_NODATA s nCoast
      (s.nGetNumPolygons nCoast) i dSandEroded dCoarseEroded hAdj'
    rw [h2, h3, h4, h5, hShares]
    constructor
    · split
      · ring
      · have : dSandEroded = 0 := le_antisymm (not_lt.mp ‹_›) hSand
        rw [this]; ring
    · split
      · ring
      · have : dCoarseEroded = 0 := le_antisymm (not_lt.mp ‹_›) hCoarse
        rw [this]; ring
  · have hZero : s.hasPolygon nCoast 0 := ⟨le_refl _, by exact_mod_cast (by omega : 0 < s.nGetNumPolygons nCoast)⟩
    have key : exportSediment INT_NODATA s nCoast (s.nGetNumPolygons nCoast) i dSandEroded
        dCoarseEroded = exportAtGridEdge s nCoast dSandEroded dCoarseEroded := by
      unfold exportSediment
      simp only
      unfold transportAdjacent at hList
      by_cases hDown : (s.pGetPolygon nCoast i).bDownCoastThisIter = true
      · simp only [hDown, if_true] at hList hEnd ⊢
        have h0 : ¬ ((i : Int) = 0) := by omega
        have h1 : (i : Int) = (s.nGetNumPolygons nCoast : Int) - 1 := by omega
        have hlen : (s.pGetPolygon nCoast i).nGetNumDownCoastAdjacentPolygons = 1 := by
          simp [CGeomCoastPolygon.nGetNumDownCoastAdjacentPolygons, hList]
        have hadj : (s.pGetPolygon nCoast i).nGetDownCoastAdjacentPolygon 0 = INT_NODATA := by
          simp [CGeomCoastPolygon.nGetDownCoastAdjacentPolygon, hList]
        rw [hlen]
        simp only [List.range_succ, List.range_zero, List.nil_append, List.foldl_cons,
          List.foldl_nil]
        unfold exportSlotDownCoast
        simp only []
        rw [if_pos hadj, if_neg h0, if_pos h1]
      · simp only [hDown, Bool.false_eq_true, if_false] at hList hEnd ⊢
        have h0 : (i : Int) = 0 := by omega
        have h1 : ¬ ((i : Int) = (s.nGetNumPolygons nCoast : Int) - 1) := by omega
        have hlen : (s.pGetPolygon nCoast i).nGetNumUpCoastAdjacentPolygons = 1 := by
          simp [CGeomCoastPolygon.nGetNumUpCoastAdjacentPolygons, hList]
        have hadj : (s.pGetPolygon nCoast i).nGetUpCoastAdjacentPolygon 0 = INT_NODATA := by
          simp [CGeomCoastPolygon.nGetUpCoastAdjacentPolygon, hList]
        rw [hlen]
        simp only [List.range_succ, List.range_zero, List.nil_append, List.foldl_cons,
          List.foldl_nil]
        unfold exportSlotUpCoast
        simp only []
        rw [if_pos hadj, if_neg h1, if_pos h0]
    rw [key]
    exact exportAtGridEdge_balance s nCoast dSandEroded dCoarseEroded hPolicy hZero hSand hCoarse

/-- Deposition of coarse sediment and sand writes only the record of calls and the two
undeposited totals. -/
theorem depositCoarseAndSand_preserves {β : Type} (g : CSimulation → β) (RTN_OK : Int)
    (ext : Collaborator) (s : CSimulation) (nCoast : Nat) (nPoly : Int)
    (hg : ∀ (t : CSimulation) l x y, g { t with
      placementLog := l
      m_dThisIterDepositionSandDiff := x
      m_dThisIterDepositionCoarseDiff := y } = g t) :
    g (depositCoarseAndSand RTN_OK ext s nCoast nPoly).2 = g s := by
  have hc := depositCoarse_preserves g RTN_OK ext s nCoast nPoly
    (fun l x => hg s l s.m_dThisIterDepositionSandDiff x)
  unfold depositCoarseAndSand
  cases h : depositCoarse RTN_OK ext s nCoast nPoly with
  | mk r1 s1 =>
    rw [h] at hc
    cases r1 with
    | some nRet => exact hc
    | none =>
      simp only
      exact (depositSand_preserves g RTN_OK ext s1 nCoast nPoly
        (fun l x => hg s1 l x s1.m_dThisIterDepositionCoarseDiff)).trans hc

/-- Erosion and export on a conserving polygon: the topology and the grid-edge handling are
kept, and for sand and for coarse sediment the sum of deposition plus the off-grid total minus
the erosion total is kept. -/
theorem erodeAndExport_balance (INT_NODATA RTN_OK : Int) (ext : Collaborator) (s : CSimulation)
    (nCoast i : Nat) (dPotentialErosion : ℚ)
    (hGood : conservingPolygon INT_NODATA (s.nGetNumPolygons nCoast) i (s.pGetPolygon nCoast i))
    (hPolicy : s.m_nUnconsSedimentHandlingAtGridEdges ≠ GridEdge.GRID_EDGE_CLOSED)
    (hExt : ∀ l call, call.kind = PlacementKind.erosion → 0 ≤ (ext l call).2)
    (hOK : (erodeAndExport INT_NODATA RTN_OK ext s nCoast (s.nGetNumPolygons nCoast) i
      dPotentialErosion).1 = none) :
    ((erodeAndExport INT_NODATA RTN_OK ext s nCoast (s.nGetNumPolygons nCoast) i
        dPotentialErosion).2.coast nCoast).map topology = (s.coast nCoast).map topology
    ∧ (erodeAndExport INT_NODATA RTN_OK ext s nCoast (s.nGetNumPolygons nCoast) i
        dPotentialErosion).2.m_nUnconsSedimentHandlingAtGridEdges =
      s.m_nUnconsSedimentHandlingAtGridEdges
    ∧ sumDepositionSand (erodeAndExport INT_NODATA RTN_OK ext s nCoast (s.nGetNumPolygons nCoast)
          i dPotentialErosion).2 nCoast
        + (erodeAndExport INT_NODATA RTN_OK ext s nCoast (s.nGetNumPolygons nCoast) i
          dPotentialErosion).2.m_dThisIterLeftGridUnconsSand
        - (erodeAndExport INT_NODATA RTN_OK ext s nCoast (s.nGetNumPolygons nCoast) i
          dPotentialErosion).2.m_dThisIterBeachErosionSand =
      sumDepositionSand s nCoast + s.m_dThisIterLeftGridUnconsSand - s.m_dThisIterBeachErosionSand
    ∧ sumDepositionCoarse (erodeAndExport INT_NODATA RTN_OK ext s nCoast
          (s.nGetNumPolygons nCoast) i dPotentialErosion).2 nCoast
        + (erodeAndExport INT_NODATA RTN_OK ext s nCoast (s.nGetNumPolygons nCoast) i
          dPotentialErosion).2.m_dThisIterLeftGridUnconsCoarse
        - (erodeAndExport INT_NODATA RTN_OK ext s nCoast (s.nGetNumPolygons nCoast) i
          dPotentialErosion).2.m_dThisIterBeachErosionCoarse =
      sumDepositionCoarse s nCoast + s.m_dThisIterLeftGridUnconsCoarse
        - s.m_dThisIterBeachErosionCoarse := by
  -- fine
  have f1 := erodeFine_preserves (routingView nCoast) RTN_OK ext s nCoast i dPotentialErosion
    (fun t x => routingView_updPolygon nCoast t i _ (fun _ => rfl)) (fun _ _ => rfl)
  have f2 := erodeFine_preserves (fun t => t.m_dThisIterBeachErosionSand) RTN_OK ext s nCoast i
    dPotentialErosion (fun t x => by simp) (fun _ _ => rfl)
  have f3 := erodeFine_preserves (fun t => t.m_dThisIterBeachErosionCoarse) RTN_OK ext s nCoast i
    dPotentialErosion (fun t x => by simp) (fun _ _ => rfl)
  unfold erodeAndExport at hOK ⊢
  cases h1 : erodeFine RTN_OK ext s nCoast i dPotentialErosion with
  | mk r1 s1 =>
  rw [h1] at hOK f1 f2 f3
  cases r1 with
  | some nRet => simp at hOK
  | none =>
  simp only at hOK f1 f2 f3 ⊢
  -- sand
  cases h2 : erodeSand RTN_OK ext s1 nCoast i dPotentialErosion with
  | mk r2 ds2 =>
  obtain ⟨dSand, s2⟩ := ds2
  rw [h2] at hOK
  cases r2 with
  | some nRet => simp at hOK
  | none =>
  simp only at hOK ⊢
  have b2 := erodeSand_balance RTN_OK ext s1 nCoast i dPotentialErosion hExt (by rw [h2])
  rw [h2] at b2
  simp only at b2
  obtain ⟨b21, b22, b23, b24⟩ := b2
  -- coarse
  cases h3 : erodeCoarse RTN_OK ext s2 nCoast i dPotentialErosion with
  | mk r3 ds3 =>
  obtain ⟨dCoarse, s3⟩ := ds3
  rw [h3] at hOK
  cases r3 with
  | some nRet => simp at hOK
  | none =>
  simp only at hOK ⊢
  have b3 := erodeCoarse_balance RTN_OK ext s2 nCoast i dPotentialErosion hExt (by rw [h3])
  rw [h3] at b3
  simp only at b3
  obtain ⟨b31, b32, b33, b34⟩ := b3
  -- the state before the export
  have hv : routingView nCoast s3 = routingView nCoast s := b31.trans (b21.trans f1)
  have htopo := routingView_topology nCoast s s3 hv
  obtain ⟨v1, v2, v3, v4, v5⟩ := routingView_sums nCoast s s3 hv
  have hn : s3.nGetNumPolygons nCoast = s.nGetNumPolygons nCoast :=
    nGetNumPolygons_congr topology s s3 nCoast htopo
  have hSandTotal : s3.m_dThisIterBeachErosionSand = s.m_dThisIterBeachErosionSand + dSand := by
    rw [b34, b22, f2]
  have hCoarseTotal : s3.m_dThisIterBeachErosionCoarse =
      s.m_dThisIterBeachErosionCoarse + dCoarse := by
    rw [b32, b24, f3]
  by_cases hExport : dSand + dCoarse > 0
  · simp only [hExport, if_true]
    have hGood3 : conservingPolygon INT_NODATA (s3.nGetNumPolygons nCoast) i
        (s3.pGetPolygon nCoast i) := by
      rw [hn]
      exact (conservingPolygon_congr INT_NODATA _ i _ _
        (pGetPolygon_congr topology s s3 nCoast htopo i)).mpr hGood
    have hbal := exportSediment_balance INT_NODATA s3 nCoast i dSand dCoarse hGood3
      (by rw [v3]; exact hPolicy) b23 b33
    rw [hn] at hbal
    have e1 := exportSediment_preserves (fun t => (t.coast nCoast).map topology) INT_NODATA s3
      nCoast (s.nGetNumPolygons nCoast) i dSand dCoarse
      (fun t j x => coast_updPolygon_map topology t nCoast j _ (fun _ => rfl))
      (fun t j x => coast_updPolygon_map topology t nCoast j _ (fun _ => rfl))
      (fun _ _ _ => rfl)
    have e2 := exportSediment_preserves (fun t => t.m_nUnconsSedimentHandlingAtGridEdges)
      INT_NODATA s3 nCoast (s.nGetNumPolygons nCoast) i dSand dCoarse
      (fun t j x => by simp) (fun t j x => by simp) (fun _ _ _ => rfl)
    have e3 := exportSediment_preserves (fun t => t.m_dThisIterBeachErosionSand)
      INT_NODATA s3 nCoast (s.nGetNumPolygons nCoast) i dSand dCoarse
      (fun t j x => by simp) (fun t j x => by simp) (fun _ _ _ => rfl)
    have e4 := exportSediment_preserves (fun t => t.m_dThisIterBeachErosionCoarse)
      INT_NODATA s3 nCoast (s.nGetNumPolygons nCoast) i dSand dCoarse
      (fun t j x => by simp) (fun t j x => by simp) (fun _ _ _ => rfl)
    simp only at e1 e2 e3 e4
    refine ⟨e1.trans htopo, e2.trans v3, ?_, ?_⟩
    · rw [e3, hSandTotal, hbal.1, v1, v4]; ring
    · rw [e4, hCoarseTotal, hbal.2, v2, v5]; ring
  · simp only [hExport, if_false]
    have hS0 : dSand = 0 := by
      have : dSand + dCoarse ≤ 0 := not_lt.mp hExport
      linarith
    have hC0 : dCoarse = 0 := by
      have : dSand + dCoarse ≤ 0 := not_lt.mp hExport
      linarith
    refine ⟨htopo, v3, ?_, ?_⟩
    · rw [hSandTotal, v1, v4, hS0]; ring
    · rw [hCoarseTotal, v2, v5, hC0]; ring

/-- The movement of sediment on one conserving polygon: the topology and the grid-edge handling
are kept, and for sand and for coarse sediment the sum of deposition plus the off-grid total
minus the erosion total is kept. -/
theorem doPolygon_balance (INT_NODATA RTN_OK : Int) (ext : Collaborator) (s : CSimulation)
    (nCoast i : Nat)
    (hGood : conservingPolygon INT_NODATA (s.nGetNumPolygons nCoast) i (s.pGetPolygon nCoast i))
    (hPolicy : s.m_nUnconsSedimentHandlingAtGridEdges ≠ GridEdge.GRID_EDGE_CLOSED)
    (hExt : ∀ l call, call.kind = PlacementKind.erosion → 0 ≤ (ext l call).2)
    (hOK : (doPolygon INT_NODATA RTN_OK ext s nCoast (s.nGetNumPolygons nCoast) i).1 = none) :
    ((doPolygon INT_NODATA RTN_OK ext s nCoast (s.nGetNumPolygons nCoast) i).2.coast nCoast).map
        topology = (s.coast nCoast).map topology
    ∧ (doPolygon INT_NODATA RTN_OK ext s nCoast (s.nGetNumPolygons nCoast)
        i).2.m_nUnconsSedimentHandlingAtGridEdges = s.m_nUnconsSedimentHandlingAtGridEdges
    ∧ sumDepositionSand (doPolygon INT_NODATA RTN_OK ext s nCoast (s.nGetNumPolygons nCoast)
          i).2 nCoast
        + (doPolygon INT_NODATA RTN_OK ext s nCoast (s.nGetNumPolygons nCoast)
          i).2.m_dThisIterLeftGridUnconsSand
        - (doPolygon INT_NODATA RTN_OK ext s nCoast (s.nGetNumPolygons nCoast)
          i).2.m_dThisIterBeachErosionSand =
      sumDepositionSand s nCoast + s.m_dThisIterLeftGridUnconsSand - s.m_dThisIterBeachErosionSand
    ∧ sumDepositionCoarse (doPolygon INT_NODATA RTN_OK ext s nCoast (s.nGetNumPolygons nCoast)
          i).2 nCoast
        + (doPolygon INT_NODATA RTN_OK ext s nCoast (s.nGetNumPolygons nCoast)
          i).2.m_dThisIterLeftGridUnconsCoarse
        - (doPolygon INT_NODATA RTN_OK ext s nCoast (s.nGetNumPolygons nCoast)
          i).2.m_dThisIterBeachErosionCoarse =
      sumDepositionCoarse s nCoast + s.m_dThisIterLeftGridUnconsCoarse
        - s.m_dThisIterBeachErosionCoarse := by
  have f1 := depositCoarseAndSand_preserves (routingView nCoast) RTN_OK ext s nCoast i
    (fun _ _ _ _ => rfl)
  have f2 := depositCoarseAndSand_preserves (fun t => t.m_dThisIterBeachErosionSand) RTN_OK ext
    s nCoast i (fun _ _ _ _ => rfl)
  have f3 := depositCoarseAndSand_preserves (fun t => t.m_dThisIterBeachErosionCoarse) RTN_OK
    ext s nCoast i (fun _ _ _ _ => rfl)
  unfold doPolygon at hOK ⊢
  cases h1 : depositCoarseAndSand RTN_OK ext s nCoast i with
  | mk r1 s1 =>
  rw [h1] at hOK f1 f2 f3
  cases r1 with
  | some nRet => simp at hOK
  | none =>
  simp only at hOK f1 f2 f3 ⊢
  have htopo := routingView_topology nCoast s s1 f1
  obtain ⟨v1, v2, v3, v4, v5⟩ := routingView_sums nCoast s s1 f1
  have hn : s1.nGetNumPolygons nCoast = s.nGetNumPolygons nCoast :=
    nGetNumPolygons_congr topology s s1 nCoast htopo
  by_cases hPot : -(s1.pGetPolygon nCoast i).dGetPotentialErosion > 0
  · simp only [hPot, if_true] at hOK ⊢
    rw [← hn] at hOK ⊢
    have hGood1 : conservingPolygon INT_NODATA (s1.nGetNumPolygons nCoast) i
        (s1.pGetPolygon nCoast i) := by
      rw [hn]
      exact (conservingPolygon_congr INT_NODATA _ i _ _
        (pGetPolygon_congr topology s s1 nCoast htopo i)).mpr hGood
    obtain ⟨b1, b2, b3, b4⟩ := erodeAndExport_balance INT_NODATA RTN_OK ext s1 nCoast i _ hGood1
      (by rw [v3]; exact hPolicy) hExt hOK
    refine ⟨b1.trans htopo, b2.trans v3, ?_, ?_⟩
    · rw [b3, v1, v4, f2]
    · rw [b4, v2, v5, f3]
  · simp only [hPot, if_false]
    refine ⟨htopo, v3, ?_, ?_⟩
    · rw [v1, v4, f2]
    · rw [v2, v5, f3]

/-- The loop over the sorted polygons on a conserving coast, when every item names a polygon of
the coast and no call fails. -/
theorem doAllPolygons_balance (INT_NODATA RTN_OK : Int) (ext : Collaborator) (s0 : CSimulation)
    (nCoast : Nat) (hCoast : conservingCoast INT_NODATA s0 nCoast)
    (hPolicy : s0.m_nUnconsSedimentHandlingAtGridEdges ≠ GridEdge.GRID_EDGE_CLOSED)
    (hExt : ∀ l call, call.kind = PlacementKind.erosion → 0 ≤ (ext l call).2)
    (l : List (List Int)) :
    ∀ t : CSimulation,
      (∀ d ∈ l, 0 ≤ d.getD 0 0 ∧ d.getD 0 0 < s0.nGetNumPolygons nCoast) →
      (t.coast nCoast).map topology = (s0.coast nCoast).map topology →
      t.m_nUnconsSedimentHandlingAtGridEdges = s0.m_nUnconsSedimentHandlingAtGridEdges →
      (doAllPolygons INT_NODATA RTN_OK ext nCoast (s0.nGetNumPolygons nCoast) l t).1 = none →
      sumDepositionSand (doAllPolygons INT_NODATA RTN_OK ext nCoast (s0.nGetNumPolygons nCoast)
            l t).2 nCoast
          + (doAllPolygons INT_NODATA RTN_OK ext nCoast (s0.nGetNumPolygons nCoast)
            l t).2.m_dThisIterLeftGridUnconsSand
          - (doAllPolygons INT_NODATA RTN_OK ext nCoast (s0.nGetNumPolygons nCoast)
            l t).2.m_dThisIterBeachErosionSand =
        sumDepositionSand t nCoast + t.m_dThisIterLeftGridUnconsSand
          - t.m_dThisIterBeachErosionSand
      ∧ sumDepositionCoarse (doAllPolygons INT_NODATA RTN_OK ext nCoast
            (s0.nGetNumPolygons nCoast) l t).2 nCoast
          + (doAllPolygons INT_NODATA RTN_OK ext nCoast (s0.nGetNumPolygons nCoast)
            l t).2.m_dThisIterLeftGridUnconsCoarse
          - (doAllPolygons INT_NODATA RTN_OK ext nCoast (s0.nGetNumPolygons nCoast)
            l t).2.m_dThisIterBeachErosionCoarse =
        sumDepositionCoarse t nCoast + t.m_dThisIterLeftGridUnconsCoarse
          - t.m_dThisIterBeachErosionCoarse := by
  induction l with
  | nil => intro t _ _ _ _; exact ⟨rfl, rfl⟩
  | cons d l ih =>
    intro t hIds hTopo hPol hOK
    obtain ⟨hd0, hd1⟩ := hIds d (List.mem_cons_self d l)
    have hn : t.nGetNumPolygons nCoast = s0.nGetNumPolygons nCoast :=
      nGetNumPolygons_congr topology s0 t nCoast hTopo
    have hcast : ((d.getD 0 0).toNat : Int) = d.getD 0 0 := Int.toNat_of_nonneg hd0
    have hlt : (d.getD 0 0).toNat < s0.nGetNumPolygons nCoast := by omega
    have hGood : conservingPolygon INT_NODATA (t.nGetNumPolygons nCoast) (d.getD 0 0).toNat
        (t.pGetPolygon nCoast ((d.getD 0 0).toNat : Int)) := by
      rw [hn]
      exact (conservingPolygon_congr INT_NODATA _ _ _ _
        (pGetPolygon_congr topology s0 t nCoast hTopo _)).mpr (hCoast _ hlt)
    unfold doAllPolygons at hOK ⊢
    rw [← hcast, ← hn] at hOK ⊢
    cases h1 : doPolygon INT_NODATA RTN_OK ext t nCoast (t.nGetNumPolygons nCoast)
        ((d.getD 0 0).toNat : Int) with
    | mk r1 t1 =>
    rw [h1] at hOK
    cases r1 with
    | some nRet => simp at hOK
    | none =>
    simp only at hOK ⊢
    have b := doPolygon_balance INT_NODATA RTN_OK ext t nCoast (d.getD 0 0).toNat hGood
      (by rw [hPol]; exact hPolicy) hExt (by rw [h1])
    rw [h1] at b
    simp only at b
    obtain ⟨b1, b2, b3, b4⟩ := b
    rw [hn] at hOK ⊢
    obtain ⟨i1, i2⟩ := ih t1 (fun e he => hIds e (List.mem_cons_of_mem _ he)) (b1.trans hTopo)
      (b2.trans hPol) hOK
    exact ⟨i1.trans b3, i2.trans b4⟩

/-! ### The steps before the loop over the sorted polygons -/

theorem mem_insertSorted {α : Type} (comp : α → α → Bool) (x y : α) (l : List α) :
    y ∈ insertSorted comp x l ↔ y = x ∨ y ∈ l := by
  induction l with
  | nil => simp [insertSorted]
  | cons z l ih =>
    unfold insertSorted
    split
    · simp only [List.mem_cons, ih]
      constructor
      · rintro (h | h | h)
        · exact Or.inr (Or.inl h)
        · exact Or.inl h
        · exact Or.inr (Or.inr h)
      · rintro (h | h | h)
        · exact Or.inr (Or.inl h)
        · exact Or.inl h
        · exact Or.inr (Or.inr h)
    · simp only [List.mem_cons]

theorem mem_stable_sort {α : Type} (comp : α → α → Bool) (y : α) (l : List α) :
    y ∈ stable_sort comp l ↔ y ∈ l := by
  induction l with
  | nil => simp [stable_sort]
  | cons x l ih =>
    unfold stable_sort
    rw [mem_insertSorted, ih, List.mem_cons]

/-- The update of the stored sediment writes only the stored sand and coarse depths of
polygons. -/
theorem AllPolygonsUpdateStoredUncons_preserves {β : Type} (g : CSimulation → β)
    (s : CSimulation) (nCoast : Nat)
    (hupdS : ∀ t i x, g (t.updPolygon nCoast i (fun p => p.SetStoredUnconsSand x)) = g t)
    (hupdC : ∀ t i x, g (t.updPolygon nCoast i (fun p => p.SetStoredUnconsCoarse x)) = g t) :
    g (AllPolygonsUpdateStoredUncons s nCoast) = g s := by
  unfold AllPolygonsUpdateStoredUncons
  apply foldl_preserves
  intro t nPoly
  unfold updateStoredUncons
  simp only [hupdS, hupdC]

/-- The check for circularities writes only the circularity lists of polygons. -/
theorem checkCircularities_preserves {β : Type} (g : CSimulation → β) (nCoast : Nat)
    (nPoly : Int) (VnSourcePolygons : List Int)
    (hupd : ∀ t i x, g (t.updPolygon nCoast i (fun p => p.AddCircularity x)) = g t)
    (l : List Int) (s : CSimulation) :
    g (checkCircularities nCoast nPoly VnSourcePolygons l s) = g s := by
  induction l generalizing s with
  | nil => rfl
  | cons nAdj l ih =>
    unfold checkCircularities
    split
    · rw [ih]
      unfold addCircularityPair
      rw [hupd, hupd]
    · exact ih s

theorem circularityWalk_preserves {β : Type} (g : CSimulation → β) (nCoast : Nat)
    (hupd : ∀ t i x, g (t.updPolygon nCoast i (fun p => p.AddCircularity x)) = g t)
    (l : List (List Int)) (VnSourcePolygons : List Int) (s : CSimulation) :
    g (circularityWalk nCoast l VnSourcePolygons s) = g s := by
  induction l generalizing VnSourcePolygons s with
  | nil => rfl
  | cons d l ih =>
    cases d with
    | nil =>
      unfold circularityWalk
      exact ih _ _
    | cons nPoly items =>
      unfold circularityWalk
      rw [ih]
      exact checkCircularities_preserves g nCoast nPoly _ hupd _ s

theorem getD_nVPolyAndAdj (p : CGeomCoastPolygon) : (nVPolyAndAdj p).getD 0 0 = p.nGetCoastID := by
  unfold nVPolyAndAdj
  split <;> rfl

theorem pGetPolygon_natCast (s : CSimulation) (nCoast k : Nat) (h : k < (s.coast nCoast).length) :
    s.pGetPolygon nCoast (k : Int) = (s.coast nCoast)[k] := by
  unfold CSimulation.pGetPolygon
  simp [List.getD_eq_getElem?_getD, List.getElem?_eq_getElem h]

/-- On a conserving coast every item of the sorted array names a polygon of the coast. -/
theorem sortedPolyAndAdjacent_ids (INT_NODATA : Int) (s : CSimulation) (nCoast : Nat)
    (hCoast : conservingCoast INT_NODATA s nCoast) :
    ∀ d ∈ sortedPolyAndAdjacent INT_NODATA s nCoast,
      0 ≤ d.getD 0 0 ∧ d.getD 0 0 < s.nGetNumPolygons nCoast := by
  intro d hd
  unfold sortedPolyAndAdjacent at hd
  rw [mem_stable_sort] at hd
  unfold nVVPolyAndAdjacent at hd
  rw [List.mem_map] at hd
  obtain ⟨p, hp, rfl⟩ := hd
  obtain ⟨k, hk, rfl⟩ := List.getElem_of_mem hp
  have hid := (hCoast k hk).1
  rw [pGetPolygon_natCast s nCoast k hk] at hid
  rw [getD_nVPolyAndAdj, hid]
  constructor
  · exact Int.ofNat_nonneg k
  · unfold CSimulation.nGetNumPolygons
    exact_mod_cast hk

/-- C1 (amended). Mass balance of one coast: when every polygon of the coast is a
`conservingPolygon`, the grid edges are open or re-circulating, the erosion routine never
reports a depth below zero and no placement call fails, then for sand and for coarse sediment the
growth of the this-iteration erosion total over the pass equals the growth of the sum of the
polygons' deposition plus the growth of the off-grid total. -/
theorem mass_balance (INT_NODATA RTN_OK : Int) (ext : Collaborator) (s : CSimulation)
    (nCoast : Nat) (hCoast : conservingCoast INT_NODATA s nCoast)
    (hPolicy : s.m_nUnconsSedimentHandlingAtGridEdges ≠ GridEdge.GRID_EDGE_CLOSED)
    (hExt : ∀ l call, call.kind = PlacementKind.erosion → 0 ≤ (ext l call).2)
    (hOK : (doCoast INT_NODATA RTN_OK ext s nCoast).1 = none) :
    (doCoast INT_NODATA RTN_OK ext s nCoast).2.m_dThisIterBeachErosionSand
        - s.m_dThisIterBeachErosionSand =
      (sumDepositionSand (doCoast INT_NODATA RTN_OK ext s nCoast).2 nCoast
          - sumDepositionSand s nCoast)
        + ((doCoast INT_NODATA RTN_OK ext s nCoast).2.m_dThisIterLeftGridUnconsSand
          - s.m_dThisIterLeftGridUnconsSand)
    ∧ (doCoast INT_NODATA RTN_OK ext s nCoast).2.m_dThisIterBeachErosionCoarse
        - s.m_dThisIterBeachErosionCoarse =
      (sumDepositionCoarse (doCoast INT_NODATA RTN_OK ext s nCoast).2 nCoast
          - sumDepositionCoarse s nCoast)
        + ((doCoast INT_NODATA RTN_OK ext s nCoast).2.m_dThisIterLeftGridUnconsCoarse
          - s.m_dThisIterLeftGridUnconsCoarse) := by
  -- the update of the stored sediment
  have a1 := AllPolygonsUpdateStoredUncons_preserves (routingView nCoast) s nCoast
    (fun t i x => routingView_updPolygon nCoast t i _ (fun _ => rfl))
    (fun t i x => routingView_updPolygon nCoast t i _ (fun _ => rfl))
  have a2 := AllPolygonsUpdateStoredUncons_preserves (fun t => t.m_dThisIterBeachErosionSand) s
    nCoast (fun t i x => by simp) (fun t i x => by simp)
  have a3 := AllPolygonsUpdateStoredUncons_preserves (fun t => t.m_dThisIterBeachErosionCoarse) s
    nCoast (fun t i x => by simp) (fun t i x => by simp)
  have hCoast1 : conservingCoast INT_NODATA (AllPolygonsUpdateStoredUncons s nCoast) nCoast :=
    conservingCoast_congr INT_NODATA s _ nCoast (routingView_topology nCoast s _ a1) hCoast
  have hIds := sortedPolyAndAdjacent_ids INT_NODATA (AllPolygonsUpdateStoredUncons s nCoast)
    nCoast hCoast1
  -- the check for circularities
  have c1 := circularityWalk_preserves (routingView nCoast) nCoast
    (fun t i x => routingView_updPolygon nCoast t i _ (fun _ => rfl))
    (sortedPolyAndAdjacent INT_NODATA (AllPolygonsUpdateStoredUncons s nCoast) nCoast) []
    (AllPolygonsUpdateStoredUncons s nCoast)
  have c2 := circularityWalk_preserves (fun t => t.m_dThisIterBeachErosionSand) nCoast
    (fun t i x => by simp)
    (sortedPolyAndAdjacent INT_NODATA (AllPolygonsUpdateStoredUncons s nCoast) nCoast) []
    (AllPolygonsUpdateStoredUncons s nCoast)
  have c3 := circularityWalk_preserves (fun t => t.m_dThisIterBeachErosionCoarse) nCoast
    (fun t i x => by simp)
    (sortedPolyAndAdjacent INT_NODATA (AllPolygonsUpdateStoredUncons s nCoast) nCoast) []
    (AllPolygonsUpdateStoredUncons s nCoast)
  have hv := c1.trans a1
  have htopo := routingView_topology nCoast s _ hv
  obtain ⟨v1, v2, v3, v4, v5⟩ := routingView_sums nCoast s _ hv
  have hn1 := nGetNumPolygons_congr topology _ _ nCoast (routingView_topology nCoast _ _ c1)
  have hCoast2 := conservingCoast_congr INT_NODATA s _ nCoast htopo hCoast
  unfold doCoast at hOK ⊢
  simp only at hOK ⊢
  obtain ⟨b1, b2⟩ := doAllPolygons_balance INT_NODATA RTN_OK ext _ nCoast hCoast2
    (by rw [v3]; exact hPolicy) hExt _ _ (by rw [hn1]; exact hIds) rfl rfl hOK
  simp only at c2 c3 a2 a3
  constructor
  · have e := b1
    rw [v1, v4, c2, a2] at e
    linarith
  · have e := b2
    rw [v2, v5, c3, a3] at e
    linarith

/-- C1 (as stated) fails. On `massSim`, with placement routines which deposit three units less
than asked, no call fails; ten units of sand are eroded, ten are added to deposition, nothing
leaves the grid and three units are left carried forward: 10 on the left of the claimed equation,
13 on its right. On `closedSim`, with routines which place everything, fifteen units of sand are
eroded, ten are added to deposition, nothing leaves the grid and nothing is carried forward. -/
theorem mass_conservation_counterexample :
    ((doCoast (-9999) 0 placeShort massSim 0).1 = none
      ∧ (doCoast (-9999) 0 placeShort massSim 0).2.m_dThisIterBeachErosionSand
          - massSim.m_dThisIterBeachErosionSand = 10
      ∧ (sumDepositionSand (doCoast (-9999) 0 placeShort massSim 0).2 0
            - sumDepositionSand massSim 0)
          + ((doCoast (-9999) 0 placeShort massSim 0).2.m_dThisIterLeftGridUnconsSand
            - massSim.m_dThisIterLeftGridUnconsSand)
          + (doCoast (-9999) 0 placeShort massSim 0).2.m_dThisIterDepositionSandDiff = 13)
    ∧ ((doCoast (-9999) 0 placeAll closedSim 0).1 = none
      ∧ (doCoast (-9999) 0 placeAll closedSim 0).2.m_dThisIterBeachErosionSand
          - closedSim.m_dThisIterBeachErosionSand = 15
      ∧ (sumDepositionSand (doCoast (-9999) 0 placeAll closedSim 0).2 0
            - sumDepositionSand closedSim 0)
          + ((doCoast (-9999) 0 placeAll closedSim 0).2.m_dThisIterLeftGridUnconsSand
            - closedSim.m_dThisIterLeftGridUnconsSand)
          + (doCoast (-9999) 0 placeAll closedSim 0).2.m_dThisIterDepositionSandDiff = 10) := by
  decide!

theorem placeShort_nonneg :
    ∀ (l : List PlacementCall) (call : PlacementCall),
      call.kind = PlacementKind.erosion → 0 ≤ (placeShort l call).2 := by
  intro l call h
  unfold placeShort
  rw [h]
  simp only
  split
  · exact le_refl _
  · exact not_lt.mp ‹_›

/-- Witness for C1 (amended) on `massSim`: the coast is conserving, the grid edges are open, no
call fails, and the ten units of eroded sand equal the ten units added to deposition. -/
theorem mass_balance_witness :
    conservingCoast (-9999) massSim 0
    ∧ (doCoast (-9999) 0 placeShort massSim 0).1 = none
    ∧ (doCoast (-9999) 0 placeShort massSim 0).2.m_dThisIterBeachErosionSand
        - massSim.m_dThisIterBeachErosionSand =
      (sumDepositionSand (doCoast (-9999) 0 placeShort massSim 0).2 0
          - sumDepositionSand massSim 0)
        + ((doCoast (-9999) 0 placeShort massSim 0).2.m_dThisIterLeftGridUnconsSand
          - massSim.m_dThisIterLeftGridUnconsSand) :=
  ⟨by decide!, by decide!,
    (mass_balance (-9999) 0 placeShort massSim 0 (by decide!) (by decide!) placeShort_nonneg
      (by decide!)).1⟩

/-! ### Steps when no placement call fails -/

theorem depositCoarse_none (RTN_OK : Int) (ext : Collaborator) (s : CSimulation) (nCoast : Nat)
    (nPoly : Int) (hOK : ∀ l call, (ext l call).1 = RTN_OK) :
    (depositCoarse RTN_OK ext s nCoast nPoly).1 = none := by
  unfold depositCoarse nDoUnconsDepositionOnPolygon
  simp only [hOK, ne_eq, not_true_eq_false, if_false]
  split
  · split <;> rfl
  · rfl

theorem depositSand_none (RTN_OK : Int) (ext : Collaborator) (s : CSimulation) (nCoast : Nat)
    (nPoly : Int) (hOK : ∀ l call, (ext l call).1 = RTN_OK) :
    (depositSand RTN_OK ext s nCoast nPoly).1 = none := by
  unfold depositSand nDoUnconsDepositionOnPolygon
  simp only [hOK, ne_eq, not_true_eq_false, if_false]
  split
  · split <;> rfl
  · rfl

theorem erodeFine_none (RTN_OK : Int) (ext : Collaborator) (s : CSimulation) (nCoast : Nat)
    (nPoly : Int) (dPotentialErosion : ℚ) (hOK : ∀ l call, (ext l call).1 = RTN_OK) :
    (erodeFine RTN_OK ext s nCoast nPoly dPotentialErosion).1 = none := by
  unfold erodeFine nDoUnconsErosionOnPolygon
  simp only [hOK, ne_eq, not_true_eq_false, if_false]
  split
  · split <;> rfl
  · rfl

theorem erodeSand_none (RTN_OK : Int) (ext : Collaborator) (s : CSimulation) (nCoast : Nat)
    (nPoly : Int) (dPotentialErosion : ℚ) (hOK : ∀ l call, (ext l call).1 = RTN_OK) :
    (erodeSand RTN_OK ext s nCoast nPoly dPotentialErosion).1 = none := by
  by_cases hStored : 0 < (s.pGetPolygon nCoast nPoly).dGetStoredUnconsSand
  · rw [erodeSand_of_stored RTN_OK ext s nCoast nPoly dPotentialErosion hStored]
    simp only [hOK, ne_eq, not_true_eq_false, if_false]
    split <;> rfl
  · unfold erodeSand
    simp [hStored]

theorem erodeCoarse_none (RTN_OK : Int) (ext : Collaborator) (s : CSimulation) (nCoast : Nat)
    (nPoly : Int) (dPotentialErosion : ℚ) (hOK : ∀ l call, (ext l call).1 = RTN_OK) :
    (erodeCoarse RTN_OK ext s nCoast nPoly dPotentialErosion).1 = none := by
  by_cases hStored : 0 < (s.pGetPolygon nCoast nPoly).dGetStoredUnconsCoarse
  · rw [erodeCoarse_of_stored RTN_OK ext s nCoast nPoly dPotentialErosion hStored]
    simp only [hOK, ne_eq, not_true_eq_false, if_false]
    split <;> rfl
  · unfold erodeCoarse
    simp [hStored]

/-! ### The record of calls only grows -/

theorem erodeSand_log_mono (RTN_OK : Int) (ext : Collaborator) (s : CSimulation) (nCoast : Nat)
    (nPoly : Int) (dPotentialErosion : ℚ) (call : PlacementCall) (h : call ∈ s.placementLog) :
    call ∈ (erodeSand RTN_OK ext s nCoast nPoly dPotentialErosion).2.2.placementLog := by
  by_cases hStored : 0 < (s.pGetPolygon nCoast nPoly).dGetStoredUnconsSand
  · rw [erodeSand_of_stored RTN_OK ext s nCoast nPoly dPotentialErosion hStored]
    split
    · simp [h]
    · split <;> simp [h]
  · unfold erodeSand
    simp [hStored, h]

theorem erodeCoarse_log_mono (RTN_OK : Int) (ext : Collaborator) (s : CSimulation) (nCoast : Nat)
    (nPoly : Int) (dPotentialErosion : ℚ) (call : PlacementCall) (h : call ∈ s.placementLog) :
    call ∈ (erodeCoarse RTN_OK ext s nCoast nPoly dPotentialErosion).2.2.placementLog := by
  by_cases hStored : 0 < (s.pGetPolygon nCoast nPoly).dGetStoredUnconsCoarse
  · rw [erodeCoarse_of_stored RTN_OK ext s nCoast nPoly dPotentialErosion hStored]
    split
    · simp [h]
    · split <;> simp [h]
  · unfold erodeCoarse
    simp [hStored, h]

theorem erodeSand_log_of_stored (RTN_OK : Int) (ext : Collaborator) (s : CSimulation)
    (nCoast : Nat) (nPoly : Int) (dPotentialErosion : ℚ)
    (hStored : 0 < (s.pGetPolygon nCoast nPoly).dGetStoredUnconsSand) :
    sandErosionCall s nCoast nPoly dPotentialErosion ∈
      (erodeSand RTN_OK ext s nCoast nPoly dPotentialErosion).2.2.placementLog := by
  rw [erodeSand_of_stored RTN_OK ext s nCoast nPoly dPotentialErosion hStored]
  split
  · simp
  · split <;> simp

theorem erodeCoarse_log_of_stored (RTN_OK : Int) (ext : Collaborator) (s : CSimulation)
    (nCoast : Nat) (nPoly : Int) (dPotentialErosion : ℚ)
    (hStored : 0 < (s.pGetPolygon nCoast nPoly).dGetStoredUnconsCoarse) :
    coarseErosionCall s nCoast nPoly dPotentialErosion ∈
      (erodeCoarse RTN_OK ext s nCoast nPoly dPotentialErosion).2.2.placementLog := by
  rw [erodeCoarse_of_stored RTN_OK ext s nCoast nPoly dPotentialErosion hStored]
  split
  · simp
  · split <;> simp

theorem depositCoarseAndSand_ok (RTN_OK : Int) (ext : Collaborator) (s : CSimulation)
    (nCoast : Nat) (nPoly : Int) (hOK : ∀ l call, (ext l call).1 = RTN_OK) :
    depositCoarseAndSand RTN_OK ext s nCoast nPoly =
      (none, (depositSand RTN_OK ext (depositCoarse RTN_OK ext s nCoast nPoly).2 nCoast nPoly).2) := by
  have h1 := depositCoarse_none RTN_OK ext s nCoast nPoly hOK
  have h2 := depositSand_none RTN_OK ext (depositCoarse RTN_OK ext s nCoast nPoly).2 nCoast nPoly
    hOK
  unfold depositCoarseAndSand
  cases h : depositCoarse RTN_OK ext s nCoast nPoly with
  | mk r1 s1 =>
    rw [h] at h1 h2
    simp only at h1 h2
    subst h1
    simp only
    exact Prod.ext h2 rfl

theorem erodeAndExport_ok (INT_NODATA RTN_OK : Int) (ext : Collaborator) (s : CSimulation)
    (nCoast : Nat) (nNumPolygons nPoly : Int) (dPotentialErosion : ℚ)
    (hOK : ∀ l call, (ext l call).1 = RTN_OK) :
    erodeAndExport INT_NODATA RTN_OK ext s nCoast nNumPolygons nPoly dPotentialErosion =
      (none,
        if (erodeSand RTN_OK ext (erodeFine RTN_OK ext s nCoast nPoly dPotentialErosion).2 nCoast
              nPoly dPotentialErosion).2.1
            + (erodeCoarse RTN_OK ext
                (erodeSand RTN_OK ext (erodeFine RTN_OK ext s nCoast nPoly dPotentialErosion).2
                  nCoast nPoly dPotentialErosion).2.2 nCoast nPoly dPotentialErosion).2.1 > 0 then
          exportSediment INT_NODATA
            (erodeCoarse RTN_OK ext
              (erodeSand RTN_OK ext (erodeFine RTN_OK ext s nCoast nPoly dPotentialErosion).2
                nCoast nPoly dPotentialErosion).2.2 nCoast nPoly dPotentialErosion).2.2
            nCoast nNumPolygons nPoly
            (erodeSand RTN_OK ext (erodeFine RTN_OK ext s nCoast nPoly dPotentialErosion).2 nCoast
              nPoly dPotentialErosion).2.1
            (erodeCoarse RTN_OK ext
              (erodeSand RTN_OK ext (erodeFine RTN_OK ext s nCoast nPoly dPotentialErosion).2
                nCoast nPoly dPotentialErosion).2.2 nCoast nPoly dPotentialErosion).2.1
        else
          (erodeCoarse RTN_OK ext
            (erodeSand RTN_OK ext (erodeFine RTN_OK ext s nCoast nPoly dPotentialErosion).2
              nCoast nPoly dPotentialErosion).2.2 nCoast nPoly dPotentialErosion).2.2) := by
  unfold erodeAndExport
  have h1 := erodeFine_none RTN_OK ext s nCoast nPoly dPotentialErosion hOK
  cases e1 : erodeFine RTN_OK ext s nCoast nPoly dPotentialErosion with
  | mk r1 s1 =>
  rw [e1] at h1
  simp only at h1
  subst h1
  simp only
  have h2 := erodeSand_none RTN_OK ext s1 nCoast nPoly dPotentialErosion hOK
  cases e2 : erodeSand RTN_OK ext s1 nCoast nPoly dPotentialErosion with
  | mk r2 ds2 =>
  obtain ⟨dSand, s2⟩ := ds2
  rw [e2] at h2
  simp only at h2
  subst h2
  simp only
  have h3 := erodeCoarse_none RTN_OK ext s2 nCoast nPoly dPotentialErosion hOK
  cases e3 : erodeCoarse RTN_OK ext s2 nCoast nPoly dPotentialErosion with
  | mk r3 ds3 =>
  obtain ⟨dCoarse, s3⟩ := ds3
  rw [e3] at h3
  simp only at h3
  subst h3
  simp only
  split <;> rfl

theorem erodeAndExport_log (INT_NODATA RTN_OK : Int) (ext : Collaborator) (s : CSimulation)
    (nCoast : Nat) (nNumPolygons nPoly : Int) (dPotentialErosion : ℚ)
    (hOK : ∀ l call, (ext l call).1 = RTN_OK) :
    (erodeAndExport INT_NODATA RTN_OK ext s nCoast nNumPolygons nPoly
        dPotentialErosion).2.placementLog =
      (erodeCoarse RTN_OK ext
        (erodeSand RTN_OK ext (erodeFine RTN_OK ext s nCoast nPoly dPotentialErosion).2
          nCoast nPoly dPotentialErosion).2.2 nCoast nPoly dPotentialErosion).2.2.placementLog := by
  rw [erodeAndExport_ok INT_NODATA RTN_OK ext s nCoast nNumPolygons nPoly dPotentialErosion hOK]
  simp only
  split
  · exact exportSediment_preserves (fun t => t.placementLog) INT_NODATA _ nCoast nNumPolygons
      nPoly _ _ (fun t j x => by simp) (fun t j x => by simp) (fun _ _ _ => rfl)
  · rfl

theorem doPolygon_ok (INT_NODATA RTN_OK : Int) (ext : Collaborator) (s : CSimulation)
    (nCoast : Nat) (nNumPolygons nPoly : Int) (hOK : ∀ l call, (ext l call).1 = RTN_OK) :
    doPolygon INT_NODATA RTN_OK ext s nCoast nNumPolygons nPoly =
      if -((depositSand RTN_OK ext (depositCoarse RTN_OK ext s nCoast nPoly).2 nCoast
          nPoly).2.pGetPolygon nCoast nPoly).dGetPotentialErosion > 0 then
        erodeAndExport INT_NODATA RTN_OK ext
          (depositSand RTN_OK ext (depositCoarse RTN_OK ext s nCoast nPoly).2 nCoast nPoly).2
          nCoast nNumPolygons nPoly
          (-((depositSand RTN_OK ext (depositCoarse RTN_OK ext s nCoast nPoly).2 nCoast
            nPoly).2.pGetPolygon nCoast nPoly).dGetPotentialErosion)
      else
        (none, (depositSand RTN_OK ext (depositCoarse RTN_OK ext s nCoast nPoly).2 nCoast
          nPoly).2) := by
  unfold doPolygon
  rw [depositCoarseAndSand_ok RTN_OK ext s nCoast nPoly hOK]

theorem depositCoarse_carry (RTN_OK : Int) (ext : Collaborator) (s : CSimulation) (nCoast : Nat)
    (nPoly : Int) (hOK : ∀ l call, (ext l call).1 = RTN_OK)
    (hTarget : 0 < (s.pGetPolygon nCoast nPoly).dGetDepositionUnconsCoarse)
    (hShort : 0 < (s.pGetPolygon nCoast nPoly).dGetDepositionUnconsCoarse
      - (ext s.placementLog (coarseDepositionCall s nCoast nPoly)).2) :
    (depositCoarse RTN_OK ext s nCoast nPoly).2.m_dThisIterDepositionCoarseDiff =
      s.m_dThisIterDepositionCoarseDiff
        + ((s.pGetPolygon nCoast nPoly).dGetDepositionUnconsCoarse
          - (ext s.placementLog (coarseDepositionCall s nCoast nPoly)).2) := by
  unfold coarseDepositionCall at hShort ⊢
  unfold depositCoarse nDoUnconsDepositionOnPolygon
  simp only [gt_iff_lt, hTarget, if_true, hOK, ne_eq, not_true_eq_false, if_false, hShort]

theorem depositSand_carry (RTN_OK : Int) (ext : Collaborator) (s : CSimulation) (nCoast : Nat)
    (nPoly : Int) (hOK : ∀ l call, (ext l call).1 = RTN_OK)
    (hTarget : 0 < (s.pGetPolygon nCoast nPoly).dGetDepositionUnconsSand)
    (hShort : 0 < (s.pGetPolygon nCoast nPoly).dGetDepositionUnconsSand
      - (ext s.placementLog (sandDepositionCall s nCoast nPoly)).2) :
    (depositSand RTN_OK ext s nCoast nPoly).2.m_dThisIterDepositionSandDiff =
      s.m_dThisIterDepositionSandDiff
        + ((s.pGetPolygon nCoast nPoly).dGetDepositionUnconsSand
          - (ext s.placementLog (sandDepositionCall s nCoast nPoly)).2) := by
  unfold sandDepositionCall at hShort ⊢
  unfold depositSand nDoUnconsDepositionOnPolygon
  simp only [gt_iff_lt, hTarget, if_true, hOK, ne_eq, not_true_eq_false, if_false, hShort]

/-- C7 (as stated) fails. In one call on `shortfallSim`, which starts with nothing carried
forward, the deposition routine is asked to place 10 units of sand on polygon 1 and places 7; the
erosion routine is then called for polygon 1, in the same call, with a sand target of 8: the
smaller of potential times erodibility (10) and the stored depth (5), plus the 3 units just left
undeposited. Nothing is carried forward when the call returns. -/
theorem shortfall_same_call_counterexample :
    shortfallSim.m_dThisIterDepositionSandDiff = 0
    ∧ (nDoAllActualBeachErosionAndDeposition (-9999) 0 placeShort shortfallSim).1 = 0
    ∧ (nDoAllActualBeachErosionAndDeposition (-9999) 0 placeShort shortfallSim).2.placementLog =
        [⟨PlacementKind.erosion, 0, 0, Texture.TEXTURE_SAND, 10⟩,
         ⟨PlacementKind.deposition, 0, 1, Texture.TEXTURE_SAND, 10⟩,
         ⟨PlacementKind.erosion, 0, 1, Texture.TEXTURE_SAND, 8⟩]
    ∧ (placeShort [⟨PlacementKind.erosion, 0, 0, Texture.TEXTURE_SAND, 10⟩]
        ⟨PlacementKind.deposition, 0, 1, Texture.TEXTURE_SAND, 10⟩).2 = 7
    ∧ tMin (10 * shortfallSim.m_dSandErodibilityNormalized)
        (shortfallSim.pGetPolygon 0 1).dGetStoredUnconsSand = 5
    ∧ (nDoAllActualBeachErosionAndDeposition (-9999) 0 placeShort
        shortfallSim).2.m_dThisIterDepositionSandDiff = 0 := by
  decide!

/-- C7 (amended). A deposition shortfall enters the next erosion target of its class, which may
be in the same call. When no placement call fails and the undeposited total of a class is not
below zero, a shortfall (target minus deposited, above zero) left by the deposition on a polygon
is part of the erosion target of that class on the same polygon, in the same call, whenever the
polygon has potential erosion and stored sediment of the class: the target is the smaller of
potential times erodibility and the stored depth, plus the undeposited total before the polygon,
plus the shortfall. When the polygon has no potential erosion the shortfall stays in the
undeposited total, for a later polygon or a later call. -/
theorem shortfall_enters_next_erosion (INT_NODATA RTN_OK : Int) (ext : Collaborator)
    (s : CSimulation) (nCoast : Nat) (nNumPolygons nPoly : Int)
    (hOK : ∀ l call, (ext l call).1 = RTN_OK) :
    -- sand
    (0 ≤ s.m_dThisIterDepositionSandDiff →
      0 < (s.pGetPolygon nCoast nPoly).dGetDepositionUnconsSand →
      0 < (s.pGetPolygon nCoast nPoly).dGetDepositionUnconsSand
        - (ext (depositCoarse RTN_OK ext s nCoast nPoly).2.placementLog
            (sandDepositionCall s nCoast nPoly)).2 →
      (0 < -(s.pGetPolygon nCoast nPoly).dGetPotentialErosion →
        0 < (s.pGetPolygon nCoast nPoly).dGetStoredUnconsSand →
        (⟨PlacementKind.erosion, nCoast, nPoly, Texture.TEXTURE_SAND,
            min (-(s.pGetPolygon nCoast nPoly).dGetPotentialErosion
                * s.m_dSandErodibilityNormalized)
              (s.pGetPolygon nCoast nPoly).dGetStoredUnconsSand
            + (s.m_dThisIterDepositionSandDiff
              + ((s.pGetPolygon nCoast nPoly).dGetDepositionUnconsSand
                - (ext (depositCoarse RTN_OK ext s nCoast nPoly).2.placementLog
                    (sandDepositionCall s nCoast nPoly)).2))⟩ : PlacementCall) ∈
          (doPolygon INT_NODATA RTN_OK ext s nCoast nNumPolygons nPoly).2.placementLog)
      ∧ (¬ 0 < -(s.pGetPolygon nCoast nPoly).dGetPotentialErosion →
        (doPolygon INT_NODATA RTN_OK ext s nCoast nNumPolygons
            nPoly).2.m_dThisIterDepositionSandDiff =
          s.m_dThisIterDepositionSandDiff
            + ((s.pGetPolygon nCoast nPoly).dGetDepositionUnconsSand
              - (ext (depositCoarse RTN_OK ext s nCoast nPoly).2.placementLog
                  (sandDepositionCall s nCoast nPoly)).2)))
    -- coarse sediment
    ∧ (0 ≤ s.m_dThisIterDepositionCoarseDiff →
      0 < (s.pGetPolygon nCoast nPoly).dGetDepositionUnconsCoarse →
      0 < (s.pGetPolygon nCoast nPoly).dGetDepositionUnconsCoarse
        - (ext s.placementLog (coarseDepositionCall s nCoast nPoly)).2 →
      (0 < -(s.pGetPolygon nCoast nPoly).dGetPotentialErosion →
        0 < (s.pGetPolygon nCoast nPoly).dGetStoredUnconsCoarse →
        (⟨PlacementKind.erosion, nCoast, nPoly, Texture.TEXTURE_COARSE,
            min (-(s.pGetPolygon nCoast nPoly).dGetPotentialErosion
                * s.m_dCoarseErodibilityNormalized)
              (s.pGetPolygon nCoast nPoly).dGetStoredUnconsCoarse
            + (s.m_dThisIterDepositionCoarseDiff
              + ((s.pGetPolygon nCoast nPoly).dGetDepositionUnconsCoarse
                - (ext s.placementLog (coarseDepositionCall s nCoast nPoly)).2))⟩ :
            PlacementCall) ∈
          (doPolygon INT_NODATA RTN_OK ext s nCoast nNumPolygons nPoly).2.placementLog)
      ∧ (¬ 0 < -(s.pGetPolygon nCoast nPoly).dGetPotentialErosion →
        (doPolygon INT_NODATA RTN_OK ext s nCoast nNumPolygons
            nPoly).2.m_dThisIterDepositionCoarseDiff =
          s.m_dThisIterDepositionCoarseDiff
            + ((s.pGetPolygon nCoast nPoly).dGetDepositionUnconsCoarse
              - (ext s.placementLog (coarseDepositionCall s nCoast nPoly)).2))) := by
  -- what the deposition steps keep
  have c1 := depositCoarse_preserves (fun t => (t.m_VCoast, t.m_dThisIterDepositionSandDiff,
    t.m_dSandErodibilityNormalized, t.m_dCoarseErodibilityNormalized)) RTN_OK ext s nCoast nPoly
    (fun _ _ => rfl)
  simp only [Prod.mk.injEq] at c1
  obtain ⟨c11, c12, c13, c14⟩ := c1
  have hp1 : ∀ j, (depositCoarse RTN_OK ext s nCoast nPoly).2.pGetPolygon nCoast j =
      s.pGetPolygon nCoast j := by
    intro j
    unfold CSimulation.pGetPolygon CSimulation.coast
    rw [c11]
  have d1 := depositSand_preserves (fun t => (t.m_VCoast, t.m_dThisIterDepositionCoarseDiff,
    t.m_dSandErodibilityNormalized, t.m_dCoarseErodibilityNormalized)) RTN_OK ext
    (depositCoarse RTN_OK ext s nCoast nPoly).2 nCoast nPoly (fun _ _ => rfl)
  simp only [Prod.mk.injEq] at d1
  obtain ⟨d11, d12, d13, d14⟩ := d1
  have hp2 : ∀ j, (depositSand RTN_OK ext (depositCoarse RTN_OK ext s nCoast nPoly).2 nCoast
      nPoly).2.pGetPolygon nCoast j = s.pGetPolygon nCoast j := by
    intro j
    rw [← hp1 j]
    unfold CSimulation.pGetPolygon CSimulation.coast
    rw [d11]
  rw [doPolygon_ok INT_NODATA RTN_OK ext s nCoast nNumPolygons nPoly hOK, hp2 nPoly]
  constructor
  · intro hCarry hTarget hShort
    have hcarry2 : (depositSand RTN_OK ext (depositCoarse RTN_OK ext s nCoast nPoly).2 nCoast
        nPoly).2.m_dThisIterDepositionSandDiff = s.m_dThisIterDepositionSandDiff
          + ((s.pGetPolygon nCoast nPoly).dGetDepositionUnconsSand
            - (ext (depositCoarse RTN_OK ext s nCoast nPoly).2.placementLog
                (sandDepositionCall s nCoast nPoly)).2) := by
      have h := depositSand_carry RTN_OK ext (depositCoarse RTN_OK ext s nCoast nPoly).2 nCoast
        nPoly hOK (by rw [hp1]; exact hTarget)
        (by unfold sandDepositionCall at hShort ⊢; rw [hp1]; exact hShort)
      unfold sandDepositionCall at h ⊢
      rw [hp1, c12] at h
      exact h
    constructor
    · intro hPot hStored
      simp only [gt_iff_lt, hPot, if_true]
      rw [erodeAndExport_log INT_NODATA RTN_OK ext _ nCoast nNumPolygons nPoly _ hOK]
      apply erodeCoarse_log_mono
      -- what the fine erosion keeps
      have f1 := erodeFine_preserves (fun t => (t.m_dThisIterDepositionSandDiff,
        t.m_dSandErodibilityNormalized, (t.pGetPolygon nCoast nPoly).dGetStoredUnconsSand))
        RTN_OK ext (depositSand RTN_OK ext (depositCoarse RTN_OK ext s nCoast nPoly).2 nCoast
          nPoly).2 nCoast nPoly (-(s.pGetPolygon nCoast nPoly).dGetPotentialErosion)
        (fun t x => by
          simp only [updPolygon_m_dThisIterDepositionSandDiff,
            updPolygon_m_dSandErodibilityNormalized,
            pGetPolygon_updPolygon_field CGeomCoastPolygon.dGetStoredUnconsSand t nCoast nPoly
              nPoly (fun p => p.SetErosionUnconsFine x) (fun _ => rfl)])
        (fun _ _ => rfl)
      simp only [Prod.mk.injEq] at f1
      obtain ⟨f11, f12, f13⟩ := f1
      rw [hcarry2] at f11
      rw [d13, c13] at f12
      rw [hp2] at f13
      have hcall := erodeSand_log_of_stored RTN_OK ext
        (erodeFine RTN_OK ext (depositSand RTN_OK ext (depositCoarse RTN_OK ext s nCoast nPoly).2
          nCoast nPoly).2 nCoast nPoly (-(s.pGetPolygon nCoast nPoly).dGetPotentialErosion)).2
        nCoast nPoly (-(s.pGetPolygon nCoast nPoly).dGetPotentialErosion)
        (by rw [f13]; exact hStored)
      have hpos : 0 < s.m_dThisIterDepositionSandDiff
          + ((s.pGetPolygon nCoast nPoly).dGetDepositionUnconsSand
            - (ext (depositCoarse RTN_OK ext s nCoast nPoly).2.placementLog
                (sandDepositionCall s nCoast nPoly)).2) := by linarith
      unfold sandErosionCall at hcall
      rw [f11, f12, f13, if_pos hpos, tMin_eq_min] at hcall
      exact hcall
    · intro hPot
      simp only [gt_iff_lt, hPot, if_false]
      exact hcarry2
  · intro hCarry hTarget hShort
    have hcarry1 := depositCoarse_carry RTN_OK ext s nCoast nPoly hOK hTarget hShort
    constructor
    · intro hPot hStored
      simp only [gt_iff_lt, hPot, if_true]
      rw [erodeAndExport_log INT_NODATA RTN_OK ext _ nCoast nNumPolygons nPoly _ hOK]
      -- what the fine and the sand erosion keep
      have f1 := erodeFine_preserves (fun t => (t.m_dThisIterDepositionCoarseDiff,
        t.m_dCoarseErodibilityNormalized, (t.pGetPolygon nCoast nPoly).dGetStoredUnconsCoarse))
        RTN_OK ext (depositSand RTN_OK ext (depositCoarse RTN_OK ext s nCoast nPoly).2 nCoast
          nPoly).2 nCoast nPoly (-(s.pGetPolygon nCoast nPoly).dGetPotentialErosion)
        (fun t x => by
          simp only [updPolygon_m_dThisIterDepositionCoarseDiff,
            updPolygon_m_dCoarseErodibilityNormalized,
            pGetPolygon_updPolygon_field CGeomCoastPolygon.dGetStoredUnconsCoarse t nCoast nPoly
              nPoly (fun p => p.SetErosionUnconsFine x) (fun _ => rfl)])
        (fun _ _ => rfl)
      have g1 := erodeSand_preserves (fun t => (t.m_dThisIterDepositionCoarseDiff,
        t.m_dCoarseErodibilityNormalized, (t.pGetPolygon nCoast nPoly).dGetStoredUnconsCoarse))
        RTN_OK ext (erodeFine RTN_OK ext (depositSand RTN_OK ext
          (depositCoarse RTN_OK ext s nCoast nPoly).2 nCoast nPoly).2 nCoast nPoly
          (-(s.pGetPolygon nCoast nPoly).dGetPotentialErosion)).2 nCoast nPoly
        (-(s.pGetPolygon nCoast nPoly).dGetPotentialErosion)
        (fun t x => by
          simp only [updPolygon_m_dThisIterDepositionCoarseDiff,
            updPolygon_m_dCoarseErodibilityNormalized,
            pGetPolygon_updPolygon_field CGeomCoastPolygon.dGetStoredUnconsCoarse t nCoast nPoly
              nPoly (fun p => p.SetErosionUnconsSand x) (fun _ => rfl)])
        (fun _ _ _ => rfl)
      have fg := g1.trans f1
      simp only [Prod.mk.injEq] at fg
      obtain ⟨f11, f12, f13⟩ := fg
      rw [d12, hcarry1] at f11
      rw [d14, c14] at f12
      rw [hp2] at f13
      have hcall := erodeCoarse_log_of_stored RTN_OK ext
        (erodeSand RTN_OK ext (erodeFine RTN_OK ext (depositSand RTN_OK ext
          (depositCoarse RTN_OK ext s nCoast nPoly).2 nCoast nPoly).2 nCoast nPoly
          (-(s.pGetPolygon nCoast nPoly).dGetPotentialErosion)).2 nCoast nPoly
          (-(s.pGetPolygon nCoast nPoly).dGetPotentialErosion)).2.2
        nCoast nPoly (-(s.pGetPolygon nCoast nPoly).dGetPotentialErosion)
        (by rw [f13]; exact hStored)
      have hpos : 0 < s.m_dThisIterDepositionCoarseDiff
          + ((s.pGetPolygon nCoast nPoly).dGetDepositionUnconsCoarse
            - (ext s.placementLog (coarseDepositionCall s nCoast nPoly)).2) := by linarith
      unfold coarseErosionCall at hcall
      rw [f11, f12, f13, if_pos hpos, tMin_eq_min] at hcall
      exact hcall
    · intro hPot
      simp only [gt_iff_lt, hPot, if_false]
      rw [d12, hcarry1]

theorem placeShort_ok : ∀ (l : List PlacementCall) (call : PlacementCall),
    (placeShort l call).1 = 0 := by
  intro l call
  unfold placeShort
  split <;> rfl

/-- Witness for C7 (amended) on `absorbSim` with routines which deposit three units less than
asked: the sand and the coarse erosion targets of the polygon are both 8, the smaller of
10 * 1/2 and the stored depth plus the 3 units just left undeposited. -/
theorem shortfall_enters_next_erosion_witness :
    (⟨PlacementKind.erosion, 0, 0, Texture.TEXTURE_SAND, 8⟩ : PlacementCall) ∈
        (doPolygon (-9999) 0 placeShort absorbSim 0 1 0).2.placementLog
    ∧ (⟨PlacementKind.erosion, 0, 0, Texture.TEXTURE_COARSE, 8⟩ : PlacementCall) ∈
        (doPolygon (-9999) 0 placeShort absorbSim 0 1 0).2.placementLog := by
  have h := shortfall_enters_next_erosion (-9999) 0 placeShort absorbSim 0 1 0 placeShort_ok
  have hs := (h.1 (by decide!) (by decide!) (by decide!)).1 (by decide!) (by decide!)
  have hc := (h.2 (by decide!) (by decide!) (by decide!)).1 (by decide!) (by decide!)
  refine ⟨?_, ?_⟩
  · have e : (⟨PlacementKind.erosion, 0, 0, Texture.TEXTURE_SAND, 8⟩ : PlacementCall) =
        ⟨PlacementKind.erosion, 0, 0, Texture.TEXTURE_SAND,
          min (-(absorbSim.pGetPolygon 0 0).dGetPotentialErosion
              * absorbSim.m_dSandErodibilityNormalized)
            (absorbSim.pGetPolygon 0 0).dGetStoredUnconsSand
          + (absorbSim.m_dThisIterDepositionSandDiff
            + ((absorbSim.pGetPolygon 0 0).dGetDepositionUnconsSand
              - (placeShort (depositCoarse 0 placeShort absorbSim 0 0).2.placementLog
                  (sandDepositionCall absorbSim 0 0)).2))⟩ := by decide!
    rw [e]
    exact hs
  · have e : (⟨PlacementKind.erosion, 0, 0, Texture.TEXTURE_COARSE, 8⟩ : PlacementCall) =
        ⟨PlacementKind.erosion, 0, 0, Texture.TEXTURE_COARSE,
          min (-(absorbSim.pGetPolygon 0 0).dGetPotentialErosion
              * absorbSim.m_dCoarseErodibilityNormalized)
            (absorbSim.pGetPolygon 0 0).dGetStoredUnconsCoarse
          + (absorbSim.m_dThisIterDepositionCoarseDiff
            + ((absorbSim.pGetPolygon 0 0).dGetDepositionUnconsCoarse
              - (placeShort absorbSim.placementLog (coarseDepositionCall absorbSim 0 0)).2))⟩ := by
      decide!
    rw [e]
    exact hc

/-! ### The sort -/

theorem pairwise_insertSorted {α : Type} (comp : α → α → Bool) (S : α → Prop)
    (hAsymm : ∀ a b, S a → S b → comp a b = true → comp b a = false)
    (hNegTrans : ∀ a b c, S a → S b → S c → comp a b = false → comp b c = false →
      comp a c = false)
    (x : α) (hx : S x) (ys : List α) (hys : ∀ y ∈ ys, S y)
    (hSorted : ys.Pairwise (fun a b => comp b a = false)) :
    (insertSorted comp x ys).Pairwise (fun a b => comp b a = false) := by
  induction ys with
  | nil => simp [insertSorted]
  | cons y ys ih =>
    have hy : S y := hys y (List.mem_cons_self y ys)
    have hys' : ∀ z ∈ ys, S z := fun z hz => hys z (List.mem_cons_of_mem _ hz)
    rw [List.pairwise_cons] at hSorted
    unfold insertSorted
    by_cases hc : comp y x = true
    · simp only [hc, if_true]
      rw [List.pairwise_cons]
      refine ⟨?_, ih hys' hSorted.2⟩
      intro z hz
      rw [mem_insertSorted] at hz
      rcases hz with rfl | hz
      · exact hAsymm y z hy hx hc
      · exact hSorted.1 z hz
    · have hc' : comp y x = false := by simpa using hc
      simp only [hc', Bool.false_eq_true, if_false]
      rw [List.pairwise_cons]
      refine ⟨?_, List.pairwise_cons.mpr hSorted⟩
      intro z hz
      rcases List.mem_cons.mp hz with rfl | hz
      · exact hc'
      · exact hNegTrans z y x (hys' z hz) hy hx (hSorted.1 z hz) hc'

theorem pairwise_stable_sort {α : Type} (comp : α → α → Bool) (S : α → Prop)
    (hAsymm : ∀ a b, S a → S b → comp a b = true → comp b a = false)
    (hNegTrans : ∀ a b c, S a → S b → S c → comp a b = false → comp b c = false →
      comp a c = false)
    (l : List α) (hl : ∀ x ∈ l, S x) :
    (stable_sort comp l).Pairwise (fun a b => comp b a = false) := by
  induction l with
  | nil => simp [stable_sort]
  | cons x l ih =>
    unfold stable_sort
    have hl' : ∀ y ∈ l, S y := fun y hy => hl y (List.mem_cons_of_mem _ hy)
    exact pairwise_insertSorted comp S hAsymm hNegTrans x (hl x (List.mem_cons_self x l)) _
      (fun y hy => hl' y ((mem_stable_sort comp y l).mp hy)) (ih hl')

/-- An item with an adjacent polygon, the first of them not the grid edge, is ordered before
every item with an adjacent polygon whose polygon it names. -/
theorem compareBefore_of_names (INT_NODATA : Int) (d e : List Int) (hd : 3 ≤ d.length)
    (he : 3 ≤ e.length) (hEdge : d.getD 2 0 ≠ INT_NODATA) (hNames : namesPolygon INT_NODATA d e) :
    compareBefore INT_NODATA d e = true := by
  unfold compareBefore bPolygonAndAdjCompare
  simp only [hd, he, and_self, if_true, hEdge, if_false]
  split
  · rfl
  · have : (d.drop 2).contains (e.getD 0 0) = true := by
      rw [List.contains_iff_exists_mem_beq]
      exact ⟨e.getD 0 0, hNames.2, by simp⟩
    rw [if_pos this]
    rfl

/-- C2 (as stated) fails. First list: polygon 0 has no adjacent polygon and polygon 1 names
polygon 0; the IDs are distinct, the adjacency relation has no cycle, the comparison is a strict
weak ordering on the list, and the sorted sequence keeps polygon 0 in front of polygon 1. Second
list: polygon 0 names the grid edge first and then polygon 1; the sorted sequence puts polygon 1
in front of polygon 0. Third list: the chain 2, 3, 1, 0 in which every polygon names one adjacent
polygon; the comparison orders 2 before 3 and 3 before 1 but not 2 before 1, so it is not a
strict weak ordering, and the sorted sequence puts polygon 1 in front of polygon 3, which names
it. -/
theorem sources_before_targets_counterexample :
    ((([[0, 1], [1, 1, 0]] : List (List Int)).map (fun d => d.getD 0 0)).Nodup
      ∧ acyclicAdjacency (-9999) [[0, 1], [1, 1, 0]]
      ∧ strictWeakOn (compareBefore (-9999)) [[0, 1], [1, 1, 0]]
      ∧ stable_sort (compareBefore (-9999)) [[0, 1], [1, 1, 0]] = [[0, 1], [1, 1, 0]]
      ∧ ¬ sourcesBeforeTargets (-9999) (stable_sort (compareBefore (-9999)) [[0, 1], [1, 1, 0]]))
    ∧ ((([[0, 1, -9999, 1], [1, 1, 2], [2, 1, -9999]] : List (List Int)).map
          (fun d => d.getD 0 0)).Nodup
      ∧ acyclicAdjacency (-9999) [[0, 1, -9999, 1], [1, 1, 2], [2, 1, -9999]]
      ∧ strictWeakOn (compareBefore (-9999)) [[0, 1, -9999, 1], [1, 1, 2], [2, 1, -9999]]
      ∧ stable_sort (compareBefore (-9999)) [[0, 1, -9999, 1], [1, 1, 2], [2, 1, -9999]] =
          [[1, 1, 2], [0, 1, -9999, 1], [2, 1, -9999]]
      ∧ ¬ sourcesBeforeTargets (-9999)
          (stable_sort (compareBefore (-9999)) [[0, 1, -9999, 1], [1, 1, 2], [2, 1, -9999]]))
    ∧ ((([[0, 0, -9999], [1, 0, 0], [2, 1, 3], [3, 0, 1]] : List (List Int)).map
          (fun d => d.getD 0 0)).Nodup
      ∧ acyclicAdjacency (-9999) [[0, 0, -9999], [1, 0, 0], [2, 1, 3], [3, 0, 1]]
      ∧ ¬ strictWeakOn (compareBefore (-9999)) [[0, 0, -9999], [1, 0, 0], [2, 1, 3], [3, 0, 1]]
      ∧ stable_sort (compareBefore (-9999)) [[0, 0, -9999], [1, 0, 0], [2, 1, 3], [3, 0, 1]] =
          [[1, 0, 0], [2, 1, 3], [3, 0, 1], [0, 0, -9999]]
      ∧ ¬ sourcesBeforeTargets (-9999)
          (stable_sort (compareBefore (-9999))
            [[0, 0, -9999], [1, 0, 0], [2, 1, 3], [3, 0, 1]])) :=
  ⟨⟨by decide, ⟨fun i => if i = 1 then 0 else 1, by decide⟩, by decide, by decide, by decide⟩,
    ⟨by decide, ⟨fun i => i.toNat, by decide⟩, by decide, by decide, by decide⟩,
    ⟨by decide, ⟨fun i => if i = 2 then 0 else if i = 3 then 1 else if i = 1 then 2 else 3,
      by decide⟩, by decide, by decide, by decide⟩⟩

/-- C2 (amended). Sources before targets: for every list of array items which all have an
adjacent polygon and on which the comparison is a strict weak ordering, in the sorted sequence no
item whose first adjacent polygon is not the grid edge names the polygon of an item placed before
it: every such polygon is processed before each polygon it names. -/
theorem sources_before_targets (INT_NODATA : Int) (l : List (List Int))
    (hAdj : ∀ d ∈ l, 3 ≤ d.length)
    (hOrder : strictWeakOn (compareBefore INT_NODATA) l) :
    (stable_sort (compareBefore INT_NODATA) l).Pairwise
      (fun x y => y.getD 2 0 ≠ INT_NODATA → ¬ namesPolygon INT_NODATA y x) := by
  have hp := pairwise_stable_sort (compareBefore INT_NODATA) (fun d => d ∈ l)
    (fun a b ha hb => hOrder.1 a ha b hb) (fun a b c ha hb hc => hOrder.2 a ha b hb c hc) l
    (fun _ h => h)
  refine List.Pairwise.imp_of_mem ?_ hp
  intro x y hx hy hxy hEdge hNames
  rw [mem_stable_sort] at hx hy
  rw [compareBefore_of_names INT_NODATA y x (hAdj y hy) (hAdj x hx) hEdge hNames] at hxy
  exact Bool.noConfusion hxy

/-- Witness for C2 (amended): the array items of a line of three down-coast polygons, given out
of order, are sorted into the order 0, 1, 2. -/
theorem sources_before_targets_witness :
    strictWeakOn (compareBefore (-9999)) [[2, 1, -9999], [0, 1, 1], [1, 1, 2]]
    ∧ stable_sort (compareBefore (-9999)) [[2, 1, -9999], [0, 1, 1], [1, 1, 2]] =
        [[0, 1, 1], [1, 1, 2], [2, 1, -9999]]
    ∧ (stable_sort (compareBefore (-9999)) [[2, 1, -9999], [0, 1, 1], [1, 1, 2]]).Pairwise
        (fun x y => y.getD 2 0 ≠ -9999 → ¬ namesPolygon (-9999) y x) :=
  ⟨by decide, by decide,
    sources_before_targets (-9999) [[2, 1, -9999], [0, 1, 1], [1, 1, 2]] (by decide) (by decide)⟩

/-! ### Quantities kept by a whole pass -/

/-- The erosion of one polygon followed by the export keeps every quantity which the erosion
steps do not write and which the export keeps. -/
theorem erodeAndExport_preserves {β : Type} (g : CSimulation → β) (INT_NODATA RTN_OK : Int)
    (ext : Collaborator) (s : CSimulation) (nCoast : Nat) (nNumPolygons nPoly : Int)
    (dPotentialErosion : ℚ)
    (hFine : ∀ t i x, g (t.updPolygon nCoast i (fun p => p.SetErosionUnconsFine x)) = g t)
    (hSand : ∀ t i x, g (t.updPolygon nCoast i (fun p => p.SetErosionUnconsSand x)) = g t)
    (hCoarse : ∀ t i x, g (t.updPolygon nCoast i (fun p => p.SetErosionUnconsCoarse x)) = g t)
    (hg : ∀ (t : CSimulation) l x y a b c, g { t with
      placementLog := l
      m_dThisIterDepositionSandDiff := x
      m_dThisIterDepositionCoarseDiff := y
      m_dThisIterBeachErosionFine := a
      m_dThisIterBeachErosionSand := b
      m_dThisIterBeachErosionCoarse := c } = g t)
    (hExport : ∀ t n i a b, g (exportSediment INT_NODATA t nCoast n i a b) = g t) :
    g (erodeAndExport INT_NODATA RTN_OK ext s nCoast nNumPolygons nPoly dPotentialErosion).2 =
      g s := by
  have f1 := erodeFine_preserves g RTN_OK ext s nCoast nPoly dPotentialErosion
    (fun t x => hFine t nPoly x)
    (fun l x => hg s l s.m_dThisIterDepositionSandDiff s.m_dThisIterDepositionCoarseDiff x
      s.m_dThisIterBeachErosionSand s.m_dThisIterBeachErosionCoarse)
  unfold erodeAndExport
  cases h1 : erodeFine RTN_OK ext s nCoast nPoly dPotentialErosion with
  | mk r1 s1 =>
  rw [h1] at f1
  cases r1 with
  | some nRet => exact f1
  | none =>
  simp only at f1 ⊢
  have f2 := erodeSand_preserves g RTN_OK ext s1 nCoast nPoly dPotentialErosion
    (fun t x => hSand t nPoly x)
    (fun l x y => hg s1 l x s1.m_dThisIterDepositionCoarseDiff s1.m_dThisIterBeachErosionFine y
      s1.m_dThisIterBeachErosionCoarse)
  cases h2 : erodeSand RTN_OK ext s1 nCoast nPoly dPotentialErosion with
  | mk r2 ds2 =>
  obtain ⟨dSand, s2⟩ := ds2
  rw [h2] at f2
  cases r2 with
  | some nRet => exact f2.trans f1
  | none =>
  simp only at f2 ⊢
  have f3 := erodeCoarse_preserves g RTN_OK ext s2 nCoast nPoly dPotentialErosion
    (fun t x => hCoarse t nPoly x)
    (fun l x y => hg s2 l s2.m_dThisIterDepositionSandDiff x s2.m_dThisIterBeachErosionFine
      s2.m_dThisIterBeachErosionSand y)
  cases h3 : erodeCoarse RTN_OK ext s2 nCoast nPoly dPotentialErosion with
  | mk r3 ds3 =>
  obtain ⟨dCoarse, s3⟩ := ds3
  rw [h3] at f3
  cases r3 with
  | some nRet => exact f3.trans (f2.trans f1)
  | none =>
  simp only at f3 ⊢
  split
  · exact (hExport s3 _ _ _ _).trans (f3.trans (f2.trans f1))
  · exact f3.trans (f2.trans f1)

/-- The processing of one polygon keeps every quantity which the deposition and erosion steps do
not write and which the export keeps. -/
theorem doPolygon_preserves {β : Type} (g : CSimulation → β) (INT_NODATA RTN_OK : Int)
    (ext : Collaborator) (s : CSimulation) (nCoast : Nat) (nNumPolygons nPoly : Int)
    (hFine : ∀ t i x, g (t.updPolygon nCoast i (fun p => p.SetErosionUnconsFine x)) = g t)
    (hSand : ∀ t i x, g (t.updPolygon nCoast i (fun p => p.SetErosionUnconsSand x)) = g t)
    (hCoarse : ∀ t i x, g (t.updPolygon nCoast i (fun p => p.SetErosionUnconsCoarse x)) = g t)
    (hg : ∀ (t : CSimulation) l x y a b c, g { t with
      placementLog := l
      m_dThisIterDepositionSandDiff := x
      m_dThisIterDepositionCoarseDiff := y
      m_dThisIterBeachErosionFine := a
      m_dThisIterBeachErosionSand := b
      m_dThisIterBeachErosionCoarse := c } = g t)
    (hExport : ∀ t n i a b, g (exportSediment INT_NODATA t nCoast n i a b) = g t) :
    g (doPolygon INT_NODATA RTN_OK ext s nCoast nNumPolygons nPoly).2 = g s := by
  have d1 := depositCoarseAndSand_preserves g RTN_OK ext s nCoast nPoly
    (fun t l x y => hg t l x y t.m_dThisIterBeachErosionFine t.m_dThisIterBeachErosionSand
      t.m_dThisIterBeachErosionCoarse)
  unfold doPolygon
  cases h1 : depositCoarseAndSand RTN_OK ext s nCoast nPoly with
  | mk r1 s1 =>
  rw [h1] at d1
  cases r1 with
  | some nRet => exact d1
  | none =>
  simp only at d1 ⊢
  split
  · exact (erodeAndExport_preserves g INT_NODATA RTN_OK ext s1 nCoast nNumPolygons nPoly _
      hFine hSand hCoarse hg hExport).trans d1
  · exact d1

/-- The loop over the sorted polygons keeps every quantity which the deposition and erosion steps
do not write and which the export keeps. -/
theorem doAllPolygons_preserves {β : Type} (g : CSimulation → β) (INT_NODATA RTN_OK : Int)
    (ext : Collaborator) (nCoast : Nat) (nNumPolygons : Int)
    (hFine : ∀ t i x, g (t.updPolygon nCoast i (fun p => p.SetErosionUnconsFine x)) = g t)
    (hSand : ∀ t i x, g (t.updPolygon nCoast i (fun p => p.SetErosionUnconsSand x)) = g t)
    (hCoarse : ∀ t i x, g (t.updPolygon nCoast i (fun p => p.SetErosionUnconsCoarse x)) = g t)
    (hg : ∀ (t : CSimulation) l x y a b c, g { t with
      placementLog := l
      m_dThisIterDepositionSandDiff := x
      m_dThisIterDepositionCoarseDiff := y
      m_dThisIterBeachErosionFine := a
      m_dThisIterBeachErosionSand := b
      m_dThisIterBeachErosionCoarse := c } = g t)
    (hExport : ∀ t n i a b, g (exportSediment INT_NODATA t nCoast n i a b) = g t)
    (l : List (List Int)) (s : CSimulation) :
    g (doAllPolygons INT_NODATA RTN_OK ext nCoast nNumPolygons l s).2 = g s := by
  induction l generalizing s with
  | nil => rfl
  | cons nVPoly rest ih =>
    have d1 := doPolygon_preserves g INT_NODATA RTN_OK ext s nCoast nNumPolygons
      (nVPoly.getD 0 0) hFine hSand hCoarse hg hExport
    unfold doAllPolygons
    cases h1 : doPolygon INT_NODATA RTN_OK ext s nCoast nNumPolygons (nVPoly.getD 0 0) with
    | mk r1 s1 =>
    rw [h1] at d1
    cases r1 with
    | some nRet => exact d1
    | none => exact (ih s1).trans d1

/-- The processing of one coast keeps every quantity which is not written by the update of the
stored sediment, the check for circularities, the deposition and erosion steps, and which the
export keeps. -/
theorem doCoast_preserves {β : Type} (g : CSimulation → β) (INT_NODATA RTN_OK : Int)
    (ext : Collaborator) (s : CSimulation) (nCoast : Nat)
    (hStoredSand : ∀ t i x, g (t.updPolygon nCoast i (fun p => p.SetStoredUnconsSand x)) = g t)
    (hStoredCoarse : ∀ t i x,
      g (t.updPolygon nCoast i (fun p => p.SetStoredUnconsCoarse x)) = g t)
    (hCirc : ∀ t i x, g (t.updPolygon nCoast i (fun p => p.AddCircularity x)) = g t)
    (hFine : ∀ t i x, g (t.updPolygon nCoast i (fun p => p.SetErosionUnconsFine x)) = g t)
    (hSand : ∀ t i x, g (t.updPolygon nCoast i (fun p => p.SetErosionUnconsSand x)) = g t)
    (hCoarse : ∀ t i x, g (t.updPolygon nCoast i (fun p => p.SetErosionUnconsCoarse x)) = g t)
    (hg : ∀ (t : CSimulation) l x y a b c, g { t with
      placementLog := l
      m_dThisIterDepositionSandDiff := x
      m_dThisIterDepositionCoarseDiff := y
      m_dThisIterBeachErosionFine := a
      m_dThisIterBeachErosionSand := b
      m_dThisIterBeachErosionCoarse := c } = g t)
    (hExport : ∀ t n i a b, g (exportSediment INT_NODATA t nCoast n i a b) = g t) :
    g (doCoast INT_NODATA RTN_OK ext s nCoast).2 = g s := by
  unfold doCoast
  simp only
  rw [doAllPolygons_preserves g INT_NODATA RTN_OK ext nCoast _ hFine hSand hCoarse hg hExport,
    circularityWalk_preserves g nCoast hCirc,
    AllPolygonsUpdateStoredUncons_preserves g s nCoast hStoredSand hStoredCoarse]

/-- The loop over the coasts keeps every quantity which is not written by the update of the
stored sediment, the check for circularities, the deposition and erosion steps, and which the
export keeps. -/
theorem doCoastsFrom_preserves {β : Type} (g : CSimulation → β) (INT_NODATA RTN_OK : Int)
    (ext : Collaborator)
    (hStoredSand : ∀ t n i x, g (t.updPolygon n i (fun p => p.SetStoredUnconsSand x)) = g t)
    (hStoredCoarse : ∀ t n i x, g (t.updPolygon n i (fun p => p.SetStoredUnconsCoarse x)) = g t)
    (hCirc : ∀ t n i x, g (t.updPolygon n i (fun p => p.AddCircularity x)) = g t)
    (hFine : ∀ t n i x, g (t.updPolygon n i (fun p => p.SetErosionUnconsFine x)) = g t)
    (hSand : ∀ t n i x, g (t.updPolygon n i (fun p => p.SetErosionUnconsSand x)) = g t)
    (hCoarse : ∀ t n i x, g (t.updPolygon n i (fun p => p.SetErosionUnconsCoarse x)) = g t)
    (hg : ∀ (t : CSimulation) l x y a b c, g { t with
      placementLog := l
      m_dThisIterDepositionSandDiff := x
      m_dThisIterDepositionCoarseDiff := y
      m_dThisIterBeachErosionFine := a
      m_dThisIterBeachErosionSand := b
      m_dThisIterBeachErosionCoarse := c } = g t)
    (hExport : ∀ t nCoast n i a b, g (exportSediment INT_NODATA t nCoast n i a b) = g t)
    (nCoasts nCoast : Nat) (s : CSimulation) :
    g (doCoastsFrom INT_NODATA RTN_OK ext nCoasts nCoast s).2 = g s := by
  induction nCoasts generalizing nCoast s with
  | zero => rfl
  | succ k ih =>
    have d1 := doCoast_preserves g INT_NODATA RTN_OK ext s nCoast (hStoredSand · nCoast)
      (hStoredCoarse · nCoast) (hCirc · nCoast) (hFine · nCoast) (hSand · nCoast)
      (hCoarse · nCoast) hg (hExport · nCoast)
    unfold doCoastsFrom
    cases h1 : doCoast INT_NODATA RTN_OK ext s nCoast with
    | mk r1 s1 =>
    rw [h1] at d1
    cases r1 with
    | some nRet => exact d1
    | none => exact (ih (nCoast + 1) s1).trans d1

/-! ### Grid-edge handling -/

/-- With closed grid edges the grid-edge handling changes nothing. -/
theorem exportAtGridEdge_closed (s : CSimulation) (nCoast : Nat) (dSandEroded dCoarseEroded : ℚ)
    (hClosed : s.m_nUnconsSedimentHandlingAtGridEdges = GridEdge.GRID_EDGE_CLOSED) :
    exportAtGridEdge s nCoast dSandEroded dCoarseEroded = s := by
  unfold exportAtGridEdge
  rw [hClosed]

/-- The export of eroded sediment keeps every quantity which the grid-edge handling keeps and
which does not depend on the sand and coarse deposition of polygons. -/
theorem exportSediment_preserves_of_edge {β : Type} (g : CSimulation → β) (INT_NODATA : Int)
    (s : CSimulation) (nCoast : Nat) (nNumPolygons nPoly : Int) (dSandEroded dCoarseEroded : ℚ)
    (hupdS : ∀ t i x, g (t.updPolygon nCoast i (fun p => p.AddDepositionUnconsSand x)) = g t)
    (hupdC : ∀ t i x, g (t.updPolygon nCoast i (fun p => p.AddDepositionUnconsCoarse x)) = g t)
    (hEdge : ∀ t a b, g (exportAtGridEdge t nCoast a b) = g t) :
    g (exportSediment INT_NODATA s nCoast nNumPolygons nPoly dSandEroded dCoarseEroded) = g s := by
  unfold exportSediment
  simp only
  split
  · apply foldl_preserves
    intro t nn
    unfold exportSlotDownCoast
    simp only
    split
    · split
      · rfl
      · split
        · exact hEdge t _ _
        · rfl
    · exact exportToAdjacent_preserves g t nCoast _ _ _ _ hupdS hupdC
  · apply foldl_preserves
    intro t nn
    unfold exportSlotUpCoast
    simp only
    split
    · split
      · rfl
      · split
        · exact hEdge t _ _
        · rfl
    · exact exportToAdjacent_preserves g t nCoast _ _ _ _ hupdS hupdC

/-- A write to a polygon is not seen by `closedView`. -/
theorem closedView_updPolygon (s : CSimulation) (nCoast : Nat) (nPoly : Int)
    (f : CGeomCoastPolygon → CGeomCoastPolygon) :
    closedView (s.updPolygon nCoast nPoly f) = closedView s := by
  unfold closedView
  simp

/-- The grid-edge handling keeps `closedView`: closed edges change nothing, and the other two
settings are not observed. -/
theorem closedView_exportAtGridEdge (s : CSimulation) (nCoast : Nat)
    (dSandEroded dCoarseEroded : ℚ) :
    closedView (exportAtGridEdge s nCoast dSandEroded dCoarseEroded) = closedView s := by
  cases hPolicy : s.m_nUnconsSedimentHandlingAtGridEdges with
  | GRID_EDGE_CLOSED => rw [exportAtGridEdge_closed s nCoast _ _ hPolicy]
  | GRID_EDGE_OPEN =>
    unfold exportAtGridEdge closedView
    simp [hPolicy]
  | GRID_EDGE_RECIRCULATE =>
    unfold exportAtGridEdge
    rw [hPolicy]
    simp only
    split <;> split <;> simp only [closedView_updPolygon]

/-- The whole of `nDoAllActualBeachErosionAndDeposition` keeps `closedView`. -/
theorem closedView_nDoAllActualBeachErosionAndDeposition (INT_NODATA RTN_OK : Int)
    (ext : Collaborator) (s : CSimulation) :
    closedView (nDoAllActualBeachErosionAndDeposition INT_NODATA RTN_OK ext s).2 =
      closedView s := by
  unfold nDoAllActualBeachErosionAndDeposition
  exact doCoastsFrom_preserves closedView INT_NODATA RTN_OK ext
    (fun t n i x => closedView_updPolygon t n i _) (fun t n i x => closedView_updPolygon t n i _)
    (fun t n i x => closedView_updPolygon t n i _) (fun t n i x => closedView_updPolygon t n i _)
    (fun t n i x => closedView_updPolygon t n i _) (fun t n i x => closedView_updPolygon t n i _)
    (fun _ _ _ _ _ _ _ => rfl)
    (fun t nCoast n i a b => exportSediment_preserves_of_edge closedView INT_NODATA t nCoast n i
      a b (fun t i x => closedView_updPolygon t nCoast i _)
      (fun t i x => closedView_updPolygon t nCoast i _)
      (fun t a b => closedView_exportAtGridEdge t nCoast a b))
    _ _ s

/-- C11. Closed edge policy: with the grid-edge handling set to closed, a slot of the export loop
which holds the grid-edge value leaves the simulation as it was, whichever polygon is being
processed and in either direction, so the two off-grid totals and the deposition of every polygon
are unchanged by that slot; and when `nDoAllActualBeachErosionAndDeposition` returns, whatever
the placement routines did, the two off-grid totals have the values they started with. -/
theorem closed_edge_policy (INT_NODATA RTN_OK : Int) (ext : Collaborator) (s : CSimulation)
    (hClosed : s.m_nUnconsSedimentHandlingAtGridEdges = GridEdge.GRID_EDGE_CLOSED) :
    (∀ (nCoast : Nat) (nNumPolygons nPoly : Int) (dSandEroded dCoarseEroded : ℚ) (nn : Nat),
      ((s.pGetPolygon nCoast nPoly).nGetDownCoastAdjacentPolygon nn = INT_NODATA →
        exportSlotDownCoast INT_NODATA nCoast nNumPolygons nPoly dSandEroded dCoarseEroded s nn
          = s)
      ∧ ((s.pGetPolygon nCoast nPoly).nGetUpCoastAdjacentPolygon nn = INT_NODATA →
        exportSlotUpCoast INT_NODATA nCoast nNumPolygons nPoly dSandEroded dCoarseEroded s nn
          = s))
    ∧ (nDoAllActualBeachErosionAndDeposition INT_NODATA RTN_OK ext s).2.m_dThisIterLeftGridUnconsSand
        = s.m_dThisIterLeftGridUnconsSand
    ∧ (nDoAllActualBeachErosionAndDeposition INT_NODATA RTN_OK ext s).2.m_dThisIterLeftGridUnconsCoarse
        = s.m_dThisIterLeftGridUnconsCoarse := by
  refine ⟨?_, ?_⟩
  · intro nCoast nNumPolygons nPoly dSandEroded dCoarseEroded nn
    constructor
    · intro hEdge
      unfold exportSlotDownCoast
      simp only
      rw [if_pos hEdge]
      split
      · rfl
      · split
        · exact exportAtGridEdge_closed s nCoast _ _ hClosed
        · rfl
    · intro hEdge
      unfold exportSlotUpCoast
      simp only
      rw [if_pos hEdge]
      split
      · rfl
      · split
        · exact exportAtGridEdge_closed s nCoast _ _ hClosed
        · rfl
  · have h := closedView_nDoAllActualBeachErosionAndDeposition INT_NODATA RTN_OK ext s
    unfold closedView at h
    rw [if_pos hClosed] at h
    split at h
    · simp only [Option.some.injEq, Prod.mk.injEq] at h
      exact h
    · exact Option.noConfusion h

/-- Witness for C11: a whole call on `closedSim`, in which both polygons erode sand and the last
polygon meets the grid edge, leaves the two off-grid totals at their starting values. -/
theorem closed_edge_policy_witness :
    (nDoAllActualBeachErosionAndDeposition (-9999) 0 placeAll closedSim).2.m_dThisIterLeftGridUnconsSand
        = closedSim.m_dThisIterLeftGridUnconsSand
    ∧ (nDoAllActualBeachErosionAndDeposition (-9999) 0 placeAll closedSim).2.m_dThisIterLeftGridUnconsCoarse
        = closedSim.m_dThisIterLeftGridUnconsCoarse :=
  (closed_edge_policy (-9999) 0 placeAll closedSim rfl).2

/-- With open grid edges the grid-edge handling adds the eroded sand and coarse sediment to the
two off-grid totals and writes nothing else. -/
theorem exportAtGridEdge_open (s : CSimulation) (nCoast : Nat) (dSandEroded dCoarseEroded : ℚ)
    (hOpen : s.m_nUnconsSedimentHandlingAtGridEdges = GridEdge.GRID_EDGE_OPEN) :
    exportAtGridEdge s nCoast dSandEroded dCoarseEroded =
      { s with
        m_dThisIterLeftGridUnconsSand := s.m_dThisIterLeftGridUnconsSand + dSandEroded
        m_dThisIterLeftGridUnconsCoarse := s.m_dThisIterLeftGridUnconsCoarse + dCoarseEroded } := by
  unfold exportAtGridEdge
  rw [hOpen]

/-- At the end-of-coastline polygon for the down-coast direction, on a coast of at least two
polygons, a slot which holds the grid-edge value is handled by `exportAtGridEdge`. -/
theorem exportSlotDownCoast_gridEdge (INT_NODATA : Int) (s : CSimulation) (nCoast : Nat)
    (dSandEroded dCoarseEroded : ℚ) (nn : Nat) (hTwo : 2 ≤ s.nGetNumPolygons nCoast)
    (hEdge : (s.pGetPolygon nCoast ((s.nGetNumPolygons nCoast : Int) - 1)).nGetDownCoastAdjacentPolygon
      nn = INT_NODATA) :
    exportSlotDownCoast INT_NODATA nCoast (s.nGetNumPolygons nCoast)
        ((s.nGetNumPolygons nCoast : Int) - 1) dSandEroded dCoarseEroded s nn =
      exportAtGridEdge s nCoast dSandEroded dCoarseEroded := by
  have h0 : ¬ ((s.nGetNumPolygons nCoast : Int) - 1 = 0) := by omega
  unfold exportSlotDownCoast
  simp only
  rw [if_pos hEdge, if_neg h0]
  simp only [if_true]

/-- At the end-of-coastline polygon for the up-coast direction, on a coast of at least two
polygons, a slot which holds the grid-edge value is handled by `exportAtGridEdge`. -/
theorem exportSlotUpCoast_gridEdge (INT_NODATA : Int) (s : CSimulation) (nCoast : Nat)
    (dSandEroded dCoarseEroded : ℚ) (nn : Nat) (hTwo : 2 ≤ s.nGetNumPolygons nCoast)
    (hEdge : (s.pGetPolygon nCoast 0).nGetUpCoastAdjacentPolygon nn = INT_NODATA) :
    exportSlotUpCoast INT_NODATA nCoast (s.nGetNumPolygons nCoast) 0 dSandEroded dCoarseEroded
        s nn =
      exportAtGridEdge s nCoast dSandEroded dCoarseEroded := by
  have h0 : ¬ ((0 : Int) = (s.nGetNumPolygons nCoast : Int) - 1) := by omega
  unfold exportSlotUpCoast
  simp only
  rw [if_pos hEdge, if_neg h0]
  simp only [if_true]

/-- C12. Open edge policy: on a coast of at least two polygons with the grid-edge handling set to
open, when the export loop of the end-of-coastline polygon (the last polygon for the down-coast
loop, polygon 0 for the up-coast loop) comes to a slot which holds the grid-edge value, the
off-grid sand total grows by exactly the eroded sand, the off-grid coarse total by exactly the
eroded coarse sediment, and nothing else is written, so no polygon's deposition changes. -/
theorem open_edge_policy (INT_NODATA : Int) (s : CSimulation) (nCoast : Nat)
    (dSandEroded dCoarseEroded : ℚ) (nn : Nat)
    (hOpen : s.m_nUnconsSedimentHandlingAtGridEdges = GridEdge.GRID_EDGE_OPEN)
    (hTwo : 2 ≤ s.nGetNumPolygons nCoast) :
    ((s.pGetPolygon nCoast ((s.nGetNumPolygons nCoast : Int) - 1)).nGetDownCoastAdjacentPolygon nn
        = INT_NODATA →
      exportSlotDownCoast INT_NODATA nCoast (s.nGetNumPolygons nCoast)
          ((s.nGetNumPolygons nCoast : Int) - 1) dSandEroded dCoarseEroded s nn =
        { s with
          m_dThisIterLeftGridUnconsSand := s.m_dThisIterLeftGridUnconsSand + dSandEroded
          m_dThisIterLeftGridUnconsCoarse := s.m_dThisIterLeftGridUnconsCoarse + dCoarseEroded })
    ∧ ((s.pGetPolygon nCoast 0).nGetUpCoastAdjacentPolygon nn = INT_NODATA →
      exportSlotUpCoast INT_NODATA nCoast (s.nGetNumPolygons nCoast) 0 dSandEroded dCoarseEroded
          s nn =
        { s with
          m_dThisIterLeftGridUnconsSand := s.m_dThisIterLeftGridUnconsSand + dSandEroded
          m_dThisIterLeftGridUnconsCoarse := s.m_dThisIterLeftGridUnconsCoarse + dCoarseEroded }) := by
  constructor
  · intro hEdge
    rw [exportSlotDownCoast_gridEdge INT_NODATA s nCoast _ _ nn hTwo hEdge,
      exportAtGridEdge_open s nCoast _ _ hOpen]
  · intro hEdge
    rw [exportSlotUpCoast_gridEdge INT_NODATA s nCoast _ _ nn hTwo hEdge,
      exportAtGridEdge_open s nCoast _ _ hOpen]

/-- Witness for C12: the slot of the last polygon of `downCoastEdgeSim` and the slot of polygon 0
of `upCoastEdgeSim`, with open grid edges and ten units of eroded sand. -/
theorem open_edge_policy_witness :
    exportSlotDownCoast (-9999) 0 ((downCoastEdgeSim GridEdge.GRID_EDGE_OPEN).nGetNumPolygons 0)
        (((downCoastEdgeSim GridEdge.GRID_EDGE_OPEN).nGetNumPolygons 0 : Int) - 1) 10 0
        (downCoastEdgeSim GridEdge.GRID_EDGE_OPEN) 0 =
      { downCoastEdgeSim GridEdge.GRID_EDGE_OPEN with
        m_dThisIterLeftGridUnconsSand :=
          (downCoastEdgeSim GridEdge.GRID_EDGE_OPEN).m_dThisIterLeftGridUnconsSand + 10
        m_dThisIterLeftGridUnconsCoarse :=
          (downCoastEdgeSim GridEdge.GRID_EDGE_OPEN).m_dThisIterLeftGridUnconsCoarse + 0 }
    ∧ exportSlotUpCoast (-9999) 0 ((upCoastEdgeSim GridEdge.GRID_EDGE_OPEN).nGetNumPolygons 0)
        0 10 0 (upCoastEdgeSim GridEdge.GRID_EDGE_OPEN) 0 =
      { upCoastEdgeSim GridEdge.GRID_EDGE_OPEN with
        m_dThisIterLeftGridUnconsSand :=
          (upCoastEdgeSim GridEdge.GRID_EDGE_OPEN).m_dThisIterLeftGridUnconsSand + 10
        m_dThisIterLeftGridUnconsCoarse :=
          (upCoastEdgeSim GridEdge.GRID_EDGE_OPEN).m_dThisIterLeftGridUnconsCoarse + 0 } :=
  ⟨(open_edge_policy (-9999) (downCoastEdgeSim GridEdge.GRID_EDGE_OPEN) 0 10 0 0 rfl
      (by decide)).1 (by decide),
    (open_edge_policy (-9999) (upCoastEdgeSim GridEdge.GRID_EDGE_OPEN) 0 10 0 0 rfl
      (by decide)).2 (by decide)⟩

/-- With re-circulating grid edges, on a coast which has a polygon 0, the grid-edge handling adds
eroded depths which are not below zero to the sand and coarse deposition of polygon 0 and leaves
the two off-grid totals alone. -/
theorem exportAtGridEdge_recirculate (s : CSimulation) (nCoast : Nat)
    (dSandEroded dCoarseEroded : ℚ)
    (hPolicy : s.m_nUnconsSedimentHandlingAtGridEdges = GridEdge.GRID_EDGE_RECIRCULATE)
    (hZero : s.hasPolygon nCoast 0) (hSand : 0 ≤ dSandEroded) (hCoarse : 0 ≤ dCoarseEroded) :
    ((exportAtGridEdge s nCoast dSandEroded dCoarseEroded).pGetPolygon nCoast 0).dGetDepositionUnconsSand
        = (s.pGetPolygon nCoast 0).dGetDepositionUnconsSand + dSandEroded
    ∧ ((exportAtGridEdge s nCoast dSandEroded dCoarseEroded).pGetPolygon nCoast 0).dGetDepositionUnconsCoarse
        = (s.pGetPolygon nCoast 0).dGetDepositionUnconsCoarse + dCoarseEroded
    ∧ (exportAtGridEdge s nCoast dSandEroded dCoarseEroded).m_dThisIterLeftGridUnconsSand
        = s.m_dThisIterLeftGridUnconsSand
    ∧ (exportAtGridEdge s nCoast dSandEroded dCoarseEroded).m_dThisIterLeftGridUnconsCoarse
        = s.m_dThisIterLeftGridUnconsCoarse := by
  unfold exportAtGridEdge
  rw [hPolicy]
  simp only
  by_cases hS : dSandEroded > 0
  · by_cases hC : dCoarseEroded > 0
    · rw [if_pos hS, if_pos hC]
      have hZero1 := (hasPolygon_updPolygon s nCoast 0 0
        (fun p => p.AddDepositionUnconsSand dSandEroded)).mpr hZero
      refine ⟨?_, ?_, by simp, by simp⟩
      · rw [pGetPolygon_updPolygon_self _ _ _ _ hZero1, pGetPolygon_updPolygon_self _ _ _ _ hZero]
        rfl
      · rw [pGetPolygon_updPolygon_self _ _ _ _ hZero1, pGetPolygon_updPolygon_self _ _ _ _ hZero]
        rfl
    · have hC0 : dCoarseEroded = 0 := le_antisymm (not_lt.mp hC) hCoarse
      rw [if_pos hS, if_neg hC]
      refine ⟨?_, ?_, by simp, by simp⟩
      · rw [pGetPolygon_updPolygon_self _ _ _ _ hZero]
        rfl
      · rw [pGetPolygon_updPolygon_self _ _ _ _ hZero, hC0, add_zero]
        rfl
  · have hS0 : dSandEroded = 0 := le_antisymm (not_lt.mp hS) hSand
    by_cases hC : dCoarseEroded > 0
    · rw [if_neg hS, if_pos hC]
      refine ⟨?_, ?_, by simp, by simp⟩
      · rw [pGetPolygon_updPolygon_self _ _ _ _ hZero, hS0, add_zero]
        rfl
      · rw [pGetPolygon_updPolygon_self _ _ _ _ hZero]
        rfl
    · have hC0 : dCoarseEroded = 0 := le_antisymm (not_lt.mp hC) hCoarse
      rw [if_neg hS, if_neg hC, hS0, hC0, add_zero, add_zero]
      exact ⟨rfl, rfl, rfl, rfl⟩

/-- C13. Recirculate edge policy: on a coast of at least two polygons with the grid-edge handling
set to re-circulate, when the export loop of the end-of-coastline polygon (the last polygon for
the down-coast loop, polygon 0 for the up-coast loop) comes to a slot which holds the grid-edge
value, with eroded depths which are not below zero, the sand deposition of polygon 0 grows by
exactly the eroded sand, its coarse deposition by exactly the eroded coarse sediment, and the two
off-grid totals are unchanged. -/
theorem recirculate_edge_policy (INT_NODATA : Int) (s : CSimulation) (nCoast : Nat)
    (dSandEroded dCoarseEroded : ℚ) (nn : Nat)
    (hPolicy : s.m_nUnconsSedimentHandlingAtGridEdges = GridEdge.GRID_EDGE_RECIRCULATE)
    (hTwo : 2 ≤ s.nGetNumPolygons nCoast)
    (hSand : 0 ≤ dSandEroded) (hCoarse : 0 ≤ dCoarseEroded) :
    ((s.pGetPolygon nCoast ((s.nGetNumPolygons nCoast : Int) - 1)).nGetDownCoastAdjacentPolygon nn
        = INT_NODATA →
      ((exportSlotDownCoast INT_NODATA nCoast (s.nGetNumPolygons nCoast)
          ((s.nGetNumPolygons nCoast : Int) - 1) dSandEroded dCoarseEroded s nn).pGetPolygon
            nCoast 0).dGetDepositionUnconsSand
        = (s.pGetPolygon nCoast 0).dGetDepositionUnconsSand + dSandEroded
      ∧ ((exportSlotDownCoast INT_NODATA nCoast (s.nGetNumPolygons nCoast)
          ((s.nGetNumPolygons nCoast : Int) - 1) dSandEroded dCoarseEroded s nn).pGetPolygon
            nCoast 0).dGetDepositionUnconsCoarse
        = (s.pGetPolygon nCoast 0).dGetDepositionUnconsCoarse + dCoarseEroded
      ∧ (exportSlotDownCoast INT_NODATA nCoast (s.nGetNumPolygons nCoast)
          ((s.nGetNumPolygons nCoast : Int) - 1) dSandEroded dCoarseEroded s
            nn).m_dThisIterLeftGridUnconsSand = s.m_dThisIterLeftGridUnconsSand
      ∧ (exportSlotDownCoast INT_NODATA nCoast (s.nGetNumPolygons nCoast)
          ((s.nGetNumPolygons nCoast : Int) - 1) dSandEroded dCoarseEroded s
            nn).m_dThisIterLeftGridUnconsCoarse = s.m_dThisIterLeftGridUnconsCoarse)
    ∧ ((s.pGetPolygon nCoast 0).nGetUpCoastAdjacentPolygon nn = INT_NODATA →
      ((exportSlotUpCoast INT_NODATA nCoast (s.nGetNumPolygons nCoast) 0 dSandEroded
          dCoarseEroded s nn).pGetPolygon nCoast 0).dGetDepositionUnconsSand
        = (s.pGetPolygon nCoast 0).dGetDepositionUnconsSand + dSandEroded
      ∧ ((exportSlotUpCoast INT_NODATA nCoast (s.nGetNumPolygons nCoast) 0 dSandEroded
          dCoarseEroded s nn).pGetPolygon nCoast 0).dGetDepositionUnconsCoarse
        = (s.pGetPolygon nCoast 0).dGetDepositionUnconsCoarse + dCoarseEroded
      ∧ (exportSlotUpCoast INT_NODATA nCoast (s.nGetNumPolygons nCoast) 0 dSandEroded
          dCoarseEroded s nn).m_dThisIterLeftGridUnconsSand = s.m_dThisIterLeftGridUnconsSand
      ∧ (exportSlotUpCoast INT_NODATA nCoast (s.nGetNumPolygons nCoast) 0 dSandEroded
          dCoarseEroded s nn).m_dThisIterLeftGridUnconsCoarse
        = s.m_dThisIterLeftGridUnconsCoarse) := by
  have hZero : s.hasPolygon nCoast 0 := ⟨le_refl 0, by omega⟩
  constructor
  · intro hEdge
    rw [exportSlotDownCoast_gridEdge INT_NODATA s nCoast _ _ nn hTwo hEdge]
    exact exportAtGridEdge_recirculate s nCoast _ _ hPolicy hZero hSand hCoarse
  · intro hEdge
    rw [exportSlotUpCoast_gridEdge INT_NODATA s nCoast _ _ nn hTwo hEdge]
    exact exportAtGridEdge_recirculate s nCoast _ _ hPolicy hZero hSand hCoarse

/-- Witness for C13: with re-circulating grid edges, seven units of eroded sand and two of
coarse sediment, the slot of the last polygon of `downCoastEdgeSim` and the slot of polygon 0 of
`upCoastEdgeSim` both add to the deposition of polygon 0, which was zero. -/
theorem recirculate_edge_policy_witness :
    (((exportSlotDownCoast (-9999) 0 2 1 7 2 (downCoastEdgeSim GridEdge.GRID_EDGE_RECIRCULATE)
        0).pGetPolygon 0 0).dGetDepositionUnconsSand = 0 + 7
      ∧ ((exportSlotDownCoast (-9999) 0 2 1 7 2 (downCoastEdgeSim GridEdge.GRID_EDGE_RECIRCULATE)
        0).pGetPolygon 0 0).dGetDepositionUnconsCoarse = 0 + 2)
    ∧ (((exportSlotUpCoast (-9999) 0 2 0 7 2 (upCoastEdgeSim GridEdge.GRID_EDGE_RECIRCULATE)
        0).pGetPolygon 0 0).dGetDepositionUnconsSand = 0 + 7
      ∧ ((exportSlotUpCoast (-9999) 0 2 0 7 2 (upCoastEdgeSim GridEdge.GRID_EDGE_RECIRCULATE)
        0).pGetPolygon 0 0).dGetDepositionUnconsCoarse = 0 + 2) :=
  ⟨⟨((recirculate_edge_policy (-9999) (downCoastEdgeSim GridEdge.GRID_EDGE_RECIRCULATE) 0 7 2 0
        rfl (by decide) (by decide) (by decide)).1 (by decide)).1,
      ((recirculate_edge_policy (-9999) (downCoastEdgeSim GridEdge.GRID_EDGE_RECIRCULATE) 0 7 2 0
        rfl (by decide) (by decide) (by decide)).1 (by decide)).2.1⟩,
    ⟨((recirculate_edge_policy (-9999) (upCoastEdgeSim GridEdge.GRID_EDGE_RECIRCULATE) 0 7 2 0
        rfl (by decide) (by decide) (by decide)).2 (by decide)).1,
      ((recirculate_edge_policy (-9999) (upCoastEdgeSim GridEdge.GRID_EDGE_RECIRCULATE) 0 7 2 0
        rfl (by decide) (by decide) (by decide)).2 (by decide)).2.1⟩⟩

/-- C14 fails for sediment moving up-coast. In `upCoastEdgeSim` with re-circulating grid edges
polygon 0 is the end-of-coastline polygon for its direction; it erodes ten units of sand, and
when the call returns those ten units are in the sand deposition of polygon 0 itself, while the
deposition of polygon 1, at the opposite end, is still zero. In `downCoastEdgeSim` the last
polygon, polygon 1, erodes ten units of sand and they go to polygon 0, at the opposite end. -/
theorem recirculate_up_coast_receiver_is_exporter :
    ((nDoAllActualBeachErosionAndDeposition (-9999) 0 placeAll
        (upCoastEdgeSim GridEdge.GRID_EDGE_RECIRCULATE)).1 = 0
      ∧ ((nDoAllActualBeachErosionAndDeposition (-9999) 0 placeAll
          (upCoastEdgeSim GridEdge.GRID_EDGE_RECIRCULATE)).2.pGetPolygon 0 0).dGetErosionUnconsSand
        = -10
      ∧ ((nDoAllActualBeachErosionAndDeposition (-9999) 0 placeAll
          (upCoastEdgeSim GridEdge.GRID_EDGE_RECIRCULATE)).2.pGetPolygon 0
            0).dGetDepositionUnconsSand = 10
      ∧ ((nDoAllActualBeachErosionAndDeposition (-9999) 0 placeAll
          (upCoastEdgeSim GridEdge.GRID_EDGE_RECIRCULATE)).2.pGetPolygon 0
            1).dGetDepositionUnconsSand = 0)
    ∧ ((nDoAllActualBeachErosionAndDeposition (-9999) 0 placeAll
        (downCoastEdgeSim GridEdge.GRID_EDGE_RECIRCULATE)).1 = 0
      ∧ ((nDoAllActualBeachErosionAndDeposition (-9999) 0 placeAll
          (downCoastEdgeSim GridEdge.GRID_EDGE_RECIRCULATE)).2.pGetPolygon 0
            1).dGetErosionUnconsSand = -10
      ∧ ((nDoAllActualBeachErosionAndDeposition (-9999) 0 placeAll
          (downCoastEdgeSim GridEdge.GRID_EDGE_RECIRCULATE)).2.pGetPolygon 0
            0).dGetDepositionUnconsSand = 10
      ∧ ((nDoAllActualBeachErosionAndDeposition (-9999) 0 placeAll
          (downCoastEdgeSim GridEdge.GRID_EDGE_RECIRCULATE)).2.pGetPolygon 0
            1).dGetDepositionUnconsSand = 0) := by
  decide!

/-! ### The check for circularities -/

/-- A write of `AddCircularity` through `pGetPolygon` puts the value once in the list of the
polygon written and nothing in the list of another polygon of the coast. -/
theorem countCircularity_updPolygon (s : CSimulation) (nCoast : Nat) (nPoly nSource nP nV : Int)
    (hP : s.hasPolygon nCoast nP) :
    countCircularity (s.updPolygon nCoast nPoly (fun p => p.AddCircularity nSource)) nCoast nP nV =
      countCircularity s nCoast nP nV + [(nPoly, nSource)].count (nP, nV) := by
  unfold countCircularity
  by_cases h1 : nPoly = nP
  · subst h1
    rw [pGetPolygon_updPolygon_self _ _ _ _ hP]
    simp only [CGeomCoastPolygon.VnGetCircularities, CGeomCoastPolygon.AddCircularity,
      List.count_append]
    by_cases h2 : nSource = nV
    · subst h2
      simp
    · have : ¬ (nPoly, nSource) = (nPoly, nV) := fun h => h2 (Prod.mk.inj h).2
      simp [List.count_singleton, h2, this]
  · rw [pGetPolygon_updPolygon_ne _ _ _ _ _ h1]
    have : ¬ (nPoly, nSource) = (nP, nV) := fun h => h1 (Prod.mk.inj h).1
    simp [List.count_singleton, this]

/-- Adding a circularity between `nPoly` and `nSource` puts `nSource` once in the list of `nPoly`
and `nPoly` once in the list of `nSource`, and nothing else in the list of a polygon of the
coast. -/
theorem countCircularity_addCircularityPair (s : CSimulation) (nCoast : Nat)
    (nPoly nSource nP nV : Int) (hP : s.hasPolygon nCoast nP) :
    countCircularity (addCircularityPair s nCoast nPoly nSource) nCoast nP nV =
      countCircularity s nCoast nP nV + [(nPoly, nSource)].count (nP, nV)
        + [(nPoly, nSource)].count (nV, nP) := by
  unfold addCircularityPair
  rw [countCircularity_updPolygon _ nCoast nSource nPoly nP nV
      ((hasPolygon_updPolygon s nCoast nPoly nP _).mpr hP),
    countCircularity_updPolygon s nCoast nPoly nSource nP nV hP]
  have hswap : [(nSource, nPoly)].count (nP, nV) = [(nPoly, nSource)].count (nV, nP) := by
    by_cases h : (nSource, nPoly) = (nP, nV)
    · have h' : (nPoly, nSource) = (nV, nP) := by
        rw [Prod.mk.injEq] at h ⊢
        exact ⟨h.2, h.1⟩
      rw [h, h']
      simp
    · have h' : ¬ (nPoly, nSource) = (nV, nP) := by
        rw [Prod.mk.injEq] at h ⊢
        exact fun hh => h ⟨hh.2, hh.1⟩
      simp [List.count_singleton, h, h']
  rw [hswap]

/-- Adding a circularity keeps the polygons of the coast. -/
theorem hasPolygon_addCircularityPair (s : CSimulation) (nCoast : Nat) (nPoly nSource nP : Int) :
    (addCircularityPair s nCoast nPoly nSource).hasPolygon nCoast nP ↔ s.hasPolygon nCoast nP := by
  unfold addCircularityPair
  rw [hasPolygon_updPolygon, hasPolygon_updPolygon]

/-- The inner loop of the check for circularities keeps the polygons of the coast. -/
theorem hasPolygon_checkCircularities (nCoast : Nat) (nPoly : Int) (VnSourcePolygons : List Int)
    (nP : Int) (l : List Int) (s : CSimulation) :
    (checkCircularities nCoast nPoly VnSourcePolygons l s).hasPolygon nCoast nP ↔
      s.hasPolygon nCoast nP := by
  induction l generalizing s with
  | nil => rfl
  | cons nAdj rest ih =>
    unfold checkCircularities
    split
    · rw [ih, hasPolygon_addCircularityPair]
    · exact ih s

/-- The circularity lists after the inner loop of the check: for a polygon of the coast, the
count of a value grows by the number of circularities found which pair the two. -/
theorem countCircularity_checkCircularities (nCoast : Nat) (nPoly : Int)
    (VnSourcePolygons : List Int) (nP nV : Int) (l : List Int) (s : CSimulation)
    (hP : s.hasPolygon nCoast nP) :
    countCircularity (checkCircularities nCoast nPoly VnSourcePolygons l s) nCoast nP nV =
      countCircularity s nCoast nP nV
        + ((l.filter VnSourcePolygons.contains).map
            (fun nAdj => (nPoly, nAdj))).count (nP, nV)
        + ((l.filter VnSourcePolygons.contains).map
            (fun nAdj => (nPoly, nAdj))).count (nV, nP) := by
  induction l generalizing s with
  | nil => simp [checkCircularities]
  | cons nAdj rest ih =>
    unfold checkCircularities
    by_cases hc : VnSourcePolygons.contains nAdj = true
    · rw [if_pos hc, ih _ ((hasPolygon_addCircularityPair s nCoast nPoly nAdj nP).mpr hP),
        countCircularity_addCircularityPair s nCoast nPoly nAdj nP nV hP,
        List.filter_cons_of_pos hc, List.map_cons]
      simp only [List.count_cons, List.count_nil]
      omega
    · rw [if_neg hc, ih _ hP, List.filter_cons_of_neg hc]

/-- The circularity lists after the check over a sequence of array items: for a polygon of the
coast, the count of a value grows by the number of circularities found which pair the two. -/
theorem countCircularity_circularityWalk (nCoast : Nat) (nP nV : Int) (l : List (List Int))
    (VnSourcePolygons : List Int) (s : CSimulation) (hP : s.hasPolygon nCoast nP) :
    countCircularity (circularityWalk nCoast l VnSourcePolygons s) nCoast nP nV =
      countCircularity s nCoast nP nV
        + (circularityPairs l VnSourcePolygons).count (nP, nV)
        + (circularityPairs l VnSourcePolygons).count (nV, nP) := by
  induction l generalizing VnSourcePolygons s with
  | nil => simp [circularityWalk, circularityPairs]
  | cons d rest ih =>
    cases d with
    | nil =>
      unfold circularityWalk circularityPairs
      exact ih _ s hP
    | cons nPoly items =>
      unfold circularityWalk circularityPairs
      rw [ih _ _ ((hasPolygon_checkCircularities nCoast nPoly _ nP _ s).mpr hP),
        countCircularity_checkCircularities nCoast nPoly _ nP nV _ s hP,
        List.count_append, List.count_append]
      omega

/-- The circularities found for one array item all have its polygon as first component. -/
theorem count_found_of_ne (q : Int → Bool) (adjs : List Int) (x nP nV : Int) (h : x ≠ nP) :
    (((adjs.filter q).map (fun nAdj => (x, nAdj))).count (nP, nV)) = 0 := by
  apply List.count_eq_zero_of_not_mem
  intro hmem
  obtain ⟨a, _, ha⟩ := List.mem_map.mp hmem
  exact h (Prod.mk.inj ha).1

/-- An adjacent polygon which is not among the source polygons gives no circularity. -/
theorem count_found_of_not_source (q : Int → Bool) (adjs : List Int) (x nP nV : Int)
    (h : q nV = false) :
    (((adjs.filter q).map (fun nAdj => (x, nAdj))).count (nP, nV)) = 0 := by
  apply List.count_eq_zero_of_not_mem
  intro hmem
  obtain ⟨a, ha, hpair⟩ := List.mem_map.mp hmem
  have hq := (List.mem_filter.mp ha).2
  rw [(Prod.mk.inj hpair).2, h] at hq
  exact Bool.noConfusion hq

/-- An adjacent polygon which is among the source polygons gives one circularity for each time it
is in the array item. -/
theorem count_found_of_source (q : Int → Bool) (adjs : List Int) (x nV : Int) (h : q nV = true) :
    (((adjs.filter q).map (fun nAdj => (x, nAdj))).count (x, nV)) = adjs.count nV := by
  have hmap : ∀ t : List Int, (t.map (fun nAdj => (x, nAdj))).count (x, nV) = t.count nV := by
    intro t
    induction t with
    | nil => rfl
    | cons a t ih =>
      rw [List.map_cons, List.count_cons, List.count_cons, ih]
      by_cases ha : a = nV
      · subst ha
        simp
      · have : ¬ (x, a) = (x, nV) := fun hh => ha (Prod.mk.inj hh).2
        simp [ha, this]
  rw [hmap, List.count_filter h]

/-- A polygon which has no array item in the sequence is not the first component of a circularity
found. -/
theorem count_circularityPairs_of_absent (nP nV : Int) (l : List (List Int))
    (VnSourcePolygons : List Int) (h : ∀ d ∈ l, d.head? ≠ some nP) :
    (circularityPairs l VnSourcePolygons).count (nP, nV) = 0 := by
  induction l generalizing VnSourcePolygons with
  | nil => simp [circularityPairs]
  | cons d rest ih =>
    have hrest : ∀ e ∈ rest, e.head? ≠ some nP := fun e he => h e (List.mem_cons_of_mem _ he)
    cases d with
    | nil =>
      unfold circularityPairs
      exact ih _ hrest
    | cons x items =>
      have hx : x ≠ nP := fun hx => h (x :: items) (List.mem_cons_self _ _) (by rw [hx]; rfl)
      unfold circularityPairs
      rw [List.count_append, count_found_of_ne _ _ x nP nV hx, ih _ hrest]

/-- In a list of array items with distinct polygons, two items of the same polygon are the same
item. -/
theorem eq_of_same_polygon (l : List (List Int)) (hIds : (l.map (fun d => d.getD 0 0)).Nodup)
    (d e : List Int) (hd : d ∈ l) (he : e ∈ l) (h : d.getD 0 0 = e.getD 0 0) : d = e :=
  List.inj_on_of_nodup_map hIds hd he h

/-- In a sequence of array items with distinct polygons, once polygon `nV` is among the source
polygons, the array item of polygon `nP` gives one circularity with `nV` for each time it names
`nV`. -/
theorem count_circularityPairs_of_source (nP nV : Int) (items : List Int) (l : List (List Int))
    (VnSourcePolygons : List Int) (hIds : (l.map (fun d => d.getD 0 0)).Nodup)
    (hd : (nP :: items) ∈ l) (hV : nV ∈ VnSourcePolygons) :
    (circularityPairs l VnSourcePolygons).count (nP, nV) = (items.drop 1).count nV := by
  induction l generalizing VnSourcePolygons with
  | nil => exact absurd hd (List.not_mem_nil _)
  | cons e rest ih =>
    rw [List.map_cons, List.nodup_cons] at hIds
    obtain ⟨hNotIn, hRest⟩ := hIds
    rcases List.mem_cons.mp hd with hEq | hMem
    · -- the item of `nP` is walked now
      rw [← hEq]
      unfold circularityPairs
      have hq : (VnSourcePolygons ++ [nP]).contains nV = true := by
        rw [List.contains_iff_exists_mem_beq]
        exact ⟨nV, List.mem_append_left _ hV, by simp⟩
      rw [List.count_append, count_found_of_source _ _ nP nV hq,
        count_circularityPairs_of_absent nP nV rest _ ?_]
      · rfl
      · intro d hdrest hhead
        apply hNotIn
        rw [← hEq]
        refine List.mem_map.mpr ⟨d, hdrest, ?_⟩
        cases d with
        | nil => exact Option.noConfusion hhead
        | cons y ys =>
          have : y = nP := Option.some.inj hhead
          rw [this]
          rfl
    · -- the item of `nP` comes later
      cases e with
      | nil =>
        unfold circularityPairs
        exact ih _ hRest hMem hV
      | cons x its =>
        have hx : x ≠ nP := by
          intro hx
          apply hNotIn
          refine List.mem_map.mpr ⟨nP :: items, hMem, ?_⟩
          rw [hx]
          rfl
        unfold circularityPairs
        rw [List.count_append, count_found_of_ne _ _ x nP nV hx,
          ih _ hRest hMem (List.mem_append_left _ hV), Nat.zero_add]

/-- A polygon whose ID is not among the IDs of a list of array items has no array item in it. -/
theorem absent_of_not_mem_ids (x : Int) (rest : List (List Int))
    (h : x ∉ rest.map (fun d => d.getD 0 0)) : ∀ d ∈ rest, d.head? ≠ some x := by
  intro d hd hhead
  apply h
  refine List.mem_map.mpr ⟨d, hd, ?_⟩
  cases d with
  | nil => exact Option.noConfusion hhead
  | cons y ys =>
    have : y = x := Option.some.inj hhead
    rw [this]
    rfl

/-- A value which is not in a list is not found by `contains`. -/
theorem contains_eq_false_of_not_mem (l : List Int) (x : Int) (h : x ∉ l) :
    l.contains x = false := by
  rw [Bool.eq_false_iff]
  intro hc
  rw [List.contains_iff_exists_mem_beq] at hc
  obtain ⟨a, ha, hab⟩ := hc
  have : x = a := by simpa using hab
  exact h (this ▸ ha)

/-- In a sequence of array items with distinct polygons in which the item of `nA` names `nB` once
and the item of `nB` names `nA` once, neither being among the source polygons yet, the check
finds one circularity between the two: the one found at the item which comes later. -/
theorem count_circularityPairs_mutual (nA nB : Int) (itemsA itemsB : List Int)
    (l : List (List Int)) (VnSourcePolygons : List Int)
    (hIds : (l.map (fun d => d.getD 0 0)).Nodup)
    (hA : (nA :: itemsA) ∈ l) (hB : (nB :: itemsB) ∈ l) (hAB : nA ≠ nB)
    (hASource : nA ∉ VnSourcePolygons) (hBSource : nB ∉ VnSourcePolygons)
    (hANames : (itemsA.drop 1).count nB = 1) (hBNames : (itemsB.drop 1).count nA = 1) :
    (circularityPairs l VnSourcePolygons).count (nA, nB)
      + (circularityPairs l VnSourcePolygons).count (nB, nA) = 1 := by
  induction l generalizing VnSourcePolygons with
  | nil => exact absurd hA (List.not_mem_nil _)
  | cons e rest ih =>
    rw [List.map_cons, List.nodup_cons] at hIds
    obtain ⟨hNotIn, hRest⟩ := hIds
    cases e with
    | nil =>
      have hA' : (nA :: itemsA) ∈ rest := by
        rcases List.mem_cons.mp hA with h | h
        · exact List.noConfusion h
        · exact h
      have hB' : (nB :: itemsB) ∈ rest := by
        rcases List.mem_cons.mp hB with h | h
        · exact List.noConfusion h
        · exact h
      unfold circularityPairs
      exact ih _ hRest hA' hB' hASource hBSource
    | cons x its =>
      have hAbsent := absent_of_not_mem_ids x rest hNotIn
      unfold circularityPairs
      rw [List.count_append, List.count_append]
      by_cases hxA : x = nA
      · -- the item of `nA` is walked first
        subst hxA
        have hB' : (nB :: itemsB) ∈ rest := by
          rcases List.mem_cons.mp hB with h | h
          · exact absurd (List.cons.inj h).1.symm hAB
          · exact h
        have hq : (VnSourcePolygons ++ [x]).contains nB = false := by
          apply contains_eq_false_of_not_mem
          intro hmem
          rcases List.mem_append.mp hmem with h | h
          · exact hBSource h
          · exact hAB (List.mem_singleton.mp h).symm
        rw [count_found_of_not_source _ _ x x nB hq,
          count_found_of_ne _ _ x nB x hAB,
          count_circularityPairs_of_absent x nB rest _ hAbsent,
          count_circularityPairs_of_source nB x itemsB rest _ hRest hB'
            (List.mem_append_right _ (List.mem_singleton_self x)), hBNames]
      · by_cases hxB : x = nB
        · -- the item of `nB` is walked first
          subst hxB
          have hA' : (nA :: itemsA) ∈ rest := by
            rcases List.mem_cons.mp hA with h | h
            · exact absurd (List.cons.inj h).1 hAB
            · exact h
          have hq : (VnSourcePolygons ++ [x]).contains nA = false := by
            apply contains_eq_false_of_not_mem
            intro hmem
            rcases List.mem_append.mp hmem with h | h
            · exact hASource h
            · exact hAB (List.mem_singleton.mp h)
          rw [count_found_of_ne _ _ x nA x hxA,
            count_found_of_not_source _ _ x x nA hq,
            count_circularityPairs_of_source nA x itemsA rest _ hRest hA'
              (List.mem_append_right _ (List.mem_singleton_self x)),
            count_circularityPairs_of_absent x nA rest _ hAbsent, hANames]
        · -- another item is walked first
          have hA' : (nA :: itemsA) ∈ rest := by
            rcases List.mem_cons.mp hA with h | h
            · exact absurd (List.cons.inj h).1.symm hxA
            · exact h
          have hB' : (nB :: itemsB) ∈ rest := by
            rcases List.mem_cons.mp hB with h | h
            · exact absurd (List.cons.inj h).1.symm hxB
            · exact h
          have hASource' : nA ∉ VnSourcePolygons ++ [x] := by
            intro hmem
            rcases List.mem_append.mp hmem with h | h
            · exact hASource h
            · exact hxA (List.mem_singleton.mp h).symm
          have hBSource' : nB ∉ VnSourcePolygons ++ [x] := by
            intro hmem
            rcases List.mem_append.mp hmem with h | h
            · exact hBSource h
            · exact hxB (List.mem_singleton.mp h).symm
          rw [count_found_of_ne _ _ x nA nB hxA, count_found_of_ne _ _ x nB nA hxB,
            Nat.zero_add, Nat.zero_add]
          exact ih _ hRest hA' hB' hASource' hBSource'

/-- C15. Two-node cycle detection: for a list of array items with distinct polygons in which the
item of polygon `nA` names `nB` exactly once and the item of polygon `nB` names `nA` exactly once,
`nA` and `nB` being two different polygons of the coast, and for every order in which the items
are walked, the check for circularities adds `nB` exactly once to the circularity list of `nA`
and `nA` exactly once to the circularity list of `nB`. -/
theorem two_node_cycle_detection (s : CSimulation) (nCoast : Nat) (l order : List (List Int))
    (nVA nVB : List Int) (nA nB : Int)
    (hIds : (l.map (fun d => d.getD 0 0)).Nodup)
    (hA : nVA ∈ l) (hB : nVB ∈ l) (hAId : nVA.getD 0 0 = nA) (hBId : nVB.getD 0 0 = nB)
    (hAB : nA ≠ nB)
    (hANames : (nVA.drop 2).count nB = 1) (hBNames : (nVB.drop 2).count nA = 1)
    (hAValid : s.hasPolygon nCoast nA) (hBValid : s.hasPolygon nCoast nB)
    (hOrder : order.Perm l) :
    ((circularityWalk nCoast order [] s).pGetPolygon nCoast nA).VnGetCircularities.count nB =
        (s.pGetPolygon nCoast nA).VnGetCircularities.count nB + 1
    ∧ ((circularityWalk nCoast order [] s).pGetPolygon nCoast nB).VnGetCircularities.count nA =
        (s.pGetPolygon nCoast nB).VnGetCircularities.count nA + 1 := by
  have hIds' : (order.map (fun d => d.getD 0 0)).Nodup :=
    ((hOrder.map _).nodup_iff).mpr hIds
  have hA' : nVA ∈ order := hOrder.mem_iff.mpr hA
  have hB' : nVB ∈ order := hOrder.mem_iff.mpr hB
  cases nVA with
  | nil => simp at hANames
  | cons a itemsA =>
  cases nVB with
  | nil => simp at hBNames
  | cons b itemsB =>
  have ha : a = nA := hAId
  have hb : b = nB := hBId
  subst ha hb
  have hANames' : (itemsA.drop 1).count b = 1 := hANames
  have hBNames' : (itemsB.drop 1).count a = 1 := hBNames
  have hsum := count_circularityPairs_mutual a b itemsA itemsB order [] hIds' hA' hB' hAB
    (List.not_mem_nil _) (List.not_mem_nil _) hANames' hBNames'
  have h1 := countCircularity_circularityWalk nCoast a b order [] s hAValid
  have h2 := countCircularity_circularityWalk nCoast b a order [] s hBValid
  unfold countCircularity at h1 h2
  constructor
  · rw [h1]
    omega
  · rw [h2]
    omega

/-- Witness for C15: in `mutualSim` polygons 0 and 1 name each other and polygon 2 is at the
grid edge; walked in the order 1, 2, 0, the check leaves polygon 1 once in the list of polygon 0
and polygon 0 once in the list of polygon 1, both lists having been empty. -/
theorem two_node_cycle_detection_witness :
    ((circularityWalk 0 [[1, 0, 0], [2, 1, -9999], [0, 1, 1]] [] mutualSim).pGetPolygon 0
        0).VnGetCircularities.count 1 = 0 + 1
    ∧ ((circularityWalk 0 [[1, 0, 0], [2, 1, -9999], [0, 1, 1]] [] mutualSim).pGetPolygon 0
        1).VnGetCircularities.count 0 = 0 + 1 :=
  two_node_cycle_detection mutualSim 0 (nVVPolyAndAdjacent mutualSim 0)
    [[1, 0, 0], [2, 1, -9999], [0, 1, 1]] [0, 1, 1] [1, 0, 0] 0 1 (by decide) (by decide)
    (by decide) rfl rfl (by decide) (by decide) (by decide) (by decide) (by decide) (by decide)

/-- The inner loop of the check changes nothing when no adjacent polygon is among the source
polygons. -/
theorem checkCircularities_of_no_source (nCoast : Nat) (nPoly : Int)
    (VnSourcePolygons : List Int) (l : List Int) (s : CSimulation)
    (h : ∀ nAdj ∈ l, nAdj ∉ VnSourcePolygons) :
    checkCircularities nCoast nPoly VnSourcePolygons l s = s := by
  induction l with
  | nil => rfl
  | cons nAdj rest ih =>
    unfold checkCircularities
    rw [contains_eq_false_of_not_mem _ _ (h nAdj (List.mem_cons_self _ _))]
    exact ih (fun a ha => h a (List.mem_cons_of_mem _ ha))

/-- The check changes nothing when no array item names a source polygon, its own polygon or the
polygon of an item placed before it. -/
theorem circularityWalk_of_noBackwardAdjacency (nCoast : Nat) (l : List (List Int))
    (VnSourcePolygons : List Int) (s : CSimulation)
    (hSource : ∀ d ∈ l, ∀ nAdj ∈ d.drop 2, nAdj ∉ VnSourcePolygons)
    (hOrder : noBackwardAdjacency l) :
    circularityWalk nCoast l VnSourcePolygons s = s := by
  induction l generalizing VnSourcePolygons with
  | nil => rfl
  | cons d rest ih =>
    obtain ⟨hSelf, hPair⟩ := hOrder
    rw [List.pairwise_cons] at hPair
    have hRest : noBackwardAdjacency rest :=
      ⟨fun e he => hSelf e (List.mem_cons_of_mem _ he), hPair.2⟩
    cases d with
    | nil =>
      unfold circularityWalk
      exact ih _ (fun e he => hSource e (List.mem_cons_of_mem _ he)) hRest
    | cons nPoly items =>
      unfold circularityWalk
      rw [checkCircularities_of_no_source]
      · apply ih _ _ hRest
        intro e he nAdj hAdj hmem
        rcases List.mem_append.mp hmem with h | h
        · exact hSource e (List.mem_cons_of_mem _ he) nAdj hAdj h
        · rw [List.mem_singleton.mp h] at hAdj
          exact hPair.1 e he nPoly rfl hAdj
      · intro nAdj hAdj hmem
        rcases List.mem_append.mp hmem with h | h
        · exact hSource (nPoly :: items) (List.mem_cons_self _ _) nAdj hAdj h
        · rw [List.mem_singleton.mp h] at hAdj
          exact hSelf (nPoly :: items) (List.mem_cons_self _ _) nPoly rfl hAdj

/-- C16. No false circularity on a well-ordered sequence: when no array item of the sorted
sequence has among its adjacent polygons its own polygon or the polygon of an item placed before
it, the check for circularities leaves the simulation as it was, so it records no circularity on
any polygon. -/
theorem no_false_circularity (nCoast : Nat) (l : List (List Int)) (s : CSimulation)
    (hOrder : noBackwardAdjacency l) :
    circularityWalk nCoast l [] s = s ∧
      ∀ nPoly : Int, ((circularityWalk nCoast l [] s).pGetPolygon nCoast nPoly).VnGetCircularities =
        (s.pGetPolygon nCoast nPoly).VnGetCircularities := by
  have h := circularityWalk_of_noBackwardAdjacency nCoast l [] s
    (fun _ _ _ _ => List.not_mem_nil _) hOrder
  exact ⟨h, fun nPoly => by rw [h]⟩

/-- Witness for C16: the sorted sequence of `shareSim`, in which polygon 0 names polygons 1 and
2, polygon 1 names polygon 2 and polygon 2 is at the grid edge. -/
theorem no_false_circularity_witness :
    sortedPolyAndAdjacent (-9999) shareSim 0 = [[0, 1, 1, 2], [1, 1, 2], [2, 1, -9999]]
    ∧ circularityWalk 0 (sortedPolyAndAdjacent (-9999) shareSim 0) [] shareSim = shareSim :=
  ⟨by decide, (no_false_circularity 0 (sortedPolyAndAdjacent (-9999) shareSim 0) shareSim
    (by decide)).1⟩

/-- C18 fails. In `cycleSim` polygon 0 names polygon 1 only, polygon 1 names polygon 2 only and
polygon 2 names polygon 0 only; no two of them name each other. The sorted sequence is 0, 1, 2,
and the check for circularities over it puts polygon 2 in the circularity list of polygon 0 and
polygon 0 in the list of polygon 2, although polygon 0 does not name polygon 2. Whatever the
order in which the three array items are walked, the check records a circularity on one of the
three polygons. -/
theorem three_cycle_records_circularity :
    nVVPolyAndAdjacent cycleSim 0 = [[0, 1, 1], [1, 1, 2], [2, 1, 0]]
    ∧ sortedPolyAndAdjacent (-9999) cycleSim 0 = [[0, 1, 1], [1, 1, 2], [2, 1, 0]]
    ∧ ((circularityWalk 0 (sortedPolyAndAdjacent (-9999) cycleSim 0) [] cycleSim).pGetPolygon 0
        0).VnGetCircularities = [2]
    ∧ ((circularityWalk 0 (sortedPolyAndAdjacent (-9999) cycleSim 0) [] cycleSim).pGetPolygon 0
        1).VnGetCircularities = []
    ∧ ((circularityWalk 0 (sortedPolyAndAdjacent (-9999) cycleSim 0) [] cycleSim).pGetPolygon 0
        2).VnGetCircularities = [0]
    ∧ ∀ order : List (List Int), order.Perm (nVVPolyAndAdjacent cycleSim 0) →
        ∃ nPoly ∈ ([0, 1, 2] : List Int),
          ((circularityWalk 0 order [] cycleSim).pGetPolygon 0 nPoly).VnGetCircularities ≠ [] := by
  refine ⟨by decide, by decide, by decide, by decide, by decide, ?_⟩
  intro order hPerm
  have hlen : order.length = 3 := hPerm.length_eq
  match order, hlen with
  | [a, b, c], _ =>
    have ha : a ∈ nVVPolyAndAdjacent cycleSim 0 := hPerm.mem_iff.mp (by simp)
    have hb : b ∈ nVVPolyAndAdjacent cycleSim 0 := hPerm.mem_iff.mp (by simp)
    have hc : c ∈ nVVPolyAndAdjacent cycleSim 0 := hPerm.mem_iff.mp (by simp)
    have hall : ∀ x ∈ nVVPolyAndAdjacent cycleSim 0, ∀ y ∈ nVVPolyAndAdjacent cycleSim 0,
        ∀ z ∈ nVVPolyAndAdjacent cycleSim 0, [x, y, z].Perm (nVVPolyAndAdjacent cycleSim 0) →
        ∃ nPoly ∈ ([0, 1, 2] : List Int),
          ((circularityWalk 0 [x, y, z] [] cycleSim).pGetPolygon 0 nPoly).VnGetCircularities
            ≠ [] := by
      decide
    exact hall a ha b hb c hc hPerm

/-! ### The rules of the comparison function -/

/-- An array item which names a polygon among its adjacent polygons has at least three items. -/
theorem length_of_mem_drop_two (d : List Int) (x : Int) (h : x ∈ d.drop 2) : 3 ≤ d.length := by
  have hlen : 0 < (d.drop 2).length := List.length_pos_of_mem h
  rw [List.length_drop] at hlen
  omega

/-- C17 (as stated) fails. Polygons 1 and 0 both move sediment down-coast and each names the
other; neither names the grid edge. The comparison of the item of polygon 1 with the item of
polygon 0 returns true, by the test for the right polygon among the adjacent polygons of the
left one; the final comparison by direction, `[1, 1, 0] < [0, 1, 1]`, is false. -/
theorem mutual_pair_counterexample :
    ([1, 1, 0] : List Int).getD 2 0 ≠ -9999 ∧ ([0, 1, 1] : List Int).getD 2 0 ≠ -9999
    ∧ ([0, 1, 1] : List Int).getD 0 0 ∈ ([1, 1, 0] : List Int).drop 2
    ∧ ([1, 1, 0] : List Int).getD 0 0 ∈ ([0, 1, 1] : List Int).drop 2
    ∧ bPolygonAndAdjCompare (-9999) [1, 1, 0] [0, 1, 1] = some true
    ∧ compareByDirection [1, 1, 0] [0, 1, 1] = some false
    ∧ bPolygonAndAdjCompare (-9999) [1, 1, 0] [0, 1, 1] ≠ compareByDirection [1, 1, 0] [0, 1, 1] := by
  decide

/-- C17 (amended). For two array items of which neither has the grid edge as first adjacent
polygon and each names the polygon of the other among its adjacent polygons, the comparison
returns true whichever of the two is on the left: the test for the right polygon among the
adjacent polygons of the left one decides, and the comparison by direction is not reached. -/
theorem mutual_pair_compare (INT_NODATA : Int) (nVLeft nVRight : List Int)
    (hLeftEdge : nVLeft.getD 2 0 ≠ INT_NODATA) (hRightEdge : nVRight.getD 2 0 ≠ INT_NODATA)
    (hLeftNames : nVRight.getD 0 0 ∈ nVLeft.drop 2)
    (hRightNames : nVLeft.getD 0 0 ∈ nVRight.drop 2) :
    bPolygonAndAdjCompare INT_NODATA nVLeft nVRight = some true
    ∧ bPolygonAndAdjCompare INT_NODATA nVRight nVLeft = some true := by
  have hL : 3 ≤ nVLeft.length := length_of_mem_drop_two _ _ hLeftNames
  have hR : 3 ≤ nVRight.length := length_of_mem_drop_two _ _ hRightNames
  have hcL : (nVLeft.drop 2).contains (nVRight.getD 0 0) = true := by
    rw [List.contains_iff_exists_mem_beq]
    exact ⟨_, hLeftNames, by simp⟩
  have hcR : (nVRight.drop 2).contains (nVLeft.getD 0 0) = true := by
    rw [List.contains_iff_exists_mem_beq]
    exact ⟨_, hRightNames, by simp⟩
  unfold bPolygonAndAdjCompare
  rw [if_pos ⟨hL, hR⟩, if_neg hLeftEdge, if_neg hRightEdge, if_pos hcL,
    if_pos ⟨hR, hL⟩, if_neg hRightEdge, if_neg hLeftEdge, if_pos hcR]
  exact ⟨rfl, rfl⟩

/-- Witness for C17 (amended): the items of polygons 1 and 0, which name each other. -/
theorem mutual_pair_compare_witness :
    bPolygonAndAdjCompare (-9999) [1, 1, 0] [0, 1, 1] = some true
    ∧ bPolygonAndAdjCompare (-9999) [0, 1, 1] [1, 1, 0] = some true :=
  mutual_pair_compare (-9999) [1, 1, 0] [0, 1, 1] (by decide) (by decide) (by decide) (by decide)

/-- C19. Comparator rule 1 (edge last): for two array items which both have an adjacent polygon,
when the first adjacent polygon of the left item is the grid edge the comparison returns false,
and when it is not while the first adjacent polygon of the right item is the grid edge the
comparison returns true. -/
theorem comparator_edge_last (INT_NODATA : Int) (nVLeft nVRight : List Int)
    (hLeft : 3 ≤ nVLeft.length) (hRight : 3 ≤ nVRight.length) :
    (nVLeft.getD 2 0 = INT_NODATA →
        bPolygonAndAdjCompare INT_NODATA nVLeft nVRight = some false)
    ∧ (nVLeft.getD 2 0 ≠ INT_NODATA → nVRight.getD 2 0 = INT_NODATA →
        bPolygonAndAdjCompare INT_NODATA nVLeft nVRight = some true) := by
  unfold bPolygonAndAdjCompare
  rw [if_pos ⟨hLeft, hRight⟩]
  constructor
  · intro h
    rw [if_pos h]
  · intro hL hR
    rw [if_neg hL, if_pos hR]

/-- Witness for C19: the item of polygon 2, at the grid edge, against the item of polygon 3,
which is not: false with polygon 2 on the left and true with polygon 3 on the left, where the
final comparison by direction would give true and false. -/
theorem comparator_edge_last_witness :
    bPolygonAndAdjCompare (-9999) [2, 1, -9999] [3, 1, 1] = some false
    ∧ bPolygonAndAdjCompare (-9999) [3, 1, 1] [2, 1, -9999] = some true :=
  ⟨(comparator_edge_last (-9999) [2, 1, -9999] [3, 1, 1] (by decide) (by decide)).1 (by decide),
    (comparator_edge_last (-9999) [3, 1, 1] [2, 1, -9999] (by decide) (by decide)).2
      (by decide) (by decide)⟩

/-- C20. Comparator rules 2 and 3 (source before target): for two array items which both have an
adjacent polygon, the first adjacent polygon of neither being the grid edge, when the adjacent
polygons of the left item include the polygon of the right item the comparison returns true, and
when they do not while the adjacent polygons of the right item include the polygon of the left
item the comparison returns false. -/
theorem comparator_source_before_target (INT_NODATA : Int) (nVLeft nVRight : List Int)
    (hLeft : 3 ≤ nVLeft.length) (hRight : 3 ≤ nVRight.length)
    (hLeftEdge : nVLeft.getD 2 0 ≠ INT_NODATA) (hRightEdge : nVRight.getD 2 0 ≠ INT_NODATA) :
    (nVRight.getD 0 0 ∈ nVLeft.drop 2 →
        bPolygonAndAdjCompare INT_NODATA nVLeft nVRight = some true)
    ∧ (nVRight.getD 0 0 ∉ nVLeft.drop 2 → nVLeft.getD 0 0 ∈ nVRight.drop 2 →
        bPolygonAndAdjCompare INT_NODATA nVLeft nVRight = some false) := by
  unfold bPolygonAndAdjCompare
  rw [if_pos ⟨hLeft, hRight⟩, if_neg hLeftEdge, if_neg hRightEdge]
  constructor
  · intro h
    have hc : (nVLeft.drop 2).contains (nVRight.getD 0 0) = true := by
      rw [List.contains_iff_exists_mem_beq]
      exact ⟨_, h, by simp⟩
    rw [if_pos hc]
  · intro hL hR
    have hc : ¬ (nVLeft.drop 2).contains (nVRight.getD 0 0) = true := by
      rw [List.contains_iff_exists_mem_beq]
      rintro ⟨a, ha, hab⟩
      have : nVRight.getD 0 0 = a := by simpa using hab
      exact hL (this ▸ ha)
    have hc2 : (nVRight.drop 2).contains (nVLeft.getD 0 0) = true := by
      rw [List.contains_iff_exists_mem_beq]
      exact ⟨_, hR, by simp⟩
    rw [if_neg hc, if_pos hc2]

/-- Witness for C20: polygon 3 names polygon 0, which names polygon 5: true with polygon 3 on
the left and false with polygon 0 on the left, where the final comparison by direction would give
false and true. -/
theorem comparator_source_before_target_witness :
    bPolygonAndAdjCompare (-9999) [3, 1, 0] [0, 1, 5] = some true
    ∧ bPolygonAndAdjCompare (-9999) [0, 1, 5] [3, 1, 0] = some false :=
  ⟨(comparator_source_before_target (-9999) [3, 1, 0] [0, 1, 5] (by decide) (by decide)
      (by decide) (by decide)).1 (by decide),
    (comparator_source_before_target (-9999) [0, 1, 5] [3, 1, 0] (by decide) (by decide)
      (by decide) (by decide)).2 (by decide) (by decide)⟩

/-- The comparison `vectorLess` is the lexicographic order on lists of integers. -/
theorem vectorLess_iff_lt (a b : List Int) : vectorLess a b = true ↔ List.lt a b := by
  induction a generalizing b with
  | nil =>
    cases b with
    | nil => exact ⟨fun h => Bool.noConfusion h, fun h => nomatch h⟩
    | cons y ys => exact ⟨fun _ => List.lt.nil y ys, fun _ => rfl⟩
  | cons x xs ih =>
    cases b with
    | nil => exact ⟨fun h => Bool.noConfusion h, fun h => nomatch h⟩
    | cons y ys =>
      unfold vectorLess
      by_cases hxy : x < y
      · rw [if_pos hxy]
        exact ⟨fun _ => List.lt.head xs ys hxy, fun _ => rfl⟩
      · rw [if_neg hxy]
        by_cases hyx : y < x
        · rw [if_pos hyx]
          refine ⟨fun h => Bool.noConfusion h, fun h => ?_⟩
          cases h with
          | head _ _ h => exact absurd h hxy
          | tail _ h2 _ => exact absurd hyx h2
        · rw [if_neg hyx, ih]
          refine ⟨fun h => List.lt.tail hxy hyx h, fun h => ?_⟩
          cases h with
          | head _ _ h => exact absurd h hxy
          | tail _ _ h3 => exact h3

/-- C21. Comparator rule 4 (fallback): for an array item `nVLeft` with at least its polygon and
its direction, whenever the tests for the grid edge and for adjacent polygons do not decide (one
of the two items has no adjacent polygon, or neither has the grid edge as first adjacent polygon
and neither names the polygon of the other), the comparison returns whether `nVLeft` is
lexicographically less than `nVRight` when the direction of `nVLeft` is down-coast, and whether
`nVLeft` is lexicographically greater than `nVRight` when it is up-coast. -/
theorem comparator_fallback (INT_NODATA : Int) (nVLeft nVRight : List Int)
    (hLeft : 2 ≤ nVLeft.length)
    (hNone : ¬ (3 ≤ nVLeft.length ∧ 3 ≤ nVRight.length)
      ∨ (nVLeft.getD 2 0 ≠ INT_NODATA ∧ nVRight.getD 2 0 ≠ INT_NODATA
          ∧ nVRight.getD 0 0 ∉ nVLeft.drop 2 ∧ nVLeft.getD 0 0 ∉ nVRight.drop 2)) :
    (nVLeft.getD 1 0 ≠ 0 →
      ∃ b : Bool, bPolygonAndAdjCompare INT_NODATA nVLeft nVRight = some b
        ∧ (b = true ↔ List.lt nVLeft nVRight))
    ∧ (nVLeft.getD 1 0 = 0 →
      ∃ b : Bool, bPolygonAndAdjCompare INT_NODATA nVLeft nVRight = some b
        ∧ (b = true ↔ List.lt nVRight nVLeft)) := by
  have hFall : bPolygonAndAdjCompare INT_NODATA nVLeft nVRight =
      compareByDirection nVLeft nVRight := by
    unfold bPolygonAndAdjCompare
    rcases hNone with h | ⟨h1, h2, h3, h4⟩
    · rw [if_neg h]
    · by_cases hlen : 3 ≤ nVLeft.length ∧ 3 ≤ nVRight.length
      · rw [if_pos hlen, if_neg h1, if_neg h2,
          if_neg (by rw [contains_eq_false_of_not_mem _ _ h3]; exact Bool.false_ne_true),
          if_neg (by rw [contains_eq_false_of_not_mem _ _ h4]; exact Bool.false_ne_true)]
      · rw [if_neg hlen]
  have hGet : nVLeft.get? 1 = some (nVLeft.getD 1 0) := by
    rw [List.getD_eq_getElem?_getD, List.get?_eq_getElem?,
      List.getElem?_eq_getElem (show 1 < nVLeft.length by omega)]
    rfl
  rw [hFall]
  unfold compareByDirection
  rw [hGet]
  constructor
  · intro hDown
    refine ⟨vectorLess nVLeft nVRight, ?_, vectorLess_iff_lt _ _⟩
    simp only [hDown, ne_eq, not_false_eq_true, if_true]
  · intro hUp
    refine ⟨vectorLess nVRight nVLeft, ?_, vectorLess_iff_lt _ _⟩
    simp only [hUp, ne_eq, not_true_eq_false, if_false]

/-- Witness for C21: the item of a down-coast polygon without adjacent polygon against the item of
a polygon which names it, and the same with the direction up-coast. -/
theorem comparator_fallback_witness :
    (∃ b : Bool, bPolygonAndAdjCompare (-9999) [0, 1] [1, 1, 0] = some b
      ∧ (b = true ↔ List.lt ([0, 1] : List Int) [1, 1, 0]))
    ∧ (∃ b : Bool, bPolygonAndAdjCompare (-9999) [0, 0] [1, 1, 0] = some b
      ∧ (b = true ↔ List.lt ([1, 1, 0] : List Int) [0, 0])) :=
  ⟨(comparator_fallback (-9999) [0, 1] [1, 1, 0] (by decide) (Or.inl (by decide))).1 (by decide),
    (comparator_fallback (-9999) [0, 0] [1, 1, 0] (by decide) (Or.inl (by decide))).2 (by decide)⟩

/-- One write is a sequence of writes. -/
theorem PassWrites.single {s t : CSimulation} (h : PassWrite s t) : PassWrites s t :=
  Relation.ReflTransGen.single h

/-- No write is a sequence of writes. -/
theorem PassWrites.refl (s : CSimulation) : PassWrites s s :=
  Relation.ReflTransGen.refl

/-- Two sequences of writes make a sequence of writes. -/
theorem PassWrites.trans {s t u : CSimulation} (h1 : PassWrites s t) (h2 : PassWrites t u) :
    PassWrites s u :=
  Relation.ReflTransGen.trans h1 h2

/-- A property which every write keeps is kept by a sequence of writes. -/
theorem PassWrites.invariant (P : CSimulation → Prop)
    (hStep : ∀ s t, PassWrite s t → P s → P t) {s t : CSimulation} (h : PassWrites s t)
    (hP : P s) : P t := by
  induction h with
  | refl => exact hP
  | tail _ hbc ih => exact hStep _ _ hbc ih

/-- A fold whose steps are sequences of writes is a sequence of writes. -/
theorem PassWrites.foldl {ι : Type} (step : CSimulation → ι → CSimulation)
    (h : ∀ t i, PassWrites t (step t i)) (l : List ι) (s : CSimulation) :
    PassWrites s (l.foldl step s) := by
  induction l generalizing s with
  | nil => exact PassWrites.refl s
  | cons i rest ih => exact (h s i).trans (ih (step s i))

/-- The deposition of coarse sediment is a sequence of writes. -/
theorem depositCoarse_writes (RTN_OK : Int) (ext : Collaborator) (s : CSimulation) (nCoast : Nat)
    (nPoly : Int) : PassWrites s (depositCoarse RTN_OK ext s nCoast nPoly).2 := by
  unfold depositCoarse nDoUnconsDepositionOnPolygon
  simp only
  split
  · have hCall := PassWrites.single (PassWrite.placementCall s
      ⟨PlacementKind.deposition, nCoast, nPoly, Texture.TEXTURE_COARSE,
        (s.pGetPolygon nCoast nPoly).dGetDepositionUnconsCoarse⟩
        (fun _ h => Texture.noConfusion h))
    split
    · exact hCall
    · split
      · rename_i hx
        exact hCall.trans (PassWrites.single (PassWrite.undepositedCoarse _ _ hx))
      · exact hCall
  · exact PassWrites.refl s

/-- The deposition of sand is a sequence of writes. -/
theorem depositSand_writes (RTN_OK : Int) (ext : Collaborator) (s : CSimulation) (nCoast : Nat)
    (nPoly : Int) : PassWrites s (depositSand RTN_OK ext s nCoast nPoly).2 := by
  unfold depositSand nDoUnconsDepositionOnPolygon
  simp only
  split
  · have hCall := PassWrites.single (PassWrite.placementCall s
      ⟨PlacementKind.deposition, nCoast, nPoly, Texture.TEXTURE_SAND,
        (s.pGetPolygon nCoast nPoly).dGetDepositionUnconsSand⟩
        (fun _ h => Texture.noConfusion h))
    split
    · exact hCall
    · split
      · rename_i hx
        exact hCall.trans (PassWrites.single (PassWrite.undepositedSand _ _ hx))
      · exact hCall
  · exact PassWrites.refl s

/-- The erosion of fine sediment is a sequence of writes. -/
theorem erodeFine_writes (RTN_OK : Int) (ext : Collaborator) (s : CSimulation) (nCoast : Nat)
    (nPoly : Int) (dPotentialErosion : ℚ) :
    PassWrites s (erodeFine RTN_OK ext s nCoast nPoly dPotentialErosion).2 := by
  unfold erodeFine nDoUnconsErosionOnPolygon
  simp only
  split
  · have hCall := PassWrites.single (PassWrite.placementCall s
      ⟨PlacementKind.erosion, nCoast, nPoly, Texture.TEXTURE_FINE,
        tMin (dPotentialErosion * s.m_dFineErodibilityNormalized)
          (s.pGetPolygon nCoast nPoly).dGetStoredUnconsFine⟩
        (fun h => PlacementKind.noConfusion h))
    split
    · exact hCall
    · split
      · rename_i he
        exact (hCall.trans (PassWrites.single (PassWrite.totalFine _ _ he))).trans
          (PassWrites.single (PassWrite.ledgerFine _ nCoast nPoly _ he))
      · exact hCall
  · exact PassWrites.refl s

/-- The erosion of sand is a sequence of writes. -/
theorem erodeSand_writes (RTN_OK : Int) (ext : Collaborator) (s : CSimulation) (nCoast : Nat)
    (nPoly : Int) (dPotentialErosion : ℚ) :
    PassWrites s (erodeSand RTN_OK ext s nCoast nPoly dPotentialErosion).2.2 := by
  unfold erodeSand nDoUnconsErosionOnPolygon
  simp only
  split
  · by_cases hc : s.m_dThisIterDepositionSandDiff > 0
    · simp only [hc, if_true]
      have hCall := (PassWrites.single (PassWrite.absorbedSand s hc)).trans
        (PassWrites.single (PassWrite.placementCall _
          ⟨PlacementKind.erosion, nCoast, nPoly, Texture.TEXTURE_SAND,
            tMin (dPotentialErosion * s.m_dSandErodibilityNormalized)
              (s.pGetPolygon nCoast nPoly).dGetStoredUnconsSand
              + s.m_dThisIterDepositionSandDiff⟩
        (fun h => PlacementKind.noConfusion h)))
      split
      · exact hCall
      · split
        · rename_i he
          exact (hCall.trans (PassWrites.single (PassWrite.totalSand _ _ he))).trans
            (PassWrites.single (PassWrite.ledgerSand _ nCoast nPoly _ he))
        · exact hCall
    · simp only [hc, if_false]
      have hCall := PassWrites.single (PassWrite.placementCall s
        ⟨PlacementKind.erosion, nCoast, nPoly, Texture.TEXTURE_SAND,
          tMin (dPotentialErosion * s.m_dSandErodibilityNormalized)
            (s.pGetPolygon nCoast nPoly).dGetStoredUnconsSand⟩
        (fun h => PlacementKind.noConfusion h))
      split
      · exact hCall
      · split
        · rename_i he
          exact (hCall.trans (PassWrites.single (PassWrite.totalSand _ _ he))).trans
            (PassWrites.single (PassWrite.ledgerSand _ nCoast nPoly _ he))
        · exact hCall
  · exact PassWrites.refl s

/-- The erosion of coarse sediment is a sequence of writes. -/
theorem erodeCoarse_writes (RTN_OK : Int) (ext : Collaborator) (s : CSimulation) (nCoast : Nat)
    (nPoly : Int) (dPotentialErosion : ℚ) :
    PassWrites s (erodeCoarse RTN_OK ext s nCoast nPoly dPotentialErosion).2.2 := by
  unfold erodeCoarse nDoUnconsErosionOnPolygon
  simp only
  split
  · by_cases hc : s.m_dThisIterDepositionCoarseDiff > 0
    · simp only [hc, if_true]
      have hCall := (PassWrites.single (PassWrite.absorbedCoarse s hc)).trans
        (PassWrites.single (PassWrite.placementCall _
          ⟨PlacementKind.erosion, nCoast, nPoly, Texture.TEXTURE_COARSE,
            tMin (dPotentialErosion * s.m_dCoarseErodibilityNormalized)
              (s.pGetPolygon nCoast nPoly).dGetStoredUnconsCoarse
              + s.m_dThisIterDepositionCoarseDiff⟩
        (fun h => PlacementKind.noConfusion h)))
      split
      · exact hCall
      · split
        · rename_i he
          exact (hCall.trans (PassWrites.single (PassWrite.totalCoarse _ _ he))).trans
            (PassWrites.single (PassWrite.ledgerCoarse _ nCoast nPoly _ he))
        · exact hCall
    · simp only [hc, if_false]
      have hCall := PassWrites.single (PassWrite.placementCall s
        ⟨PlacementKind.erosion, nCoast, nPoly, Texture.TEXTURE_COARSE,
          tMin (dPotentialErosion * s.m_dCoarseErodibilityNormalized)
            (s.pGetPolygon nCoast nPoly).dGetStoredUnconsCoarse⟩
        (fun h => PlacementKind.noConfusion h))
      split
      · exact hCall
      · split
        · rename_i he
          exact (hCall.trans (PassWrites.single (PassWrite.totalCoarse _ _ he))).trans
            (PassWrites.single (PassWrite.ledgerCoarse _ nCoast nPoly _ he))
        · exact hCall
  · exact PassWrites.refl s

/-- The grid-edge handling is a sequence of writes. -/
theorem exportAtGridEdge_writes (s : CSimulation) (nCoast : Nat)
    (dSandEroded dCoarseEroded : ℚ) :
    PassWrites s (exportAtGridEdge s nCoast dSandEroded dCoarseEroded) := by
  unfold exportAtGridEdge
  split
  · exact PassWrites.refl s
  · exact PassWrites.single (PassWrite.leftGrid s _ _)
  · simp only
    have hSand : PassWrites s (if dSandEroded > 0 then
        s.updPolygon nCoast 0 (fun p => p.AddDepositionUnconsSand dSandEroded) else s) := by
      split
      · rename_i h
        exact PassWrites.single (PassWrite.recirculatedSand s nCoast _ h)
      · exact PassWrites.refl s
    split
    · rename_i h
      exact hSand.trans (PassWrites.single (PassWrite.recirculatedCoarse _ nCoast _ h))
    · exact hSand

/-- The export to an adjacent polygon, with a boundary share of the exporting polygon, is a
sequence of writes. -/
theorem exportToAdjacent_writes (s : CSimulation) (nCoast : Nat) (nPoly nAdjPoly : Int)
    (nn : Nat) (dBoundaryShare dSandEroded dCoarseEroded : ℚ)
    (hShare : dBoundaryShare = (s.pGetPolygon nCoast nPoly).dGetDownCoastAdjacentPolygonBoundaryShare nn
      ∨ dBoundaryShare = (s.pGetPolygon nCoast nPoly).dGetUpCoastAdjacentPolygonBoundaryShare nn) :
    PassWrites s (exportToAdjacent s nCoast nAdjPoly dBoundaryShare dSandEroded dCoarseEroded) := by
  unfold exportToAdjacent
  simp only
  by_cases hS : dSandEroded > 0
  · rw [if_pos hS]
    have hSand := PassWrites.single
      (PassWrite.exportedSand s nCoast nPoly nAdjPoly nn dSandEroded dBoundaryShare hS hShare)
    split
    · rename_i hC
      refine hSand.trans (PassWrites.single
        (PassWrite.exportedCoarse _ nCoast nPoly nAdjPoly nn dCoarseEroded dBoundaryShare hC ?_))
      rw [pGetPolygon_updPolygon_field
          (fun p => p.dGetDownCoastAdjacentPolygonBoundaryShare nn) s nCoast nAdjPoly nPoly
          (fun p => p.AddDepositionUnconsSand (dSandEroded * dBoundaryShare)) (fun _ => rfl),
        pGetPolygon_updPolygon_field
          (fun p => p.dGetUpCoastAdjacentPolygonBoundaryShare nn) s nCoast nAdjPoly nPoly
          (fun p => p.AddDepositionUnconsSand (dSandEroded * dBoundaryShare)) (fun _ => rfl)]
      exact hShare
    · exact hSand
  · rw [if_neg hS]
    split
    · rename_i hC
      exact PassWrites.single
        (PassWrite.exportedCoarse s nCoast nPoly nAdjPoly nn dCoarseEroded dBoundaryShare hC hShare)
    · exact PassWrites.refl s

/-- The export of eroded sediment is a sequence of writes. -/
theorem exportSediment_writes (INT_NODATA : Int) (s : CSimulation) (nCoast : Nat)
    (nNumPolygons nPoly : Int) (dSandEroded dCoarseEroded : ℚ) :
    PassWrites s
      (exportSediment INT_NODATA s nCoast nNumPolygons nPoly dSandEroded dCoarseEroded) := by
  unfold exportSediment
  simp only
  split
  · apply PassWrites.foldl
    intro t nn
    unfold exportSlotDownCoast
    simp only
    split
    · split
      · exact PassWrites.refl t
      · split
        · exact exportAtGridEdge_writes t nCoast _ _
        · exact PassWrites.refl t
    · exact exportToAdjacent_writes t nCoast nPoly _ nn _ _ _ (Or.inl rfl)
  · apply PassWrites.foldl
    intro t nn
    unfold exportSlotUpCoast
    simp only
    split
    · split
      · exact PassWrites.refl t
      · split
        · exact exportAtGridEdge_writes t nCoast _ _
        · exact PassWrites.refl t
    · exact exportToAdjacent_writes t nCoast nPoly _ nn _ _ _ (Or.inr rfl)

/-- The erosion of one polygon followed by the export is a sequence of writes. -/
theorem erodeAndExport_writes (INT_NODATA RTN_OK : Int) (ext : Collaborator) (s : CSimulation)
    (nCoast : Nat) (nNumPolygons nPoly : Int) (dPotentialErosion : ℚ) :
    PassWrites s
      (erodeAndExport INT_NODATA RTN_OK ext s nCoast nNumPolygons nPoly dPotentialErosion).2 := by
  have f1 := erodeFine_writes RTN_OK ext s nCoast nPoly dPotentialErosion
  unfold erodeAndExport
  cases h1 : erodeFine RTN_OK ext s nCoast nPoly dPotentialErosion with
  | mk r1 s1 =>
  rw [h1] at f1
  cases r1 with
  | some nRet => exact f1
  | none =>
  simp only at f1 ⊢
  have f2 := erodeSand_writes RTN_OK ext s1 nCoast nPoly dPotentialErosion
  cases h2 : erodeSand RTN_OK ext s1 nCoast nPoly dPotentialErosion with
  | mk r2 ds2 =>
  obtain ⟨dSand, s2⟩ := ds2
  rw [h2] at f2
  cases r2 with
  | some nRet => exact f1.trans f2
  | none =>
  simp only at f2 ⊢
  have f3 := erodeCoarse_writes RTN_OK ext s2 nCoast nPoly dPotentialErosion
  cases h3 : erodeCoarse RTN_OK ext s2 nCoast nPoly dPotentialErosion with
  | mk r3 ds3 =>
  obtain ⟨dCoarse, s3⟩ := ds3
  rw [h3] at f3
  cases r3 with
  | some nRet => exact (f1.trans f2).trans f3
  | none =>
  simp only at f3 ⊢
  split
  · exact ((f1.trans f2).trans f3).trans (exportSediment_writes INT_NODATA s3 nCoast _ _ _ _)
  · exact (f1.trans f2).trans f3

/-- The deposition on one polygon is a sequence of writes. -/
theorem depositCoarseAndSand_writes (RTN_OK : Int) (ext : Collaborator) (s : CSimulation)
    (nCoast : Nat) (nPoly : Int) :
    PassWrites s (depositCoarseAndSand RTN_OK ext s nCoast nPoly).2 := by
  have hc := depositCoarse_writes RTN_OK ext s nCoast nPoly
  unfold depositCoarseAndSand
  cases h : depositCoarse RTN_OK ext s nCoast nPoly with
  | mk r1 s1 =>
    rw [h] at hc
    cases r1 with
    | some nRet => exact hc
    | none => exact hc.trans (depositSand_writes RTN_OK ext s1 nCoast nPoly)

/-- The processing of one polygon is a sequence of writes. -/
theorem doPolygon_writes (INT_NODATA RTN_OK : Int) (ext : Collaborator) (s : CSimulation)
    (nCoast : Nat) (nNumPolygons nPoly : Int) :
    PassWrites s (doPolygon INT_NODATA RTN_OK ext s nCoast nNumPolygons nPoly).2 := by
  have d1 := depositCoarseAndSand_writes RTN_OK ext s nCoast nPoly
  unfold doPolygon
  cases h1 : depositCoarseAndSand RTN_OK ext s nCoast nPoly with
  | mk r1 s1 =>
  rw [h1] at d1
  cases r1 with
  | some nRet => exact d1
  | none =>
  simp only at d1 ⊢
  split
  · exact d1.trans (erodeAndExport_writes INT_NODATA RTN_OK ext s1 nCoast nNumPolygons nPoly _)
  · exact d1

/-- The loop over the sorted polygons is a sequence of writes. -/
theorem doAllPolygons_writes (INT_NODATA RTN_OK : Int) (ext : Collaborator) (nCoast : Nat)
    (nNumPolygons : Int) (l : List (List Int)) (s : CSimulation) :
    PassWrites s (doAllPolygons INT_NODATA RTN_OK ext nCoast nNumPolygons l s).2 := by
  induction l generalizing s with
  | nil => exact PassWrites.refl s
  | cons nVPoly rest ih =>
    have d1 := doPolygon_writes INT_NODATA RTN_OK ext s nCoast nNumPolygons (nVPoly.getD 0 0)
    unfold doAllPolygons
    cases h1 : doPolygon INT_NODATA RTN_OK ext s nCoast nNumPolygons (nVPoly.getD 0 0) with
    | mk r1 s1 =>
    rw [h1] at d1
    cases r1 with
    | some nRet => exact d1
    | none => exact d1.trans (ih s1)

/-- The update of the stored sediment of the polygons of a coast is a sequence of writes. -/
theorem AllPolygonsUpdateStoredUncons_writes (s : CSimulation) (nCoast : Nat) :
    PassWrites s (AllPolygonsUpdateStoredUncons s nCoast) := by
  unfold AllPolygonsUpdateStoredUncons
  apply PassWrites.foldl
  intro t nPoly
  unfold updateStoredUncons
  exact (PassWrites.single (PassWrite.storedSand t nCoast nPoly)).trans
    (PassWrites.single (PassWrite.storedCoarse _ nCoast nPoly))

/-- The inner loop of the check for circularities is a sequence of writes. -/
theorem checkCircularities_writes (nCoast : Nat) (nPoly : Int) (VnSourcePolygons : List Int)
    (l : List Int) (s : CSimulation) :
    PassWrites s (checkCircularities nCoast nPoly VnSourcePolygons l s) := by
  induction l generalizing s with
  | nil => exact PassWrites.refl s
  | cons nAdj rest ih =>
    unfold checkCircularities
    split
    · refine PassWrites.trans ?_ (ih _)
      unfold addCircularityPair
      exact (PassWrites.single (PassWrite.circularity s nCoast nPoly nAdj)).trans
        (PassWrites.single (PassWrite.circularity _ nCoast nAdj nPoly))
    · exact ih s

/-- The check for circularities is a sequence of writes. -/
theorem circularityWalk_writes (nCoast : Nat) (l : List (List Int)) (VnSourcePolygons : List Int)
    (s : CSimulation) : PassWrites s (circularityWalk nCoast l VnSourcePolygons s) := by
  induction l generalizing VnSourcePolygons s with
  | nil => exact PassWrites.refl s
  | cons d rest ih =>
    cases d with
    | nil =>
      unfold circularityWalk
      exact ih _ s
    | cons nPoly items =>
      unfold circularityWalk
      exact (checkCircularities_writes nCoast nPoly _ _ s).trans (ih _ _)

/-- The processing of one coast is a sequence of writes. -/
theorem doCoast_writes (INT_NODATA RTN_OK : Int) (ext : Collaborator) (s : CSimulation)
    (nCoast : Nat) : PassWrites s (doCoast INT_NODATA RTN_OK ext s nCoast).2 := by
  unfold doCoast
  simp only
  exact ((AllPolygonsUpdateStoredUncons_writes s nCoast).trans
    (circularityWalk_writes nCoast _ [] _)).trans (doAllPolygons_writes INT_NODATA RTN_OK ext
      nCoast _ _ _)

/-- The loop over the coasts is a sequence of writes. -/
theorem doCoastsFrom_writes (INT_NODATA RTN_OK : Int) (ext : Collaborator) (nCoasts nCoast : Nat)
    (s : CSimulation) : PassWrites s (doCoastsFrom INT_NODATA RTN_OK ext nCoasts nCoast s).2 := by
  induction nCoasts generalizing nCoast s with
  | zero => exact PassWrites.refl s
  | succ k ih =>
    have d1 := doCoast_writes INT_NODATA RTN_OK ext s nCoast
    unfold doCoastsFrom
    cases h1 : doCoast INT_NODATA RTN_OK ext s nCoast with
    | mk r1 s1 =>
    rw [h1] at d1
    cases r1 with
    | some nRet => exact d1
    | none => exact d1.trans (ih (nCoast + 1) s1)

/-- The whole of `nDoAllActualBeachErosionAndDeposition` is a sequence of writes. -/
theorem nDoAllActualBeachErosionAndDeposition_writes (INT_NODATA RTN_OK : Int)
    (ext : Collaborator) (s : CSimulation) :
    PassWrites s (nDoAllActualBeachErosionAndDeposition INT_NODATA RTN_OK ext s).2 :=
  doCoastsFrom_writes INT_NODATA RTN_OK ext _ _ s

/-- A write to a polygon of one coast leaves the polygon vectors of the other coasts alone. -/
theorem coast_updPolygon_ne (s : CSimulation) (nCoast nOtherCoast : Nat) (nPoly : Int)
    (f : CGeomCoastPolygon → CGeomCoastPolygon) (h : nOtherCoast ≠ nCoast) :
    (s.updPolygon nCoast nPoly f).coast nOtherCoast = s.coast nOtherCoast := by
  unfold CSimulation.updPolygon CSimulation.coast
  split
  · simp only [List.getD_eq_getElem?_getD, List.getElem?_modify]
    simp only [if_neg (Ne.symm h)]
    cases s.m_VCoast[nOtherCoast]? <;> rfl
  · rfl

/-- After a write to a polygon, a polygon read through `pGetPolygon` is either what it was, or it
is the polygon written, with the write applied. -/
theorem pGetPolygon_updPolygon_cases (s : CSimulation) (nCoast nOtherCoast : Nat)
    (nPoly nOther : Int) (f : CGeomCoastPolygon → CGeomCoastPolygon) :
    (s.updPolygon nCoast nPoly f).pGetPolygon nOtherCoast nOther =
        s.pGetPolygon nOtherCoast nOther
    ∨ (nOtherCoast = nCoast ∧ nOther = nPoly
      ∧ (s.updPolygon nCoast nPoly f).pGetPolygon nOtherCoast nOther =
          f (s.pGetPolygon nCoast nPoly)) := by
  by_cases hCoast : nOtherCoast = nCoast
  · subst hCoast
    by_cases hPoly : nPoly = nOther
    · subst hPoly
      by_cases hValid : s.hasPolygon nOtherCoast nPoly
      · exact Or.inr ⟨rfl, rfl, pGetPolygon_updPolygon_self s nOtherCoast nPoly f hValid⟩
      · left
        unfold CSimulation.pGetPolygon
        rw [coast_updPolygon]
        by_cases h0 : 0 ≤ nPoly
        · have hlen : (s.coast nOtherCoast).length ≤ nPoly.toNat := by
            unfold CSimulation.hasPolygon CSimulation.nGetNumPolygons at hValid
            omega
          simp [h0, List.getD_eq_getElem?_getD, List.getElem?_modify,
            List.getElem?_eq_none hlen]
        · simp [h0]
    · exact Or.inl (pGetPolygon_updPolygon_ne s nOtherCoast nPoly nOther f hPoly)
  · left
    unfold CSimulation.pGetPolygon
    rw [coast_updPolygon_ne s nCoast nOtherCoast nPoly f hCoast]

/-- A write to a polygon which keeps its read-only fields keeps `readOnlyView`. -/
theorem readOnlyView_updPolygon (s : CSimulation) (nCoast : Nat) (nPoly : Int)
    (f : CGeomCoastPolygon → CGeomCoastPolygon)
    (hf : ∀ p, readOnlyFields (f p) = readOnlyFields p) :
    readOnlyView (s.updPolygon nCoast nPoly f) = readOnlyView s := by
  unfold readOnlyView CSimulation.updPolygon
  split
  · apply List.ext_getElem?
    intro i
    simp only [List.getElem?_map, List.getElem?_modify]
    have hInner : ∀ l : List CGeomCoastPolygon,
        (l.modify f nPoly.toNat).map readOnlyFields = l.map readOnlyFields := by
      intro l
      apply List.ext_getElem?
      intro j
      simp only [List.getElem?_map, List.getElem?_modify]
      split
      · cases l[j]? <;> simp [hf]
      · simp
    split
    · cases s.m_VCoast[i]? with
      | none => rfl
      | some l => simp [hInner]
    · cases s.m_VCoast[i]? <;> rfl
  · rfl

/-- Every write of a pass keeps the read-only fields of every polygon. -/
theorem readOnlyView_of_passWrite (s t : CSimulation) (h : PassWrite s t) :
    readOnlyView t = readOnlyView s := by
  cases h with
  | storedSand | storedCoarse | circularity | ledgerFine | ledgerSand | ledgerCoarse
  | exportedSand | exportedCoarse | recirculatedSand | recirculatedCoarse =>
    exact readOnlyView_updPolygon _ _ _ _ (fun _ => rfl)
  | placementCall | undepositedSand | undepositedCoarse | absorbedSand | absorbedCoarse
  | totalFine | totalSand | totalCoarse | leftGrid => rfl

/-- A sequence of writes of a pass keeps the read-only fields of every polygon. -/
theorem readOnlyView_of_passWrites (s t : CSimulation) (h : PassWrites s t) :
    readOnlyView t = readOnlyView s :=
  PassWrites.invariant (fun u => readOnlyView u = readOnlyView s)
    (fun a b hab ha => (readOnlyView_of_passWrite a b hab).trans ha) h rfl

/-- An item read from a list of values not below zero, zero being read outside the list, is not
below zero. -/
theorem getD_nonneg (l : List ℚ) (n : Nat) (h : ∀ x ∈ l, 0 ≤ x) : 0 ≤ l.getD n 0 := by
  rw [List.getD_eq_getElem?_getD]
  cases hn : l[n]? with
  | none => exact le_refl 0
  | some x => exact h x (List.getElem?_mem hn)

/-- A write to a polygon which keeps the sign conditions on the polygon written keeps them on
every polygon. -/
theorem signs_updPolygon (s : CSimulation) (nCoast : Nat) (nPoly : Int)
    (f : CGeomCoastPolygon → CGeomCoastPolygon)
    (hI : ∀ n i, ledgerSigns (s.pGetPolygon n i) ∧ inputSigns (s.pGetPolygon n i))
    (hf : ledgerSigns (f (s.pGetPolygon nCoast nPoly))
      ∧ inputSigns (f (s.pGetPolygon nCoast nPoly))) :
    ∀ n i, ledgerSigns ((s.updPolygon nCoast nPoly f).pGetPolygon n i)
      ∧ inputSigns ((s.updPolygon nCoast nPoly f).pGetPolygon n i) := by
  intro n i
  rcases pGetPolygon_updPolygon_cases s nCoast n nPoly i f with h | ⟨_, _, h⟩
  · rw [h]
    exact hI n i
  · rw [h]
    exact hf

/-- Every write of a pass keeps the sign conditions on every polygon. -/
theorem signs_of_passWrite (s t : CSimulation) (h : PassWrite s t)
    (hI : ∀ n i, ledgerSigns (s.pGetPolygon n i) ∧ inputSigns (s.pGetPolygon n i)) :
    ∀ n i, ledgerSigns (t.pGetPolygon n i) ∧ inputSigns (t.pGetPolygon n i) := by
  cases h with
  | placementCall | undepositedSand | undepositedCoarse | absorbedSand | absorbedCoarse
  | totalFine | totalSand | totalCoarse | leftGrid => exact hI
  | storedSand nCoast nPoly =>
    apply signs_updPolygon s nCoast nPoly _ hI
    obtain ⟨⟨hE, hD, hS1, hS2, hS3⟩, ⟨hC1, hC2, hC3, hC4⟩, hU, hDn⟩ := hI nCoast nPoly
    exact ⟨⟨hE, hD, hS1, add_nonneg (add_nonneg hS2 hC1) hC3, hS3⟩, ⟨hC1, hC2, hC3, hC4⟩, hU, hDn⟩
  | storedCoarse nCoast nPoly =>
    apply signs_updPolygon s nCoast nPoly _ hI
    obtain ⟨⟨hE, hD, hS1, hS2, hS3⟩, ⟨hC1, hC2, hC3, hC4⟩, hU, hDn⟩ := hI nCoast nPoly
    exact ⟨⟨hE, hD, hS1, hS2, add_nonneg (add_nonneg hS3 hC2) hC4⟩, ⟨hC1, hC2, hC3, hC4⟩, hU, hDn⟩
  | circularity nCoast nPoly nWith =>
    exact signs_updPolygon s nCoast nPoly _ hI (hI nCoast nPoly)
  | ledgerFine nCoast nPoly e he =>
    apply signs_updPolygon s nCoast nPoly _ hI
    obtain ⟨⟨⟨hE1, hE2, hE3⟩, hD, hS⟩, hIn⟩ := hI nCoast nPoly
    exact ⟨⟨⟨neg_nonpos.mpr (le_of_lt he), hE2, hE3⟩, hD, hS⟩, hIn⟩
  | ledgerSand nCoast nPoly e he =>
    apply signs_updPolygon s nCoast nPoly _ hI
    obtain ⟨⟨⟨hE1, hE2, hE3⟩, hD, hS⟩, hIn⟩ := hI nCoast nPoly
    exact ⟨⟨⟨hE1, neg_nonpos.mpr (le_of_lt he), hE3⟩, hD, hS⟩, hIn⟩
  | ledgerCoarse nCoast nPoly e he =>
    apply signs_updPolygon s nCoast nPoly _ hI
    obtain ⟨⟨⟨hE1, hE2, hE3⟩, hD, hS⟩, hIn⟩ := hI nCoast nPoly
    exact ⟨⟨⟨hE1, hE2, neg_nonpos.mpr (le_of_lt he)⟩, hD, hS⟩, hIn⟩
  | exportedSand nCoast nPoly nAdjPoly nn dSandEroded dBoundaryShare hS hShare =>
    apply signs_updPolygon s nCoast nAdjPoly _ hI
    have hNonneg : 0 ≤ dBoundaryShare := by
      obtain ⟨_, _, hU, hDn⟩ := hI nCoast nPoly
      rcases hShare with h | h
      · rw [h]
        exact getD_nonneg _ nn hDn
      · rw [h]
        exact getD_nonneg _ nn hU
    obtain ⟨⟨hE, ⟨hD1, hD2, hD3⟩, hSt⟩, hIn⟩ := hI nCoast nAdjPoly
    exact ⟨⟨hE, ⟨hD1, add_nonneg hD2 (mul_nonneg (le_of_lt hS) hNonneg), hD3⟩, hSt⟩, hIn⟩
  | exportedCoarse nCoast nPoly nAdjPoly nn dCoarseEroded dBoundaryShare hC hShare =>
    apply signs_updPolygon s nCoast nAdjPoly _ hI
    have hNonneg : 0 ≤ dBoundaryShare := by
      obtain ⟨_, _, hU, hDn⟩ := hI nCoast nPoly
      rcases hShare with h | h
      · rw [h]
        exact getD_nonneg _ nn hDn
      · rw [h]
        exact getD_nonneg _ nn hU
    obtain ⟨⟨hE, ⟨hD1, hD2, hD3⟩, hSt⟩, hIn⟩ := hI nCoast nAdjPoly
    exact ⟨⟨hE, ⟨hD1, hD2, add_nonneg hD3 (mul_nonneg (le_of_lt hC) hNonneg)⟩, hSt⟩, hIn⟩
  | recirculatedSand nCoast dSandEroded hS =>
    apply signs_updPolygon s nCoast 0 _ hI
    obtain ⟨⟨hE, ⟨hD1, hD2, hD3⟩, hSt⟩, hIn⟩ := hI nCoast 0
    exact ⟨⟨hE, ⟨hD1, add_nonneg hD2 (le_of_lt hS), hD3⟩, hSt⟩, hIn⟩
  | recirculatedCoarse nCoast dCoarseEroded hC =>
    apply signs_updPolygon s nCoast 0 _ hI
    obtain ⟨⟨hE, ⟨hD1, hD2, hD3⟩, hSt⟩, hIn⟩ := hI nCoast 0
    exact ⟨⟨hE, ⟨hD1, hD2, add_nonneg hD3 (le_of_lt hC)⟩, hSt⟩, hIn⟩

/-- A property of the empty polygon holds for every polygon read through `pGetPolygon` exactly
when it holds for every polygon of every coast. -/
theorem forall_pGetPolygon_iff (Q : CGeomCoastPolygon → Prop) (hEmpty : Q emptyPolygon)
    (s : CSimulation) :
    (∀ (nCoast : Nat) (nPoly : Int), Q (s.pGetPolygon nCoast nPoly)) ↔
      ∀ l ∈ s.m_VCoast, ∀ p ∈ l, Q p := by
  constructor
  · intro h l hl p hp
    obtain ⟨n, hn, hnl⟩ := List.getElem_of_mem hl
    obtain ⟨i, hi, hip⟩ := List.getElem_of_mem hp
    have := h n (i : Int)
    unfold CSimulation.pGetPolygon CSimulation.coast at this
    simp only [Int.natCast_nonneg, if_true, Int.toNat_ofNat, List.getD_eq_getElem?_getD,
      List.getElem?_eq_getElem hn, hnl, Option.getD_some, List.getElem?_eq_getElem hi, hip] at this
    exact this
  · intro h nCoast nPoly
    unfold CSimulation.pGetPolygon CSimulation.coast
    split
    · simp only [List.getD_eq_getElem?_getD]
      cases hn : s.m_VCoast[nCoast]? with
      | none => simpa using hEmpty
      | some l =>
        simp only [Option.getD_some]
        cases hi : l[nPoly.toNat]? with
        | none => simpa using hEmpty
        | some p => exact h l (List.getElem?_mem hn) p (List.getElem?_mem hi)
    · exact hEmpty

/-- The empty polygon meets the sign conditions. -/
theorem signs_emptyPolygon : ledgerSigns emptyPolygon ∧ inputSigns emptyPolygon := by
  decide

/-- C26. Sign invariants are preserved: when, for every polygon, the three erosion depths are not
above zero, the deposition and stored depths are not below zero, and the shore platform and cliff
collapse contributions and all boundary shares are not below zero, then when
`nDoAllActualBeachErosionAndDeposition` returns (it updates the stored sediment and then moves
the sediment, coast by coast), whatever the grid-edge handling and whatever the placement
routines returned, the three erosion depths of every polygon are still not above zero and its
deposition and stored depths are still not below zero. -/
theorem sign_invariants (INT_NODATA RTN_OK : Int) (ext : Collaborator) (s : CSimulation)
    (hLedger : ∀ l ∈ s.m_VCoast, ∀ p ∈ l, ledgerSigns p)
    (hInput : ∀ l ∈ s.m_VCoast, ∀ p ∈ l, inputSigns p) :
    ∀ l ∈ (nDoAllActualBeachErosionAndDeposition INT_NODATA RTN_OK ext s).2.m_VCoast,
      ∀ p ∈ l, ledgerSigns p := by
  have hL := (forall_pGetPolygon_iff ledgerSigns signs_emptyPolygon.1 s).mpr hLedger
  have hI := (forall_pGetPolygon_iff inputSigns signs_emptyPolygon.2 s).mpr hInput
  have hAll := PassWrites.invariant
    (fun t => ∀ n i, ledgerSigns (t.pGetPolygon n i) ∧ inputSigns (t.pGetPolygon n i))
    signs_of_passWrite
    (nDoAllActualBeachErosionAndDeposition_writes INT_NODATA RTN_OK ext s)
    (fun n i => ⟨hL n i, hI n i⟩)
  exact (forall_pGetPolygon_iff ledgerSigns signs_emptyPolygon.1 _).mp (fun n i => (hAll n i).1)

/-- Witness for C26: `shortfallSim`, in which both polygons erode sand, polygon 1 receives sand
from polygon 0 and the deposition places less than its target. -/
theorem sign_invariants_witness :
    ((∀ l ∈ shortfallSim.m_VCoast, ∀ p ∈ l, ledgerSigns p)
      ∧ (∀ l ∈ shortfallSim.m_VCoast, ∀ p ∈ l, inputSigns p))
    ∧ (∀ l ∈ (nDoAllActualBeachErosionAndDeposition (-9999) 0 placeShort
          shortfallSim).2.m_VCoast, ∀ p ∈ l, ledgerSigns p) :=
  ⟨by decide, sign_invariants (-9999) 0 placeShort shortfallSim (by decide) (by decide)⟩

theorem placementResults_append (ext : Collaborator) (done a b : List PlacementCall) :
    placementResults ext done (a ++ b) =
      placementResults ext done a ++ placementResults ext (done ++ a) b := by
  induction a generalizing done with
  | nil => simp [placementResults]
  | cons c rest ih =>
    have h := ih (done ++ [c])
    rw [List.append_assoc, List.singleton_append] at h
    show (c, ext done c) :: placementResults ext (done ++ [c]) (rest ++ b) = _
    rw [h]
    rfl

theorem callStatuses_append (ext : Collaborator) (done a b : List PlacementCall) :
    callStatuses ext done (a ++ b) = callStatuses ext done a ++ callStatuses ext (done ++ a) b := by
  unfold callStatuses
  rw [placementResults_append, List.map_append]

/-- A step which makes no call and does not return at once. -/
theorem Calls.nil (RTN_OK : Int) (ext : Collaborator) (s : CSimulation) :
    Calls RTN_OK ext s s none [] := by
  refine ⟨by simp, ?_⟩
  intro st hst
  simp [callStatuses, placementResults] at hst

/-- A step which makes no call and keeps the record of calls. -/
theorem Calls.of_log_eq (RTN_OK : Int) (ext : Collaborator) (s t : CSimulation)
    (h : t.placementLog = s.placementLog) : Calls RTN_OK ext s t none [] := by
  refine ⟨by simp [h], ?_⟩
  intro st hst
  simp [callStatuses, placementResults] at hst

/-- A step which does not return at once, followed by another step. -/
theorem Calls.append {RTN_OK : Int} {ext : Collaborator} {s t u : CSimulation}
    {res : Option Int} {a b : List PlacementCall} (h1 : Calls RTN_OK ext s t none a)
    (h2 : Calls RTN_OK ext t u res b) : Calls RTN_OK ext s u res (a ++ b) := by
  obtain ⟨l1, o1⟩ := h1
  obtain ⟨l2, o2⟩ := h2
  refine ⟨by rw [l2, l1, List.append_assoc], ?_⟩
  rw [callStatuses_append, ← l1]
  cases res with
  | none =>
    intro st hst
    rcases List.mem_append.mp hst with h | h
    · exact o1 st h
    · exact o2 st h
  | some nRet =>
    obtain ⟨hne, oks, hoks, hall⟩ := o2
    refine ⟨hne, callStatuses ext s.placementLog a ++ oks, ?_, ?_⟩
    · rw [hoks, List.append_assoc]
    · intro st hst
      rcases List.mem_append.mp hst with h | h
      · exact o1 st h
      · exact hall st h

/-- A step which makes one call whose status is not `RTN_OK` and returns that status at once. -/
theorem Calls.single_fail (RTN_OK : Int) (ext : Collaborator) (s t : CSimulation)
    (call : PlacementCall) (h : t.placementLog = s.placementLog ++ [call])
    (hne : (ext s.placementLog call).1 ≠ RTN_OK) :
    Calls RTN_OK ext s t (some (ext s.placementLog call).1) [call] :=
  ⟨h, hne, [], by simp [callStatuses, placementResults], by simp⟩

/-- A step which makes one call whose status is `RTN_OK` and does not return at once. -/
theorem Calls.single_ok (RTN_OK : Int) (ext : Collaborator) (s t : CSimulation)
    (call : PlacementCall) (h : t.placementLog = s.placementLog ++ [call])
    (heq : ¬ (ext s.placementLog call).1 ≠ RTN_OK) :
    Calls RTN_OK ext s t none [call] := by
  refine ⟨h, ?_⟩
  intro st hst
  simp only [callStatuses, placementResults, List.map_cons, List.map_nil,
    List.mem_singleton] at hst
  rw [hst]
  exact not_not.mp heq

/-- The calls made by the deposition of coarse sediment on a polygon: deposition calls for that
polygon, with statuses which agree with the outcome. -/
theorem depositCoarse_calls (RTN_OK : Int) (ext : Collaborator) (s : CSimulation) (nCoast : Nat)
    (nPoly : Int) :
    ∃ new, Calls RTN_OK ext s (depositCoarse RTN_OK ext s nCoast nPoly).2
        (depositCoarse RTN_OK ext s nCoast nPoly).1 new
      ∧ ∀ c ∈ new, c.kind = PlacementKind.deposition ∧ c.nCoast = nCoast ∧ c.nPoly = nPoly := by
  unfold depositCoarse nDoUnconsDepositionOnPolygon
  simp only
  split
  · refine ⟨[⟨PlacementKind.deposition, nCoast, nPoly, Texture.TEXTURE_COARSE,
      (s.pGetPolygon nCoast nPoly).dGetDepositionUnconsCoarse⟩], ?_,
      fun c hc => by rw [List.mem_singleton.mp hc]; exact ⟨rfl, rfl, rfl⟩⟩
    split
    · rename_i hne
      exact Calls.single_fail RTN_OK ext s _ _ rfl hne
    · rename_i heq
      split
      · exact Calls.single_ok RTN_OK ext s _ _ rfl heq
      · exact Calls.single_ok RTN_OK ext s _ _ rfl heq
  · exact ⟨[], Calls.nil RTN_OK ext s, fun c hc => absurd hc (List.not_mem_nil c)⟩

/-- The calls made by the deposition of sand on a polygon: deposition calls for that polygon,
with statuses which agree with the outcome. -/
theorem depositSand_calls (RTN_OK : Int) (ext : Collaborator) (s : CSimulation) (nCoast : Nat)
    (nPoly : Int) :
    ∃ new, Calls RTN_OK ext s (depositSand RTN_OK ext s nCoast nPoly).2
        (depositSand RTN_OK ext s nCoast nPoly).1 new
      ∧ ∀ c ∈ new, c.kind = PlacementKind.deposition ∧ c.nCoast = nCoast ∧ c.nPoly = nPoly := by
  unfold depositSand nDoUnconsDepositionOnPolygon
  simp only
  split
  · refine ⟨[⟨PlacementKind.deposition, nCoast, nPoly, Texture.TEXTURE_SAND,
      (s.pGetPolygon nCoast nPoly).dGetDepositionUnconsSand⟩], ?_,
      fun c hc => by rw [List.mem_singleton.mp hc]; exact ⟨rfl, rfl, rfl⟩⟩
    split
    · rename_i hne
      exact Calls.single_fail RTN_OK ext s _ _ rfl hne
    · rename_i heq
      split
      · exact Calls.single_ok RTN_OK ext s _ _ rfl heq
      · exact Calls.single_ok RTN_OK ext s _ _ rfl heq
  · exact ⟨[], Calls.nil RTN_OK ext s, fun c hc => absurd hc (List.not_mem_nil c)⟩

/-- The calls made by the erosion of fine sediment on a polygon: erosion calls for that polygon,
with statuses which agree with the outcome. -/
theorem erodeFine_calls (RTN_OK : Int) (ext : Collaborator) (s : CSimulation) (nCoast : Nat)
    (nPoly : Int) (dPotentialErosion : ℚ) :
    ∃ new, Calls RTN_OK ext s (erodeFine RTN_OK ext s nCoast nPoly dPotentialErosion).2
        (erodeFine RTN_OK ext s nCoast nPoly dPotentialErosion).1 new
      ∧ ∀ c ∈ new, c.kind = PlacementKind.erosion ∧ c.nCoast = nCoast ∧ c.nPoly = nPoly := by
  unfold erodeFine nDoUnconsErosionOnPolygon
  simp only
  split
  · refine ⟨[⟨PlacementKind.erosion, nCoast, nPoly, Texture.TEXTURE_FINE,
      tMin (dPotentialErosion * s.m_dFineErodibilityNormalized)
        (s.pGetPolygon nCoast nPoly).dGetStoredUnconsFine⟩], ?_,
      fun c hc => by rw [List.mem_singleton.mp hc]; exact ⟨rfl, rfl, rfl⟩⟩
    split
    · rename_i hne
      exact Calls.single_fail RTN_OK ext s _ _ rfl hne
    · rename_i heq
      split
      · exact Calls.single_ok RTN_OK ext s _ _ (by simp) heq
      · exact Calls.single_ok RTN_OK ext s _ _ rfl heq
  · exact ⟨[], Calls.nil RTN_OK ext s, fun c hc => absurd hc (List.not_mem_nil c)⟩

/-- The calls made by the erosion of sand on a polygon: erosion calls for that polygon, with
statuses which agree with the outcome. -/
theorem erodeSand_calls (RTN_OK : Int) (ext : Collaborator) (s : CSimulation) (nCoast : Nat)
    (nPoly : Int) (dPotentialErosion : ℚ) :
    ∃ new, Calls RTN_OK ext s (erodeSand RTN_OK ext s nCoast nPoly dPotentialErosion).2.2
        (erodeSand RTN_OK ext s nCoast nPoly dPotentialErosion).1 new
      ∧ ∀ c ∈ new, c.kind = PlacementKind.erosion ∧ c.nCoast = nCoast ∧ c.nPoly = nPoly := by
  by_cases hStored : 0 < (s.pGetPolygon nCoast nPoly).dGetStoredUnconsSand
  · rw [erodeSand_of_stored RTN_OK ext s nCoast nPoly dPotentialErosion hStored]
    refine ⟨[sandErosionCall s nCoast nPoly dPotentialErosion], ?_,
      fun c hc => by rw [List.mem_singleton.mp hc]; exact ⟨rfl, rfl, rfl⟩⟩
    split
    · rename_i hne
      exact Calls.single_fail RTN_OK ext s _ _ rfl hne
    · rename_i heq
      split
      · exact Calls.single_ok RTN_OK ext s _ _ (by simp) heq
      · exact Calls.single_ok RTN_OK ext s _ _ rfl heq
  · unfold erodeSand
    simp only [gt_iff_lt, hStored, if_false]
    exact ⟨[], Calls.nil RTN_OK ext s, fun c hc => absurd hc (List.not_mem_nil c)⟩

/-- The calls made by the erosion of coarse sediment on a polygon: erosion calls for that
polygon, with statuses which agree with the outcome. -/
theorem erodeCoarse_calls (RTN_OK : Int) (ext : Collaborator) (s : CSimulation) (nCoast : Nat)
    (nPoly : Int) (dPotentialErosion : ℚ) :
    ∃ new, Calls RTN_OK ext s (erodeCoarse RTN_OK ext s nCoast nPoly dPotentialErosion).2.2
        (erodeCoarse RTN_OK ext s nCoast nPoly dPotentialErosion).1 new
      ∧ ∀ c ∈ new, c.kind = PlacementKind.erosion ∧ c.nCoast = nCoast ∧ c.nPoly = nPoly := by
  by_cases hStored : 0 < (s.pGetPolygon nCoast nPoly).dGetStoredUnconsCoarse
  · rw [erodeCoarse_of_stored RTN_OK ext s nCoast nPoly dPotentialErosion hStored]
    refine ⟨[coarseErosionCall s nCoast nPoly dPotentialErosion], ?_,
      fun c hc => by rw [List.mem_singleton.mp hc]; exact ⟨rfl, rfl, rfl⟩⟩
    split
    · rename_i hne
      exact Calls.single_fail RTN_OK ext s _ _ rfl hne
    · rename_i heq
      split
      · exact Calls.single_ok RTN_OK ext s _ _ (by simp) heq
      · exact Calls.single_ok RTN_OK ext s _ _ rfl heq
  · unfold erodeCoarse
    simp only [gt_iff_lt, hStored, if_false]
    exact ⟨[], Calls.nil RTN_OK ext s, fun c hc => absurd hc (List.not_mem_nil c)⟩

/-- The calls made by the deposition on a polygon: deposition calls for that polygon, with
statuses which agree with the outcome. -/
theorem depositCoarseAndSand_calls (RTN_OK : Int) (ext : Collaborator) (s : CSimulation)
    (nCoast : Nat) (nPoly : Int) :
    ∃ new, Calls RTN_OK ext s (depositCoarseAndSand RTN_OK ext s nCoast nPoly).2
        (depositCoarseAndSand RTN_OK ext s nCoast nPoly).1 new
      ∧ ∀ c ∈ new, c.kind = PlacementKind.deposition ∧ c.nCoast = nCoast ∧ c.nPoly = nPoly := by
  obtain ⟨a, ha, hsa⟩ := depositCoarse_calls RTN_OK ext s nCoast nPoly
  unfold depositCoarseAndSand
  cases h : depositCoarse RTN_OK ext s nCoast nPoly with
  | mk r1 s1 =>
    rw [h] at ha
    cases r1 with
    | some nRet => exact ⟨a, ha, hsa⟩
    | none =>
      obtain ⟨b, hb, hsb⟩ := depositSand_calls RTN_OK ext s1 nCoast nPoly
      refine ⟨a ++ b, Calls.append ha hb, ?_⟩
      intro c hc
      rcases List.mem_append.mp hc with h | h
      · exact hsa c h
      · exact hsb c h

/-- The calls made by the erosion of a polygon and the export: erosion calls for that polygon,
with statuses which agree with the outcome. -/
theorem erodeAndExport_calls (INT_NODATA RTN_OK : Int) (ext : Collaborator) (s : CSimulation)
    (nCoast : Nat) (nNumPolygons nPoly : Int) (dPotentialErosion : ℚ) :
    ∃ new, Calls RTN_OK ext s
        (erodeAndExport INT_NODATA RTN_OK ext s nCoast nNumPolygons nPoly dPotentialErosion).2
        (erodeAndExport INT_NODATA RTN_OK ext s nCoast nNumPolygons nPoly dPotentialErosion).1 new
      ∧ ∀ c ∈ new, c.kind = PlacementKind.erosion ∧ c.nCoast = nCoast ∧ c.nPoly = nPoly := by
  obtain ⟨a, ha, hsa⟩ := erodeFine_calls RTN_OK ext s nCoast nPoly dPotentialErosion
  unfold erodeAndExport
  cases h1 : erodeFine RTN_OK ext s nCoast nPoly dPotentialErosion with
  | mk r1 s1 =>
  rw [h1] at ha
  cases r1 with
  | some nRet => exact ⟨a, ha, hsa⟩
  | none =>
  simp only at ha ⊢
  obtain ⟨b, hb, hsb⟩ := erodeSand_calls RTN_OK ext s1 nCoast nPoly dPotentialErosion
  cases h2 : erodeSand RTN_OK ext s1 nCoast nPoly dPotentialErosion with
  | mk r2 ds2 =>
  obtain ⟨dSand, s2⟩ := ds2
  rw [h2] at hb
  have hab : ∀ c ∈ a ++ b,
      c.kind = PlacementKind.erosion ∧ c.nCoast = nCoast ∧ c.nPoly = nPoly := by
    intro c hc
    rcases List.mem_append.mp hc with h | h
    · exact hsa c h
    · exact hsb c h
  cases r2 with
  | some nRet => exact ⟨a ++ b, Calls.append ha hb, hab⟩
  | none =>
  simp only at hb ⊢
  obtain ⟨d, hd, hsd⟩ := erodeCoarse_calls RTN_OK ext s2 nCoast nPoly dPotentialErosion
  cases h3 : erodeCoarse RTN_OK ext s2 nCoast nPoly dPotentialErosion with
  | mk r3 ds3 =>
  obtain ⟨dCoarse, s3⟩ := ds3
  rw [h3] at hd
  have habd : ∀ c ∈ a ++ b ++ d,
      c.kind = PlacementKind.erosion ∧ c.nCoast = nCoast ∧ c.nPoly = nPoly := by
    intro c hc
    rcases List.mem_append.mp hc with h | h
    · exact hab c h
    · exact hsd c h
  cases r3 with
  | some nRet => exact ⟨a ++ b ++ d, Calls.append (Calls.append ha hb) hd, habd⟩
  | none =>
  simp only at hd ⊢
  split
  · have hExp := Calls.of_log_eq RTN_OK ext s3
      (exportSediment INT_NODATA s3 nCoast nNumPolygons nPoly dSand dCoarse)
      (exportSediment_preserves (fun t => t.placementLog) INT_NODATA s3 nCoast nNumPolygons
        nPoly _ _ (fun t j x => by simp) (fun t j x => by simp) (fun _ _ _ => rfl))
    have := Calls.append (Calls.append (Calls.append ha hb) hd) hExp
    rw [List.append_nil] at this
    exact ⟨a ++ b ++ d, this, habd⟩
  · exact ⟨a ++ b ++ d, Calls.append (Calls.append ha hb) hd, habd⟩

/-- The calls made by the processing of a polygon: deposition calls for that polygon followed by
erosion calls for that polygon, with statuses which agree with the outcome. -/
theorem doPolygon_calls (INT_NODATA RTN_OK : Int) (ext : Collaborator) (s : CSimulation)
    (nCoast : Nat) (nNumPolygons nPoly : Int) :
    ∃ newD newE, Calls RTN_OK ext s
        (doPolygon INT_NODATA RTN_OK ext s nCoast nNumPolygons nPoly).2
        (doPolygon INT_NODATA RTN_OK ext s nCoast nNumPolygons nPoly).1 (newD ++ newE)
      ∧ (∀ c ∈ newD, c.kind = PlacementKind.deposition ∧ c.nCoast = nCoast ∧ c.nPoly = nPoly)
      ∧ (∀ c ∈ newE, c.kind = PlacementKind.erosion ∧ c.nCoast = nCoast ∧ c.nPoly = nPoly) := by
  obtain ⟨a, ha, hsa⟩ := depositCoarseAndSand_calls RTN_OK ext s nCoast nPoly
  unfold doPolygon
  cases h1 : depositCoarseAndSand RTN_OK ext s nCoast nPoly with
  | mk r1 s1 =>
  rw [h1] at ha
  cases r1 with
  | some nRet =>
    exact ⟨a, [], by rw [List.append_nil]; exact ha, hsa,
      fun c hc => absurd hc (List.not_mem_nil c)⟩
  | none =>
  simp only at ha ⊢
  split
  · obtain ⟨b, hb, hsb⟩ := erodeAndExport_calls INT_NODATA RTN_OK ext s1 nCoast nNumPolygons
      nPoly (-(s1.pGetPolygon nCoast nPoly).dGetPotentialErosion)
    exact ⟨a, b, Calls.append ha hb, hsa, hsb⟩
  · exact ⟨a, [], by rw [List.append_nil]; exact ha, hsa,
      fun c hc => absurd hc (List.not_mem_nil c)⟩

/-- The calls made for one polygon, deposition calls followed by erosion calls, have no
deposition call after an erosion call. -/
theorem noDepositionAfterErosion_block (newD newE : List PlacementCall)
    (hD : ∀ c ∈ newD, c.kind = PlacementKind.deposition)
    (hE : ∀ c ∈ newE, c.kind = PlacementKind.erosion) :
    noDepositionAfterErosion (newD ++ newE) := by
  unfold noDepositionAfterErosion
  rw [List.pairwise_append]
  refine ⟨?_, ?_, ?_⟩
  · apply List.pairwise_of_forall_mem_list
    intro a ha b _ hka
    rw [hD a ha] at hka
    exact PlacementKind.noConfusion hka
  · apply List.pairwise_of_forall_mem_list
    intro a _ b hb _ hkb
    rw [hE b hb] at hkb
    exact PlacementKind.noConfusion hkb
  · intro a ha b _ hka
    rw [hD a ha] at hka
    exact PlacementKind.noConfusion hka

/-- The calls made by the loop over the sorted polygons: calls for the polygons of the sequence,
with statuses which agree with the outcome; when the polygons of the sequence are distinct, no
deposition call for a polygon comes after an erosion call for that polygon. -/
theorem doAllPolygons_calls (INT_NODATA RTN_OK : Int) (ext : Collaborator) (nCoast : Nat)
    (nNumPolygons : Int) (l : List (List Int)) (s : CSimulation) :
    ∃ new, Calls RTN_OK ext s
        (doAllPolygons INT_NODATA RTN_OK ext nCoast nNumPolygons l s).2
        (doAllPolygons INT_NODATA RTN_OK ext nCoast nNumPolygons l s).1 new
      ∧ (∀ c ∈ new, c.nCoast = nCoast ∧ c.nPoly ∈ l.map (fun d => d.getD 0 0))
      ∧ ((l.map (fun d => d.getD 0 0)).Nodup → noDepositionAfterErosion new) := by
  induction l generalizing s with
  | nil =>
    exact ⟨[], Calls.nil RTN_OK ext s, fun c hc => absurd hc (List.not_mem_nil c),
      fun _ => List.Pairwise.nil⟩
  | cons d rest ih =>
    obtain ⟨newD, newE, hCalls, hD, hE⟩ := doPolygon_calls INT_NODATA RTN_OK ext s nCoast
      nNumPolygons (d.getD 0 0)
    have hBlock : ∀ c ∈ newD ++ newE, c.nCoast = nCoast ∧ c.nPoly = d.getD 0 0 := by
      intro c hc
      rcases List.mem_append.mp hc with h | h
      · exact (hD c h).2
      · exact (hE c h).2
    have hBlockOrder := noDepositionAfterErosion_block newD newE (fun c hc => (hD c hc).1)
      (fun c hc => (hE c hc).1)
    unfold doAllPolygons
    cases h1 : doPolygon INT_NODATA RTN_OK ext s nCoast nNumPolygons (d.getD 0 0) with
    | mk r1 s1 =>
    rw [h1] at hCalls
    cases r1 with
    | some nRet =>
      refine ⟨newD ++ newE, hCalls, ?_, fun _ => hBlockOrder⟩
      intro c hc
      exact ⟨(hBlock c hc).1, by rw [(hBlock c hc).2]; exact List.mem_cons_self _ _⟩
    | none =>
      obtain ⟨newR, hR, hRids, hROrder⟩ := ih s1
      refine ⟨(newD ++ newE) ++ newR, Calls.append hCalls hR, ?_, ?_⟩
      · intro c hc
        rcases List.mem_append.mp hc with h | h
        · exact ⟨(hBlock c h).1, by rw [(hBlock c h).2]; exact List.mem_cons_self _ _⟩
        · exact ⟨(hRids c h).1, List.mem_cons_of_mem _ (hRids c h).2⟩
      · intro hNodup
        rw [List.map_cons, List.nodup_cons] at hNodup
        unfold noDepositionAfterErosion
        rw [List.pairwise_append]
        refine ⟨hBlockOrder, hROrder hNodup.2, ?_⟩
        intro a ha b hb _ _ hab
        apply hNodup.1
        rw [← (hBlock a ha).2, hab]
        exact (hRids b hb).2

/-- The calls made by the processing of one coast: calls for that coast, with statuses which
agree with the outcome; when the coast IDs of the polygons are distinct, no deposition call for a
polygon comes after an erosion call for that polygon. -/
theorem doCoast_calls (INT_NODATA RTN_OK : Int) (ext : Collaborator) (s : CSimulation)
    (nCoast : Nat) :
    ∃ new, Calls RTN_OK ext s (doCoast INT_NODATA RTN_OK ext s nCoast).2
        (doCoast INT_NODATA RTN_OK ext s nCoast).1 new
      ∧ (∀ c ∈ new, c.nCoast = nCoast)
      ∧ (((sortedPolyAndAdjacent INT_NODATA (AllPolygonsUpdateStoredUncons s nCoast)
            nCoast).map (fun d => d.getD 0 0)).Nodup → noDepositionAfterErosion new) := by
  have hLog1 := AllPolygonsUpdateStoredUncons_preserves (fun t => t.placementLog) s nCoast
    (fun t i x => by simp) (fun t i x => by simp)
  have hLog2 := circularityWalk_preserves (fun t => t.placementLog) nCoast
    (fun t i x => by simp)
    (sortedPolyAndAdjacent INT_NODATA (AllPolygonsUpdateStoredUncons s nCoast) nCoast) []
    (AllPolygonsUpdateStoredUncons s nCoast)
  unfold doCoast
  simp only
  obtain ⟨new, hCalls, hIds, hOrder⟩ := doAllPolygons_calls INT_NODATA RTN_OK ext nCoast
    ((circularityWalk nCoast
      (sortedPolyAndAdjacent INT_NODATA (AllPolygonsUpdateStoredUncons s nCoast) nCoast) []
      (AllPolygonsUpdateStoredUncons s nCoast)).nGetNumPolygons nCoast)
    (sortedPolyAndAdjacent INT_NODATA (AllPolygonsUpdateStoredUncons s nCoast) nCoast)
    (circularityWalk nCoast
      (sortedPolyAndAdjacent INT_NODATA (AllPolygonsUpdateStoredUncons s nCoast) nCoast) []
      (AllPolygonsUpdateStoredUncons s nCoast))
  have hStart := Calls.of_log_eq RTN_OK ext s _ (hLog2.trans hLog1)
  have := Calls.append hStart hCalls
  rw [List.nil_append] at this
  exact ⟨new, this, fun c hc => (hIds c hc).1, hOrder⟩

/-- The calls made by the loop over the coasts have statuses which agree with the returned
status: every status is `RTN_OK` when `RTN_OK` is returned, and otherwise the returned status is
that of the last call and is the only one which is not `RTN_OK`. -/
theorem doCoastsFrom_calls (INT_NODATA RTN_OK : Int) (ext : Collaborator) (nCoasts nCoast : Nat)
    (s : CSimulation) :
    ∃ new, Calls RTN_OK ext s (doCoastsFrom INT_NODATA RTN_OK ext nCoasts nCoast s).2
      (if (doCoastsFrom INT_NODATA RTN_OK ext nCoasts nCoast s).1 = RTN_OK then none
        else some (doCoastsFrom INT_NODATA RTN_OK ext nCoasts nCoast s).1) new := by
  induction nCoasts generalizing nCoast s with
  | zero =>
    unfold doCoastsFrom
    simp only [if_true]
    exact ⟨[], Calls.nil RTN_OK ext s⟩
  | succ k ih =>
    obtain ⟨a, ha, _, _⟩ := doCoast_calls INT_NODATA RTN_OK ext s nCoast
    unfold doCoastsFrom
    cases h1 : doCoast INT_NODATA RTN_OK ext s nCoast with
    | mk r1 s1 =>
    rw [h1] at ha
    cases r1 with
    | some nRet =>
      simp only at ha ⊢
      rw [if_neg ha.2.1]
      exact ⟨a, ha⟩
    | none =>
      simp only at ha ⊢
      obtain ⟨b, hb⟩ := ih (nCoast + 1) s1
      exact ⟨a ++ b, Calls.append ha hb⟩

/-- Writes of the pass followed by a step which stops at a call. -/
theorem StoppedAtCall.of_writes {ext : Collaborator} {s s1 t : CSimulation} {nRet : Int}
    (h1 : PassWrites s s1) (h2 : StoppedAtCall ext s1 t nRet) : StoppedAtCall ext s t nRet := by
  obtain ⟨t0, call, hw, ht, hr⟩ := h2
  exact ⟨t0, call, h1.trans hw, ht, hr⟩

/-- The deposition of coarse sediment, when it returns a status at once, has written nothing but
the record of the failing call. -/
theorem depositCoarse_stopped (RTN_OK : Int) (ext : Collaborator) (s : CSimulation)
    (nCoast : Nat) (nPoly : Int) (nRet : Int)
    (h : (depositCoarse RTN_OK ext s nCoast nPoly).1 = some nRet) :
    StoppedAtCall ext s (depositCoarse RTN_OK ext s nCoast nPoly).2 nRet := by
  unfold depositCoarse nDoUnconsDepositionOnPolygon at h ⊢
  simp only at h ⊢
  split at h
  · rename_i hT
    rw [if_pos hT]
    split at h
    · rename_i hne
      rw [if_pos hne]
      exact ⟨s, _, PassWrites.refl s, rfl, Option.some.inj h⟩
    · split at h <;> exact Option.noConfusion h
  · exact Option.noConfusion h

/-- The deposition of sand, when it returns a status at once, has written nothing but the record
of the failing call. -/
theorem depositSand_stopped (RTN_OK : Int) (ext : Collaborator) (s : CSimulation)
    (nCoast : Nat) (nPoly : Int) (nRet : Int)
    (h : (depositSand RTN_OK ext s nCoast nPoly).1 = some nRet) :
    StoppedAtCall ext s (depositSand RTN_OK ext s nCoast nPoly).2 nRet := by
  unfold depositSand nDoUnconsDepositionOnPolygon at h ⊢
  simp only at h ⊢
  split at h
  · rename_i hT
    rw [if_pos hT]
    split at h
    · rename_i hne
      rw [if_pos hne]
      exact ⟨s, _, PassWrites.refl s, rfl, Option.some.inj h⟩
    · split at h <;> exact Option.noConfusion h
  · exact Option.noConfusion h

/-- The erosion of fine sediment, when it returns a status at once, has written nothing but the
record of the failing call. -/
theorem erodeFine_stopped (RTN_OK : Int) (ext : Collaborator) (s : CSimulation)
    (nCoast : Nat) (nPoly : Int) (dPotentialErosion : ℚ) (nRet : Int)
    (h : (erodeFine RTN_OK ext s nCoast nPoly dPotentialErosion).1 = some nRet) :
    StoppedAtCall ext s (erodeFine RTN_OK ext s nCoast nPoly dPotentialErosion).2 nRet := by
  unfold erodeFine nDoUnconsErosionOnPolygon at h ⊢
  simp only at h ⊢
  split at h
  · rename_i hT
    rw [if_pos hT]
    split at h
    · rename_i hne
      rw [if_pos hne]
      exact ⟨s, _, PassWrites.refl s, rfl, Option.some.inj h⟩
    · split at h <;> exact Option.noConfusion h
  · exact Option.noConfusion h

/-- The erosion of sand, when it returns a status at once, has written nothing after the failing
call was made: the undeposited sand total was set to zero before the call. -/
theorem erodeSand_stopped (RTN_OK : Int) (ext : Collaborator) (s : CSimulation)
    (nCoast : Nat) (nPoly : Int) (dPotentialErosion : ℚ) (nRet : Int)
    (h : (erodeSand RTN_OK ext s nCoast nPoly dPotentialErosion).1 = some nRet) :
    StoppedAtCall ext s (erodeSand RTN_OK ext s nCoast nPoly dPotentialErosion).2.2 nRet := by
  by_cases hStored : 0 < (s.pGetPolygon nCoast nPoly).dGetStoredUnconsSand
  · rw [erodeSand_of_stored RTN_OK ext s nCoast nPoly dPotentialErosion hStored] at h ⊢
    split at h
    · rename_i hne
      rw [if_pos hne]
      by_cases hc : s.m_dThisIterDepositionSandDiff > 0
      · exact ⟨{ s with m_dThisIterDepositionSandDiff := 0 }, _,
          PassWrites.single (PassWrite.absorbedSand s hc), by simp [hc], Option.some.inj h⟩
      · exact ⟨s, _, PassWrites.refl s, by simp [hc], Option.some.inj h⟩
    · split at h <;> exact Option.noConfusion h
  · unfold erodeSand at h
    simp only [gt_iff_lt, hStored, if_false] at h
    exact Option.noConfusion h

/-- The erosion of coarse sediment, when it returns a status at once, has written nothing after
the failing call was made: the undeposited coarse total was set to zero before the call. -/
theorem erodeCoarse_stopped (RTN_OK : Int) (ext : Collaborator) (s : CSimulation)
    (nCoast : Nat) (nPoly : Int) (dPotentialErosion : ℚ) (nRet : Int)
    (h : (erodeCoarse RTN_OK ext s nCoast nPoly dPotentialErosion).1 = some nRet) :
    StoppedAtCall ext s (erodeCoarse RTN_OK ext s nCoast nPoly dPotentialErosion).2.2 nRet := by
  by_cases hStored : 0 < (s.pGetPolygon nCoast nPoly).dGetStoredUnconsCoarse
  · rw [erodeCoarse_of_stored RTN_OK ext s nCoast nPoly dPotentialErosion hStored] at h ⊢
    split at h
    · rename_i hne
      rw [if_pos hne]
      by_cases hc : s.m_dThisIterDepositionCoarseDiff > 0
      · exact ⟨{ s with m_dThisIterDepositionCoarseDiff := 0 }, _,
          PassWrites.single (PassWrite.absorbedCoarse s hc), by simp [hc], Option.some.inj h⟩
      · exact ⟨s, _, PassWrites.refl s, by simp [hc], Option.some.inj h⟩
    · split at h <;> exact Option.noConfusion h
  · unfold erodeCoarse at h
    simp only [gt_iff_lt, hStored, if_false] at h
    exact Option.noConfusion h

/-- The deposition on one polygon, when it returns a status at once, stopped at the failing
call. -/
theorem depositCoarseAndSand_stopped (RTN_OK : Int) (ext : Collaborator) (s : CSimulation)
    (nCoast : Nat) (nPoly : Int) (nRet : Int)
    (h : (depositCoarseAndSand RTN_OK ext s nCoast nPoly).1 = some nRet) :
    StoppedAtCall ext s (depositCoarseAndSand RTN_OK ext s nCoast nPoly).2 nRet := by
  have w1 := depositCoarse_writes RTN_OK ext s nCoast nPoly
  have f1 := depositCoarse_stopped RTN_OK ext s nCoast nPoly
  unfold depositCoarseAndSand at h ⊢
  cases h1 : depositCoarse RTN_OK ext s nCoast nPoly with
  | mk r1 s1 =>
  rw [h1] at w1 f1 h
  cases r1 with
  | some nRet1 => exact f1 nRet h
  | none =>
    simp only at w1 h ⊢
    exact StoppedAtCall.of_writes w1 (depositSand_stopped RTN_OK ext s1 nCoast nPoly nRet h)

/-- The erosion of one polygon, when it returns a status at once, stopped at the failing call. -/
theorem erodeAndExport_stopped (INT_NODATA RTN_OK : Int) (ext : Collaborator) (s : CSimulation)
    (nCoast : Nat) (nNumPolygons nPoly : Int) (dPotentialErosion : ℚ) (nRet : Int)
    (h : (erodeAndExport INT_NODATA RTN_OK ext s nCoast nNumPolygons nPoly dPotentialErosion).1
      = some nRet) :
    StoppedAtCall ext s
      (erodeAndExport INT_NODATA RTN_OK ext s nCoast nNumPolygons nPoly dPotentialErosion).2
      nRet := by
  have w1 := erodeFine_writes RTN_OK ext s nCoast nPoly dPotentialErosion
  have f1 := erodeFine_stopped RTN_OK ext s nCoast nPoly dPotentialErosion
  unfold erodeAndExport at h ⊢
  cases h1 : erodeFine RTN_OK ext s nCoast nPoly dPotentialErosion with
  | mk r1 s1 =>
  rw [h1] at w1 f1 h
  cases r1 with
  | some nRet1 => exact f1 nRet h
  | none =>
  simp only at w1 h ⊢
  have w2 := erodeSand_writes RTN_OK ext s1 nCoast nPoly dPotentialErosion
  have f2 := erodeSand_stopped RTN_OK ext s1 nCoast nPoly dPotentialErosion
  cases h2 : erodeSand RTN_OK ext s1 nCoast nPoly dPotentialErosion with
  | mk r2 ds2 =>
  obtain ⟨dSand, s2⟩ := ds2
  rw [h2] at w2 f2 h
  cases r2 with
  | some nRet2 => exact StoppedAtCall.of_writes w1 (f2 nRet h)
  | none =>
  simp only at w2 h ⊢
  have f3 := erodeCoarse_stopped RTN_OK ext s2 nCoast nPoly dPotentialErosion
  cases h3 : erodeCoarse RTN_OK ext s2 nCoast nPoly dPotentialErosion with
  | mk r3 ds3 =>
  obtain ⟨dCoarse, s3⟩ := ds3
  rw [h3] at f3 h
  cases r3 with
  | some nRet3 => exact StoppedAtCall.of_writes (w1.trans w2) (f3 nRet h)
  | none =>
  simp only at h
  split at h <;> exact Option.noConfusion h

/-- The processing of one polygon, when it returns a status at once, stopped at the failing
call. -/
theorem doPolygon_stopped (INT_NODATA RTN_OK : Int) (ext : Collaborator) (s : CSimulation)
    (nCoast : Nat) (nNumPolygons nPoly : Int) (nRet : Int)
    (h : (doPolygon INT_NODATA RTN_OK ext s nCoast nNumPolygons nPoly).1 = some nRet) :
    StoppedAtCall ext s (doPolygon INT_NODATA RTN_OK ext s nCoast nNumPolygons nPoly).2 nRet := by
  have w1 := depositCoarseAndSand_writes RTN_OK ext s nCoast nPoly
  have f1 := depositCoarseAndSand_stopped RTN_OK ext s nCoast nPoly
  unfold doPolygon at h ⊢
  cases h1 : depositCoarseAndSand RTN_OK ext s nCoast nPoly with
  | mk r1 s1 =>
  rw [h1] at w1 f1 h
  cases r1 with
  | some nRet1 => exact f1 nRet h
  | none =>
  simp only at w1 h ⊢
  split at h
  · rename_i hp
    rw [if_pos hp]
    exact StoppedAtCall.of_writes w1
      (erodeAndExport_stopped INT_NODATA RTN_OK ext s1 nCoast nNumPolygons nPoly _ nRet h)
  · exact Option.noConfusion h

/-- The loop over the sorted polygons, when it returns a status at once, stopped at the failing
call. -/
theorem doAllPolygons_stopped (INT_NODATA RTN_OK : Int) (ext : Collaborator) (nCoast : Nat)
    (nNumPolygons : Int) (l : List (List Int)) (s : CSimulation) (nRet : Int)
    (h : (doAllPolygons INT_NODATA RTN_OK ext nCoast nNumPolygons l s).1 = some nRet) :
    StoppedAtCall ext s (doAllPolygons INT_NODATA RTN_OK ext nCoast nNumPolygons l s).2 nRet := by
  induction l generalizing s with
  | nil => exact Option.noConfusion h
  | cons nVPoly rest ih =>
    have w1 := doPolygon_writes INT_NODATA RTN_OK ext s nCoast nNumPolygons (nVPoly.getD 0 0)
    have f1 := doPolygon_stopped INT_NODATA RTN_OK ext s nCoast nNumPolygons (nVPoly.getD 0 0)
    unfold doAllPolygons at h ⊢
    cases h1 : doPolygon INT_NODATA RTN_OK ext s nCoast nNumPolygons (nVPoly.getD 0 0) with
    | mk r1 s1 =>
    rw [h1] at w1 f1 h
    cases r1 with
    | some nRet1 => exact f1 nRet h
    | none => exact StoppedAtCall.of_writes w1 (ih s1 h)

/-- The processing of one coast, when it returns a status at once, stopped at the failing
call. -/
theorem doCoast_stopped (INT_NODATA RTN_OK : Int) (ext : Collaborator) (s : CSimulation)
    (nCoast : Nat) (nRet : Int) (h : (doCoast INT_NODATA RTN_OK ext s nCoast).1 = some nRet) :
    StoppedAtCall ext s (doCoast INT_NODATA RTN_OK ext s nCoast).2 nRet := by
  unfold doCoast at h ⊢
  simp only at h ⊢
  exact StoppedAtCall.of_writes ((AllPolygonsUpdateStoredUncons_writes s nCoast).trans
    (circularityWalk_writes nCoast _ [] _))
    (doAllPolygons_stopped INT_NODATA RTN_OK ext nCoast _ _ _ nRet h)

/-- The loop over the coasts, when it returns a status other than `RTN_OK`, stopped at the
failing call. -/
theorem doCoastsFrom_stopped (INT_NODATA RTN_OK : Int) (ext : Collaborator) (nCoasts nCoast : Nat)
    (s : CSimulation) (h : (doCoastsFrom INT_NODATA RTN_OK ext nCoasts nCoast s).1 ≠ RTN_OK) :
    StoppedAtCall ext s (doCoastsFrom INT_NODATA RTN_OK ext nCoasts nCoast s).2
      (doCoastsFrom INT_NODATA RTN_OK ext nCoasts nCoast s).1 := by
  induction nCoasts generalizing nCoast s with
  | zero => exact absurd rfl h
  | succ k ih =>
    have w1 := doCoast_writes INT_NODATA RTN_OK ext s nCoast
    have f1 := doCoast_stopped INT_NODATA RTN_OK ext s nCoast
    unfold doCoastsFrom at h ⊢
    cases h1 : doCoast INT_NODATA RTN_OK ext s nCoast with
    | mk r1 s1 =>
    rw [h1] at w1 f1 h
    cases r1 with
    | some nRet1 => exact f1 nRet1 rfl
    | none => exact StoppedAtCall.of_writes w1 (ih (nCoast + 1) s1 h)

/-- The statuses of the calls `pre ++ call :: post`: those of `pre`, that of `call`, those of
`post`. -/
theorem callStatuses_split (ext : Collaborator) (done pre post : List PlacementCall)
    (call : PlacementCall) :
    callStatuses ext done (pre ++ call :: post)
      = callStatuses ext done pre
        ++ (ext (done ++ pre) call).1 :: callStatuses ext (done ++ pre ++ [call]) post := by
  rw [callStatuses_append]
  rfl

/-- In a list of statuses which are all `RTN_OK` except the last one, a status which is not
`RTN_OK` is the last one. -/
theorem last_of_not_ok (RTN_OK : Int) (oks : List Int) (nRet : Int)
    (hOks : ∀ st ∈ oks, st = RTN_OK) (a b : List Int) (x : Int) (hx : x ≠ RTN_OK)
    (h : a ++ x :: b = oks ++ [nRet]) : b = [] ∧ x = nRet := by
  induction oks generalizing a with
  | nil =>
    cases a with
    | nil =>
      simp only [List.nil_append, List.cons.injEq] at h
      exact ⟨h.2, h.1⟩
    | cons y a2 =>
      simp only [List.cons_append, List.nil_append, List.cons.injEq] at h
      cases a2 <;> simp at h
  | cons o oks2 ih =>
    cases a with
    | nil =>
      simp only [List.nil_append, List.cons_append, List.cons.injEq] at h
      exact absurd (h.1 ▸ hOks o (List.mem_cons_self o oks2)) hx
    | cons y a2 =>
      simp only [List.cons_append, List.cons.injEq] at h
      exact ih (fun st hst => hOks st (List.mem_cons_of_mem o hst)) a2 h.2

/-- The loop over the sorted polygons stops at the first polygon whose processing returns a
status: the result is the state in which the processing of the earlier polygons and the part
done of the failing polygon left the simulation, and the later polygons are not processed. -/
theorem doAllPolygons_stops (INT_NODATA RTN_OK : Int) (ext : Collaborator) (nCoast : Nat)
    (nNumPolygons : Int) (pre : List (List Int)) (d : List Int) (post : List (List Int))
    (s s1 s2 : CSimulation) (nRet : Int)
    (hPre : doAllPolygons INT_NODATA RTN_OK ext nCoast nNumPolygons pre s = (none, s1))
    (hFail : doPolygon INT_NODATA RTN_OK ext s1 nCoast nNumPolygons (d.getD 0 0)
      = (some nRet, s2)) :
    doAllPolygons INT_NODATA RTN_OK ext nCoast nNumPolygons (pre ++ d :: post) s
      = (some nRet, s2) := by
  induction pre generalizing s with
  | nil =>
    unfold doAllPolygons at hPre
    have hs : s = s1 := (Prod.mk.inj hPre).2
    subst hs
    show doAllPolygons INT_NODATA RTN_OK ext nCoast nNumPolygons (d :: post) s = _
    unfold doAllPolygons
    rw [hFail]
  | cons e pre2 ih =>
    unfold doAllPolygons at hPre
    show doAllPolygons INT_NODATA RTN_OK ext nCoast nNumPolygons (e :: (pre2 ++ d :: post)) s = _
    unfold doAllPolygons
    cases h1 : doPolygon INT_NODATA RTN_OK ext s nCoast nNumPolygons (e.getD 0 0) with
    | mk r1 t1 =>
    rw [h1] at hPre
    cases r1 with
    | some n1 => simp at hPre
    | none => exact ih t1 hPre


/-- C27: the topology is read-only for the core. The update of the stored sediment, the check for
circularities over any sequence of array items (the array items and their sort are pure values
which write nothing), the loop over the sorted polygons and the whole of
`nDoAllActualBeachErosionAndDeposition` leave `readOnlyView` as it was, for every placement
routine and whatever status is returned: the number of coasts and of polygons and, for every
polygon, the down-coast flag, both IDs, the potential erosion, the adjacent polygons and boundary
shares in both directions (and the fine deposition, the stored fine depth and the cliff collapse
and shore platform contributions). The polygon fields outside the view are the stored sand and
coarse depths, the three erosion depths, the sand and coarse deposition and the circularity
list. -/
theorem topology_read_only (INT_NODATA RTN_OK : Int) (ext : Collaborator) (s : CSimulation)
    (nCoast : Nat) (nNumPolygons : Int) (l : List (List Int)) (VnSourcePolygons : List Int) :
    readOnlyView (AllPolygonsUpdateStoredUncons s nCoast) = readOnlyView s
    ∧ readOnlyView (circularityWalk nCoast l VnSourcePolygons s) = readOnlyView s
    ∧ readOnlyView (doAllPolygons INT_NODATA RTN_OK ext nCoast nNumPolygons l s).2
        = readOnlyView s
    ∧ readOnlyView (doCoast INT_NODATA RTN_OK ext s nCoast).2 = readOnlyView s
    ∧ readOnlyView (nDoAllActualBeachErosionAndDeposition INT_NODATA RTN_OK ext s).2
        = readOnlyView s :=
  ⟨readOnlyView_of_passWrites _ _ (AllPolygonsUpdateStoredUncons_writes s nCoast),
    readOnlyView_of_passWrites _ _ (circularityWalk_writes nCoast l VnSourcePolygons s),
    readOnlyView_of_passWrites _ _
      (doAllPolygons_writes INT_NODATA RTN_OK ext nCoast nNumPolygons l s),
    readOnlyView_of_passWrites _ _ (doCoast_writes INT_NODATA RTN_OK ext s nCoast),
    readOnlyView_of_passWrites _ _
      (nDoAllActualBeachErosionAndDeposition_writes INT_NODATA RTN_OK ext s)⟩

/-- A class with no stored fine sediment is skipped: no call, no write. -/
theorem erodeFine_skip (RTN_OK : Int) (ext : Collaborator) (s : CSimulation) (nCoast : Nat)
    (nPoly : Int) (dPotentialErosion : ℚ)
    (h : (s.pGetPolygon nCoast nPoly).dGetStoredUnconsFine ≤ 0) :
    erodeFine RTN_OK ext s nCoast nPoly dPotentialErosion = (none, s) := by
  unfold erodeFine
  simp only [gt_iff_lt, not_lt.mpr h, if_false]

/-- A class with no stored sand is skipped: no call, no write, nothing eroded. -/
theorem erodeSand_skip (RTN_OK : Int) (ext : Collaborator) (s : CSimulation) (nCoast : Nat)
    (nPoly : Int) (dPotentialErosion : ℚ)
    (h : (s.pGetPolygon nCoast nPoly).dGetStoredUnconsSand ≤ 0) :
    erodeSand RTN_OK ext s nCoast nPoly dPotentialErosion = (none, 0, s) := by
  unfold erodeSand
  simp only [gt_iff_lt, not_lt.mpr h, if_false]

/-- A class with no stored coarse sediment is skipped: no call, no write, nothing eroded. -/
theorem erodeCoarse_skip (RTN_OK : Int) (ext : Collaborator) (s : CSimulation) (nCoast : Nat)
    (nPoly : Int) (dPotentialErosion : ℚ)
    (h : (s.pGetPolygon nCoast nPoly).dGetStoredUnconsCoarse ≤ 0) :
    erodeCoarse RTN_OK ext s nCoast nPoly dPotentialErosion = (none, 0, s) := by
  unfold erodeCoarse
  simp only [gt_iff_lt, not_lt.mpr h, if_false]

/-- The deposition of coarse sediment does not lower the undeposited coarse total. -/
theorem depositCoarse_carry_mono (RTN_OK : Int) (ext : Collaborator) (s : CSimulation)
    (nCoast : Nat) (nPoly : Int) :
    s.m_dThisIterDepositionCoarseDiff
      ≤ (depositCoarse RTN_OK ext s nCoast nPoly).2.m_dThisIterDepositionCoarseDiff := by
  unfold depositCoarse nDoUnconsDepositionOnPolygon
  simp only
  split
  · split
    · exact le_refl _
    · split
      · rename_i h
        show _ ≤ s.m_dThisIterDepositionCoarseDiff + _
        linarith
      · exact le_refl _
  · exact le_refl _

/-- The deposition of sand does not lower the undeposited sand total. -/
theorem depositSand_carry_mono (RTN_OK : Int) (ext : Collaborator) (s : CSimulation)
    (nCoast : Nat) (nPoly : Int) :
    s.m_dThisIterDepositionSandDiff
      ≤ (depositSand RTN_OK ext s nCoast nPoly).2.m_dThisIterDepositionSandDiff := by
  unfold depositSand nDoUnconsDepositionOnPolygon
  simp only
  split
  · split
    · exact le_refl _
    · split
      · rename_i h
        show _ ≤ s.m_dThisIterDepositionSandDiff + _
        linarith
      · exact le_refl _
  · exact le_refl _

/-- The deposition on one polygon does not lower the undeposited totals. -/
theorem depositCoarseAndSand_carry_mono (RTN_OK : Int) (ext : Collaborator) (s : CSimulation)
    (nCoast : Nat) (nPoly : Int) :
    s.m_dThisIterDepositionSandDiff
        ≤ (depositCoarseAndSand RTN_OK ext s nCoast nPoly).2.m_dThisIterDepositionSandDiff
    ∧ s.m_dThisIterDepositionCoarseDiff
        ≤ (depositCoarseAndSand RTN_OK ext s nCoast nPoly).2.m_dThisIterDepositionCoarseDiff := by
  have c1 := depositCoarse_carry_mono RTN_OK ext s nCoast nPoly
  have c2 := depositCoarse_preserves (fun t => t.m_dThisIterDepositionSandDiff) RTN_OK ext s
    nCoast nPoly (fun _ _ => rfl)
  unfold depositCoarseAndSand
  cases h : depositCoarse RTN_OK ext s nCoast nPoly with
  | mk r1 s1 =>
    rw [h] at c1 c2
    cases r1 with
    | some nRet => exact ⟨le_of_eq c2.symm, c1⟩
    | none =>
      simp only at c1 c2 ⊢
      have d1 := depositSand_carry_mono RTN_OK ext s1 nCoast nPoly
      have d2 := depositSand_preserves (fun t => t.m_dThisIterDepositionCoarseDiff) RTN_OK ext s1
        nCoast nPoly (fun _ _ => rfl)
      simp only at d2
      constructor
      · rw [← c2]
        exact d1
      · rw [d2]
        exact c1

/-- A polygon without potential erosion is given its deposition and nothing else. -/
theorem doPolygon_of_no_potential (INT_NODATA RTN_OK : Int) (ext : Collaborator)
    (s : CSimulation) (nCoast : Nat) (nNumPolygons nPoly : Int)
    (h : -(s.pGetPolygon nCoast nPoly).dGetPotentialErosion ≤ 0) :
    doPolygon INT_NODATA RTN_OK ext s nCoast nNumPolygons nPoly
      = depositCoarseAndSand RTN_OK ext s nCoast nPoly := by
  have hp := depositCoarseAndSand_preserves
    (fun t => (t.pGetPolygon nCoast nPoly).dGetPotentialErosion) RTN_OK ext s nCoast nPoly
    (fun _ _ _ _ => rfl)
  unfold doPolygon
  cases h1 : depositCoarseAndSand RTN_OK ext s nCoast nPoly with
  | mk r1 s1 =>
  rw [h1] at hp
  cases r1 with
  | some nRet => rfl
  | none =>
    simp only at hp ⊢
    rw [hp, if_neg (not_lt.mpr h)]

/-- C28: the conditions under which the erosion of a polygon, or of one class of sediment, is
skipped. (1) For a polygon whose negated potential erosion is not above zero, the processing of
the polygon is its deposition and nothing else: every call made is a deposition call, no polygon
field and no erosion total is written, the undeposited totals are not lowered and the off-grid
totals (which only the export writes) are unchanged. (2) A class whose stored depth is not above
zero makes no call and writes nothing, its eroded depth being zero. (3) The other classes are
still processed: with one class skipped, the erosion and export of the polygon is that of the
two other classes, the export being given zero for the skipped class. -/
theorem erosion_skip_conditions (INT_NODATA RTN_OK : Int) (ext : Collaborator) (s : CSimulation)
    (nCoast : Nat) (nNumPolygons nPoly : Int) (dPotentialErosion : ℚ) :
    (-(s.pGetPolygon nCoast nPoly).dGetPotentialErosion ≤ 0 →
      doPolygon INT_NODATA RTN_OK ext s nCoast nNumPolygons nPoly
        = depositCoarseAndSand RTN_OK ext s nCoast nPoly
      ∧ (∃ new, (doPolygon INT_NODATA RTN_OK ext s nCoast nNumPolygons nPoly).2.placementLog
            = s.placementLog ++ new ∧ ∀ c ∈ new, c.kind = PlacementKind.deposition)
      ∧ (doPolygon INT_NODATA RTN_OK ext s nCoast nNumPolygons nPoly).2.m_VCoast = s.m_VCoast
      ∧ (doPolygon INT_NODATA RTN_OK ext s nCoast nNumPolygons nPoly).2.m_dThisIterBeachErosionFine
          = s.m_dThisIterBeachErosionFine
      ∧ (doPolygon INT_NODATA RTN_OK ext s nCoast nNumPolygons nPoly).2.m_dThisIterBeachErosionSand
          = s.m_dThisIterBeachErosionSand
      ∧ (doPolygon INT_NODATA RTN_OK ext s nCoast nNumPolygons
            nPoly).2.m_dThisIterBeachErosionCoarse = s.m_dThisIterBeachErosionCoarse
      ∧ s.m_dThisIterDepositionSandDiff
          ≤ (doPolygon INT_NODATA RTN_OK ext s nCoast nNumPolygons
              nPoly).2.m_dThisIterDepositionSandDiff
      ∧ s.m_dThisIterDepositionCoarseDiff
          ≤ (doPolygon INT_NODATA RTN_OK ext s nCoast nNumPolygons
              nPoly).2.m_dThisIterDepositionCoarseDiff
      ∧ (doPolygon INT_NODATA RTN_OK ext s nCoast nNumPolygons
            nPoly).2.m_dThisIterLeftGridUnconsSand = s.m_dThisIterLeftGridUnconsSand
      ∧ (doPolygon INT_NODATA RTN_OK ext s nCoast nNumPolygons
            nPoly).2.m_dThisIterLeftGridUnconsCoarse = s.m_dThisIterLeftGridUnconsCoarse)
    ∧ ((s.pGetPolygon nCoast nPoly).dGetStoredUnconsFine ≤ 0 →
        erodeFine RTN_OK ext s nCoast nPoly dPotentialErosion = (none, s))
    ∧ ((s.pGetPolygon nCoast nPoly).dGetStoredUnconsSand ≤ 0 →
        erodeSand RTN_OK ext s nCoast nPoly dPotentialErosion = (none, 0, s))
    ∧ ((s.pGetPolygon nCoast nPoly).dGetStoredUnconsCoarse ≤ 0 →
        erodeCoarse RTN_OK ext s nCoast nPoly dPotentialErosion = (none, 0, s))
    ∧ ((s.pGetPolygon nCoast nPoly).dGetStoredUnconsFine ≤ 0 →
        erodeAndExport INT_NODATA RTN_OK ext s nCoast nNumPolygons nPoly dPotentialErosion
          = match erodeSand RTN_OK ext s nCoast nPoly dPotentialErosion with
            | (some nRet, _, s2) => (some nRet, s2)
            | (none, dSandEroded, s2) =>
              match erodeCoarse RTN_OK ext s2 nCoast nPoly dPotentialErosion with
              | (some nRet, _, s3) => (some nRet, s3)
              | (none, dCoarseEroded, s3) =>
                if dSandEroded + dCoarseEroded > 0 then
                  (none, exportSediment INT_NODATA s3 nCoast nNumPolygons nPoly dSandEroded
                    dCoarseEroded)
                else (none, s3))
    ∧ (∀ s1, erodeFine RTN_OK ext s nCoast nPoly dPotentialErosion = (none, s1) →
        (s1.pGetPolygon nCoast nPoly).dGetStoredUnconsSand ≤ 0 →
        erodeAndExport INT_NODATA RTN_OK ext s nCoast nNumPolygons nPoly dPotentialErosion
          = match erodeCoarse RTN_OK ext s1 nCoast nPoly dPotentialErosion with
            | (some nRet, _, s3) => (some nRet, s3)
            | (none, dCoarseEroded, s3) =>
              if 0 + dCoarseEroded > 0 then
                (none, exportSediment INT_NODATA s3 nCoast nNumPolygons nPoly 0 dCoarseEroded)
              else (none, s3))
    ∧ (∀ s1 dSandEroded s2, erodeFine RTN_OK ext s nCoast nPoly dPotentialErosion = (none, s1) →
        erodeSand RTN_OK ext s1 nCoast nPoly dPotentialErosion = (none, dSandEroded, s2) →
        (s2.pGetPolygon nCoast nPoly).dGetStoredUnconsCoarse ≤ 0 →
        erodeAndExport INT_NODATA RTN_OK ext s nCoast nNumPolygons nPoly dPotentialErosion
          = if dSandEroded + 0 > 0 then
              (none, exportSediment INT_NODATA s2 nCoast nNumPolygons nPoly dSandEroded 0)
            else (none, s2)) := by
  refine ⟨?_, erodeFine_skip RTN_OK ext s nCoast nPoly dPotentialErosion,
    erodeSand_skip RTN_OK ext s nCoast nPoly dPotentialErosion,
    erodeCoarse_skip RTN_OK ext s nCoast nPoly dPotentialErosion, ?_, ?_, ?_⟩
  · intro h
    have hEq := doPolygon_of_no_potential INT_NODATA RTN_OK ext s nCoast nNumPolygons nPoly h
    refine ⟨hEq, ?_⟩
    rw [hEq]
    obtain ⟨new, hCalls, hKind⟩ := depositCoarseAndSand_calls RTN_OK ext s nCoast nPoly
    have hMono := depositCoarseAndSand_carry_mono RTN_OK ext s nCoast nPoly
    exact ⟨⟨new, hCalls.1, fun c hc => (hKind c hc).1⟩,
      depositCoarseAndSand_preserves (fun t => t.m_VCoast) RTN_OK ext s nCoast nPoly
        (fun _ _ _ _ => rfl),
      depositCoarseAndSand_preserves (fun t => t.m_dThisIterBeachErosionFine) RTN_OK ext s nCoast
        nPoly (fun _ _ _ _ => rfl),
      depositCoarseAndSand_preserves (fun t => t.m_dThisIterBeachErosionSand) RTN_OK ext s nCoast
        nPoly (fun _ _ _ _ => rfl),
      depositCoarseAndSand_preserves (fun t => t.m_dThisIterBeachErosionCoarse) RTN_OK ext s
        nCoast nPoly (fun _ _ _ _ => rfl),
      hMono.1, hMono.2,
      depositCoarseAndSand_preserves (fun t => t.m_dThisIterLeftGridUnconsSand) RTN_OK ext s
        nCoast nPoly (fun _ _ _ _ => rfl),
      depositCoarseAndSand_preserves (fun t => t.m_dThisIterLeftGridUnconsCoarse) RTN_OK ext s
        nCoast nPoly (fun _ _ _ _ => rfl)⟩
  · intro h
    unfold erodeAndExport
    simp only [erodeFine_skip RTN_OK ext s nCoast nPoly dPotentialErosion h]
  · intro s1 h1 h
    unfold erodeAndExport
    rw [h1]
    simp only
    simp only [erodeSand_skip RTN_OK ext s1 nCoast nPoly dPotentialErosion h]
  · intro s1 dSandEroded s2 h1 h2 h
    unfold erodeAndExport
    rw [h1]
    simp only
    rw [h2]
    simp only
    simp only [erodeCoarse_skip RTN_OK ext s2 nCoast nPoly dPotentialErosion h]

/-- A loop whose turns outside `keep` change nothing is the loop over the items of `keep`. -/
theorem foldl_filter_of_skip {σ ι : Type} (step : σ → ι → σ) (keep : ι → Bool) (P : σ → Prop)
    (hP : ∀ t i, P t → P (step t i))
    (hSkip : ∀ t i, P t → keep i = false → step t i = t) (l : List ι) (s : σ) (h : P s) :
    l.foldl step s = (l.filter keep).foldl step s := by
  induction l generalizing s with
  | nil => rfl
  | cons i l ih =>
    cases hk : keep i with
    | true =>
      rw [List.filter_cons_of_pos hk, List.foldl_cons, List.foldl_cons]
      exact ih _ (hP s i h)
    | false =>
      rw [List.filter_cons_of_neg (by simp [hk]), List.foldl_cons, hSkip s i h hk]
      exact ih s h

/-- One turn of the down-coast export writes only sand and coarse deposition and the off-grid
totals. -/
theorem exportSlotDownCoast_preserves {β : Type} (g : CSimulation → β) (INT_NODATA : Int)
    (nCoast : Nat) (nNumPolygons nPoly : Int) (dSandEroded dCoarseEroded : ℚ) (s : CSimulation)
    (nn : Nat)
    (hupdS : ∀ t i x, g (t.updPolygon nCoast i (fun p => p.AddDepositionUnconsSand x)) = g t)
    (hupdC : ∀ t i x, g (t.updPolygon nCoast i (fun p => p.AddDepositionUnconsCoarse x)) = g t)
    (hg : ∀ (t : CSimulation) a b, g { t with
      m_dThisIterLeftGridUnconsSand := a
      m_dThisIterLeftGridUnconsCoarse := b } = g t) :
    g (exportSlotDownCoast INT_NODATA nCoast nNumPolygons nPoly dSandEroded dCoarseEroded s nn)
      = g s := by
  unfold exportSlotDownCoast
  simp only
  split
  · split
    · rfl
    · split
      · exact exportAtGridEdge_preserves g s nCoast _ _ hupdS hupdC hg
      · rfl
  · exact exportToAdjacent_preserves g s nCoast _ _ _ _ hupdS hupdC

/-- One turn of the up-coast export writes only sand and coarse deposition and the off-grid
totals. -/
theorem exportSlotUpCoast_preserves {β : Type} (g : CSimulation → β) (INT_NODATA : Int)
    (nCoast : Nat) (nNumPolygons nPoly : Int) (dSandEroded dCoarseEroded : ℚ) (s : CSimulation)
    (nn : Nat)
    (hupdS : ∀ t i x, g (t.updPolygon nCoast i (fun p => p.AddDepositionUnconsSand x)) = g t)
    (hupdC : ∀ t i x, g (t.updPolygon nCoast i (fun p => p.AddDepositionUnconsCoarse x)) = g t)
    (hg : ∀ (t : CSimulation) a b, g { t with
      m_dThisIterLeftGridUnconsSand := a
      m_dThisIterLeftGridUnconsCoarse := b } = g t) :
    g (exportSlotUpCoast INT_NODATA nCoast nNumPolygons nPoly dSandEroded dCoarseEroded s nn)
      = g s := by
  unfold exportSlotUpCoast
  simp only
  split
  · split
    · rfl
    · split
      · exact exportAtGridEdge_preserves g s nCoast _ _ hupdS hupdC hg
      · rfl
  · exact exportToAdjacent_preserves g s nCoast _ _ _ _ hupdS hupdC

/-- A down-coast slot holding the grid-edge value on a polygon which is not the last one of the
coast changes nothing. -/
theorem exportSlotDownCoast_anomaly (INT_NODATA : Int) (nCoast : Nat) (nNumPolygons nPoly : Int)
    (dSandEroded dCoarseEroded : ℚ) (s : CSimulation) (nn : Nat)
    (hNotEnd : nPoly ≠ nNumPolygons - 1)
    (hEdge : (s.pGetPolygon nCoast nPoly).nGetDownCoastAdjacentPolygon nn = INT_NODATA) :
    exportSlotDownCoast INT_NODATA nCoast nNumPolygons nPoly dSandEroded dCoarseEroded s nn
      = s := by
  unfold exportSlotDownCoast
  simp only [hEdge, if_true, if_neg hNotEnd, ite_self]

/-- An up-coast slot holding the grid-edge value on a polygon which is not polygon 0 changes
nothing. -/
theorem exportSlotUpCoast_anomaly (INT_NODATA : Int) (nCoast : Nat) (nNumPolygons nPoly : Int)
    (dSandEroded dCoarseEroded : ℚ) (s : CSimulation) (nn : Nat)
    (hNotEnd : nPoly ≠ 0)
    (hEdge : (s.pGetPolygon nCoast nPoly).nGetUpCoastAdjacentPolygon nn = INT_NODATA) :
    exportSlotUpCoast INT_NODATA nCoast nNumPolygons nPoly dSandEroded dCoarseEroded s nn
      = s := by
  unfold exportSlotUpCoast
  simp only [hEdge, if_true, if_neg hNotEnd, ite_self]

/-- When every call returns `RTN_OK` every recorded status is `RTN_OK`. -/
theorem callStatuses_all_ok (RTN_OK : Int) (ext : Collaborator)
    (hOK : ∀ l call, (ext l call).1 = RTN_OK) (done new : List PlacementCall) :
    ∀ st ∈ callStatuses ext done new, st = RTN_OK := by
  induction new generalizing done with
  | nil =>
    intro st hst
    simp [callStatuses, placementResults] at hst
  | cons c rest ih =>
    intro st hst
    unfold callStatuses placementResults at hst
    rw [List.map_cons, List.mem_cons] at hst
    rcases hst with h | h
    · rw [h]
      exact hOK done c
    · exact ih (done ++ [c]) st h

/-- When every call returns `RTN_OK` the pass returns `RTN_OK`. -/
theorem nDoAllActualBeachErosionAndDeposition_ok (INT_NODATA RTN_OK : Int) (ext : Collaborator)
    (s : CSimulation) (hOK : ∀ l call, (ext l call).1 = RTN_OK) :
    (nDoAllActualBeachErosionAndDeposition INT_NODATA RTN_OK ext s).1 = RTN_OK := by
  unfold nDoAllActualBeachErosionAndDeposition
  obtain ⟨new, _, hOut⟩ := doCoastsFrom_calls INT_NODATA RTN_OK ext s.m_VCoast.length 0 s
  by_contra hne
  rw [if_neg hne] at hOut
  obtain ⟨_, oks, hEq, _⟩ := hOut
  exact hne (callStatuses_all_ok RTN_OK ext hOK _ _ _ (by rw [hEq]; simp))

/-- When every call returns `RTN_OK` the processing of a polygon does not return at once. -/
theorem doPolygon_status_ok (INT_NODATA RTN_OK : Int) (ext : Collaborator) (s : CSimulation)
    (nCoast : Nat) (nNumPolygons nPoly : Int) (hOK : ∀ l call, (ext l call).1 = RTN_OK) :
    (doPolygon INT_NODATA RTN_OK ext s nCoast nNumPolygons nPoly).1 = none := by
  obtain ⟨newD, newE, hCalls, _, _⟩ :=
    doPolygon_calls INT_NODATA RTN_OK ext s nCoast nNumPolygons nPoly
  cases h : (doPolygon INT_NODATA RTN_OK ext s nCoast nNumPolygons nPoly).1 with
  | none => rfl
  | some nRet =>
    have hOut := hCalls.2
    rw [h] at hOut
    obtain ⟨hne, oks, hEq, _⟩ := hOut
    exact absurd (callStatuses_all_ok RTN_OK ext hOK _ _ _ (by rw [hEq]; simp)) hne

/-- C24: an adjacent polygon with the grid-edge value met on a polygon which is not at the end of
the coast for its direction is not fatal. (1, 2) In every simulation, so under every handling of
the grid edges, such a slot leaves the simulation as it was: down-coast when the polygon is not
the last one, up-coast when it is not polygon 0. (3, 4) The other slots of the polygon are still
processed: the export is the loop over the slots which do not hold the grid-edge value. (5) The
status returned by the erosion and export of a polygon is decided by its three erosion steps,
before the export. (6) When every placement call returns `RTN_OK` the pass returns `RTN_OK`, and
the loop over the polygons goes on with the polygons which follow. -/
theorem adjacency_anomaly_non_fatal (INT_NODATA RTN_OK : Int) (ext : Collaborator)
    (s : CSimulation) (nCoast : Nat) (nNumPolygons nPoly : Int)
    (dSandEroded dCoarseEroded dPotentialErosion : ℚ) :
    (nPoly ≠ nNumPolygons - 1 → ∀ (t : CSimulation) (nn : Nat),
        (t.pGetPolygon nCoast nPoly).nGetDownCoastAdjacentPolygon nn = INT_NODATA →
        exportSlotDownCoast INT_NODATA nCoast nNumPolygons nPoly dSandEroded dCoarseEroded t nn
          = t)
    ∧ (nPoly ≠ 0 → ∀ (t : CSimulation) (nn : Nat),
        (t.pGetPolygon nCoast nPoly).nGetUpCoastAdjacentPolygon nn = INT_NODATA →
        exportSlotUpCoast INT_NODATA nCoast nNumPolygons nPoly dSandEroded dCoarseEroded t nn
          = t)
    ∧ ((s.pGetPolygon nCoast nPoly).bDownCoastThisIter = true → nPoly ≠ nNumPolygons - 1 →
        exportSediment INT_NODATA s nCoast nNumPolygons nPoly dSandEroded dCoarseEroded
          = ((List.range (s.pGetPolygon nCoast nPoly).nGetNumDownCoastAdjacentPolygons).filter
              (fun nn => decide ((s.pGetPolygon nCoast nPoly).nGetDownCoastAdjacentPolygon nn
                ≠ INT_NODATA))).foldl
              (exportSlotDownCoast INT_NODATA nCoast nNumPolygons nPoly dSandEroded
                dCoarseEroded) s)
    ∧ ((s.pGetPolygon nCoast nPoly).bDownCoastThisIter = false → nPoly ≠ 0 →
        exportSediment INT_NODATA s nCoast nNumPolygons nPoly dSandEroded dCoarseEroded
          = ((List.range (s.pGetPolygon nCoast nPoly).nGetNumUpCoastAdjacentPolygons).filter
              (fun nn => decide ((s.pGetPolygon nCoast nPoly).nGetUpCoastAdjacentPolygon nn
                ≠ INT_NODATA))).foldl
              (exportSlotUpCoast INT_NODATA nCoast nNumPolygons nPoly dSandEroded
                dCoarseEroded) s)
    ∧ (erodeAndExport INT_NODATA RTN_OK ext s nCoast nNumPolygons nPoly dPotentialErosion).1
        = (match erodeFine RTN_OK ext s nCoast nPoly dPotentialErosion with
          | (some nRet, _) => some nRet
          | (none, s1) =>
            match erodeSand RTN_OK ext s1 nCoast nPoly dPotentialErosion with
            | (some nRet, _, _) => some nRet
            | (none, _, s2) => (erodeCoarse RTN_OK ext s2 nCoast nPoly dPotentialErosion).1)
    ∧ ((∀ l call, (ext l call).1 = RTN_OK) →
        (nDoAllActualBeachErosionAndDeposition INT_NODATA RTN_OK ext s).1 = RTN_OK
        ∧ ∀ (d : List Int) (rest : List (List Int)),
          doAllPolygons INT_NODATA RTN_OK ext nCoast nNumPolygons (d :: rest) s
            = doAllPolygons INT_NODATA RTN_OK ext nCoast nNumPolygons rest
                (doPolygon INT_NODATA RTN_OK ext s nCoast nNumPolygons (d.getD 0 0)).2) := by
  refine ⟨?_, ?_, ?_, ?_, ?_, ?_⟩
  · intro hNotEnd t nn hEdge
    exact exportSlotDownCoast_anomaly INT_NODATA nCoast nNumPolygons nPoly dSandEroded
      dCoarseEroded t nn hNotEnd hEdge
  · intro hNotEnd t nn hEdge
    exact exportSlotUpCoast_anomaly INT_NODATA nCoast nNumPolygons nPoly dSandEroded
      dCoarseEroded t nn hNotEnd hEdge
  · intro hDown hNotEnd
    unfold exportSediment
    simp only [hDown, if_true]
    apply foldl_filter_of_skip _ _
      (fun t => (t.pGetPolygon nCoast nPoly).m_VnDownCoastAdjacentPolygon
        = (s.pGetPolygon nCoast nPoly).m_VnDownCoastAdjacentPolygon)
    · intro t i hP
      rw [← hP]
      exact exportSlotDownCoast_preserves
        (fun u => (u.pGetPolygon nCoast nPoly).m_VnDownCoastAdjacentPolygon) INT_NODATA nCoast
        nNumPolygons nPoly dSandEroded dCoarseEroded t i
        (fun u j x => pGetPolygon_updPolygon_field
          (fun p => p.m_VnDownCoastAdjacentPolygon) u nCoast j nPoly
          (fun p => p.AddDepositionUnconsSand x) (fun _ => rfl))
        (fun u j x => pGetPolygon_updPolygon_field
          (fun p => p.m_VnDownCoastAdjacentPolygon) u nCoast j nPoly
          (fun p => p.AddDepositionUnconsCoarse x) (fun _ => rfl))
        (fun _ _ _ => rfl)
    · intro t i hP hKeep
      apply exportSlotDownCoast_anomaly INT_NODATA nCoast nNumPolygons nPoly dSandEroded
        dCoarseEroded t i hNotEnd
      unfold CGeomCoastPolygon.nGetDownCoastAdjacentPolygon at hKeep ⊢
      rw [hP]
      simpa using hKeep
    · rfl
  · intro hUp hNotEnd
    unfold exportSediment
    simp only [hUp, Bool.false_eq_true, if_false]
    apply foldl_filter_of_skip _ _
      (fun t => (t.pGetPolygon nCoast nPoly).m_VnUpCoastAdjacentPolygon
        = (s.pGetPolygon nCoast nPoly).m_VnUpCoastAdjacentPolygon)
    · intro t i hP
      rw [← hP]
      exact exportSlotUpCoast_preserves
        (fun u => (u.pGetPolygon nCoast nPoly).m_VnUpCoastAdjacentPolygon) INT_NODATA nCoast
        nNumPolygons nPoly dSandEroded dCoarseEroded t i
        (fun u j x => pGetPolygon_updPolygon_field
          (fun p => p.m_VnUpCoastAdjacentPolygon) u nCoast j nPoly
          (fun p => p.AddDepositionUnconsSand x) (fun _ => rfl))
        (fun u j x => pGetPolygon_updPolygon_field
          (fun p => p.m_VnUpCoastAdjacentPolygon) u nCoast j nPoly
          (fun p => p.AddDepositionUnconsCoarse x) (fun _ => rfl))
        (fun _ _ _ => rfl)
    · intro t i hP hKeep
      apply exportSlotUpCoast_anomaly INT_NODATA nCoast nNumPolygons nPoly dSandEroded
        dCoarseEroded t i hNotEnd
      unfold CGeomCoastPolygon.nGetUpCoastAdjacentPolygon at hKeep ⊢
      rw [hP]
      simpa using hKeep
    · rfl
  · unfold erodeAndExport
    cases h1 : erodeFine RTN_OK ext s nCoast nPoly dPotentialErosion with
    | mk r1 s1 =>
    cases r1 with
    | some nRet => rfl
    | none =>
    simp only
    cases h2 : erodeSand RTN_OK ext s1 nCoast nPoly dPotentialErosion with
    | mk r2 ds2 =>
    obtain ⟨dSand, s2⟩ := ds2
    cases r2 with
    | some nRet => rfl
    | none =>
    simp only
    cases h3 : erodeCoarse RTN_OK ext s2 nCoast nPoly dPotentialErosion with
    | mk r3 ds3 =>
    obtain ⟨dCoarse, s3⟩ := ds3
    cases r3 with
    | some nRet => rfl
    | none =>
    simp only
    split <;> rfl
  · intro hOK
    refine ⟨nDoAllActualBeachErosionAndDeposition_ok INT_NODATA RTN_OK ext s hOK, ?_⟩
    intro d rest
    have h1 := doPolygon_status_ok INT_NODATA RTN_OK ext s nCoast nNumPolygons (d.getD 0 0) hOK
    conv_lhs => unfold doAllPolygons
    cases h : doPolygon INT_NODATA RTN_OK ext s nCoast nNumPolygons (d.getD 0 0) with
    | mk r1 s1 =>
    rw [h] at h1
    simp only at h1
    subst h1
    simp only

/-- On `anomalySim` the export of ten units of sand eroded on polygon 1 skips slot 0, which
holds the grid-edge value, and is the turn of slot 1: polygon 2 is given half of the sand,
polygon 0 and the off-grid total nothing. -/
theorem adjacency_anomaly_non_fatal_witness :
    ((anomalySim.pGetPolygon 0 1).bDownCoastThisIter = true ∧ (1 : Int) ≠ 3 - 1
      ∧ (anomalySim.pGetPolygon 0 1).nGetDownCoastAdjacentPolygon 0 = -9999)
    ∧ exportSediment (-9999) anomalySim 0 3 1 10 0
        = exportSlotDownCoast (-9999) 0 3 1 10 0 anomalySim 1
    ∧ ((exportSediment (-9999) anomalySim 0 3 1 10 0).pGetPolygon 0 2).dGetDepositionUnconsSand
        = 5
    ∧ ((exportSediment (-9999) anomalySim 0 3 1 10 0).pGetPolygon 0 0).dGetDepositionUnconsSand
        = 0
    ∧ (exportSediment (-9999) anomalySim 0 3 1 10 0).m_dThisIterLeftGridUnconsSand = 0 :=
  ⟨by decide,
    (adjacency_anomaly_non_fatal (-9999) 0 placeAll anomalySim 0 3 1 10 0 10).2.2.1
      (by decide) (by decide),
    by decide!, by decide!, by decide!⟩

/-- C25: an empty list of adjacent polygons is tolerated. For a polygon whose list of adjacent
polygons in its direction of sediment movement is empty: its array item is built and has just
the two items ID and direction; the comparison of its array item with any array item `R`, on
either side (on the right against an array item which has at least its two first items), returns
a value and reads no item out of range, the result on the left being the comparison of the whole
vectors by direction; the check for circularities of its array item records nothing and goes on
with the rest of the sequence; and the export of whatever sand and coarse sediment it eroded
leaves the whole simulation as it was, so no deposition and no off-grid total is changed. -/
theorem empty_adjacency_tolerated (INT_NODATA : Int) (s : CSimulation) (nCoast : Nat)
    (nNumPolygons nPoly : Int) (dSandEroded dCoarseEroded : ℚ)
    (hEmpty : transportAdjacent (s.pGetPolygon nCoast nPoly) = []) :
    nVPolyAndAdj (s.pGetPolygon nCoast nPoly)
        = [(s.pGetPolygon nCoast nPoly).nGetCoastID,
            if (s.pGetPolygon nCoast nPoly).bDownCoastThisIter then 1 else 0]
    ∧ (∀ R : List Int,
        bPolygonAndAdjCompare INT_NODATA (nVPolyAndAdj (s.pGetPolygon nCoast nPoly)) R
          = some (if (s.pGetPolygon nCoast nPoly).bDownCoastThisIter
              then vectorLess (nVPolyAndAdj (s.pGetPolygon nCoast nPoly)) R
              else vectorLess R (nVPolyAndAdj (s.pGetPolygon nCoast nPoly))))
    ∧ (∀ L : List Int, 2 ≤ L.length →
        ∃ b, bPolygonAndAdjCompare INT_NODATA L (nVPolyAndAdj (s.pGetPolygon nCoast nPoly))
          = some b)
    ∧ (∀ (rest : List (List Int)) (VnSourcePolygons : List Int) (t : CSimulation),
        circularityWalk nCoast (nVPolyAndAdj (s.pGetPolygon nCoast nPoly) :: rest)
            VnSourcePolygons t
          = circularityWalk nCoast rest
              (VnSourcePolygons ++ [(s.pGetPolygon nCoast nPoly).nGetCoastID]) t)
    ∧ exportSediment INT_NODATA s nCoast nNumPolygons nPoly dSandEroded dCoarseEroded = s := by
  have hDesc : nVPolyAndAdj (s.pGetPolygon nCoast nPoly)
      = [(s.pGetPolygon nCoast nPoly).nGetCoastID,
          if (s.pGetPolygon nCoast nPoly).bDownCoastThisIter then 1 else 0] := by
    unfold transportAdjacent at hEmpty
    unfold nVPolyAndAdj
    by_cases hd : (s.pGetPolygon nCoast nPoly).bDownCoastThisIter = true
    · simp only [hd, if_true] at hEmpty ⊢
      rw [hEmpty]
    · have hf : (s.pGetPolygon nCoast nPoly).bDownCoastThisIter = false := by simpa using hd
      simp only [hf, Bool.false_eq_true, if_false] at hEmpty ⊢
      rw [hEmpty]
  refine ⟨hDesc, ?_, ?_, ?_, ?_⟩
  · intro R
    rw [hDesc]
    unfold bPolygonAndAdjCompare compareByDirection
    by_cases hd : (s.pGetPolygon nCoast nPoly).bDownCoastThisIter = true
    · simp [hd]
    · simp [hd]
  · intro L hL
    rw [hDesc]
    unfold bPolygonAndAdjCompare compareByDirection
    match L, hL with
    | a :: b :: rest, _ =>
      simp only [List.length_cons, List.length_nil]
      rw [if_neg (by omega)]
      simp only [List.get?_cons_succ, List.get?_cons_zero]
      split <;> exact ⟨_, rfl⟩
  · intro rest VnSourcePolygons t
    rw [hDesc]
    rfl
  · unfold transportAdjacent at hEmpty
    unfold exportSediment
    unfold CGeomCoastPolygon.nGetNumDownCoastAdjacentPolygons
      CGeomCoastPolygon.nGetNumUpCoastAdjacentPolygons
    by_cases hd : (s.pGetPolygon nCoast nPoly).bDownCoastThisIter = true
    · simp only [hd, if_true] at hEmpty ⊢
      rw [hEmpty]
      rfl
    · have hf : (s.pGetPolygon nCoast nPoly).bDownCoastThisIter = false := by simpa using hd
      simp only [hf, Bool.false_eq_true, if_false] at hEmpty ⊢
      rw [hEmpty]
      rfl

/-- On a simulation whose only polygon has no adjacent polygon at all, the export of ten units of
sand eroded on that polygon leaves the simulation as it was. -/
theorem empty_adjacency_tolerated_witness :
    transportAdjacent
        ((exampleSimulation [examplePolygon 0 true (-10) 0 10 0 [] []] GridEdge.GRID_EDGE_OPEN
          0 1 0).pGetPolygon 0 0) = []
    ∧ exportSediment (-9999)
        (exampleSimulation [examplePolygon 0 true (-10) 0 10 0 [] []] GridEdge.GRID_EDGE_OPEN
          0 1 0) 0 1 0 10 0
      = exampleSimulation [examplePolygon 0 true (-10) 0 10 0 [] []] GridEdge.GRID_EDGE_OPEN
          0 1 0 :=
  ⟨by decide,
    (empty_adjacency_tolerated (-9999)
      (exampleSimulation [examplePolygon 0 true (-10) 0 10 0 [] []] GridEdge.GRID_EDGE_OPEN 0 1 0)
      0 1 0 10 0 (by decide)).2.2.2.2⟩

/-- The insertion of an item gives a rearrangement of the item put in front of the list. -/
theorem perm_insertSorted {α : Type} (comp : α → α → Bool) (x : α) (l : List α) :
    (insertSorted comp x l).Perm (x :: l) := by
  induction l with
  | nil => exact List.Perm.refl _
  | cons y ys ih =>
    unfold insertSorted
    split
    · exact (List.Perm.cons y ih).trans (List.Perm.swap x y ys)
    · exact List.Perm.refl _

/-- The sorted sequence is a rearrangement of the sequence given to the sort, whatever the
comparison. -/
theorem perm_stable_sort {α : Type} (comp : α → α → Bool) (l : List α) :
    (stable_sort comp l).Perm l := by
  induction l with
  | nil => exact List.Perm.refl _
  | cons x xs ih =>
    unfold stable_sort
    exact (perm_insertSorted comp x _).trans (List.Perm.cons x ih)

/-- A change to one polygon keeps the number of polygons of the coast. -/
theorem nGetNumPolygons_updPolygon (s : CSimulation) (nCoast : Nat) (nPoly : Int)
    (f : CGeomCoastPolygon → CGeomCoastPolygon) :
    (s.updPolygon nCoast nPoly f).nGetNumPolygons nCoast = s.nGetNumPolygons nCoast := by
  unfold CSimulation.nGetNumPolygons
  rw [coast_updPolygon]
  split
  · rw [List.length_modify]
  · rfl

/-- The array items of a coast are those built before the update of the stored sediment. -/
theorem nVVPolyAndAdjacent_updateStored (s : CSimulation) (nCoast : Nat) :
    nVVPolyAndAdjacent (AllPolygonsUpdateStoredUncons s nCoast) nCoast
      = nVVPolyAndAdjacent s nCoast :=
  AllPolygonsUpdateStoredUncons_preserves (fun t => nVVPolyAndAdjacent t nCoast) s nCoast
    (fun t i x => coast_updPolygon_map nVPolyAndAdj t nCoast i
      (fun p => p.SetStoredUnconsSand x) (fun _ => rfl))
    (fun t i x => coast_updPolygon_map nVPolyAndAdj t nCoast i
      (fun p => p.SetStoredUnconsCoarse x) (fun _ => rfl))

/-- The polygons processed for a coast, in the order of processing, are a rearrangement of the
coast IDs of its polygons. -/
theorem processed_perm_ids (INT_NODATA : Int) (s : CSimulation) (nCoast : Nat) :
    ((sortedPolyAndAdjacent INT_NODATA (AllPolygonsUpdateStoredUncons s nCoast) nCoast).map
        (fun d => d.getD 0 0)).Perm
      ((s.coast nCoast).map CGeomCoastPolygon.nGetCoastID) := by
  unfold sortedPolyAndAdjacent
  rw [nVVPolyAndAdjacent_updateStored]
  refine ((perm_stable_sort _ _).map _).trans ?_
  unfold nVVPolyAndAdjacent
  rw [List.map_map]
  have : ((fun d : List Int => d.getD 0 0) ∘ nVPolyAndAdj) = CGeomCoastPolygon.nGetCoastID := by
    funext p
    exact getD_nVPolyAndAdj p
  rw [this]

/-- A loop over the sorted polygons which does not return at once has processed every item of
the sequence once, in the order of the sequence. -/
theorem doAllPolygons_fold (INT_NODATA RTN_OK : Int) (ext : Collaborator) (nCoast : Nat)
    (nNumPolygons : Int) (l : List (List Int)) (s : CSimulation)
    (h : (doAllPolygons INT_NODATA RTN_OK ext nCoast nNumPolygons l s).1 = none) :
    (doAllPolygons INT_NODATA RTN_OK ext nCoast nNumPolygons l s).2
      = l.foldl (fun t d => (doPolygon INT_NODATA RTN_OK ext t nCoast nNumPolygons
          (d.getD 0 0)).2) s := by
  induction l generalizing s with
  | nil => rfl
  | cons d rest ih =>
    unfold doAllPolygons at h ⊢
    rw [List.foldl_cons]
    cases h1 : doPolygon INT_NODATA RTN_OK ext s nCoast nNumPolygons (d.getD 0 0) with
    | mk r1 s1 =>
    rw [h1] at h
    cases r1 with
    | some nRet => exact Option.noConfusion h
    | none => exact ih s1 h

/-- C29: each polygon is processed once and the phases never run backwards. The sorted sequence
of array items is a rearrangement of the unsorted one. For a coast whose polygons have the coast
IDs 0 to n-1, each once: the polygons processed, in the order of processing, are a rearrangement
of 0, ..., n-1, so every polygon is met once; when the processing of the coast does not return
at once, the result is that of the processing of one polygon (deposition, then erosion and
export) applied to the items of the sorted sequence one after the other; and among the placement
calls made for the coast, each for a polygon of the sorted sequence, no deposition call for a
polygon follows an erosion call for that polygon. -/
theorem each_polygon_processed_once (INT_NODATA RTN_OK : Int) (ext : Collaborator)
    (s : CSimulation) (nCoast : Nat)
    (hIds : ((s.coast nCoast).map CGeomCoastPolygon.nGetCoastID).Perm
      ((List.range (s.nGetNumPolygons nCoast)).map Int.ofNat)) :
    (sortedPolyAndAdjacent INT_NODATA s nCoast).Perm (nVVPolyAndAdjacent s nCoast)
    ∧ ((sortedPolyAndAdjacent INT_NODATA (AllPolygonsUpdateStoredUncons s nCoast) nCoast).map
        (fun d => d.getD 0 0)).Perm ((List.range (s.nGetNumPolygons nCoast)).map Int.ofNat)
    ∧ ((doCoast INT_NODATA RTN_OK ext s nCoast).1 = none →
        (doCoast INT_NODATA RTN_OK ext s nCoast).2
          = (sortedPolyAndAdjacent INT_NODATA (AllPolygonsUpdateStoredUncons s nCoast)
              nCoast).foldl
            (fun t d => (doPolygon INT_NODATA RTN_OK ext t nCoast (s.nGetNumPolygons nCoast)
              (d.getD 0 0)).2)
            (circularityWalk nCoast
              (sortedPolyAndAdjacent INT_NODATA (AllPolygonsUpdateStoredUncons s nCoast) nCoast)
              [] (AllPolygonsUpdateStoredUncons s nCoast)))
    ∧ ∃ new : List PlacementCall,
        (doCoast INT_NODATA RTN_OK ext s nCoast).2.placementLog = s.placementLog ++ new
        ∧ (∀ c ∈ new, c.nCoast = nCoast)
        ∧ noDepositionAfterErosion new := by
  have hPerm := (processed_perm_ids INT_NODATA s nCoast).trans hIds
  have hNodup : ((sortedPolyAndAdjacent INT_NODATA (AllPolygonsUpdateStoredUncons s nCoast)
      nCoast).map (fun d => d.getD 0 0)).Nodup := by
    rw [hPerm.nodup_iff]
    exact (List.nodup_range _).map (fun a b hab => Int.ofNat.inj hab)
  refine ⟨perm_stable_sort _ _, hPerm, ?_, ?_⟩
  · intro hOK
    have hNum := circularityWalk_preserves (fun t => t.nGetNumPolygons nCoast) nCoast
      (fun t i x => nGetNumPolygons_updPolygon t nCoast i _)
      (sortedPolyAndAdjacent INT_NODATA (AllPolygonsUpdateStoredUncons s nCoast) nCoast) []
      (AllPolygonsUpdateStoredUncons s nCoast)
    have hNum1 := AllPolygonsUpdateStoredUncons_preserves (fun t => t.nGetNumPolygons nCoast) s
      nCoast (fun t i x => nGetNumPolygons_updPolygon t nCoast i _)
      (fun t i x => nGetNumPolygons_updPolygon t nCoast i _)
    unfold doCoast at hOK ⊢
    simp only at hOK hNum hNum1 ⊢
    rw [doAllPolygons_fold INT_NODATA RTN_OK ext nCoast _ _ _ hOK, hNum, hNum1]
  · obtain ⟨new, hCalls, hCoast, hOrder⟩ := doCoast_calls INT_NODATA RTN_OK ext s nCoast
    exact ⟨new, hCalls.1, hCoast, hOrder hNodup⟩

/-- On `shortfallSim`, whose two polygons have the coast IDs 0 and 1, the polygons processed are
0 then 1 and the three calls made are the erosion call for polygon 0, then the deposition call
and the erosion call for polygon 1. -/
theorem each_polygon_processed_once_witness :
    ((shortfallSim.coast 0).map CGeomCoastPolygon.nGetCoastID).Perm
        ((List.range (shortfallSim.nGetNumPolygons 0)).map Int.ofNat)
    ∧ ((sortedPolyAndAdjacent (-9999) (AllPolygonsUpdateStoredUncons shortfallSim 0) 0).map
        (fun d => d.getD 0 0)).Perm ((List.range (shortfallSim.nGetNumPolygons 0)).map Int.ofNat)
    ∧ ∃ new : List PlacementCall,
        (doCoast (-9999) 0 placeShort shortfallSim 0).2.placementLog
          = shortfallSim.placementLog ++ new
        ∧ (∀ c ∈ new, c.nCoast = 0)
        ∧ noDepositionAfterErosion new :=
  ⟨by decide,
    (each_polygon_processed_once (-9999) 0 placeShort shortfallSim 0 (by decide)).2.1,
    (each_polygon_processed_once (-9999) 0 placeShort shortfallSim 0 (by decide)).2.2.2⟩

/-- C30 fails. The polygons of `cycleSim` have the distinct coast IDs 0, 1, 2 and empty
circularity lists, and polygon 0 names polygon 1 only. The check for circularities over the
sorted sequence puts polygon 2 in the circularity list of polygon 0, although polygon 0 does not
name polygon 2; and in whatever order the three array items are walked, some polygon `nY` is put
in the circularity list of a polygon `nX` which does not name it. The same happens without any
cycle: in `backwardSim` polygon 0 names no polygon and polygon 1 names polygon 0, the comparison
puts the item of polygon 0 first whichever way the two items are compared, and the check puts
polygon 1 in the circularity list of polygon 0. -/
theorem recorded_circularity_not_mutual :
    (((cycleSim.coast 0).map CGeomCoastPolygon.nGetCoastID = [0, 1, 2]
        ∧ ∀ p ∈ cycleSim.coast 0, p.VnGetCircularities = [])
      ∧ transportAdjacent (cycleSim.pGetPolygon 0 0) = [1]
      ∧ ((circularityWalk 0 (sortedPolyAndAdjacent (-9999) cycleSim 0) [] cycleSim).pGetPolygon
          0 0).VnGetCircularities = [2]
      ∧ ∀ order : List (List Int), order.Perm (nVVPolyAndAdjacent cycleSim 0) →
          ∃ nX ∈ ([0, 1, 2] : List Int), ∃ nY ∈ ([0, 1, 2] : List Int),
            nY ∈ ((circularityWalk 0 order [] cycleSim).pGetPolygon 0 nX).VnGetCircularities
            ∧ nY ∉ transportAdjacent (cycleSim.pGetPolygon 0 nX))
    ∧ (((backwardSim.coast 0).map CGeomCoastPolygon.nGetCoastID = [0, 1]
        ∧ ∀ p ∈ backwardSim.coast 0, p.VnGetCircularities = [])
      ∧ transportAdjacent (backwardSim.pGetPolygon 0 0) = []
      ∧ transportAdjacent (backwardSim.pGetPolygon 0 1) = [0]
      ∧ bPolygonAndAdjCompare (-9999) [0, 1] [1, 1, 0] = some true
      ∧ bPolygonAndAdjCompare (-9999) [1, 1, 0] [0, 1] = some false
      ∧ sortedPolyAndAdjacent (-9999) backwardSim 0 = [[0, 1], [1, 1, 0]]
      ∧ ((circularityWalk 0 (sortedPolyAndAdjacent (-9999) backwardSim 0) []
          backwardSim).pGetPolygon 0 0).VnGetCircularities = [1]
      ∧ ((circularityWalk 0 (sortedPolyAndAdjacent (-9999) backwardSim 0) []
          backwardSim).pGetPolygon 0 1).VnGetCircularities = [0]) := by
  refine ⟨⟨by decide, by decide, by decide, ?_⟩, by decide⟩
  intro order hPerm
  have hlen : order.length = 3 := hPerm.length_eq
  match order, hlen with
  | [a, b, c], _ =>
    have ha : a ∈ nVVPolyAndAdjacent cycleSim 0 := hPerm.mem_iff.mp (by simp)
    have hb : b ∈ nVVPolyAndAdjacent cycleSim 0 := hPerm.mem_iff.mp (by simp)
    have hc : c ∈ nVVPolyAndAdjacent cycleSim 0 := hPerm.mem_iff.mp (by simp)
    have hall : ∀ x ∈ nVVPolyAndAdjacent cycleSim 0, ∀ y ∈ nVVPolyAndAdjacent cycleSim 0,
        ∀ z ∈ nVVPolyAndAdjacent cycleSim 0, [x, y, z].Perm (nVVPolyAndAdjacent cycleSim 0) →
        ∃ nX ∈ ([0, 1, 2] : List Int), ∃ nY ∈ ([0, 1, 2] : List Int),
          nY ∈ ((circularityWalk 0 [x, y, z] [] cycleSim).pGetPolygon 0 nX).VnGetCircularities
          ∧ nY ∉ transportAdjacent (cycleSim.pGetPolygon 0 nX) := by
      decide
    exact hall a ha b hb c hc hPerm

/-- C22 (as stated) fails. `lineSim` is the scenario of three polygons in a line; with placement
routines which never fail, erode the whole target and deposit three units less than the target,
every returned depth is at most the target and polygon 0 erodes ten units of sand. Over the pass
26 units of sand are eroded (10, 8 and 8) and 12 are deposited (7 and 5), while the sand lost
from the grid is 8, the depth eroded on polygon 2, and not 26 - 12 = 14. -/
theorem line_scenario_counterexample :
    lineScenario (-9999) lineSim
    ∧ (nDoAllActualBeachErosionAndDeposition (-9999) 0 placeShort lineSim).1 = 0
    ∧ (∀ r ∈ placementResults placeShort []
          (nDoAllActualBeachErosionAndDeposition (-9999) 0 placeShort lineSim).2.placementLog,
        r.2.1 = 0 ∧ r.2.2 ≤ r.1.dTarget)
    ∧ (placementResults placeShort []
          (nDoAllActualBeachErosionAndDeposition (-9999) 0 placeShort lineSim).2.placementLog).head?
        = some (⟨PlacementKind.erosion, 0, 0, Texture.TEXTURE_SAND, 10⟩, 0, 10)
    ∧ sandActuallyEroded placeShort []
        (nDoAllActualBeachErosionAndDeposition (-9999) 0 placeShort lineSim).2.placementLog = 26
    ∧ (nDoAllActualBeachErosionAndDeposition (-9999) 0 placeShort
        lineSim).2.m_dThisIterBeachErosionSand = 26
    ∧ sandActuallyDeposited placeShort []
        (nDoAllActualBeachErosionAndDeposition (-9999) 0 placeShort lineSim).2.placementLog = 12
    ∧ (nDoAllActualBeachErosionAndDeposition (-9999) 0 placeShort
        lineSim).2.m_dThisIterLeftGridUnconsSand = 8
    ∧ (nDoAllActualBeachErosionAndDeposition (-9999) 0 placeShort
        lineSim).2.m_dThisIterLeftGridUnconsSand
      ≠ sandActuallyEroded placeShort []
          (nDoAllActualBeachErosionAndDeposition (-9999) 0 placeShort lineSim).2.placementLog
        - sandActuallyDeposited placeShort []
          (nDoAllActualBeachErosionAndDeposition (-9999) 0 placeShort lineSim).2.placementLog := by
  decide!

/-- The balance of one coast over its processing: on a conserving coast with open or
re-circulating grid edges, when the erosion routine never reports a depth below zero and no call
fails, the growth of the erosion total equals the growth of the sum of the polygons' deposition
plus the growth of the off-grid total, for sand and for coarse sediment. -/
theorem doCoast_balance (INT_NODATA RTN_OK : Int) (ext : Collaborator) (s : CSimulation)
    (nCoast : Nat) (hCoast : conservingCoast INT_NODATA s nCoast)
    (hPolicy : s.m_nUnconsSedimentHandlingAtGridEdges ≠ GridEdge.GRID_EDGE_CLOSED)
    (hExt : ∀ l call, call.kind = PlacementKind.erosion → 0 ≤ (ext l call).2)
    (hOK : (doCoast INT_NODATA RTN_OK ext s nCoast).1 = none) :
    (doCoast INT_NODATA RTN_OK ext s nCoast).2.m_dThisIterBeachErosionSand
        - s.m_dThisIterBeachErosionSand =
      (sumDepositionSand (doCoast INT_NODATA RTN_OK ext s nCoast).2 nCoast
          - sumDepositionSand s nCoast)
        + ((doCoast INT_NODATA RTN_OK ext s nCoast).2.m_dThisIterLeftGridUnconsSand
          - s.m_dThisIterLeftGridUnconsSand)
    ∧ (doCoast INT_NODATA RTN_OK ext s nCoast).2.m_dThisIterBeachErosionCoarse
        - s.m_dThisIterBeachErosionCoarse =
      (sumDepositionCoarse (doCoast INT_NODATA RTN_OK ext s nCoast).2 nCoast
          - sumDepositionCoarse s nCoast)
        + ((doCoast INT_NODATA RTN_OK ext s nCoast).2.m_dThisIterLeftGridUnconsCoarse
          - s.m_dThisIterLeftGridUnconsCoarse) := by
  -- the update of the stored sediment
  have a1 := AllPolygonsUpdateStoredUncons_preserves (routingView nCoast) s nCoast
    (fun t i x => routingView_updPolygon nCoast t i _ (fun _ => rfl))
    (fun t i x => routingView_updPolygon nCoast t i _ (fun _ => rfl))
  have a2 := AllPolygonsUpdateStoredUncons_preserves (fun t => t.m_dThisIterBeachErosionSand) s
    nCoast (fun t i x => by simp) (fun t i x => by simp)
  have a3 := AllPolygonsUpdateStoredUncons_preserves (fun t => t.m_dThisIterBeachErosionCoarse) s
    nCoast (fun t i x => by simp) (fun t i x => by simp)
  have hCoast1 : conservingCoast INT_NODATA (AllPolygonsUpdateStoredUncons s nCoast) nCoast :=
    conservingCoast_congr INT_NODATA s _ nCoast (routingView_topology nCoast s _ a1) hCoast
  have hIds := sortedPolyAndAdjacent_ids INT_NODATA (AllPolygonsUpdateStoredUncons s nCoast)
    nCoast hCoast1
  -- the check for circularities
  have c1 := circularityWalk_preserves (routingView nCoast) nCoast
    (fun t i x => routingView_updPolygon nCoast t i _ (fun _ => rfl))
    (sortedPolyAndAdjacent INT_NODATA (AllPolygonsUpdateStoredUncons s nCoast) nCoast) []
    (AllPolygonsUpdateStoredUncons s nCoast)
  have c2 := circularityWalk_preserves (fun t => t.m_dThisIterBeachErosionSand) nCoast
    (fun t i x => by simp)
    (sortedPolyAndAdjacent INT_NODATA (AllPolygonsUpdateStoredUncons s nCoast) nCoast) []
    (AllPolygonsUpdateStoredUncons s nCoast)
  have c3 := circularityWalk_preserves (fun t => t.m_dThisIterBeachErosionCoarse) nCoast
    (fun t i x => by simp)
    (sortedPolyAndAdjacent INT_NODATA (AllPolygonsUpdateStoredUncons s nCoast) nCoast) []
    (AllPolygonsUpdateStoredUncons s nCoast)
  have hv := c1.trans a1
  have htopo := routingView_topology nCoast s _ hv
  obtain ⟨v1, v2, v3, v4, v5⟩ := routingView_sums nCoast s _ hv
  have hn1 := nGetNumPolygons_congr topology _ _ nCoast (routingView_topology nCoast _ _ c1)
  have hCoast2 := conservingCoast_congr INT_NODATA s _ nCoast htopo hCoast
  unfold doCoast at hOK ⊢
  simp only at hOK ⊢
  obtain ⟨b1, b2⟩ := doAllPolygons_balance INT_NODATA RTN_OK ext _ nCoast hCoast2
    (by rw [v3]; exact hPolicy) hExt _ _ (by rw [hn1]; exact hIds) rfl rfl hOK
  simp only at c2 c3 a2 a3
  constructor
  · have e := b1
    rw [v1, v4, c2, a2] at e
    linarith
  · have e := b2
    rw [v2, v5, c3, a3] at e
    linarith

/-- The polygons of the coast in the scenario of three polygons in a line. -/
theorem lineScenario_coast (INT_NODATA : Int) (s : CSimulation) (h : lineScenario INT_NODATA s) :
    s.coast 0 = [s.pGetPolygon 0 0, s.pGetPolygon 0 1, s.pGetPolygon 0 2] := by
  have hlen : (s.coast 0).length = 3 := h.1.2
  obtain ⟨a, b, c, hc⟩ := List.length_eq_three.mp hlen
  unfold CSimulation.pGetPolygon
  rw [hc]
  rfl

/-- The scenario of three polygons in a line is a conserving coast. -/
theorem lineScenario_conserving (INT_NODATA : Int) (s : CSimulation)
    (h : lineScenario INT_NODATA s) : conservingCoast INT_NODATA s 0 := by
  obtain ⟨⟨_, hn⟩, hPoly, ⟨a0, w0, a1, w1, a2, hne1, hne2⟩, _, _⟩ := h
  intro i hi
  rw [hn] at hi ⊢
  have hP := hPoly i (by
    have : i = 0 ∨ i = 1 ∨ i = 2 := by omega
    rcases this with rfl | rfl | rfl <;> simp)
  obtain ⟨hDown, hId, _, _⟩ := hP
  refine ⟨hId, ?_⟩
  have hi3 : i = 0 ∨ i = 1 ∨ i = 2 := by omega
  rcases hi3 with rfl | rfl | rfl
  · left
    simp only [Nat.cast_zero] at hDown ⊢
    unfold sumTransportShares transportShare transportAdjacent
      CGeomCoastPolygon.dGetDownCoastAdjacentPolygonBoundaryShare
    simp only [hDown, if_true, a0, w0]
    refine ⟨?_, by simp [List.range_succ]⟩
    intro a ha
    rw [List.mem_singleton] at ha
    subst ha
    exact ⟨fun e => hne1 e.symm, by norm_num, by norm_num⟩
  · left
    simp only [Nat.cast_one] at hDown ⊢
    unfold sumTransportShares transportShare transportAdjacent
      CGeomCoastPolygon.dGetDownCoastAdjacentPolygonBoundaryShare
    simp only [hDown, if_true, a1, w1]
    refine ⟨?_, by simp [List.range_succ]⟩
    intro a ha
    rw [List.mem_singleton] at ha
    subst ha
    exact ⟨fun e => hne2 e.symm, by norm_num, by norm_num⟩
  · right
    simp only [Nat.cast_ofNat] at hDown ⊢
    unfold transportAdjacent
    simp only [hDown, if_true, a2]
    exact ⟨trivial, by norm_num, by norm_num⟩

/-- In the scenario of three polygons in a line the sum of the sand deposition is zero. -/
theorem lineScenario_deposition (INT_NODATA : Int) (s : CSimulation)
    (h : lineScenario INT_NODATA s) : sumDepositionSand s 0 = 0 := by
  have hc := lineScenario_coast INT_NODATA s h
  obtain ⟨_, hPoly, _⟩ := h
  have h0 := (hPoly 0 (by simp)).2.2.1
  have h1 := (hPoly 1 (by simp)).2.2.1
  have h2 := (hPoly 2 (by simp)).2.2.1
  simp only [Nat.cast_zero, Nat.cast_one, Nat.cast_ofNat] at h0 h1 h2
  unfold sumDepositionSand
  rw [hc]
  simp [h0, h1, h2]

/-- C22 (amended). In the scenario of three polygons in a line, when the erosion routine never
reports a depth below zero and the pass returns `RTN_OK`, at the end of the pass the sand lost
from the grid equals the total of sand eroded less the sum of the sand deposition of the three
polygons, that is, less the depths which the polygons were asked to deposit, whatever part of
them the deposition routine placed. -/
theorem line_scenario_balance (INT_NODATA RTN_OK : Int) (ext : Collaborator) (s : CSimulation)
    (hLine : lineScenario INT_NODATA s)
    (hExt : ∀ l call, call.kind = PlacementKind.erosion → 0 ≤ (ext l call).2)
    (hOK : (nDoAllActualBeachErosionAndDeposition INT_NODATA RTN_OK ext s).1 = RTN_OK) :
    (nDoAllActualBeachErosionAndDeposition INT_NODATA RTN_OK ext s).2.m_dThisIterLeftGridUnconsSand
      = (nDoAllActualBeachErosionAndDeposition INT_NODATA RTN_OK ext
          s).2.m_dThisIterBeachErosionSand
        - sumDepositionSand (nDoAllActualBeachErosionAndDeposition INT_NODATA RTN_OK ext s).2
            0 := by
  have hCoast := lineScenario_conserving INT_NODATA s hLine
  have hDep := lineScenario_deposition INT_NODATA s hLine
  obtain ⟨⟨hLen, _⟩, _, _, hPolicy, ⟨_, _, _, hE, _, hL, _⟩⟩ := hLine
  obtain ⟨new, hCalls, _, _⟩ := doCoast_calls INT_NODATA RTN_OK ext s 0
  unfold nDoAllActualBeachErosionAndDeposition at hOK ⊢
  rw [hLen] at hOK ⊢
  unfold doCoastsFrom at hOK ⊢
  cases h1 : doCoast INT_NODATA RTN_OK ext s 0 with
  | mk r1 s1 =>
  rw [h1] at hOK hCalls
  cases r1 with
  | some nRet =>
    simp only at hOK
    exact absurd hOK hCalls.2.1
  | none =>
    have hb := (doCoast_balance INT_NODATA RTN_OK ext s 0 hCoast
      (by rw [hPolicy]; decide) hExt (by rw [h1])).1
    rw [h1] at hb
    simp only at hb ⊢
    unfold doCoastsFrom
    simp only
    rw [hDep, hE, hL] at hb
    linarith

/-- On `lineSim`, with placement routines which deposit three units less than the target, the
sand lost from the grid is 8 = 26 - 18: 26 units eroded, and 18 units in the sand deposition of
the polygons (10 on polygon 1 and 8 on polygon 2). -/
theorem line_scenario_balance_witness :
    lineScenario (-9999) lineSim
    ∧ (nDoAllActualBeachErosionAndDeposition (-9999) 0 placeShort lineSim).1 = 0
    ∧ sumDepositionSand (nDoAllActualBeachErosionAndDeposition (-9999) 0 placeShort lineSim).2 0
        = 18
    ∧ (nDoAllActualBeachErosionAndDeposition (-9999) 0 placeShort
        lineSim).2.m_dThisIterLeftGridUnconsSand
      = (nDoAllActualBeachErosionAndDeposition (-9999) 0 placeShort
          lineSim).2.m_dThisIterBeachErosionSand
        - sumDepositionSand
            (nDoAllActualBeachErosionAndDeposition (-9999) 0 placeShort lineSim).2 0 :=
  ⟨by decide, by decide!, by decide!,
    line_scenario_balance (-9999) 0 placeShort lineSim (by decide) placeShort_nonneg
      (by decide!)⟩


/-- On `massSim` polygon 1 has no potential erosion and polygon 0 no stored fine sediment: the
processing of polygon 1 is its deposition, and the erosion of fine sediment on polygon 0 makes
no call and writes nothing. -/
theorem erosion_skip_conditions_witness :
    (-(massSim.pGetPolygon 0 1).dGetPotentialErosion ≤ 0
      ∧ (massSim.pGetPolygon 0 0).dGetStoredUnconsFine ≤ 0)
    ∧ doPolygon (-9999) 0 placeAll massSim 0 2 1 = depositCoarseAndSand 0 placeAll massSim 0 1
    ∧ erodeFine 0 placeAll massSim 0 0 10 = (none, massSim) :=
  ⟨by decide!,
    ((erosion_skip_conditions (-9999) 0 placeAll massSim 0 2 1 10).1 (by decide!)).1,
    (erosion_skip_conditions (-9999) 0 placeAll massSim 0 2 0 10).2.1 (by decide!)⟩

/-- C31: the record of circularities is symmetric. Starting from a simulation in which every
circularity list is empty, after the check for circularities over any sequence of array items,
for any two polygons `nX` and `nY` of the coast the number of times `nY` is in the circularity
list of `nX` equals the number of times `nX` is in the circularity list of `nY`. -/
theorem circularity_symmetric (s : CSimulation) (nCoast : Nat) (l : List (List Int))
    (nX nY : Int) (hX : s.hasPolygon nCoast nX) (hY : s.hasPolygon nCoast nY)
    (hEmpty : ∀ nPoly : Int, (s.pGetPolygon nCoast nPoly).VnGetCircularities = []) :
    ((circularityWalk nCoast l [] s).pGetPolygon nCoast nX).VnGetCircularities.count nY
      = ((circularityWalk nCoast l [] s).pGetPolygon nCoast nY).VnGetCircularities.count nX := by
  have h1 := countCircularity_circularityWalk nCoast nX nY l [] s hX
  have h2 := countCircularity_circularityWalk nCoast nY nX l [] s hY
  unfold countCircularity at h1 h2
  rw [h1, h2, hEmpty nX, hEmpty nY]
  simp only [List.count_nil]
  omega

/-- On `mutualSim`, whose polygons 0 and 1 name each other, each is once in the circularity list
of the other after the check over the array items of the coast. -/
theorem circularity_symmetric_witness :
    (mutualSim.hasPolygon 0 0 ∧ mutualSim.hasPolygon 0 1
      ∧ ∀ p ∈ mutualSim.coast 0, p.VnGetCircularities = [])
    ∧ ((circularityWalk 0 (nVVPolyAndAdjacent mutualSim 0) [] mutualSim).pGetPolygon 0
        0).VnGetCircularities.count 1 = 1
    ∧ ((circularityWalk 0 (nVVPolyAndAdjacent mutualSim 0) [] mutualSim).pGetPolygon 0
        0).VnGetCircularities.count 1
      = ((circularityWalk 0 (nVVPolyAndAdjacent mutualSim 0) [] mutualSim).pGetPolygon 0
        1).VnGetCircularities.count 0 :=
  ⟨by decide, by decide,
    circularity_symmetric mutualSim 0 (nVVPolyAndAdjacent mutualSim 0) 0 1 (by decide)
      (by decide) (fun nPoly => by
        unfold CSimulation.pGetPolygon
        split
        · have hall : ∀ p ∈ mutualSim.coast 0, p.VnGetCircularities = [] := by decide
          rw [List.getD_eq_getElem?_getD]
          cases h : (mutualSim.coast 0)[nPoly.toNat]? with
          | none => rfl
          | some p => exact hall p (List.getElem?_mem h)
        · rfl)⟩

/-- A loop whose every turn leaves the state as it is leaves the state as it is. -/
theorem foldl_of_fixed {σ ι : Type} (step : σ → ι → σ) (s : σ) (l : List ι)
    (h : ∀ i ∈ l, step s i = s) : l.foldl step s = s := by
  induction l with
  | nil => rfl
  | cons i l ih =>
    rw [List.foldl_cons, h i (List.mem_cons_self i l)]
    exact ih (fun j hj => h j (List.mem_cons_of_mem i hj))

/-- C38: a coast of one polygon never reaches the handling of the grid edges. On a coast whose
only polygon (polygon 0, which is also the last one) has only the grid-edge value among the
adjacent polygons of its direction of movement, down-coast or up-coast, the export of whatever
sand and coarse sediment was eroded leaves the whole simulation as it was, whichever handling of
the grid edges is set: no off-grid total and no deposition is changed. -/
theorem single_polygon_no_edge_policy (INT_NODATA : Int) (s : CSimulation) (nCoast : Nat)
    (dSandEroded dCoarseEroded : ℚ) (hOne : s.nGetNumPolygons nCoast = 1)
    (hEdge : ∀ a ∈ transportAdjacent (s.pGetPolygon nCoast 0), a = INT_NODATA) :
    exportSediment INT_NODATA s nCoast (s.nGetNumPolygons nCoast) 0 dSandEroded dCoarseEroded
      = s := by
  unfold transportAdjacent at hEdge
  unfold exportSediment
  rw [hOne]
  by_cases hd : (s.pGetPolygon nCoast 0).bDownCoastThisIter = true
  · simp only [hd, if_true] at hEdge ⊢
    apply foldl_of_fixed
    intro nn hnn
    have hlt : nn < (s.pGetPolygon nCoast 0).m_VnDownCoastAdjacentPolygon.length :=
      List.mem_range.mp hnn
    have hAdj : (s.pGetPolygon nCoast 0).nGetDownCoastAdjacentPolygon nn = INT_NODATA := by
      unfold CGeomCoastPolygon.nGetDownCoastAdjacentPolygon
      rw [List.getD_eq_getElem _ _ hlt]
      exact hEdge _ (List.getElem_mem hlt)
    unfold exportSlotDownCoast
    simp only [hAdj, if_true]
  · have hf : (s.pGetPolygon nCoast 0).bDownCoastThisIter = false := by simpa using hd
    simp only [hf, Bool.false_eq_true, if_false] at hEdge ⊢
    apply foldl_of_fixed
    intro nn hnn
    have hlt : nn < (s.pGetPolygon nCoast 0).m_VnUpCoastAdjacentPolygon.length :=
      List.mem_range.mp hnn
    have hAdj : (s.pGetPolygon nCoast 0).nGetUpCoastAdjacentPolygon nn = INT_NODATA := by
      unfold CGeomCoastPolygon.nGetUpCoastAdjacentPolygon
      rw [List.getD_eq_getElem _ _ hlt]
      exact hEdge _ (List.getElem_mem hlt)
    unfold exportSlotUpCoast
    simp only [hAdj, if_true]
    rfl

/-- On `supplyLimitSim`, whose only polygon moves sediment down-coast and names the grid edge,
with open grid edges, the export of seven units of eroded sand changes nothing; the same holds
for the polygon moving sediment up-coast with re-circulating grid edges. -/
theorem single_polygon_no_edge_policy_witness :
    (supplyLimitSim.nGetNumPolygons 0 = 1
      ∧ ∀ a ∈ transportAdjacent (supplyLimitSim.pGetPolygon 0 0), a = -9999)
    ∧ exportSediment (-9999) supplyLimitSim 0 (supplyLimitSim.nGetNumPolygons 0) 0 7 0
      = supplyLimitSim
    ∧ exportSediment (-9999)
        (exampleSimulation [examplePolygon 0 false (-10) 0 4 0 [-9999] [1]]
          GridEdge.GRID_EDGE_RECIRCULATE 0 1 0) 0
        ((exampleSimulation [examplePolygon 0 false (-10) 0 4 0 [-9999] [1]]
          GridEdge.GRID_EDGE_RECIRCULATE 0 1 0).nGetNumPolygons 0) 0 7 0
      = exampleSimulation [examplePolygon 0 false (-10) 0 4 0 [-9999] [1]]
          GridEdge.GRID_EDGE_RECIRCULATE 0 1 0 :=
  ⟨by decide, single_polygon_no_edge_policy (-9999) supplyLimitSim 0 7 0 (by decide) (by decide),
    single_polygon_no_edge_policy (-9999)
      (exampleSimulation [examplePolygon 0 false (-10) 0 4 0 [-9999] [1]]
        GridEdge.GRID_EDGE_RECIRCULATE 0 1 0) 0 7 0 (by decide) (by decide)⟩

/-- The smaller of two values is at most the first. -/
theorem tMin_le_left (a b : ℚ) : tMin a b ≤ a := by
  unfold tMin
  split
  · exact le_refl a
  · exact not_lt.mp ‹_›

/-- The erosion of fine sediment makes at most one call, whose target is at most the potential
erosion times the fine erodibility. -/
theorem erodeFine_targets (RTN_OK : Int) (ext : Collaborator) (s : CSimulation) (nCoast : Nat)
    (nPoly : Int) (dPotentialErosion : ℚ)
    (hShare : 0 ≤ dPotentialErosion * s.m_dFineErodibilityNormalized) :
    ∃ new : List PlacementCall,
      (erodeFine RTN_OK ext s nCoast nPoly dPotentialErosion).2.placementLog
        = s.placementLog ++ new
      ∧ (∀ c ∈ new, c.kind = PlacementKind.erosion ∧ c.nPoly = nPoly)
      ∧ (new.map (fun c => c.dTarget)).sum
        ≤ dPotentialErosion * s.m_dFineErodibilityNormalized := by
  by_cases hStored : 0 < (s.pGetPolygon nCoast nPoly).dGetStoredUnconsFine
  · refine ⟨[fineErosionCall s nCoast nPoly dPotentialErosion], ?_, ?_, ?_⟩
    · rw [erodeFine_of_stored RTN_OK ext s nCoast nPoly dPotentialErosion hStored]
      split
      · rfl
      · split
        · simp
        · rfl
    · intro c hc
      rw [List.mem_singleton] at hc
      rw [hc]
      exact ⟨rfl, rfl⟩
    · simp only [List.map_cons, List.map_nil, List.sum_cons, List.sum_nil, add_zero]
      exact tMin_le_left _ _
  · refine ⟨[], ?_, fun c hc => absurd hc (List.not_mem_nil c), ?_⟩
    · unfold erodeFine
      simp [hStored]
    · simpa using hShare

/-- The erosion of sand, when no undeposited sand is carried forward, makes at most one call,
whose target is at most the potential erosion times the sand erodibility. -/
theorem erodeSand_targets (RTN_OK : Int) (ext : Collaborator) (s : CSimulation) (nCoast : Nat)
    (nPoly : Int) (dPotentialErosion : ℚ)
    (hShare : 0 ≤ dPotentialErosion * s.m_dSandErodibilityNormalized)
    (hCarry : s.m_dThisIterDepositionSandDiff = 0) :
    ∃ new : List PlacementCall,
      (erodeSand RTN_OK ext s nCoast nPoly dPotentialErosion).2.2.placementLog
        = s.placementLog ++ new
      ∧ (∀ c ∈ new, c.kind = PlacementKind.erosion ∧ c.nPoly = nPoly)
      ∧ (new.map (fun c => c.dTarget)).sum
        ≤ dPotentialErosion * s.m_dSandErodibilityNormalized := by
  by_cases hStored : 0 < (s.pGetPolygon nCoast nPoly).dGetStoredUnconsSand
  · refine ⟨[sandErosionCall s nCoast nPoly dPotentialErosion], ?_, ?_, ?_⟩
    · rw [erodeSand_of_stored RTN_OK ext s nCoast nPoly dPotentialErosion hStored]
      split
      · rfl
      · split
        · simp
        · rfl
    · intro c hc
      rw [List.mem_singleton] at hc
      rw [hc]
      exact ⟨rfl, rfl⟩
    · simp only [List.map_cons, List.map_nil, List.sum_cons, List.sum_nil, add_zero]
      unfold sandErosionCall
      simp only [hCarry, gt_iff_lt, lt_self_iff_false, if_false]
      exact tMin_le_left _ _
  · refine ⟨[], ?_, fun c hc => absurd hc (List.not_mem_nil c), ?_⟩
    · unfold erodeSand
      simp [hStored]
    · simpa using hShare

/-- The erosion of coarse sediment, when no undeposited coarse sediment is carried forward, makes
at most one call, whose target is at most the potential erosion times the coarse erodibility. -/
theorem erodeCoarse_targets (RTN_OK : Int) (ext : Collaborator) (s : CSimulation) (nCoast : Nat)
    (nPoly : Int) (dPotentialErosion : ℚ)
    (hShare : 0 ≤ dPotentialErosion * s.m_dCoarseErodibilityNormalized)
    (hCarry : s.m_dThisIterDepositionCoarseDiff = 0) :
    ∃ new : List PlacementCall,
      (erodeCoarse RTN_OK ext s nCoast nPoly dPotentialErosion).2.2.placementLog
        = s.placementLog ++ new
      ∧ (∀ c ∈ new, c.kind = PlacementKind.erosion ∧ c.nPoly = nPoly)
      ∧ (new.map (fun c => c.dTarget)).sum
        ≤ dPotentialErosion * s.m_dCoarseErodibilityNormalized := by
  by_cases hStored : 0 < (s.pGetPolygon nCoast nPoly).dGetStoredUnconsCoarse
  · refine ⟨[coarseErosionCall s nCoast nPoly dPotentialErosion], ?_, ?_, ?_⟩
    · rw [erodeCoarse_of_stored RTN_OK ext s nCoast nPoly dPotentialErosion hStored]
      split
      · rfl
      · split
        · simp
        · rfl
    · intro c hc
      rw [List.mem_singleton] at hc
      rw [hc]
      exact ⟨rfl, rfl⟩
    · simp only [List.map_cons, List.map_nil, List.sum_cons, List.sum_nil, add_zero]
      unfold coarseErosionCall
      simp only [hCarry, gt_iff_lt, lt_self_iff_false, if_false]
      exact tMin_le_left _ _
  · refine ⟨[], ?_, fun c hc => absurd hc (List.not_mem_nil c), ?_⟩
    · unfold erodeCoarse
      simp [hStored]
    · simpa using hShare

/-- C36: the erosion targets of a polygon sum to at most its potential erosion. For a polygon
with potential erosion `dPotentialErosion` above zero, when no undeposited sand or coarse
sediment is carried forward and the three erodibilities are not below zero and sum to 1, the
calls made by the erosion of the polygon are erosion calls for this polygon and the sum of their
targets is at most `dPotentialErosion`, whatever the placement routines return. -/
theorem erosion_targets_le_potential (INT_NODATA RTN_OK : Int) (ext : Collaborator)
    (s : CSimulation) (nCoast : Nat) (nNumPolygons nPoly : Int) (dPotentialErosion : ℚ)
    (hPot : 0 < dPotentialErosion)
    (hFine : 0 ≤ s.m_dFineErodibilityNormalized) (hSand : 0 ≤ s.m_dSandErodibilityNormalized)
    (hCoarse : 0 ≤ s.m_dCoarseErodibilityNormalized)
    (hSum : s.m_dFineErodibilityNormalized + s.m_dSandErodibilityNormalized
      + s.m_dCoarseErodibilityNormalized = 1)
    (hCarrySand : s.m_dThisIterDepositionSandDiff = 0)
    (hCarryCoarse : s.m_dThisIterDepositionCoarseDiff = 0) :
    ∃ new : List PlacementCall,
      (erodeAndExport INT_NODATA RTN_OK ext s nCoast nNumPolygons nPoly
          dPotentialErosion).2.placementLog = s.placementLog ++ new
      ∧ (∀ c ∈ new, c.kind = PlacementKind.erosion ∧ c.nPoly = nPoly)
      ∧ (new.map (fun c => c.dTarget)).sum ≤ dPotentialErosion := by
  have hpf := mul_nonneg (le_of_lt hPot) hFine
  have hps := mul_nonneg (le_of_lt hPot) hSand
  have hpc := mul_nonneg (le_of_lt hPot) hCoarse
  have hTotal : dPotentialErosion * s.m_dFineErodibilityNormalized
      + dPotentialErosion * s.m_dSandErodibilityNormalized
      + dPotentialErosion * s.m_dCoarseErodibilityNormalized = dPotentialErosion := by
    rw [← mul_add, ← mul_add, hSum, mul_one]
  obtain ⟨a, ha, hka, hsa⟩ := erodeFine_targets RTN_OK ext s nCoast nPoly dPotentialErosion hpf
  have f1 := erodeFine_preserves
    (fun t => (t.m_dSandErodibilityNormalized, t.m_dCoarseErodibilityNormalized,
      t.m_dThisIterDepositionSandDiff, t.m_dThisIterDepositionCoarseDiff))
    RTN_OK ext s nCoast nPoly dPotentialErosion (fun t x => by simp) (fun _ _ => rfl)
  unfold erodeAndExport
  cases h1 : erodeFine RTN_OK ext s nCoast nPoly dPotentialErosion with
  | mk r1 s1 =>
  rw [h1] at ha f1
  simp only [Prod.mk.injEq] at f1
  obtain ⟨fS, fC, fDS, fDC⟩ := f1
  cases r1 with
  | some nRet => exact ⟨a, ha, hka, by linarith⟩
  | none =>
  simp only at ha ⊢
  obtain ⟨b, hb, hkb, hsb⟩ := erodeSand_targets RTN_OK ext s1 nCoast nPoly dPotentialErosion
    (by rw [fS]; exact hps) (by rw [fDS]; exact hCarrySand)
  have f2 := erodeSand_preserves
    (fun t => (t.m_dCoarseErodibilityNormalized, t.m_dThisIterDepositionCoarseDiff))
    RTN_OK ext s1 nCoast nPoly dPotentialErosion (fun t x => by simp) (fun _ _ _ => rfl)
  cases h2 : erodeSand RTN_OK ext s1 nCoast nPoly dPotentialErosion with
  | mk r2 ds2 =>
  obtain ⟨dSand, s2⟩ := ds2
  rw [h2] at hb f2
  simp only [Prod.mk.injEq] at f2
  obtain ⟨gC, gDC⟩ := f2
  rw [fS] at hsb
  have hab : s2.placementLog = s.placementLog ++ (a ++ b) := by
    rw [← List.append_assoc, ← ha]
    exact hb
  have hkab : ∀ c ∈ a ++ b, c.kind = PlacementKind.erosion ∧ c.nPoly = nPoly := by
    intro c hc
    rcases List.mem_append.mp hc with h | h
    · exact hka c h
    · exact hkb c h
  cases r2 with
  | some nRet =>
    refine ⟨a ++ b, hab, hkab, ?_⟩
    rw [List.map_append, List.sum_append]
    linarith
  | none =>
  simp only at hb ⊢
  obtain ⟨d, hd, hkd, hsd⟩ := erodeCoarse_targets RTN_OK ext s2 nCoast nPoly dPotentialErosion
    (by rw [gC, fC]; exact hpc) (by rw [gDC, fDC]; exact hCarryCoarse)
  cases h3 : erodeCoarse RTN_OK ext s2 nCoast nPoly dPotentialErosion with
  | mk r3 ds3 =>
  obtain ⟨dCoarse, s3⟩ := ds3
  rw [h3] at hd
  rw [gC, fC] at hsd
  have habd : s3.placementLog = s.placementLog ++ (a ++ b ++ d) := by
    rw [← List.append_assoc, ← hab]
    exact hd
  have hkabd : ∀ c ∈ a ++ b ++ d, c.kind = PlacementKind.erosion ∧ c.nPoly = nPoly := by
    intro c hc
    rcases List.mem_append.mp hc with h | h
    · exact hkab c h
    · exact hkd c h
  have hsum : ((a ++ b ++ d).map (fun c => c.dTarget)).sum ≤ dPotentialErosion := by
    rw [List.map_append, List.sum_append, List.map_append, List.sum_append]
    linarith
  cases r3 with
  | some nRet => exact ⟨a ++ b ++ d, habd, hkabd, hsum⟩
  | none =>
    simp only
    refine ⟨a ++ b ++ d, ?_, hkabd, hsum⟩
    split
    · rw [← habd]
      exact exportSediment_preserves (fun t => t.placementLog) INT_NODATA _ nCoast nNumPolygons
        nPoly _ _ (fun t j x => by simp) (fun t j x => by simp) (fun _ _ _ => rfl)
    · exact habd

/-- On `carrySim` with the totals carried forward set to zero: the potential erosion is 10, the
erodibilities are 1/2, 1/4 and 1/4, and the three targets are 5, 5/2 and 5/2. -/
theorem erosion_targets_le_potential_witness :
    ((erodeAndExport (-9999) 0 placeAll
          { carrySim with
            m_dThisIterDepositionSandDiff := 0
            m_dThisIterDepositionCoarseDiff := 0 } 0 1 0 10).2.placementLog.map
        (fun c => c.dTarget) = [5, 5 / 2, 5 / 2])
    ∧ ∃ new : List PlacementCall,
      (erodeAndExport (-9999) 0 placeAll
          { carrySim with
            m_dThisIterDepositionSandDiff := 0
            m_dThisIterDepositionCoarseDiff := 0 } 0 1 0 10).2.placementLog
        = carrySim.placementLog ++ new
      ∧ (∀ c ∈ new, c.kind = PlacementKind.erosion ∧ c.nPoly = 0)
      ∧ (new.map (fun c => c.dTarget)).sum ≤ 10 :=
  ⟨by decide!,
    erosion_targets_le_potential (-9999) 0 placeAll
      { carrySim with
        m_dThisIterDepositionSandDiff := 0
        m_dThisIterDepositionCoarseDiff := 0 } 0 1 0 10 (by decide!) (by decide!) (by decide!)
      (by decide!) (by decide!) rfl rfl⟩

/-- The polygons read in two simulations with the same read-only view have the same read-only
fields. -/
theorem readOnlyFields_of_view (s t : CSimulation) (h : readOnlyView t = readOnlyView s)
    (nCoast : Nat) (nPoly : Int) :
    readOnlyFields (t.pGetPolygon nCoast nPoly) = readOnlyFields (s.pGetPolygon nCoast nPoly) := by
  apply pGetPolygon_congr readOnlyFields s t nCoast
  unfold readOnlyView at h
  unfold CSimulation.coast
  have h1 := congrArg (fun l => l[nCoast]?) h
  simp only [List.getElem?_map] at h1
  simp only [List.getD_eq_getElem?_getD]
  cases ht : t.m_VCoast[nCoast]? with
  | none =>
    cases hs : s.m_VCoast[nCoast]? with
    | none => rfl
    | some b =>
      rw [ht, hs] at h1
      exact Option.noConfusion h1
  | some a =>
    cases hs : s.m_VCoast[nCoast]? with
    | none =>
      rw [ht, hs] at h1
      exact Option.noConfusion h1
    | some b =>
      rw [ht, hs] at h1
      exact Option.some.inj h1

/-- The calls recorded by a sequence of writes of the pass come after those recorded before, and
none of them is a deposition call for fine sediment. -/
theorem log_of_passWrites (s t : CSimulation) (h : PassWrites s t) :
    ∃ new : List PlacementCall, t.placementLog = s.placementLog ++ new
      ∧ ∀ c ∈ new, c.kind = PlacementKind.deposition → c.nTexture ≠ Texture.TEXTURE_FINE := by
  refine PassWrites.invariant
    (fun u => ∃ new : List PlacementCall, u.placementLog = s.placementLog ++ new
      ∧ ∀ c ∈ new, c.kind = PlacementKind.deposition → c.nTexture ≠ Texture.TEXTURE_FINE)
    ?_ h ⟨[], (List.append_nil _).symm, fun c hc => absurd hc (List.not_mem_nil c)⟩
  intro a b hab ⟨new, hLog, hNew⟩
  cases hab with
  | placementCall call hCall =>
    refine ⟨new ++ [call], ?_, ?_⟩
    · show a.placementLog ++ [call] = _
      rw [hLog, List.append_assoc]
    · intro c hc
      rcases List.mem_append.mp hc with h1 | h1
      · exact hNew c h1
      · rw [List.mem_singleton] at h1
        rw [h1]
        exact hCall
  | storedSand | storedCoarse | circularity | ledgerFine | ledgerSand | ledgerCoarse
  | exportedSand | exportedCoarse | recirculatedSand | recirculatedCoarse =>
    exact ⟨new, by simpa using hLog, hNew⟩
  | undepositedSand | undepositedCoarse | absorbedSand | absorbedCoarse
  | totalFine | totalSand | totalCoarse | leftGrid =>
    exact ⟨new, hLog, hNew⟩

/-- No member function of the polygon writes the fine deposition. -/
theorem apply_dGetDepositionUnconsFine (p : CGeomCoastPolygon) (op : PolygonOp) :
    (op.apply p).dGetDepositionUnconsFine = p.dGetDepositionUnconsFine := by
  cases op <;> rfl

/-- A sequence of calls of member functions keeps the fine deposition. -/
theorem applyOps_dGetDepositionUnconsFine (ops : List PolygonOp) (p : CGeomCoastPolygon) :
    (applyOps ops p).dGetDepositionUnconsFine = p.dGetDepositionUnconsFine := by
  unfold applyOps
  exact foldl_preserves CGeomCoastPolygon.dGetDepositionUnconsFine PolygonOp.apply
    apply_dGetDepositionUnconsFine ops p

/-- C33: fine sediment is never deposited. (1) The placement calls made by
`nDoAllActualBeachErosionAndDeposition`, for every placement routine and returned status, are
recorded after the earlier ones and no deposition call among them is for fine sediment. (2) The
pass leaves the fine deposition of every polygon as it was. (3) For a polygon as its constructor
leaves it and after any sequence of calls of its member functions, `dGetDepositionUnconsFine`
returns 0 and `dGetDepositionAllUncons` is the sand deposition plus the coarse deposition. -/
theorem fine_never_deposited (INT_NODATA RTN_OK : Int) (ext : Collaborator) (s : CSimulation)
    (nGlobalID nCoastID : Int) (ops : List PolygonOp) :
    (∃ new : List PlacementCall,
      (nDoAllActualBeachErosionAndDeposition INT_NODATA RTN_OK ext s).2.placementLog
        = s.placementLog ++ new
      ∧ ∀ c ∈ new, c.kind = PlacementKind.deposition → c.nTexture ≠ Texture.TEXTURE_FINE)
    ∧ (∀ (nCoast : Nat) (nPoly : Int),
        ((nDoAllActualBeachErosionAndDeposition INT_NODATA RTN_OK ext s).2.pGetPolygon nCoast
          nPoly).dGetDepositionUnconsFine = (s.pGetPolygon nCoast nPoly).dGetDepositionUnconsFine)
    ∧ (applyOps ops (constructedPolygon nGlobalID nCoastID)).dGetDepositionUnconsFine = 0
    ∧ (applyOps ops (constructedPolygon nGlobalID nCoastID)).dGetDepositionAllUncons
        = (applyOps ops (constructedPolygon nGlobalID nCoastID)).dGetDepositionUnconsSand
          + (applyOps ops (constructedPolygon nGlobalID nCoastID)).dGetDepositionUnconsCoarse := by
  have hw := nDoAllActualBeachErosionAndDeposition_writes INT_NODATA RTN_OK ext s
  have hFine := applyOps_dGetDepositionUnconsFine ops (constructedPolygon nGlobalID nCoastID)
  have hZero : (constructedPolygon nGlobalID nCoastID).dGetDepositionUnconsFine = 0 := rfl
  refine ⟨log_of_passWrites _ _ hw, ?_, hFine.trans hZero, ?_⟩
  · intro nCoast nPoly
    have h := readOnlyFields_of_view s _ (readOnlyView_of_passWrites _ _ hw) nCoast nPoly
    exact congrArg (fun v => v.1.2.2.2.2) h
  · unfold CGeomCoastPolygon.dGetDepositionAllUncons
    have h0 : (applyOps ops (constructedPolygon nGlobalID nCoastID)).m_dDepositionUnconsFine
        = 0 := hFine.trans hZero
    unfold CGeomCoastPolygon.dGetDepositionUnconsSand
      CGeomCoastPolygon.dGetDepositionUnconsCoarse
    rw [h0, zero_add]

/-- On `shortfallSim` the calls made are for sand, and a polygon with the IDs 3 and 1 which is
given sand and coarse deposition, potential erosion and a circularity has a fine deposition of
zero. -/
theorem fine_never_deposited_witness :
    (nDoAllActualBeachErosionAndDeposition (-9999) 0 placeShort
        shortfallSim).2.placementLog.map (fun c => c.nTexture)
      = [Texture.TEXTURE_SAND, Texture.TEXTURE_SAND, Texture.TEXTURE_SAND]
    ∧ (applyOps [PolygonOp.AddDepositionUnconsSand 2, PolygonOp.AddDepositionUnconsCoarse 3,
          PolygonOp.AddPotentialErosion (-4), PolygonOp.AddCircularity 5]
        (constructedPolygon 3 1)).dGetDepositionAllUncons = 5
    ∧ (applyOps [PolygonOp.AddDepositionUnconsSand 2, PolygonOp.AddDepositionUnconsCoarse 3,
          PolygonOp.AddPotentialErosion (-4), PolygonOp.AddCircularity 5]
        (constructedPolygon 3 1)).dGetDepositionUnconsFine = 0 :=
  ⟨by decide!, by decide!,
    (fine_never_deposited (-9999) 0 placeShort shortfallSim 3 1
      [PolygonOp.AddDepositionUnconsSand 2, PolygonOp.AddDepositionUnconsCoarse 3,
        PolygonOp.AddPotentialErosion (-4), PolygonOp.AddCircularity 5]).2.2.1⟩

/-- C34 fails: `bPolygonAndAdjCompare` is not a strict weak ordering on array items with distinct
polygons. The items of two polygons which name each other are each ordered before the other; so
are a down-coast item and an up-coast item without adjacent polygons when the down-coast one is
the smaller vector. The item `[2, 1, 3]` is ordered before `[3, 0, 1]`, which it names, and
`[3, 0, 1]` before `[1, 0, 0]`, which it names, but `[2, 1, 3]` is not ordered before
`[1, 0, 0]`. Neither of `[1, 1]` and `[0, 0]` is ordered before the other, nor of `[0, 0]` and
`[2, 1]`, but `[1, 1]` is ordered before `[2, 1]`. -/
theorem comparator_not_strict_weak :
    (bPolygonAndAdjCompare (-9999) [1, 1, 0] [0, 1, 1] = some true
      ∧ bPolygonAndAdjCompare (-9999) [0, 1, 1] [1, 1, 0] = some true)
    ∧ (bPolygonAndAdjCompare (-9999) [0, 1] [1, 0] = some true
      ∧ bPolygonAndAdjCompare (-9999) [1, 0] [0, 1] = some true)
    ∧ (bPolygonAndAdjCompare (-9999) [2, 1, 3] [3, 0, 1] = some true
      ∧ bPolygonAndAdjCompare (-9999) [3, 0, 1] [1, 0, 0] = some true
      ∧ bPolygonAndAdjCompare (-9999) [2, 1, 3] [1, 0, 0] = some false)
    ∧ (bPolygonAndAdjCompare (-9999) [1, 1] [0, 0] = some false
      ∧ bPolygonAndAdjCompare (-9999) [0, 0] [1, 1] = some false
      ∧ bPolygonAndAdjCompare (-9999) [0, 0] [2, 1] = some false
      ∧ bPolygonAndAdjCompare (-9999) [2, 1] [0, 0] = some false
      ∧ bPolygonAndAdjCompare (-9999) [1, 1] [2, 1] = some true)
    ∧ ¬ strictWeakOn (compareBefore (-9999)) [[1, 1, 0], [0, 1, 1]]
    ∧ ¬ strictWeakOn (compareBefore (-9999)) [[2, 1, 3], [3, 0, 1], [1, 0, 0]]
    ∧ ¬ strictWeakOn (compareBefore (-9999)) [[1, 1], [0, 0], [2, 1]] := by
  decide

/-- On the array items of a line of down-coast polygons the comparison is the order of the
polygons. -/
theorem compare_downLine (INT_NODATA n i j : Int) (hND : INT_NODATA < 0)
    (hi : 0 ≤ i ∧ i < n) (hj : 0 ≤ j ∧ j < n) :
    bPolygonAndAdjCompare INT_NODATA [i, 1, if i + 1 < n then i + 1 else INT_NODATA]
        [j, 1, if j + 1 < n then j + 1 else INT_NODATA] = some (decide (i < j)) := by
  unfold bPolygonAndAdjCompare compareByDirection
  simp only [List.length_cons, List.length_nil, List.getD_cons_succ, List.getD_cons_zero,
    List.drop_succ_cons, List.drop_zero, List.get?_cons_succ, List.get?_cons_zero,
    List.contains_cons, List.contains_nil, Bool.or_false, beq_iff_eq]
  by_cases hin : i + 1 < n
  · by_cases hjn : j + 1 < n
    · simp only [hin, hjn, if_true]
      have h1 : ¬ (i + 1 = INT_NODATA) := by omega
      have h2 : ¬ (j + 1 = INT_NODATA) := by omega
      simp only [h1, h2, if_false]
      by_cases ha : j = i + 1
      · simp only [ha, if_true]
        simp
      · by_cases hb : i = j + 1
        · subst hb
          have h3 : ¬ (j = j + 1 + 1) := by omega
          have h4 : ¬ (j + 1 < j) := by omega
          simp [h3, h4]
        · simp only [ha, hb, if_false]
          unfold vectorLess
          by_cases hlt : i < j
          · simp [hlt]
          · by_cases hgt : j < i
            · simp [hlt, hgt]
            · have : i = j := by omega
              subst this
              simp [vectorLess]
    · simp only [hin, hjn, if_true, if_false]
      have h1 : ¬ (i + 1 = INT_NODATA) := by omega
      simp only [h1, if_false]
      have : i < j := by omega
      simp [this]
  · simp only [hin, if_false, if_true]
    have : ¬ i < j := by omega
    simp [this]

/-- On the array items of a line of up-coast polygons the comparison is the reverse of the order
of the polygons. -/
theorem compare_upLine (INT_NODATA n i j : Int) (hND : INT_NODATA < 0)
    (hi : 0 ≤ i ∧ i < n) (hj : 0 ≤ j ∧ j < n) :
    bPolygonAndAdjCompare INT_NODATA [i, 0, if 0 < i then i - 1 else INT_NODATA]
        [j, 0, if 0 < j then j - 1 else INT_NODATA] = some (decide (j < i)) := by
  unfold bPolygonAndAdjCompare compareByDirection
  simp only [List.length_cons, List.length_nil, List.getD_cons_succ, List.getD_cons_zero,
    List.drop_succ_cons, List.drop_zero, List.get?_cons_succ, List.get?_cons_zero,
    List.contains_cons, List.contains_nil, Bool.or_false, beq_iff_eq]
  by_cases hin : 0 < i
  · by_cases hjn : 0 < j
    · simp only [hin, hjn, if_true]
      have h1 : ¬ (i - 1 = INT_NODATA) := by omega
      have h2 : ¬ (j - 1 = INT_NODATA) := by omega
      simp only [h1, h2, if_false]
      by_cases ha : j = i - 1
      · simp only [ha, if_true]
        simp
      · by_cases hb : i = j - 1
        · subst hb
          have h3 : ¬ (j = j - 1 - 1) := by omega
          have h4 : ¬ (j < j - 1) := by omega
          simp [h3, h4]
        · simp only [ha, hb, if_false]
          unfold vectorLess
          by_cases hlt : j < i
          · simp [hlt]
          · by_cases hgt : i < j
            · simp [hlt, hgt]
            · have : i = j := by omega
              subst this
              simp [vectorLess]
    · simp only [hin, hjn, if_true, if_false]
      have h1 : ¬ (i - 1 = INT_NODATA) := by omega
      simp only [h1, if_false]
      have : j < i := by omega
      simp [this]
  · simp only [hin, if_false, if_true]
    have : ¬ j < i := by omega
    simp [this]

/-- The sort leaves a sequence as it is when no item is ordered before an earlier one. -/
theorem stable_sort_of_sorted {α : Type} (comp : α → α → Bool) (l : List α)
    (h : l.Pairwise (fun a b => comp b a = false)) : stable_sort comp l = l := by
  induction l with
  | nil => rfl
  | cons x xs ih =>
    rw [List.pairwise_cons] at h
    unfold stable_sort
    rw [ih h.2]
    cases xs with
    | nil => rfl
    | cons y ys =>
      unfold insertSorted
      rw [h.1 y (List.mem_cons_self y ys)]
      rfl

/-- An item which every item of a list is ordered before is inserted at the end. -/
theorem insertSorted_of_all_before {α : Type} (comp : α → α → Bool) (x : α) (l : List α)
    (h : ∀ y ∈ l, comp y x = true) : insertSorted comp x l = l ++ [x] := by
  induction l with
  | nil => rfl
  | cons y ys ih =>
    unfold insertSorted
    rw [h y (List.mem_cons_self y ys), if_pos rfl,
      ih (fun z hz => h z (List.mem_cons_of_mem y hz))]
    rfl

/-- The sort reverses a sequence in which every item is ordered before every earlier one. -/
theorem stable_sort_of_reversed {α : Type} (comp : α → α → Bool) (l : List α)
    (h : l.Pairwise (fun a b => comp b a = true)) : stable_sort comp l = l.reverse := by
  induction l with
  | nil => rfl
  | cons x xs ih =>
    rw [List.pairwise_cons] at h
    unfold stable_sort
    rw [ih h.2, List.reverse_cons]
    exact insertSorted_of_all_before comp x _ (fun y hy => h.1 y (List.mem_reverse.mp hy))

/-- The polygons of a coast are the polygons read at the indices 0, 1, ... -/
theorem coast_eq_map_range (s : CSimulation) (nCoast : Nat) :
    s.coast nCoast
      = (List.range (s.nGetNumPolygons nCoast)).map (fun i : Nat => s.pGetPolygon nCoast i) := by
  unfold CSimulation.nGetNumPolygons
  apply List.ext_getElem
  · simp
  · intro k h1 h2
    simp only [List.getElem_map, List.getElem_range]
    exact (pGetPolygon_natCast s nCoast k h1).symm

/-- The array item of a polygon of a line of down-coast polygons. -/
theorem nVPolyAndAdj_downLine (INT_NODATA : Int) (s : CSimulation) (nCoast : Nat)
    (h : downLine INT_NODATA s nCoast) (i : Nat) (hi : i < s.nGetNumPolygons nCoast) :
    nVPolyAndAdj (s.pGetPolygon nCoast i)
      = [(i : Int), 1,
          if (i : Int) + 1 < s.nGetNumPolygons nCoast then (i : Int) + 1 else INT_NODATA] := by
  obtain ⟨hDown, hId, hAdj⟩ := h i hi
  unfold nVPolyAndAdj
  rw [hDown, if_pos rfl, hId, hAdj]

/-- The array item of a polygon of a line of up-coast polygons. -/
theorem nVPolyAndAdj_upLine (INT_NODATA : Int) (s : CSimulation) (nCoast : Nat)
    (h : upLine INT_NODATA s nCoast) (i : Nat) (hi : i < s.nGetNumPolygons nCoast) :
    nVPolyAndAdj (s.pGetPolygon nCoast i)
      = [(i : Int), 0, if 0 < (i : Int) then (i : Int) - 1 else INT_NODATA] := by
  obtain ⟨hDown, hId, hAdj⟩ := h i hi
  unfold nVPolyAndAdj
  rw [hDown, if_neg (by simp), hId, hAdj]

/-- The coast IDs of the array items of a coast, in the order of the polygons. -/
theorem ids_nVVPolyAndAdjacent (s : CSimulation) (nCoast : Nat)
    (hId : ∀ i : Nat, i < s.nGetNumPolygons nCoast → (s.pGetPolygon nCoast i).nGetCoastID = i) :
    (nVVPolyAndAdjacent s nCoast).map (fun d => d.getD 0 0)
      = (List.range (s.nGetNumPolygons nCoast)).map Int.ofNat := by
  unfold nVVPolyAndAdjacent
  rw [coast_eq_map_range, List.map_map, List.map_map]
  apply List.map_congr_left
  intro i hi
  simp only [Function.comp_apply]
  rw [getD_nVPolyAndAdj, hId i (List.mem_range.mp hi)]
  rfl

/-- C35: a linear coast is processed in its natural order. With the grid-edge value below zero:
on a line of down-coast polygons (polygon `i` names polygon `i + 1`, the last one the grid edge)
the comparison of the array items of polygons `i` and `j` is true exactly when `i < j`, the
sorted sequence is the sequence of the array items as built, and the polygons are processed in
the order 0, 1, ..., n-1; on a line of up-coast polygons (polygon `i` names polygon `i - 1`,
polygon 0 the grid edge) the comparison is true exactly when `j < i`, the sorted sequence is the
reverse of the sequence as built, and the polygons are processed in the order n-1, ..., 1, 0. -/
theorem linear_coast_natural_order (INT_NODATA : Int) (s : CSimulation) (nCoast : Nat)
    (hND : INT_NODATA < 0) :
    (downLine INT_NODATA s nCoast →
      (∀ i j : Nat, i < s.nGetNumPolygons nCoast → j < s.nGetNumPolygons nCoast →
        bPolygonAndAdjCompare INT_NODATA (nVPolyAndAdj (s.pGetPolygon nCoast i))
          (nVPolyAndAdj (s.pGetPolygon nCoast j)) = some (decide (i < j)))
      ∧ sortedPolyAndAdjacent INT_NODATA s nCoast = nVVPolyAndAdjacent s nCoast
      ∧ (sortedPolyAndAdjacent INT_NODATA s nCoast).map (fun d => d.getD 0 0)
        = (List.range (s.nGetNumPolygons nCoast)).map Int.ofNat)
    ∧ (upLine INT_NODATA s nCoast →
      (∀ i j : Nat, i < s.nGetNumPolygons nCoast → j < s.nGetNumPolygons nCoast →
        bPolygonAndAdjCompare INT_NODATA (nVPolyAndAdj (s.pGetPolygon nCoast i))
          (nVPolyAndAdj (s.pGetPolygon nCoast j)) = some (decide (j < i)))
      ∧ sortedPolyAndAdjacent INT_NODATA s nCoast = (nVVPolyAndAdjacent s nCoast).reverse
      ∧ (sortedPolyAndAdjacent INT_NODATA s nCoast).map (fun d => d.getD 0 0)
        = ((List.range (s.nGetNumPolygons nCoast)).map Int.ofNat).reverse) := by
  constructor
  · intro hLine
    have hCmp : ∀ i j : Nat, i < s.nGetNumPolygons nCoast → j < s.nGetNumPolygons nCoast →
        bPolygonAndAdjCompare INT_NODATA (nVPolyAndAdj (s.pGetPolygon nCoast i))
          (nVPolyAndAdj (s.pGetPolygon nCoast j)) = some (decide (i < j)) := by
      intro i j hi hj
      rw [nVPolyAndAdj_downLine INT_NODATA s nCoast hLine i hi,
        nVPolyAndAdj_downLine INT_NODATA s nCoast hLine j hj,
        compare_downLine INT_NODATA (s.nGetNumPolygons nCoast) i j hND
          ⟨Int.ofNat_nonneg i, by exact_mod_cast hi⟩ ⟨Int.ofNat_nonneg j, by exact_mod_cast hj⟩]
      simp
    have hSorted : sortedPolyAndAdjacent INT_NODATA s nCoast = nVVPolyAndAdjacent s nCoast := by
      unfold sortedPolyAndAdjacent
      apply stable_sort_of_sorted
      unfold nVVPolyAndAdjacent
      rw [coast_eq_map_range, List.map_map, List.pairwise_map]
      refine List.Pairwise.imp_of_mem ?_ (List.pairwise_lt_range _)
      intro i j hi hj hlt
      simp only [Function.comp_apply]
      unfold compareBefore
      rw [hCmp j i (List.mem_range.mp hj) (List.mem_range.mp hi)]
      have : ¬ j < i := by omega
      simp [this]
    refine ⟨hCmp, hSorted, ?_⟩
    rw [hSorted]
    exact ids_nVVPolyAndAdjacent s nCoast (fun i hi => (hLine i hi).2.1)
  · intro hLine
    have hCmp : ∀ i j : Nat, i < s.nGetNumPolygons nCoast → j < s.nGetNumPolygons nCoast →
        bPolygonAndAdjCompare INT_NODATA (nVPolyAndAdj (s.pGetPolygon nCoast i))
          (nVPolyAndAdj (s.pGetPolygon nCoast j)) = some (decide (j < i)) := by
      intro i j hi hj
      rw [nVPolyAndAdj_upLine INT_NODATA s nCoast hLine i hi,
        nVPolyAndAdj_upLine INT_NODATA s nCoast hLine j hj,
        compare_upLine INT_NODATA (s.nGetNumPolygons nCoast) i j hND
          ⟨Int.ofNat_nonneg i, by exact_mod_cast hi⟩ ⟨Int.ofNat_nonneg j, by exact_mod_cast hj⟩]
      simp
    have hSorted : sortedPolyAndAdjacent INT_NODATA s nCoast
        = (nVVPolyAndAdjacent s nCoast).reverse := by
      unfold sortedPolyAndAdjacent
      apply stable_sort_of_reversed
      unfold nVVPolyAndAdjacent
      rw [coast_eq_map_range, List.map_map, List.pairwise_map]
      refine List.Pairwise.imp_of_mem ?_ (List.pairwise_lt_range _)
      intro i j hi hj hlt
      simp only [Function.comp_apply]
      unfold compareBefore
      rw [hCmp j i (List.mem_range.mp hj) (List.mem_range.mp hi)]
      simp [hlt]
    refine ⟨hCmp, hSorted, ?_⟩
    rw [hSorted, List.map_reverse]
    exact congrArg List.reverse
      (ids_nVVPolyAndAdjacent s nCoast (fun i hi => (hLine i hi).2.1))

/-- On `lineSim`, a line of three down-coast polygons, the polygons are processed in the order
0, 1, 2; on `upCoastEdgeSim`, a line of two up-coast polygons, in the order 1, 0. -/
theorem linear_coast_natural_order_witness :
    ((-9999 : Int) < 0 ∧ downLine (-9999) lineSim 0
      ∧ upLine (-9999) (upCoastEdgeSim GridEdge.GRID_EDGE_OPEN) 0)
    ∧ (sortedPolyAndAdjacent (-9999) lineSim 0).map (fun d => d.getD 0 0)
        = (List.range (lineSim.nGetNumPolygons 0)).map Int.ofNat
    ∧ (sortedPolyAndAdjacent (-9999) (upCoastEdgeSim GridEdge.GRID_EDGE_OPEN) 0).map
        (fun d => d.getD 0 0)
        = ((List.range ((upCoastEdgeSim GridEdge.GRID_EDGE_OPEN).nGetNumPolygons 0)).map
          Int.ofNat).reverse
    ∧ (sortedPolyAndAdjacent (-9999) (upCoastEdgeSim GridEdge.GRID_EDGE_OPEN) 0).map
        (fun d => d.getD 0 0) = [1, 0] :=
  ⟨by decide,
    ((linear_coast_natural_order (-9999) lineSim 0 (by decide)).1 (by decide)).2.2,
    ((linear_coast_natural_order (-9999) (upCoastEdgeSim GridEdge.GRID_EDGE_OPEN) 0
      (by decide)).2 (by decide)).2.2,
    by decide⟩

/-- C32 (as stated) fails. The two polygons of `repeatSim` have the distinct coast IDs 0 and 1
and empty circularity lists, and polygon 1 names polygon 0 twice: the check for circularities
over the array items puts polygon 0 twice in the circularity list of polygon 1 and polygon 1
twice in the list of polygon 0. The only polygon of `selfSim` names itself, and the check puts
it twice in its own circularity list. -/
theorem circularity_partners_counterexample :
    ((nVVPolyAndAdjacent repeatSim 0 = [[0, 1, 1], [1, 1, 0, 0]]
        ∧ ∀ p ∈ repeatSim.coast 0, p.VnGetCircularities = [])
      ∧ ((circularityWalk 0 (nVVPolyAndAdjacent repeatSim 0) [] repeatSim).pGetPolygon 0
          1).VnGetCircularities = [0, 0]
      ∧ ((circularityWalk 0 (nVVPolyAndAdjacent repeatSim 0) [] repeatSim).pGetPolygon 0
          0).VnGetCircularities = [1, 1]
      ∧ ¬ ((circularityWalk 0 (nVVPolyAndAdjacent repeatSim 0) [] repeatSim).pGetPolygon 0
          1).VnGetCircularities.Nodup)
    ∧ ((nVVPolyAndAdjacent selfSim 0 = [[0, 1, 0]]
        ∧ ∀ p ∈ selfSim.coast 0, p.VnGetCircularities = [])
      ∧ ((circularityWalk 0 (nVVPolyAndAdjacent selfSim 0) [] selfSim).pGetPolygon 0
          0).VnGetCircularities = [0, 0]) := by
  decide

/-- An array item whose first entry is the given polygon. -/
theorem item_of_head (d : List Int) (x : Int) (h : d.head? = some x) :
    ∃ items, d = x :: items := by
  cases d with
  | nil => exact Option.noConfusion h
  | cons y ys => exact ⟨ys, by rw [Option.some.inj h]⟩

/-- In a sequence of array items with distinct polygons none of which is among the source
polygons yet, and in which no item names a polygon twice, the circularities found between a
source polygon `nP` and any polygon `nV` are at most one. -/
theorem count_circularityPairs_source_le_one (nP nV : Int) (l : List (List Int))
    (VnSourcePolygons : List Int) (hIds : (l.map (fun d => d.getD 0 0)).Nodup)
    (hAdj : ∀ d ∈ l, (d.drop 2).Nodup)
    (hP : nP ∈ VnSourcePolygons) (hFresh : ∀ d ∈ l, d.getD 0 0 ∉ VnSourcePolygons) :
    (circularityPairs l VnSourcePolygons).count (nP, nV)
      + (circularityPairs l VnSourcePolygons).count (nV, nP) ≤ 1 := by
  have h0 : (circularityPairs l VnSourcePolygons).count (nP, nV) = 0 := by
    apply count_circularityPairs_of_absent
    intro d hd hhead
    obtain ⟨items, rfl⟩ := item_of_head d nP hhead
    exact hFresh _ hd hP
  rw [h0, Nat.zero_add]
  by_cases hEx : ∃ items, (nV :: items) ∈ l
  · obtain ⟨items, hd⟩ := hEx
    rw [count_circularityPairs_of_source nV nP items l VnSourcePolygons hIds hd hP]
    exact List.nodup_iff_count_le_one.mp (hAdj _ hd) nP
  · rw [count_circularityPairs_of_absent nV nP l VnSourcePolygons (fun d hd hhead => by
      obtain ⟨items, rfl⟩ := item_of_head d nV hhead
      exact hEx ⟨items, hd⟩)]
    exact Nat.zero_le 1

/-- The circularities found for an array item which does not name its own polygon, with a
polygon which is not among the source polygons: none. -/
theorem count_found_of_fresh (src adjs : List Int) (x nA nB : Int)
    (hSelf : x ∉ adjs) (hB : nB ∉ src) :
    (((adjs.filter (src ++ [x]).contains).map (fun nAdj => (x, nAdj))).count (nA, nB)) = 0 := by
  apply List.count_eq_zero_of_not_mem
  intro hmem
  obtain ⟨a, ha, hpair⟩ := List.mem_map.mp hmem
  obtain ⟨haAdj, haSrc⟩ := List.mem_filter.mp ha
  have hab : a = nB := (Prod.mk.inj hpair).2
  subst hab
  rw [List.contains_iff_exists_mem_beq] at haSrc
  obtain ⟨b, hb, hbeq⟩ := haSrc
  have : a = b := by simpa using hbeq
  subst this
  rcases List.mem_append.mp hb with h | h
  · exact hB h
  · rw [List.mem_singleton] at h
    subst h
    exact hSelf haAdj

/-- In a sequence of array items with distinct polygons, none of them among the source polygons
yet, in which no item names a polygon twice or names its own polygon, the circularities found
between two polygons which are not among the source polygons are at most one. -/
theorem count_circularityPairs_le_one (nP nV : Int) (l : List (List Int))
    (VnSourcePolygons : List Int) (hIds : (l.map (fun d => d.getD 0 0)).Nodup)
    (hAdj : ∀ d ∈ l, (d.drop 2).Nodup ∧ d.getD 0 0 ∉ d.drop 2)
    (hFresh : ∀ d ∈ l, d.getD 0 0 ∉ VnSourcePolygons)
    (hPSource : nP ∉ VnSourcePolygons) (hVSource : nV ∉ VnSourcePolygons) :
    (circularityPairs l VnSourcePolygons).count (nP, nV)
      + (circularityPairs l VnSourcePolygons).count (nV, nP) ≤ 1 := by
  induction l generalizing VnSourcePolygons with
  | nil => simp [circularityPairs]
  | cons e rest ih =>
    rw [List.map_cons, List.nodup_cons] at hIds
    obtain ⟨hNotIn, hRest⟩ := hIds
    have hAdjRest : ∀ d ∈ rest, (d.drop 2).Nodup ∧ d.getD 0 0 ∉ d.drop 2 :=
      fun d hd => hAdj d (List.mem_cons_of_mem _ hd)
    have hFreshRest : ∀ d ∈ rest, d.getD 0 0 ∉ VnSourcePolygons :=
      fun d hd => hFresh d (List.mem_cons_of_mem _ hd)
    cases e with
    | nil =>
      unfold circularityPairs
      exact ih _ hRest hAdjRest hFreshRest hPSource hVSource
    | cons x items =>
      have hSelf : x ∉ items.drop 1 := (hAdj _ (List.mem_cons_self _ _)).2
      have hFresh2 : ∀ d ∈ rest, d.getD 0 0 ∉ VnSourcePolygons ++ [x] := by
        intro d hd hmem
        rcases List.mem_append.mp hmem with h | h
        · exact hFreshRest d hd h
        · rw [List.mem_singleton] at h
          exact hNotIn (List.mem_map.mpr ⟨d, hd, h⟩)
      unfold circularityPairs
      rw [List.count_append, List.count_append,
        count_found_of_fresh VnSourcePolygons (items.drop 1) x nP nV hSelf hVSource,
        count_found_of_fresh VnSourcePolygons (items.drop 1) x nV nP hSelf hPSource,
        Nat.zero_add, Nat.zero_add]
      by_cases hxP : x = nP
      · exact count_circularityPairs_source_le_one nP nV rest _ hRest
          (fun d hd => (hAdjRest d hd).1) (by rw [hxP]; simp) hFresh2
      · by_cases hxV : x = nV
        · rw [Nat.add_comm]
          exact count_circularityPairs_source_le_one nV nP rest _ hRest
            (fun d hd => (hAdjRest d hd).1) (by rw [hxV]; simp) hFresh2
        · apply ih _ hRest hAdjRest hFresh2
          · intro hmem
            rcases List.mem_append.mp hmem with h | h
            · exact hPSource h
            · rw [List.mem_singleton] at h
              exact hxP h.symm
          · intro hmem
            rcases List.mem_append.mp hmem with h | h
            · exact hVSource h
            · rw [List.mem_singleton] at h
              exact hxV h.symm

/-- C32 (amended). Starting from a simulation in which every circularity list is empty, after
the check for circularities over a sequence of array items with distinct polygons in which no
item names a polygon twice or names its own polygon, the circularity list of a polygon of the
coast contains no polygon more than once. -/
theorem circularity_partners_nodup (s : CSimulation) (nCoast : Nat) (l : List (List Int))
    (nPoly : Int) (hIds : (l.map (fun d => d.getD 0 0)).Nodup)
    (hAdj : ∀ d ∈ l, (d.drop 2).Nodup ∧ d.getD 0 0 ∉ d.drop 2)
    (hEmpty : ∀ n : Int, (s.pGetPolygon nCoast n).VnGetCircularities = [])
    (hPoly : s.hasPolygon nCoast nPoly) :
    ((circularityWalk nCoast l [] s).pGetPolygon nCoast nPoly).VnGetCircularities.Nodup := by
  rw [List.nodup_iff_count_le_one]
  intro nV
  have h := countCircularity_circularityWalk nCoast nPoly nV l [] s hPoly
  unfold countCircularity at h
  rw [h, hEmpty nPoly]
  simp only [List.count_nil, Nat.zero_add]
  exact count_circularityPairs_le_one nPoly nV l [] hIds hAdj
    (fun _ _ => List.not_mem_nil _) (List.not_mem_nil _) (List.not_mem_nil _)

/-- On `mutualSim`, whose polygons 0 and 1 name each other once, the circularity list of polygon
0 after the check is `[1]`. -/
theorem circularity_partners_nodup_witness :
    (((nVVPolyAndAdjacent mutualSim 0).map (fun d => d.getD 0 0)).Nodup
      ∧ (∀ d ∈ nVVPolyAndAdjacent mutualSim 0, (d.drop 2).Nodup ∧ d.getD 0 0 ∉ d.drop 2)
      ∧ (∀ p ∈ mutualSim.coast 0, p.VnGetCircularities = [])
      ∧ mutualSim.hasPolygon 0 0)
    ∧ ((circularityWalk 0 (nVVPolyAndAdjacent mutualSim 0) [] mutualSim).pGetPolygon 0
        0).VnGetCircularities = [1]
    ∧ ((circularityWalk 0 (nVVPolyAndAdjacent mutualSim 0) [] mutualSim).pGetPolygon 0
        0).VnGetCircularities.Nodup :=
  ⟨by decide, by decide,
    circularity_partners_nodup mutualSim 0 (nVVPolyAndAdjacent mutualSim 0) 0 (by decide)
      (by decide) (fun n => by
        unfold CSimulation.pGetPolygon
        split
        · have hall : ∀ p ∈ mutualSim.coast 0, p.VnGetCircularities = [] := by decide
          rw [List.getD_eq_getElem?_getD]
          cases h : (mutualSim.coast 0)[n.toNat]? with
          | none => rfl
          | some p => exact hall p (List.getElem?_mem h)
        · rfl) (by decide)⟩

/-- A step which keeps the total and the depth of every polygon keeps them in step. -/
theorem LedgerKept.of_view (get : CGeomCoastPolygon → ℚ) (tot : CSimulation → ℚ) (nCoast : Nat)
    (nPoly : Int) (t u : CSimulation)
    (h : (tot u, (u.coast nCoast).map get) = (tot t, (t.coast nCoast).map get)) :
    LedgerKept get tot nCoast nPoly t u := by
  obtain ⟨h1, h2⟩ := Prod.mk.inj h
  refine ⟨by rw [h1, h2], fun m _ => pGetPolygon_congr get t u nCoast h2 m⟩

/-- Two steps on the same polygon which keep the total in step, one after the other. -/
theorem LedgerKept.andThen {get : CGeomCoastPolygon → ℚ} {tot : CSimulation → ℚ} {nCoast : Nat}
    {nPoly : Int} {t u v : CSimulation} (h1 : LedgerKept get tot nCoast nPoly t u)
    (h2 : LedgerKept get tot nCoast nPoly u v) : LedgerKept get tot nCoast nPoly t v :=
  ⟨h2.1.trans h1.1, fun m hm => (h2.2 m hm).trans (h1.2 m hm)⟩

/-- An index which is not that of a polygon of the coast reads the default polygon. -/
theorem pGetPolygon_of_not_hasPolygon (s : CSimulation) (nCoast : Nat) (nPoly : Int)
    (h : ¬ s.hasPolygon nCoast nPoly) : s.pGetPolygon nCoast nPoly = emptyPolygon := by
  unfold CSimulation.pGetPolygon
  split
  · rename_i h0
    have hge : (s.coast nCoast).length ≤ nPoly.toNat := by
      unfold CSimulation.hasPolygon CSimulation.nGetNumPolygons at h
      omega
    rw [List.getD_eq_getElem?_getD, List.getElem?_eq_none hge]
    rfl
  · rfl

/-- The sum of a depth over the polygons of a coast after a change to one polygon. -/
theorem sum_map_updPolygon (get : CGeomCoastPolygon → ℚ) (s : CSimulation) (nCoast : Nat)
    (nPoly : Int) (f : CGeomCoastPolygon → CGeomCoastPolygon) (h : s.hasPolygon nCoast nPoly) :
    (((s.updPolygon nCoast nPoly f).coast nCoast).map get).sum
      = ((s.coast nCoast).map get).sum
        + (get (f (s.pGetPolygon nCoast nPoly)) - get (s.pGetPolygon nCoast nPoly)) := by
  obtain ⟨h0, h1⟩ := h
  have hlt : nPoly.toNat < (s.coast nCoast).length := by
    unfold CSimulation.nGetNumPolygons at h1
    omega
  unfold CSimulation.pGetPolygon
  rw [coast_updPolygon]
  simp only [h0, if_true]
  exact sum_map_modify _ f _ _ hlt

/-- A total and a depth of one polygon of the coast written together, the depth having been
zero: the total grows by what the depth falls. -/
theorem LedgerKept.of_write (get : CGeomCoastPolygon → ℚ) (tot : CSimulation → ℚ) (nCoast : Nat)
    (nPoly : Int) (t u : CSimulation) (f : CGeomCoastPolygon → CGeomCoastPolygon) (r : ℚ)
    (hTot : tot (u.updPolygon nCoast nPoly f) = tot t + r)
    (hCoast : u.coast nCoast = t.coast nCoast)
    (hGet : ∀ p, get (f p) = -r) (hZero : get (t.pGetPolygon nCoast nPoly) = 0)
    (hHas : t.hasPolygon nCoast nPoly) :
    LedgerKept get tot nCoast nPoly t (u.updPolygon nCoast nPoly f) := by
  have hP : u.pGetPolygon nCoast nPoly = t.pGetPolygon nCoast nPoly := by
    unfold CSimulation.pGetPolygon
    rw [hCoast]
  have hHasU : u.hasPolygon nCoast nPoly := by
    unfold CSimulation.hasPolygon CSimulation.nGetNumPolygons at hHas ⊢
    rw [hCoast]
    exact hHas
  constructor
  · rw [hTot, sum_map_updPolygon get u nCoast nPoly f hHasU, hGet, hP, hZero, hCoast]
    ring
  · intro m hm
    rw [pGetPolygon_updPolygon_ne u nCoast nPoly m f (Ne.symm hm)]
    unfold CSimulation.pGetPolygon
    rw [hCoast]

/-- A polygon which stores fine sediment is a polygon of the coast. -/
theorem hasPolygon_of_storedFine (s : CSimulation) (nCoast : Nat) (nPoly : Int)
    (h : 0 < (s.pGetPolygon nCoast nPoly).dGetStoredUnconsFine) : s.hasPolygon nCoast nPoly := by
  by_contra hn
  rw [pGetPolygon_of_not_hasPolygon s nCoast nPoly hn] at h
  exact absurd h (by decide)

/-- A polygon which stores sand is a polygon of the coast. -/
theorem hasPolygon_of_storedSand (s : CSimulation) (nCoast : Nat) (nPoly : Int)
    (h : 0 < (s.pGetPolygon nCoast nPoly).dGetStoredUnconsSand) : s.hasPolygon nCoast nPoly := by
  by_contra hn
  rw [pGetPolygon_of_not_hasPolygon s nCoast nPoly hn] at h
  exact absurd h (by decide)

/-- A polygon which stores coarse sediment is a polygon of the coast. -/
theorem hasPolygon_of_storedCoarse (s : CSimulation) (nCoast : Nat) (nPoly : Int)
    (h : 0 < (s.pGetPolygon nCoast nPoly).dGetStoredUnconsCoarse) :
    s.hasPolygon nCoast nPoly := by
  by_contra hn
  rw [pGetPolygon_of_not_hasPolygon s nCoast nPoly hn] at h
  exact absurd h (by decide)

/-- The erosion of fine sediment keeps the fine erosion total in step with the fine erosion of
the polygons, when the fine erosion of the polygon was zero. -/
theorem erodeFine_kept (RTN_OK : Int) (ext : Collaborator) (s : CSimulation) (nCoast : Nat)
    (nPoly : Int) (dPotentialErosion : ℚ)
    (hZero : (s.pGetPolygon nCoast nPoly).dGetErosionUnconsFine = 0) :
    LedgerKept CGeomCoastPolygon.dGetErosionUnconsFine (fun t => t.m_dThisIterBeachErosionFine)
      nCoast nPoly s (erodeFine RTN_OK ext s nCoast nPoly dPotentialErosion).2 := by
  by_cases hStored : 0 < (s.pGetPolygon nCoast nPoly).dGetStoredUnconsFine
  · rw [erodeFine_of_stored RTN_OK ext s nCoast nPoly dPotentialErosion hStored]
    split
    · exact LedgerKept.of_view _ _ nCoast nPoly s _ rfl
    · split
      · exact LedgerKept.of_write _ _ nCoast nPoly s _ _ _ (by simp) rfl (fun _ => rfl) hZero
          (hasPolygon_of_storedFine s nCoast nPoly hStored)
      · exact LedgerKept.of_view _ _ nCoast nPoly s _ rfl
  · rw [erodeFine_skip RTN_OK ext s nCoast nPoly dPotentialErosion (not_lt.mp hStored)]
    exact LedgerKept.of_view _ _ nCoast nPoly s _ rfl

/-- The erosion of sand keeps the sand erosion total in step with the sand erosion of the
polygons, when the sand erosion of the polygon was zero. -/
theorem erodeSand_kept (RTN_OK : Int) (ext : Collaborator) (s : CSimulation) (nCoast : Nat)
    (nPoly : Int) (dPotentialErosion : ℚ)
    (hZero : (s.pGetPolygon nCoast nPoly).dGetErosionUnconsSand = 0) :
    LedgerKept CGeomCoastPolygon.dGetErosionUnconsSand (fun t => t.m_dThisIterBeachErosionSand)
      nCoast nPoly s (erodeSand RTN_OK ext s nCoast nPoly dPotentialErosion).2.2 := by
  by_cases hStored : 0 < (s.pGetPolygon nCoast nPoly).dGetStoredUnconsSand
  · rw [erodeSand_of_stored RTN_OK ext s nCoast nPoly dPotentialErosion hStored]
    split
    · exact LedgerKept.of_view _ _ nCoast nPoly s _ rfl
    · split
      · exact LedgerKept.of_write _ _ nCoast nPoly s _ _ _ (by simp) rfl (fun _ => rfl) hZero
          (hasPolygon_of_storedSand s nCoast nPoly hStored)
      · exact LedgerKept.of_view _ _ nCoast nPoly s _ rfl
  · rw [erodeSand_skip RTN_OK ext s nCoast nPoly dPotentialErosion (not_lt.mp hStored)]
    exact LedgerKept.of_view _ _ nCoast nPoly s _ rfl

/-- The erosion of coarse sediment keeps the coarse erosion total in step with the coarse
erosion of the polygons, when the coarse erosion of the polygon was zero. -/
theorem erodeCoarse_kept (RTN_OK : Int) (ext : Collaborator) (s : CSimulation) (nCoast : Nat)
    (nPoly : Int) (dPotentialErosion : ℚ)
    (hZero : (s.pGetPolygon nCoast nPoly).dGetErosionUnconsCoarse = 0) :
    LedgerKept CGeomCoastPolygon.dGetErosionUnconsCoarse
      (fun t => t.m_dThisIterBeachErosionCoarse)
      nCoast nPoly s (erodeCoarse RTN_OK ext s nCoast nPoly dPotentialErosion).2.2 := by
  by_cases hStored : 0 < (s.pGetPolygon nCoast nPoly).dGetStoredUnconsCoarse
  · rw [erodeCoarse_of_stored RTN_OK ext s nCoast nPoly dPotentialErosion hStored]
    split
    · exact LedgerKept.of_view _ _ nCoast nPoly s _ rfl
    · split
      · exact LedgerKept.of_write _ _ nCoast nPoly s _ _ _ (by simp) rfl (fun _ => rfl) hZero
          (hasPolygon_of_storedCoarse s nCoast nPoly hStored)
      · exact LedgerKept.of_view _ _ nCoast nPoly s _ rfl
  · rw [erodeCoarse_skip RTN_OK ext s nCoast nPoly dPotentialErosion (not_lt.mp hStored)]
    exact LedgerKept.of_view _ _ nCoast nPoly s _ rfl

/-- The simulation left by the erosion and export of a polygon is the one left by the erosion of
fine sediment, or of sand after it, or of coarse sediment after these, or by the export after
the three. -/
theorem erodeAndExport_cases (INT_NODATA RTN_OK : Int) (ext : Collaborator) (s : CSimulation)
    (nCoast : Nat) (nNumPolygons nPoly : Int) (dPotentialErosion : ℚ) :
    (erodeAndExport INT_NODATA RTN_OK ext s nCoast nNumPolygons nPoly dPotentialErosion).2
        = (erodeFine RTN_OK ext s nCoast nPoly dPotentialErosion).2
    ∨ (erodeAndExport INT_NODATA RTN_OK ext s nCoast nNumPolygons nPoly dPotentialErosion).2
        = (erodeSand RTN_OK ext (erodeFine RTN_OK ext s nCoast nPoly dPotentialErosion).2 nCoast
            nPoly dPotentialErosion).2.2
    ∨ (erodeAndExport INT_NODATA RTN_OK ext s nCoast nNumPolygons nPoly dPotentialErosion).2
        = (erodeCoarse RTN_OK ext
            (erodeSand RTN_OK ext (erodeFine RTN_OK ext s nCoast nPoly dPotentialErosion).2
              nCoast nPoly dPotentialErosion).2.2 nCoast nPoly dPotentialErosion).2.2
    ∨ ∃ dSandEroded dCoarseEroded : ℚ,
      (erodeAndExport INT_NODATA RTN_OK ext s nCoast nNumPolygons nPoly dPotentialErosion).2
        = exportSediment INT_NODATA
            (erodeCoarse RTN_OK ext
              (erodeSand RTN_OK ext (erodeFine RTN_OK ext s nCoast nPoly dPotentialErosion).2
                nCoast nPoly dPotentialErosion).2.2 nCoast nPoly dPotentialErosion).2.2
            nCoast nNumPolygons nPoly dSandEroded dCoarseEroded := by
  unfold erodeAndExport
  cases h1 : erodeFine RTN_OK ext s nCoast nPoly dPotentialErosion with
  | mk r1 s1 =>
  cases r1 with
  | some nRet => exact Or.inl rfl
  | none =>
  simp only
  cases h2 : erodeSand RTN_OK ext s1 nCoast nPoly dPotentialErosion with
  | mk r2 ds2 =>
  obtain ⟨dSand, s2⟩ := ds2
  cases r2 with
  | some nRet => exact Or.inr (Or.inl rfl)
  | none =>
  simp only
  cases h3 : erodeCoarse RTN_OK ext s2 nCoast nPoly dPotentialErosion with
  | mk r3 ds3 =>
  obtain ⟨dCoarse, s3⟩ := ds3
  cases r3 with
  | some nRet => exact Or.inr (Or.inr (Or.inl rfl))
  | none =>
  simp only
  split
  · exact Or.inr (Or.inr (Or.inr ⟨dSand, dCoarse, rfl⟩))
  · exact Or.inr (Or.inr (Or.inl rfl))

/-- A change to one polygon which keeps a depth of the polygon and a total of the simulation
keeps the total and the depths of all polygons. -/
theorem ledgerView_updPolygon (get : CGeomCoastPolygon → ℚ) (tot : CSimulation → ℚ)
    (nCoast : Nat) (t : CSimulation) (j : Int) (f : CGeomCoastPolygon → CGeomCoastPolygon)
    (hTot : tot (t.updPolygon nCoast j f) = tot t) (hf : ∀ p, get (f p) = get p) :
    (tot (t.updPolygon nCoast j f), ((t.updPolygon nCoast j f).coast nCoast).map get)
      = (tot t, (t.coast nCoast).map get) := by
  rw [hTot, coast_updPolygon_map get t nCoast j f hf]

/-- The erosion and export of a polygon keeps the fine erosion total in step with the fine
erosion of the polygons, when that of the polygon was zero. -/
theorem erodeAndExport_keptFine (INT_NODATA RTN_OK : Int) (ext : Collaborator)
    (s : CSimulation) (nCoast : Nat) (nNumPolygons nPoly : Int) (dPotentialErosion : ℚ)
    (hZero : (s.pGetPolygon nCoast nPoly).dGetErosionUnconsFine = 0) :
    LedgerKept CGeomCoastPolygon.dGetErosionUnconsFine
      (fun t => t.m_dThisIterBeachErosionFine) nCoast nPoly s
      (erodeAndExport INT_NODATA RTN_OK ext s nCoast nNumPolygons nPoly dPotentialErosion).2 := by
  have a1 := erodeFine_kept RTN_OK ext s nCoast nPoly
    dPotentialErosion hZero
  have k1 := a1
  have v2 := erodeSand_preserves
      (fun t => (t.m_dThisIterBeachErosionFine,
        (t.coast nCoast).map CGeomCoastPolygon.dGetErosionUnconsFine))
      RTN_OK ext (erodeFine RTN_OK ext s nCoast nPoly dPotentialErosion).2 nCoast nPoly dPotentialErosion
      (fun t x => ledgerView_updPolygon CGeomCoastPolygon.dGetErosionUnconsFine
        (fun u => u.m_dThisIterBeachErosionFine) nCoast t nPoly _ (by simp) (fun _ => rfl))
      (fun _ _ _ => rfl)
  have a2 := LedgerKept.of_view CGeomCoastPolygon.dGetErosionUnconsFine
    (fun t => t.m_dThisIterBeachErosionFine) nCoast nPoly _ _ v2
  have k2 := k1.andThen a2
  have v3 := erodeCoarse_preserves
      (fun t => (t.m_dThisIterBeachErosionFine,
        (t.coast nCoast).map CGeomCoastPolygon.dGetErosionUnconsFine))
      RTN_OK ext (erodeSand RTN_OK ext
        (erodeFine RTN_OK ext s nCoast nPoly dPotentialErosion).2
        nCoast nPoly dPotentialErosion).2.2 nCoast nPoly dPotentialErosion
      (fun t x => ledgerView_updPolygon CGeomCoastPolygon.dGetErosionUnconsFine
        (fun u => u.m_dThisIterBeachErosionFine) nCoast t nPoly _ (by simp) (fun _ => rfl))
      (fun _ _ _ => rfl)
  have a3 := LedgerKept.of_view CGeomCoastPolygon.dGetErosionUnconsFine
    (fun t => t.m_dThisIterBeachErosionFine) nCoast nPoly _ _ v3
  have k3 := k2.andThen a3
  rcases erodeAndExport_cases INT_NODATA RTN_OK ext s nCoast nNumPolygons nPoly
    dPotentialErosion with h | h | h | ⟨a, b, h⟩
  · rw [h]
    exact k1
  · rw [h]
    exact k2
  · rw [h]
    exact k3
  · rw [h]
    exact k3.andThen (LedgerKept.of_view _ _ nCoast nPoly _ _
      (exportSediment_preserves
      (fun t => (t.m_dThisIterBeachErosionFine,
        (t.coast nCoast).map CGeomCoastPolygon.dGetErosionUnconsFine))
      INT_NODATA _ nCoast nNumPolygons nPoly a b
      (fun t j x => ledgerView_updPolygon CGeomCoastPolygon.dGetErosionUnconsFine
        (fun u => u.m_dThisIterBeachErosionFine) nCoast t j _ (by simp) (fun _ => rfl))
      (fun t j x => ledgerView_updPolygon CGeomCoastPolygon.dGetErosionUnconsFine
        (fun u => u.m_dThisIterBeachErosionFine) nCoast t j _ (by simp) (fun _ => rfl))
      (fun _ _ _ => rfl)))

/-- The erosion and export of a polygon keeps the sand erosion total in step with the sand
erosion of the polygons, when that of the polygon was zero. -/
theorem erodeAndExport_keptSand (INT_NODATA RTN_OK : Int) (ext : Collaborator)
    (s : CSimulation) (nCoast : Nat) (nNumPolygons nPoly : Int) (dPotentialErosion : ℚ)
    (hZero : (s.pGetPolygon nCoast nPoly).dGetErosionUnconsSand = 0) :
    LedgerKept CGeomCoastPolygon.dGetErosionUnconsSand
      (fun t => t.m_dThisIterBeachErosionSand) nCoast nPoly s
      (erodeAndExport INT_NODATA RTN_OK ext s nCoast nNumPolygons nPoly dPotentialErosion).2 := by
  have v1 := erodeFine_preserves
      (fun t => (t.m_dThisIterBeachErosionSand,
        (t.coast nCoast).map CGeomCoastPolygon.dGetErosionUnconsSand))
      RTN_OK ext s nCoast nPoly dPotentialErosion
      (fun t x => ledgerView_updPolygon CGeomCoastPolygon.dGetErosionUnconsSand
        (fun u => u.m_dThisIterBeachErosionSand) nCoast t nPoly _ (by simp) (fun _ => rfl))
      (fun _ _ => rfl)
  have z1 := (pGetPolygon_congr CGeomCoastPolygon.dGetErosionUnconsSand _ _ nCoast
    (Prod.mk.inj v1).2 nPoly).trans hZero
  have a1 := LedgerKept.of_view CGeomCoastPolygon.dGetErosionUnconsSand
    (fun t => t.m_dThisIterBeachErosionSand) nCoast nPoly _ _ v1
  have k1 := a1
  have a2 := erodeSand_kept RTN_OK ext (erodeFine RTN_OK ext s nCoast nPoly dPotentialErosion).2 nCoast nPoly
    dPotentialErosion z1
  have k2 := k1.andThen a2
  have v3 := erodeCoarse_preserves
      (fun t => (t.m_dThisIterBeachErosionSand,
        (t.coast nCoast).map CGeomCoastPolygon.dGetErosionUnconsSand))
      RTN_OK ext (erodeSand RTN_OK ext
        (erodeFine RTN_OK ext s nCoast nPoly dPotentialErosion).2
        nCoast nPoly dPotentialErosion).2.2 nCoast nPoly dPotentialErosion
      (fun t x => ledgerView_updPolygon CGeomCoastPolygon.dGetErosionUnconsSand
        (fun u => u.m_dThisIterBeachErosionSand) nCoast t nPoly _ (by simp) (fun _ => rfl))
      (fun _ _ _ => rfl)
  have a3 := LedgerKept.of_view CGeomCoastPolygon.dGetErosionUnconsSand
    (fun t => t.m_dThisIterBeachErosionSand) nCoast nPoly _ _ v3
  have k3 := k2.andThen a3
  rcases erodeAndExport_cases INT_NODATA RTN_OK ext s nCoast nNumPolygons nPoly
    dPotentialErosion with h | h | h | ⟨a, b, h⟩
  · rw [h]
    exact k1
  · rw [h]
    exact k2
  · rw [h]
    exact k3
  · rw [h]
    exact k3.andThen (LedgerKept.of_view _ _ nCoast nPoly _ _
      (exportSediment_preserves
      (fun t => (t.m_dThisIterBeachErosionSand,
        (t.coast nCoast).map CGeomCoastPolygon.dGetErosionUnconsSand))
      INT_NODATA _ nCoast nNumPolygons nPoly a b
      (fun t j x => ledgerView_updPolygon CGeomCoastPolygon.dGetErosionUnconsSand
        (fun u => u.m_dThisIterBeachErosionSand) nCoast t j _ (by simp) (fun _ => rfl))
      (fun t j x => ledgerView_updPolygon CGeomCoastPolygon.dGetErosionUnconsSand
        (fun u => u.m_dThisIterBeachErosionSand) nCoast t j _ (by simp) (fun _ => rfl))
      (fun _ _ _ => rfl)))

/-- The erosion and export of a polygon keeps the coarse erosion total in step with the coarse
erosion of the polygons, when that of the polygon was zero. -/
theorem erodeAndExport_keptCoarse (INT_NODATA RTN_OK : Int) (ext : Collaborator)
    (s : CSimulation) (nCoast : Nat) (nNumPolygons nPoly : Int) (dPotentialErosion : ℚ)
    (hZero : (s.pGetPolygon nCoast nPoly).dGetErosionUnconsCoarse = 0) :
    LedgerKept CGeomCoastPolygon.dGetErosionUnconsCoarse
      (fun t => t.m_dThisIterBeachErosionCoarse) nCoast nPoly s
      (erodeAndExport INT_NODATA RTN_OK ext s nCoast nNumPolygons nPoly dPotentialErosion).2 := by
  have v1 := erodeFine_preserves
      (fun t => (t.m_dThisIterBeachErosionCoarse,
        (t.coast nCoast).map CGeomCoastPolygon.dGetErosionUnconsCoarse))
      RTN_OK ext s nCoast nPoly dPotentialErosion
      (fun t x => ledgerView_updPolygon CGeomCoastPolygon.dGetErosionUnconsCoarse
        (fun u => u.m_dThisIterBeachErosionCoarse) nCoast t nPoly _ (by simp) (fun _ => rfl))
      (fun _ _ => rfl)
  have z1 := (pGetPolygon_congr CGeomCoastPolygon.dGetErosionUnconsCoarse _ _ nCoast
    (Prod.mk.inj v1).2 nPoly).trans hZero
  have a1 := LedgerKept.of_view CGeomCoastPolygon.dGetErosionUnconsCoarse
    (fun t => t.m_dThisIterBeachErosionCoarse) nCoast nPoly _ _ v1
  have k1 := a1
  have v2 := erodeSand_preserves
      (fun t => (t.m_dThisIterBeachErosionCoarse,
        (t.coast nCoast).map CGeomCoastPolygon.dGetErosionUnconsCoarse))
      RTN_OK ext (erodeFine RTN_OK ext s nCoast nPoly dPotentialErosion).2 nCoast nPoly dPotentialErosion
      (fun t x => ledgerView_updPolygon CGeomCoastPolygon.dGetErosionUnconsCoarse
        (fun u => u.m_dThisIterBeachErosionCoarse) nCoast t nPoly _ (by simp) (fun _ => rfl))
      (fun _ _ _ => rfl)
  have z2 := (pGetPolygon_congr CGeomCoastPolygon.dGetErosionUnconsCoarse _ _ nCoast
    (Prod.mk.inj v2).2 nPoly).trans z1
  have a2 := LedgerKept.of_view CGeomCoastPolygon.dGetErosionUnconsCoarse
    (fun t => t.m_dThisIterBeachErosionCoarse) nCoast nPoly _ _ v2
  have k2 := k1.andThen a2
  have a3 := erodeCoarse_kept RTN_OK ext (erodeSand RTN_OK ext
        (erodeFine RTN_OK ext s nCoast nPoly dPotentialErosion).2
        nCoast nPoly dPotentialErosion).2.2 nCoast nPoly
    dPotentialErosion z2
  have k3 := k2.andThen a3
  rcases erodeAndExport_cases INT_NODATA RTN_OK ext s nCoast nNumPolygons nPoly
    dPotentialErosion with h | h | h | ⟨a, b, h⟩
  · rw [h]
    exact k1
  · rw [h]
    exact k2
  · rw [h]
    exact k3
  · rw [h]
    exact k3.andThen (LedgerKept.of_view _ _ nCoast nPoly _ _
      (exportSediment_preserves
      (fun t => (t.m_dThisIterBeachErosionCoarse,
        (t.coast nCoast).map CGeomCoastPolygon.dGetErosionUnconsCoarse))
      INT_NODATA _ nCoast nNumPolygons nPoly a b
      (fun t j x => ledgerView_updPolygon CGeomCoastPolygon.dGetErosionUnconsCoarse
        (fun u => u.m_dThisIterBeachErosionCoarse) nCoast t j _ (by simp) (fun _ => rfl))
      (fun t j x => ledgerView_updPolygon CGeomCoastPolygon.dGetErosionUnconsCoarse
        (fun u => u.m_dThisIterBeachErosionCoarse) nCoast t j _ (by simp) (fun _ => rfl))
      (fun _ _ _ => rfl)))

/-- A depth which is zero on every polygon of a coast and on the default polygon is zero at
every index. -/
theorem pGetPolygon_zero (get : CGeomCoastPolygon → ℚ) (s : CSimulation) (nCoast : Nat)
    (hAll : ∀ p ∈ s.coast nCoast, get p = 0) (hEmpty : get emptyPolygon = 0) (nPoly : Int) :
    get (s.pGetPolygon nCoast nPoly) = 0 := by
  by_cases h : s.hasPolygon nCoast nPoly
  · obtain ⟨h0, h1⟩ := h
    have hlt : nPoly.toNat < (s.coast nCoast).length := by
      unfold CSimulation.nGetNumPolygons at h1
      omega
    unfold CSimulation.pGetPolygon
    simp only [h0, if_true]
    rw [List.getD_eq_getElem?_getD, List.getElem?_eq_getElem hlt]
    exact hAll _ (List.getElem_mem hlt)
  · rw [pGetPolygon_of_not_hasPolygon s nCoast nPoly h]
    exact hEmpty

/-- The processing of one polygon keeps an erosion total in step with the erosion of the
polygons when its erosion and export does, and the deposition writes neither. -/
theorem doPolygon_kept (get : CGeomCoastPolygon → ℚ) (tot : CSimulation → ℚ)
    (INT_NODATA RTN_OK : Int) (ext : Collaborator) (s : CSimulation) (nCoast : Nat)
    (nNumPolygons nPoly : Int)
    (hDep : ∀ (t : CSimulation) l x y, tot { t with
      placementLog := l
      m_dThisIterDepositionSandDiff := x
      m_dThisIterDepositionCoarseDiff := y } = tot t)
    (hErode : ∀ (t : CSimulation) (d : ℚ), get (t.pGetPolygon nCoast nPoly) = 0 →
      LedgerKept get tot nCoast nPoly t
        (erodeAndExport INT_NODATA RTN_OK ext t nCoast nNumPolygons nPoly d).2)
    (hZero : get (s.pGetPolygon nCoast nPoly) = 0) :
    LedgerKept get tot nCoast nPoly s
      (doPolygon INT_NODATA RTN_OK ext s nCoast nNumPolygons nPoly).2 := by
  have v := depositCoarseAndSand_preserves (fun t => (tot t, (t.coast nCoast).map get))
    RTN_OK ext s nCoast nPoly (fun t l x y => Prod.ext (hDep t l x y) rfl)
  have z := (pGetPolygon_congr get _ _ nCoast (Prod.mk.inj v).2 nPoly).trans hZero
  have k := LedgerKept.of_view get tot nCoast nPoly _ _ v
  unfold doPolygon
  cases h1 : depositCoarseAndSand RTN_OK ext s nCoast nPoly with
  | mk r1 s2 =>
  rw [h1] at k z
  cases r1 with
  | some nRet => exact k
  | none =>
    simp only
    split
    · exact k.andThen (hErode s2 _ z)
    · exact k

/-- The loop over the sorted polygons keeps an erosion total in step with the erosion of the
polygons, when no polygon is processed twice and the erosion of every polygon processed was
zero. -/
theorem doAllPolygons_kept (get : CGeomCoastPolygon → ℚ) (tot : CSimulation → ℚ)
    (INT_NODATA RTN_OK : Int) (ext : Collaborator) (nCoast : Nat) (nNumPolygons : Int)
    (hStep : ∀ (t : CSimulation) (nPoly : Int), get (t.pGetPolygon nCoast nPoly) = 0 →
      LedgerKept get tot nCoast nPoly t
        (doPolygon INT_NODATA RTN_OK ext t nCoast nNumPolygons nPoly).2)
    (l : List (List Int)) (s : CSimulation)
    (hNodup : (l.map (fun d => d.getD 0 0)).Nodup)
    (hZero : ∀ d ∈ l, get (s.pGetPolygon nCoast (d.getD 0 0)) = 0) :
    tot (doAllPolygons INT_NODATA RTN_OK ext nCoast nNumPolygons l s).2
        + (((doAllPolygons INT_NODATA RTN_OK ext nCoast nNumPolygons l s).2.coast nCoast).map
            get).sum
      = tot s + ((s.coast nCoast).map get).sum := by
  induction l generalizing s with
  | nil => rfl
  | cons nVPoly rest ih =>
    have k := hStep s (nVPoly.getD 0 0) (hZero nVPoly (List.mem_cons_self _ _))
    rw [List.map_cons, List.nodup_cons] at hNodup
    unfold doAllPolygons
    cases h1 : doPolygon INT_NODATA RTN_OK ext s nCoast nNumPolygons (nVPoly.getD 0 0) with
    | mk r1 s1 =>
    rw [h1] at k
    cases r1 with
    | some nRet => exact k.1
    | none =>
      simp only
      rw [ih s1 hNodup.2 ?_]
      · exact k.1
      · intro d hd
        have hne : d.getD 0 0 ≠ nVPoly.getD 0 0 := by
          intro he
          exact hNodup.1 (he ▸ List.mem_map_of_mem (fun d => d.getD 0 0) hd)
        rw [k.2 _ hne]
        exact hZero d (List.mem_cons_of_mem _ hd)

/-- The processing of one coast keeps an erosion total in step with the erosion of the
polygons, when the coast IDs of the polygons are distinct and the erosion of every polygon was
zero. -/
theorem doCoast_kept (get : CGeomCoastPolygon → ℚ) (tot : CSimulation → ℚ)
    (INT_NODATA RTN_OK : Int) (ext : Collaborator) (s : CSimulation) (nCoast : Nat)
    (hUpd : ∀ (t : CSimulation) (i : Int) (f : CGeomCoastPolygon → CGeomCoastPolygon),
      tot (t.updPolygon nCoast i f) = tot t)
    (hSand : ∀ p x, get (CGeomCoastPolygon.SetStoredUnconsSand p x) = get p)
    (hCoarse : ∀ p x, get (CGeomCoastPolygon.SetStoredUnconsCoarse p x) = get p)
    (hCirc : ∀ p x, get (CGeomCoastPolygon.AddCircularity p x) = get p)
    (hStep : ∀ (t : CSimulation) (nNumPolygons nPoly : Int),
      get (t.pGetPolygon nCoast nPoly) = 0 →
      LedgerKept get tot nCoast nPoly t
        (doPolygon INT_NODATA RTN_OK ext t nCoast nNumPolygons nPoly).2)
    (hEmpty : get emptyPolygon = 0)
    (hIds : ((s.coast nCoast).map CGeomCoastPolygon.nGetCoastID).Nodup)
    (hZero : ∀ p ∈ s.coast nCoast, get p = 0) :
    tot (doCoast INT_NODATA RTN_OK ext s nCoast).2
      = tot s - (((doCoast INT_NODATA RTN_OK ext s nCoast).2.coast nCoast).map get).sum := by
  have a := AllPolygonsUpdateStoredUncons_preserves
    (fun t => (tot t, (t.coast nCoast).map get)) s nCoast
    (fun t i x => ledgerView_updPolygon get tot nCoast t i _ (hUpd t i _) (fun p => hSand p x))
    (fun t i x => ledgerView_updPolygon get tot nCoast t i _ (hUpd t i _)
      (fun p => hCoarse p x))
  have c := circularityWalk_preserves (fun t => (tot t, (t.coast nCoast).map get)) nCoast
    (fun t i x => ledgerView_updPolygon get tot nCoast t i _ (hUpd t i _) (fun p => hCirc p x))
    (sortedPolyAndAdjacent INT_NODATA (AllPolygonsUpdateStoredUncons s nCoast) nCoast) []
    (AllPolygonsUpdateStoredUncons s nCoast)
  have v := c.trans a
  obtain ⟨v1, v2⟩ := Prod.mk.inj v
  have hZeroMap : (s.coast nCoast).map get = (s.coast nCoast).map (fun _ => (0 : ℚ)) :=
    List.map_congr_left hZero
  have hZero2 : ∀ p ∈ (circularityWalk nCoast
      (sortedPolyAndAdjacent INT_NODATA (AllPolygonsUpdateStoredUncons s nCoast) nCoast) []
      (AllPolygonsUpdateStoredUncons s nCoast)).coast nCoast, get p = 0 := by
    intro p hp
    have hm : get p ∈ (s.coast nCoast).map get := by
      rw [← v2]
      exact List.mem_map_of_mem get hp
    obtain ⟨q, hq, he⟩ := List.mem_map.mp hm
    rw [← he]
    exact hZero q hq
  have hSum : ((s.coast nCoast).map get).sum = 0 := by
    rw [hZeroMap]
    simp
  have k := doAllPolygons_kept get tot INT_NODATA RTN_OK ext nCoast
    ((circularityWalk nCoast
      (sortedPolyAndAdjacent INT_NODATA (AllPolygonsUpdateStoredUncons s nCoast) nCoast) []
      (AllPolygonsUpdateStoredUncons s nCoast)).nGetNumPolygons nCoast)
    (fun t nPoly h => hStep t _ nPoly h)
    (sortedPolyAndAdjacent INT_NODATA (AllPolygonsUpdateStoredUncons s nCoast) nCoast)
    (circularityWalk nCoast
      (sortedPolyAndAdjacent INT_NODATA (AllPolygonsUpdateStoredUncons s nCoast) nCoast) []
      (AllPolygonsUpdateStoredUncons s nCoast))
    ((processed_perm_ids INT_NODATA s nCoast).nodup_iff.mpr hIds)
    (fun d _ => pGetPolygon_zero get _ nCoast hZero2 hEmpty _)
  rw [v1, v2, hSum] at k
  unfold doCoast
  simp only
  linarith

/-- A pass over a simulation with one coast ends in the state in which the processing of
that coast ends. -/
theorem singleCoast_pass (INT_NODATA RTN_OK : Int) (ext : Collaborator) (s : CSimulation)
    (hLen : s.m_VCoast.length = 1) :
    (nDoAllActualBeachErosionAndDeposition INT_NODATA RTN_OK ext s).2
      = (doCoast INT_NODATA RTN_OK ext s 0).2 := by
  unfold nDoAllActualBeachErosionAndDeposition
  rw [hLen]
  unfold doCoastsFrom
  cases h : doCoast INT_NODATA RTN_OK ext s 0 with
  | mk r s1 =>
  cases r with
  | some nRet => rfl
  | none =>
    simp only
    unfold doCoastsFrom
    rfl

/-- Claim C37. Erosion totals agree with the ledgers: for a pass over a simulation with one
coast whose polygons have distinct coast IDs and whose polygons all start with the three erosion
depths (fine, sand, coarse) at zero, at the end of the pass the increase of the actual-erosion
total of each class equals minus the sum over all polygons of the erosion depth of that class.
This holds whatever the placement routines return, also when a call fails and the pass ends
early. -/
theorem erosion_totals_agree_with_ledgers (INT_NODATA RTN_OK : Int) (ext : Collaborator)
    (s : CSimulation) (hLen : s.m_VCoast.length = 1)
    (hIds : ((s.coast 0).map CGeomCoastPolygon.nGetCoastID).Nodup)
    (hZero : ∀ p ∈ s.coast 0, p.dGetErosionUnconsFine = 0 ∧ p.dGetErosionUnconsSand = 0
      ∧ p.dGetErosionUnconsCoarse = 0) :
    (nDoAllActualBeachErosionAndDeposition INT_NODATA RTN_OK ext s).2.m_dThisIterBeachErosionFine
        - s.m_dThisIterBeachErosionFine
      = -(sumErosionFine (nDoAllActualBeachErosionAndDeposition INT_NODATA RTN_OK ext s).2 0)
    ∧ (nDoAllActualBeachErosionAndDeposition INT_NODATA RTN_OK ext s).2.m_dThisIterBeachErosionSand
        - s.m_dThisIterBeachErosionSand
      = -(sumErosionSand (nDoAllActualBeachErosionAndDeposition INT_NODATA RTN_OK ext s).2 0)
    ∧ (nDoAllActualBeachErosionAndDeposition INT_NODATA RTN_OK ext
          s).2.m_dThisIterBeachErosionCoarse
        - s.m_dThisIterBeachErosionCoarse
      = -(sumErosionCoarse (nDoAllActualBeachErosionAndDeposition INT_NODATA RTN_OK ext s).2
          0) := by
  rw [singleCoast_pass INT_NODATA RTN_OK ext s hLen]
  have f := doCoast_kept CGeomCoastPolygon.dGetErosionUnconsFine
    (fun t => t.m_dThisIterBeachErosionFine) INT_NODATA RTN_OK ext s 0
    (fun t i f => by simp) (fun _ _ => rfl) (fun _ _ => rfl) (fun _ _ => rfl)
    (fun t n nPoly h => doPolygon_kept _ _ INT_NODATA RTN_OK ext t 0 n nPoly
      (fun _ _ _ _ => rfl)
      (fun u d hu => erodeAndExport_keptFine INT_NODATA RTN_OK ext u 0 n nPoly d hu) h)
    rfl hIds (fun p hp => (hZero p hp).1)
  have a := doCoast_kept CGeomCoastPolygon.dGetErosionUnconsSand
    (fun t => t.m_dThisIterBeachErosionSand) INT_NODATA RTN_OK ext s 0
    (fun t i f => by simp) (fun _ _ => rfl) (fun _ _ => rfl) (fun _ _ => rfl)
    (fun t n nPoly h => doPolygon_kept _ _ INT_NODATA RTN_OK ext t 0 n nPoly
      (fun _ _ _ _ => rfl)
      (fun u d hu => erodeAndExport_keptSand INT_NODATA RTN_OK ext u 0 n nPoly d hu) h)
    rfl hIds (fun p hp => (hZero p hp).2.1)
  have c := doCoast_kept CGeomCoastPolygon.dGetErosionUnconsCoarse
    (fun t => t.m_dThisIterBeachErosionCoarse) INT_NODATA RTN_OK ext s 0
    (fun t i f => by simp) (fun _ _ => rfl) (fun _ _ => rfl) (fun _ _ => rfl)
    (fun t n nPoly h => doPolygon_kept _ _ INT_NODATA RTN_OK ext t 0 n nPoly
      (fun _ _ _ _ => rfl)
      (fun u d hu => erodeAndExport_keptCoarse INT_NODATA RTN_OK ext u 0 n nPoly d hu) h)
    rfl hIds (fun p hp => (hZero p hp).2.2)
  simp only at f a c
  unfold sumErosionFine sumErosionSand sumErosionCoarse
  refine ⟨by linarith, by linarith, by linarith⟩

/-- Claim C37, witness: on the simulation `carrySim` (one polygon with stored fine, sand and
coarse sediment) the pass erodes 5 units of fine sediment and 9/2 units each of sand and coarse
sediment, and the erosion depths of the polygon are -5, -9/2 and -9/2. -/
theorem erosion_totals_agree_with_ledgers_witness :
    carrySim.m_VCoast.length = 1
    ∧ sumErosionFine (nDoAllActualBeachErosionAndDeposition (-9999) 0 placeAll carrySim).2 0 = -5
    ∧ sumErosionSand (nDoAllActualBeachErosionAndDeposition (-9999) 0 placeAll carrySim).2 0
        = -(9 / 2)
    ∧ ((nDoAllActualBeachErosionAndDeposition (-9999) 0 placeAll
          carrySim).2.m_dThisIterBeachErosionFine - carrySim.m_dThisIterBeachErosionFine
        = -(sumErosionFine (nDoAllActualBeachErosionAndDeposition (-9999) 0 placeAll carrySim).2
            0)
      ∧ (nDoAllActualBeachErosionAndDeposition (-9999) 0 placeAll
          carrySim).2.m_dThisIterBeachErosionSand - carrySim.m_dThisIterBeachErosionSand
        = -(sumErosionSand (nDoAllActualBeachErosionAndDeposition (-9999) 0 placeAll carrySim).2
            0)
      ∧ (nDoAllActualBeachErosionAndDeposition (-9999) 0 placeAll
          carrySim).2.m_dThisIterBeachErosionCoarse - carrySim.m_dThisIterBeachErosionCoarse
        = -(sumErosionCoarse
            (nDoAllActualBeachErosionAndDeposition (-9999) 0 placeAll carrySim).2 0)) :=
  ⟨by decide, by decide!, by decide!,
    erosion_totals_agree_with_ledgers (-9999) 0 placeAll carrySim (by decide) (by decide)
      (by decide!)⟩

/-- The change over two steps is the sum of the changes of the steps. -/
theorem exportChange_add (s t u : CSimulation) (nCoast : Nat) (i : Int) :
    exportChange s u nCoast i = exportChange s t nCoast i + exportChange t u nCoast i := by
  unfold exportChange
  simp only [Prod.mk_add_mk, Prod.mk.injEq]
  refine ⟨by ring, by ring, by ring, by ring⟩

/-- No step, no change. -/
theorem exportChange_self (s : CSimulation) (nCoast : Nat) (i : Int) :
    exportChange s s nCoast i = 0 := by
  unfold exportChange
  simp only [sub_self]
  rfl

/-- A write to a polygon which adds fixed depths to its sand and coarse deposition makes the
same change in two simulations whose coasts have the same number of polygons. -/
theorem updPolygon_exportChange (t t' : CSimulation) (nCoast : Nat)
    (hNum : t'.nGetNumPolygons nCoast = t.nGetNumPolygons nCoast) (j : Int)
    (f : CGeomCoastPolygon → CGeomCoastPolygon) (cS cC : ℚ)
    (hS : ∀ p, (f p).dGetDepositionUnconsSand = p.dGetDepositionUnconsSand + cS)
    (hC : ∀ p, (f p).dGetDepositionUnconsCoarse = p.dGetDepositionUnconsCoarse + cC) (i : Int) :
    exportChange t' (t'.updPolygon nCoast j f) nCoast i
      = exportChange t (t.updPolygon nCoast j f) nCoast i := by
  have hl : ∀ u : CSimulation,
      (u.updPolygon nCoast j f).m_dThisIterLeftGridUnconsSand = u.m_dThisIterLeftGridUnconsSand
      ∧ (u.updPolygon nCoast j f).m_dThisIterLeftGridUnconsCoarse
        = u.m_dThisIterLeftGridUnconsCoarse := by
    intro u
    unfold CSimulation.updPolygon
    split <;> exact ⟨rfl, rfl⟩
  unfold exportChange
  rw [(hl t).1, (hl t).2, (hl t').1, (hl t').2]
  by_cases hij : j = i
  · subst hij
    by_cases hHas : t.hasPolygon nCoast j
    · have hHas' : t'.hasPolygon nCoast j := by
        unfold CSimulation.hasPolygon at hHas ⊢
        rw [hNum]
        exact hHas
      rw [pGetPolygon_updPolygon_self _ _ _ _ hHas, pGetPolygon_updPolygon_self _ _ _ _ hHas',
        hS, hS, hC, hC]
      simp only [Prod.mk.injEq]
      refine ⟨by ring, by ring, by ring, by ring⟩
    · have hHas' : ¬ t'.hasPolygon nCoast j := by
        unfold CSimulation.hasPolygon at hHas ⊢
        rw [hNum]
        exact hHas
      rw [pGetPolygon_of_not_hasPolygon _ _ _
          (fun h => hHas ((hasPolygon_updPolygon t nCoast j j f).mp h)),
        pGetPolygon_of_not_hasPolygon _ _ _
          (fun h => hHas' ((hasPolygon_updPolygon t' nCoast j j f).mp h)),
        pGetPolygon_of_not_hasPolygon _ _ _ hHas, pGetPolygon_of_not_hasPolygon _ _ _ hHas']
      simp only [sub_self]
  · rw [pGetPolygon_updPolygon_ne _ _ _ _ _ hij, pGetPolygon_updPolygon_ne _ _ _ _ _ hij]
    simp only [sub_self]

/-- The export to an adjacent polygon makes the same change in two simulations whose coasts
have the same number of polygons. -/
theorem exportToAdjacent_exportChange (t t' : CSimulation) (nCoast : Nat)
    (hNum : t'.nGetNumPolygons nCoast = t.nGetNumPolygons nCoast) (nAdjPoly : Int)
    (dBoundaryShare dSandEroded dCoarseEroded : ℚ) (i : Int) :
    exportChange t' (exportToAdjacent t' nCoast nAdjPoly dBoundaryShare dSandEroded
        dCoarseEroded) nCoast i
      = exportChange t (exportToAdjacent t nCoast nAdjPoly dBoundaryShare dSandEroded
        dCoarseEroded) nCoast i := by
  have hsand := fun (u u' : CSimulation)
      (h : u'.nGetNumPolygons nCoast = u.nGetNumPolygons nCoast) =>
    updPolygon_exportChange u u' nCoast h nAdjPoly
      (fun p => p.AddDepositionUnconsSand (dSandEroded * dBoundaryShare))
      (dSandEroded * dBoundaryShare) 0 (fun _ => rfl) (fun _ => (add_zero _).symm) i
  have hcoarse := fun (u u' : CSimulation)
      (h : u'.nGetNumPolygons nCoast = u.nGetNumPolygons nCoast) =>
    updPolygon_exportChange u u' nCoast h nAdjPoly
      (fun p => p.AddDepositionUnconsCoarse (dCoarseEroded * dBoundaryShare))
      0 (dCoarseEroded * dBoundaryShare) (fun _ => (add_zero _).symm) (fun _ => rfl) i
  unfold exportToAdjacent
  simp only
  by_cases hS : dSandEroded > 0 <;> by_cases hC : dCoarseEroded > 0 <;>
    simp only [hS, hC, if_true, if_false]
  · have hNum1 : (t'.updPolygon nCoast nAdjPoly
          (fun p => p.AddDepositionUnconsSand (dSandEroded * dBoundaryShare))).nGetNumPolygons
          nCoast
        = (t.updPolygon nCoast nAdjPoly
          (fun p => p.AddDepositionUnconsSand (dSandEroded * dBoundaryShare))).nGetNumPolygons
          nCoast := by
      rw [nGetNumPolygons_updPolygon, nGetNumPolygons_updPolygon, hNum]
    rw [exportChange_add t' (t'.updPolygon nCoast nAdjPoly
        (fun p => p.AddDepositionUnconsSand (dSandEroded * dBoundaryShare))),
      exportChange_add t (t.updPolygon nCoast nAdjPoly
        (fun p => p.AddDepositionUnconsSand (dSandEroded * dBoundaryShare))),
      hsand t t' hNum, hcoarse _ _ hNum1]
  · exact hsand t t' hNum
  · exact hcoarse t t' hNum
  · rw [exportChange_self, exportChange_self]

/-- The handling of the grid edge makes the same change in two simulations which handle the
grid edges in the same way and whose coasts have the same number of polygons. -/
theorem exportAtGridEdge_exportChange (t t' : CSimulation) (nCoast : Nat)
    (hNum : t'.nGetNumPolygons nCoast = t.nGetNumPolygons nCoast)
    (hPolicy : t'.m_nUnconsSedimentHandlingAtGridEdges = t.m_nUnconsSedimentHandlingAtGridEdges)
    (dSandEroded dCoarseEroded : ℚ) (i : Int) :
    exportChange t' (exportAtGridEdge t' nCoast dSandEroded dCoarseEroded) nCoast i
      = exportChange t (exportAtGridEdge t nCoast dSandEroded dCoarseEroded) nCoast i := by
  have hsand := fun (u u' : CSimulation)
      (h : u'.nGetNumPolygons nCoast = u.nGetNumPolygons nCoast) =>
    updPolygon_exportChange u u' nCoast h 0
      (fun p => p.AddDepositionUnconsSand dSandEroded)
      dSandEroded 0 (fun _ => rfl) (fun _ => (add_zero _).symm) i
  have hcoarse := fun (u u' : CSimulation)
      (h : u'.nGetNumPolygons nCoast = u.nGetNumPolygons nCoast) =>
    updPolygon_exportChange u u' nCoast h 0
      (fun p => p.AddDepositionUnconsCoarse dCoarseEroded)
      0 dCoarseEroded (fun _ => (add_zero _).symm) (fun _ => rfl) i
  unfold exportAtGridEdge
  rw [hPolicy]
  cases t.m_nUnconsSedimentHandlingAtGridEdges with
  | GRID_EDGE_CLOSED =>
    simp only
    rw [exportChange_self, exportChange_self]
  | GRID_EDGE_OPEN =>
    simp only
    unfold exportChange
    simp only [Prod.mk.injEq]
    refine ⟨by ring, by ring, ?_, ?_⟩
    · show (t'.pGetPolygon nCoast i).dGetDepositionUnconsSand - _
        = (t.pGetPolygon nCoast i).dGetDepositionUnconsSand - _
      rw [sub_self, sub_self]
    · show (t'.pGetPolygon nCoast i).dGetDepositionUnconsCoarse - _
        = (t.pGetPolygon nCoast i).dGetDepositionUnconsCoarse - _
      rw [sub_self, sub_self]
  | GRID_EDGE_RECIRCULATE =>
    simp only
    by_cases hS : dSandEroded > 0 <;> by_cases hC : dCoarseEroded > 0 <;>
      simp only [hS, hC, if_true, if_false]
    · have hNum1 : (t'.updPolygon nCoast 0
            (fun p => p.AddDepositionUnconsSand dSandEroded)).nGetNumPolygons nCoast
          = (t.updPolygon nCoast 0
            (fun p => p.AddDepositionUnconsSand dSandEroded)).nGetNumPolygons nCoast := by
        rw [nGetNumPolygons_updPolygon, nGetNumPolygons_updPolygon, hNum]
      rw [exportChange_add t' (t'.updPolygon nCoast 0
          (fun p => p.AddDepositionUnconsSand dSandEroded)),
        exportChange_add t (t.updPolygon nCoast 0
          (fun p => p.AddDepositionUnconsSand dSandEroded)),
        hsand t t' hNum, hcoarse _ _ hNum1]
    · exact hsand t t' hNum
    · exact hcoarse t t' hNum
    · rw [exportChange_self, exportChange_self]

/-- A write to a polygon which keeps the adjacent polygons and their shares keeps what the
export reads. -/
theorem exportInputs_updPolygon (nCoast : Nat) (nPoly : Int) (t : CSimulation) (j : Int)
    (f : CGeomCoastPolygon → CGeomCoastPolygon)
    (hf : ∀ p, ((f p).m_VnUpCoastAdjacentPolygon, (f p).m_VdUpCoastAdjacentPolygonBoundaryShare,
        (f p).m_VnDownCoastAdjacentPolygon, (f p).m_VdDownCoastAdjacentPolygonBoundaryShare)
      = (p.m_VnUpCoastAdjacentPolygon, p.m_VdUpCoastAdjacentPolygonBoundaryShare,
        p.m_VnDownCoastAdjacentPolygon, p.m_VdDownCoastAdjacentPolygonBoundaryShare)) :
    exportInputs nCoast nPoly (t.updPolygon nCoast j f) = exportInputs nCoast nPoly t := by
  have hp : (t.updPolygon nCoast j f).m_nUnconsSedimentHandlingAtGridEdges
      = t.m_nUnconsSedimentHandlingAtGridEdges := by
    unfold CSimulation.updPolygon
    split <;> rfl
  have h := pGetPolygon_updPolygon_field
    (fun p => (p.m_VnUpCoastAdjacentPolygon, p.m_VdUpCoastAdjacentPolygonBoundaryShare,
      p.m_VnDownCoastAdjacentPolygon, p.m_VdDownCoastAdjacentPolygonBoundaryShare))
    t nCoast j nPoly f hf
  simp only [Prod.mk.injEq] at h
  unfold exportInputs
  rw [hp, nGetNumPolygons_updPolygon, h.1, h.2.1, h.2.2.1, h.2.2.2]

/-- One turn of the up-coast export keeps what the export reads. -/
theorem exportSlotUpCoast_inputs (INT_NODATA : Int) (nCoast : Nat) (nNumPolygons nPoly : Int)
    (dSandEroded dCoarseEroded : ℚ) (t : CSimulation) (nn : Nat) (nOther : Int) :
    exportInputs nCoast nOther
        (exportSlotUpCoast INT_NODATA nCoast nNumPolygons nPoly dSandEroded dCoarseEroded t nn)
      = exportInputs nCoast nOther t :=
  exportSlotUpCoast_preserves (exportInputs nCoast nOther) INT_NODATA nCoast nNumPolygons nPoly
    dSandEroded dCoarseEroded t nn
    (fun u j _ => exportInputs_updPolygon nCoast nOther u j _ (fun _ => rfl))
    (fun u j _ => exportInputs_updPolygon nCoast nOther u j _ (fun _ => rfl))
    (fun _ _ _ => rfl)

/-- One turn of the down-coast export keeps what the export reads. -/
theorem exportSlotDownCoast_inputs (INT_NODATA : Int) (nCoast : Nat) (nNumPolygons nPoly : Int)
    (dSandEroded dCoarseEroded : ℚ) (t : CSimulation) (nn : Nat) (nOther : Int) :
    exportInputs nCoast nOther
        (exportSlotDownCoast INT_NODATA nCoast nNumPolygons nPoly dSandEroded dCoarseEroded t nn)
      = exportInputs nCoast nOther t :=
  exportSlotDownCoast_preserves (exportInputs nCoast nOther) INT_NODATA nCoast nNumPolygons
    nPoly dSandEroded dCoarseEroded t nn
    (fun u j _ => exportInputs_updPolygon nCoast nOther u j _ (fun _ => rfl))
    (fun u j _ => exportInputs_updPolygon nCoast nOther u j _ (fun _ => rfl))
    (fun _ _ _ => rfl)

/-- The exchange of the two ends of a coast turns the test for the last polygon into the test
for the first one, and the reverse. -/
theorem exchangedEnds_tests (nNumPolygons nPoly : Int) :
    (exchangedEnds nNumPolygons nPoly = 0 ↔ nPoly = nNumPolygons - 1)
    ∧ (exchangedEnds nNumPolygons nPoly = nNumPolygons - 1 ↔ nPoly = 0) := by
  unfold exchangedEnds
  constructor
  · split
    · omega
    · split <;> omega
  · split
    · omega
    · split <;> omega

/-- One turn of the up-coast export for a polygon and one turn of the down-coast export for a
polygon with the ends of the coast exchanged make the same change, when the first polygon has
up-coast the adjacent polygons and shares which the second has down-coast. -/
theorem exportSlot_mirror (INT_NODATA : Int) (nCoast : Nat) (nNumPolygons nPoly nPoly' : Int)
    (dSandEroded dCoarseEroded : ℚ) (t t' : CSimulation) (nn : Nat)
    (hFirst : nPoly' = 0 ↔ nPoly = nNumPolygons - 1)
    (hLast : nPoly' = nNumPolygons - 1 ↔ nPoly = 0)
    (hPolicy : (exportInputs nCoast nPoly' t').1 = (exportInputs nCoast nPoly t).1)
    (hNum : (exportInputs nCoast nPoly' t').2.1 = (exportInputs nCoast nPoly t).2.1)
    (hList : (exportInputs nCoast nPoly' t').2.2.2.2.1 = (exportInputs nCoast nPoly t).2.2.1)
    (hShare : (exportInputs nCoast nPoly' t').2.2.2.2.2
      = (exportInputs nCoast nPoly t).2.2.2.1) (i : Int) :
    exportChange t' (exportSlotDownCoast INT_NODATA nCoast nNumPolygons nPoly' dSandEroded
        dCoarseEroded t' nn) nCoast i
      = exportChange t (exportSlotUpCoast INT_NODATA nCoast nNumPolygons nPoly dSandEroded
        dCoarseEroded t nn) nCoast i := by
  unfold exportInputs at hPolicy hNum hList hShare
  simp only at hPolicy hNum hList hShare
  unfold exportSlotDownCoast exportSlotUpCoast
  unfold CGeomCoastPolygon.nGetDownCoastAdjacentPolygon
    CGeomCoastPolygon.nGetUpCoastAdjacentPolygon
    CGeomCoastPolygon.dGetDownCoastAdjacentPolygonBoundaryShare
    CGeomCoastPolygon.dGetUpCoastAdjacentPolygonBoundaryShare
  simp only [hList, hShare]
  by_cases hEdge : (t.pGetPolygon nCoast nPoly).m_VnUpCoastAdjacentPolygon.getD nn 0 = INT_NODATA
  · simp only [hEdge, if_true]
    by_cases h1 : nPoly = nNumPolygons - 1
    · simp only [h1, hFirst.mpr h1, if_true]
      rw [exportChange_self, exportChange_self]
    · have h1' : ¬ nPoly' = 0 := fun h => h1 (hFirst.mp h)
      simp only [h1, h1', if_false]
      by_cases h0 : nPoly = 0
      · simp only [h0, hLast.mpr h0, if_true]
        exact exportAtGridEdge_exportChange t t' nCoast hNum hPolicy _ _ i
      · have h0' : ¬ nPoly' = nNumPolygons - 1 := fun h => h0 (hLast.mp h)
        simp only [h0, h0', if_false]
        rw [exportChange_self, exportChange_self]
  · simp only [hEdge, if_false]
    exact exportToAdjacent_exportChange t t' nCoast hNum _ _ _ _ i

/-- The turns of the up-coast export for a polygon and the same turns of the down-coast export
for a polygon with the ends of the coast exchanged make the same change. -/
theorem exportSlots_mirror (INT_NODATA : Int) (nCoast : Nat) (nNumPolygons nPoly nPoly' : Int)
    (dSandEroded dCoarseEroded : ℚ) (hFirst : nPoly' = 0 ↔ nPoly = nNumPolygons - 1)
    (hLast : nPoly' = nNumPolygons - 1 ↔ nPoly = 0) (l : List Nat) (t t' : CSimulation)
    (hPolicy : (exportInputs nCoast nPoly' t').1 = (exportInputs nCoast nPoly t).1)
    (hNum : (exportInputs nCoast nPoly' t').2.1 = (exportInputs nCoast nPoly t).2.1)
    (hList : (exportInputs nCoast nPoly' t').2.2.2.2.1 = (exportInputs nCoast nPoly t).2.2.1)
    (hShare : (exportInputs nCoast nPoly' t').2.2.2.2.2
      = (exportInputs nCoast nPoly t).2.2.2.1) (i : Int) :
    exportChange t' (l.foldl (exportSlotDownCoast INT_NODATA nCoast nNumPolygons nPoly'
        dSandEroded dCoarseEroded) t') nCoast i
      = exportChange t (l.foldl (exportSlotUpCoast INT_NODATA nCoast nNumPolygons nPoly
        dSandEroded dCoarseEroded) t) nCoast i := by
  induction l generalizing t t' with
  | nil =>
    simp only [List.foldl_nil]
    rw [exportChange_self, exportChange_self]
  | cons nn l ih =>
    have hu := exportSlotUpCoast_inputs INT_NODATA nCoast nNumPolygons nPoly dSandEroded
      dCoarseEroded t nn nPoly
    have hd := exportSlotDownCoast_inputs INT_NODATA nCoast nNumPolygons nPoly' dSandEroded
      dCoarseEroded t' nn nPoly'
    simp only [List.foldl_cons]
    rw [exportChange_add t' (exportSlotDownCoast INT_NODATA nCoast nNumPolygons nPoly'
        dSandEroded dCoarseEroded t' nn),
      exportChange_add t (exportSlotUpCoast INT_NODATA nCoast nNumPolygons nPoly
        dSandEroded dCoarseEroded t nn),
      exportSlot_mirror INT_NODATA nCoast nNumPolygons nPoly nPoly' dSandEroded dCoarseEroded
        t t' nn hFirst hLast hPolicy hNum hList hShare i,
      ih _ _ (by rw [hu, hd]; exact hPolicy) (by rw [hu, hd]; exact hNum)
        (by rw [hu, hd]; exact hList) (by rw [hu, hd]; exact hShare)]

/-- Claim C39. The up-coast and down-coast export branches are mirror images: let polygon
`nPoly` of a simulation `s` move its sediment up-coast, and let the polygon of a simulation
`s'` whose index is `nPoly` with the ends 0 and `nNumPolygons - 1` of the coast exchanged move
its sediment down-coast, with the same adjacent polygons and boundary shares down-coast as the
first has up-coast. When the two simulations handle the grid edges in the same way and their
coasts have the same number of polygons, the two exports of the same eroded sand and coarse
sediment make the same change to the two off-grid totals and to the sand and coarse deposition
of every polygon. -/
theorem export_branches_mirror (INT_NODATA : Int) (s s' : CSimulation) (nCoast : Nat)
    (nNumPolygons nPoly : Int) (dSandEroded dCoarseEroded : ℚ)
    (hPolicy : s'.m_nUnconsSedimentHandlingAtGridEdges = s.m_nUnconsSedimentHandlingAtGridEdges)
    (hNum : s'.nGetNumPolygons nCoast = s.nGetNumPolygons nCoast)
    (hUp : (s.pGetPolygon nCoast nPoly).bDownCoastThisIter = false)
    (hDown : (s'.pGetPolygon nCoast (exchangedEnds nNumPolygons nPoly)).bDownCoastThisIter
      = true)
    (hList : (s'.pGetPolygon nCoast (exchangedEnds nNumPolygons nPoly)).m_VnDownCoastAdjacentPolygon
      = (s.pGetPolygon nCoast nPoly).m_VnUpCoastAdjacentPolygon)
    (hShare : (s'.pGetPolygon nCoast
        (exchangedEnds nNumPolygons nPoly)).m_VdDownCoastAdjacentPolygonBoundaryShare
      = (s.pGetPolygon nCoast nPoly).m_VdUpCoastAdjacentPolygonBoundaryShare) (i : Int) :
    exportChange s' (exportSediment INT_NODATA s' nCoast nNumPolygons
        (exchangedEnds nNumPolygons nPoly) dSandEroded dCoarseEroded) nCoast i
      = exportChange s (exportSediment INT_NODATA s nCoast nNumPolygons nPoly dSandEroded
        dCoarseEroded) nCoast i := by
  unfold exportSediment
  simp only [hUp, hDown, if_true, Bool.false_eq_true, if_false]
  unfold CGeomCoastPolygon.nGetNumDownCoastAdjacentPolygons
    CGeomCoastPolygon.nGetNumUpCoastAdjacentPolygons
  rw [hList]
  exact exportSlots_mirror INT_NODATA nCoast nNumPolygons nPoly (exchangedEnds nNumPolygons nPoly)
    dSandEroded dCoarseEroded (exchangedEnds_tests nNumPolygons nPoly).1
    (exchangedEnds_tests nNumPolygons nPoly).2 _ s s' hPolicy hNum hList hShare i

/-- Claim C39, witness: with re-circulating grid edges and two polygons, the export of 10 units
of sand and 3 units of coarse sediment from the up-coast polygon 0 of `upCoastEdgeSim` and from
the down-coast polygon 1 of `downCoastEdgeSim` both add these depths to the deposition of
polygon 0 and leave the off-grid totals unchanged. -/
theorem export_branches_mirror_witness :
    exchangedEnds 2 0 = 1
    ∧ exportChange (upCoastEdgeSim GridEdge.GRID_EDGE_RECIRCULATE)
        (exportSediment (-9999) (upCoastEdgeSim GridEdge.GRID_EDGE_RECIRCULATE) 0 2 0 10 3) 0 0
      = (0, 0, 10, 3)
    ∧ exportChange (downCoastEdgeSim GridEdge.GRID_EDGE_RECIRCULATE)
        (exportSediment (-9999) (downCoastEdgeSim GridEdge.GRID_EDGE_RECIRCULATE) 0 2
          (exchangedEnds 2 0) 10 3) 0 0
      = exportChange (upCoastEdgeSim GridEdge.GRID_EDGE_RECIRCULATE)
        (exportSediment (-9999) (upCoastEdgeSim GridEdge.GRID_EDGE_RECIRCULATE) 0 2 0 10 3) 0 0 :=
  ⟨by decide, by decide!,
    export_branches_mirror (-9999) (upCoastEdgeSim GridEdge.GRID_EDGE_RECIRCULATE)
      (downCoastEdgeSim GridEdge.GRID_EDGE_RECIRCULATE) 0 2 0 10 3 (by decide) (by decide)
      (by decide) (by decide) (by decide) (by decide!) 0⟩

/-- The deposition of coarse sediment, when it returns a status at once: the call was made for
a deposition above zero, the status is that of the call, and the simulation is the one in which
the call was made with the call recorded. -/
theorem depositCoarse_fails (RTN_OK : Int) (ext : Collaborator) (s : CSimulation)
    (nCoast : Nat) (nPoly : Int) (nRet : Int)
    (h : (depositCoarse RTN_OK ext s nCoast nPoly).1 = some nRet) :
    0 < (s.pGetPolygon nCoast nPoly).dGetDepositionUnconsCoarse
    ∧ (depositCoarse RTN_OK ext s nCoast nPoly).2
      = { s with placementLog := s.placementLog ++ [coarseDepositionCall s nCoast nPoly] }
    ∧ (ext s.placementLog (coarseDepositionCall s nCoast nPoly)).1 = nRet := by
  unfold depositCoarse nDoUnconsDepositionOnPolygon at h ⊢
  unfold coarseDepositionCall
  simp only at h ⊢
  split at h
  · rename_i hT
    rw [if_pos hT]
    split at h
    · rename_i hne
      rw [if_pos hne]
      exact ⟨hT, rfl, Option.some.inj h⟩
    · split at h <;> exact Option.noConfusion h
  · exact Option.noConfusion h

/-- The deposition of sand, when it returns a status at once: the call was made for a
deposition above zero, the status is that of the call, and the simulation is the one in which
the call was made with the call recorded. -/
theorem depositSand_fails (RTN_OK : Int) (ext : Collaborator) (s : CSimulation)
    (nCoast : Nat) (nPoly : Int) (nRet : Int)
    (h : (depositSand RTN_OK ext s nCoast nPoly).1 = some nRet) :
    0 < (s.pGetPolygon nCoast nPoly).dGetDepositionUnconsSand
    ∧ (depositSand RTN_OK ext s nCoast nPoly).2
      = { s with placementLog := s.placementLog ++ [sandDepositionCall s nCoast nPoly] }
    ∧ (ext s.placementLog (sandDepositionCall s nCoast nPoly)).1 = nRet := by
  unfold depositSand nDoUnconsDepositionOnPolygon at h ⊢
  unfold sandDepositionCall
  simp only at h ⊢
  split at h
  · rename_i hT
    rw [if_pos hT]
    split at h
    · rename_i hne
      rw [if_pos hne]
      exact ⟨hT, rfl, Option.some.inj h⟩
    · split at h <;> exact Option.noConfusion h
  · exact Option.noConfusion h

/-- The erosion of fine sediment, when it returns a status at once: the polygon stores fine
sediment, the status is that of the call, and the simulation is the one in which the call was
made with the call recorded. -/
theorem erodeFine_fails (RTN_OK : Int) (ext : Collaborator) (s : CSimulation)
    (nCoast : Nat) (nPoly : Int) (dPotentialErosion : ℚ) (nRet : Int)
    (h : (erodeFine RTN_OK ext s nCoast nPoly dPotentialErosion).1 = some nRet) :
    0 < (s.pGetPolygon nCoast nPoly).dGetStoredUnconsFine
    ∧ (erodeFine RTN_OK ext s nCoast nPoly dPotentialErosion).2
      = { s with placementLog :=
          s.placementLog ++ [fineErosionCall s nCoast nPoly dPotentialErosion] }
    ∧ (ext s.placementLog (fineErosionCall s nCoast nPoly dPotentialErosion)).1 = nRet := by
  by_cases hStored : 0 < (s.pGetPolygon nCoast nPoly).dGetStoredUnconsFine
  · rw [erodeFine_of_stored RTN_OK ext s nCoast nPoly dPotentialErosion hStored] at h ⊢
    split at h
    · rename_i hne
      rw [if_pos hne]
      exact ⟨hStored, rfl, Option.some.inj h⟩
    · split at h <;> exact Option.noConfusion h
  · unfold erodeFine at h
    simp only [gt_iff_lt, hStored, if_false] at h
    exact Option.noConfusion h

/-- The erosion of sand, when it returns a status at once: the polygon stores sand, the status
is that of the call, and the simulation is the one in which the call was made, the undeposited
sand carried forward having been set to zero before the call, with the call recorded. -/
theorem erodeSand_fails (RTN_OK : Int) (ext : Collaborator) (s : CSimulation)
    (nCoast : Nat) (nPoly : Int) (dPotentialErosion : ℚ) (nRet : Int)
    (h : (erodeSand RTN_OK ext s nCoast nPoly dPotentialErosion).1 = some nRet) :
    0 < (s.pGetPolygon nCoast nPoly).dGetStoredUnconsSand
    ∧ (erodeSand RTN_OK ext s nCoast nPoly dPotentialErosion).2.2
      = { s with
          placementLog := s.placementLog ++ [sandErosionCall s nCoast nPoly dPotentialErosion]
          m_dThisIterDepositionSandDiff :=
            if s.m_dThisIterDepositionSandDiff > 0 then 0 else s.m_dThisIterDepositionSandDiff }
    ∧ (ext s.placementLog (sandErosionCall s nCoast nPoly dPotentialErosion)).1 = nRet := by
  by_cases hStored : 0 < (s.pGetPolygon nCoast nPoly).dGetStoredUnconsSand
  · rw [erodeSand_of_stored RTN_OK ext s nCoast nPoly dPotentialErosion hStored] at h ⊢
    split at h
    · rename_i hne
      rw [if_pos hne]
      exact ⟨hStored, rfl, Option.some.inj h⟩
    · split at h <;> exact Option.noConfusion h
  · unfold erodeSand at h
    simp only [gt_iff_lt, hStored, if_false] at h
    exact Option.noConfusion h

/-- The erosion of coarse sediment, when it returns a status at once: the polygon stores coarse
sediment, the status is that of the call, and the simulation is the one in which the call was
made, the undeposited coarse sediment carried forward having been set to zero before the call,
with the call recorded. -/
theorem erodeCoarse_fails (RTN_OK : Int) (ext : Collaborator) (s : CSimulation)
    (nCoast : Nat) (nPoly : Int) (dPotentialErosion : ℚ) (nRet : Int)
    (h : (erodeCoarse RTN_OK ext s nCoast nPoly dPotentialErosion).1 = some nRet) :
    0 < (s.pGetPolygon nCoast nPoly).dGetStoredUnconsCoarse
    ∧ (erodeCoarse RTN_OK ext s nCoast nPoly dPotentialErosion).2.2
      = { s with
          placementLog :=
            s.placementLog ++ [coarseErosionCall s nCoast nPoly dPotentialErosion]
          m_dThisIterDepositionCoarseDiff :=
            if s.m_dThisIterDepositionCoarseDiff > 0 then 0
            else s.m_dThisIterDepositionCoarseDiff }
    ∧ (ext s.placementLog (coarseErosionCall s nCoast nPoly dPotentialErosion)).1 = nRet := by
  by_cases hStored : 0 < (s.pGetPolygon nCoast nPoly).dGetStoredUnconsCoarse
  · rw [erodeCoarse_of_stored RTN_OK ext s nCoast nPoly dPotentialErosion hStored] at h ⊢
    split at h
    · rename_i hne
      rw [if_pos hne]
      exact ⟨hStored, rfl, Option.some.inj h⟩
    · split at h <;> exact Option.noConfusion h
  · unfold erodeCoarse at h
    simp only [gt_iff_lt, hStored, if_false] at h
    exact Option.noConfusion h

/-- The erosion of one polygon, when it returns a status at once: the simulation it leaves is
the one in which the failing call was made, with the call recorded. -/
theorem erodeAndExport_fails (INT_NODATA RTN_OK : Int) (ext : Collaborator) (a : CSimulation)
    (nCoast : Nat) (nNumPolygons nPoly : Int) (dPotentialErosion : ℚ) (nRet : Int)
    (h : (erodeAndExport INT_NODATA RTN_OK ext a nCoast nNumPolygons nPoly dPotentialErosion).1
      = some nRet) :
    ∃ (e : CSimulation) (call : PlacementCall),
      erosionCallMadeAt RTN_OK ext a nCoast nPoly dPotentialErosion e call
      ∧ (erodeAndExport INT_NODATA RTN_OK ext a nCoast nNumPolygons nPoly dPotentialErosion).2
        = { e with placementLog := e.placementLog ++ [call] }
      ∧ (ext e.placementLog call).1 = nRet := by
  have f1 := erodeFine_fails RTN_OK ext a nCoast nPoly dPotentialErosion
  unfold erosionCallMadeAt
  unfold erodeAndExport at h ⊢
  cases h1 : erodeFine RTN_OK ext a nCoast nPoly dPotentialErosion with
  | mk r1 b =>
  rw [h1] at f1 h
  cases r1 with
  | some nRet1 =>
    obtain ⟨g1, g2, g3⟩ := f1 nRet h
    exact ⟨a, _, Or.inl ⟨g1, rfl, rfl⟩, g2, g3⟩
  | none =>
  simp only at h ⊢
  have f2 := erodeSand_fails RTN_OK ext b nCoast nPoly dPotentialErosion
  cases h2 : erodeSand RTN_OK ext b nCoast nPoly dPotentialErosion with
  | mk r2 ds2 =>
  obtain ⟨dSand, c⟩ := ds2
  rw [h2] at f2 h
  cases r2 with
  | some nRet2 =>
    obtain ⟨g1, g2, g3⟩ := f2 nRet h
    exact ⟨_, _, Or.inr (Or.inl ⟨trivial, g1, rfl, rfl⟩), g2, g3⟩
  | none =>
  simp only at h ⊢
  have f3 := erodeCoarse_fails RTN_OK ext c nCoast nPoly dPotentialErosion
  cases h3 : erodeCoarse RTN_OK ext c nCoast nPoly dPotentialErosion with
  | mk r3 ds3 =>
  obtain ⟨dCoarse, s3⟩ := ds3
  rw [h3] at f3 h
  cases r3 with
  | some nRet3 =>
    obtain ⟨g1, g2, g3⟩ := f3 nRet h
    exact ⟨_, _, Or.inr (Or.inr ⟨trivial, trivial, g1, rfl, rfl⟩), g2, g3⟩
  | none =>
  simp only at h
  split at h <;> exact Option.noConfusion h

/-- The processing of one polygon, when it returns a status at once: the simulation it leaves is
the one in which the failing call was made, with the call recorded. -/
theorem doPolygon_fails (INT_NODATA RTN_OK : Int) (ext : Collaborator) (s : CSimulation)
    (nCoast : Nat) (nNumPolygons nPoly : Int) (nRet : Int)
    (h : (doPolygon INT_NODATA RTN_OK ext s nCoast nNumPolygons nPoly).1 = some nRet) :
    ∃ (e : CSimulation) (call : PlacementCall),
      callMadeAt RTN_OK ext s nCoast nPoly e call
      ∧ (doPolygon INT_NODATA RTN_OK ext s nCoast nNumPolygons nPoly).2
        = { e with placementLog := e.placementLog ++ [call] }
      ∧ (ext e.placementLog call).1 = nRet := by
  have fc := depositCoarse_fails RTN_OK ext s nCoast nPoly
  unfold callMadeAt
  unfold doPolygon at h ⊢
  unfold depositCoarseAndSand at h ⊢
  cases hc : depositCoarse RTN_OK ext s nCoast nPoly with
  | mk rc s1 =>
  rw [hc] at fc h
  cases rc with
  | some nRetC =>
    obtain ⟨g1, g2, g3⟩ := fc nRet h
    exact ⟨s, _, Or.inl ⟨g1, rfl, rfl⟩, g2, g3⟩
  | none =>
  simp only at h ⊢
  have fs := depositSand_fails RTN_OK ext s1 nCoast nPoly
  cases hs : depositSand RTN_OK ext s1 nCoast nPoly with
  | mk rs a =>
  rw [hs] at fs h
  cases rs with
  | some nRetS =>
    obtain ⟨g1, g2, g3⟩ := fs nRet h
    exact ⟨s1, _, Or.inr (Or.inl ⟨trivial, g1, rfl, rfl⟩), g2, g3⟩
  | none =>
  simp only at h ⊢
  split at h
  · rename_i hp
    rw [if_pos hp]
    obtain ⟨e, call, g1, g2, g3⟩ := erodeAndExport_fails INT_NODATA RTN_OK ext a nCoast
      nNumPolygons nPoly _ nRet h
    exact ⟨e, call, Or.inr (Or.inr ⟨trivial, hp, g1⟩), g2, g3⟩
  · exact Option.noConfusion h

/-- One turn of the loop over the sorted polygons. -/
theorem doAllPolygons_cons (INT_NODATA RTN_OK : Int) (ext : Collaborator) (nCoast : Nat)
    (nNumPolygons : Int) (nVPoly : List Int) (rest : List (List Int)) (s : CSimulation) :
    doAllPolygons INT_NODATA RTN_OK ext nCoast nNumPolygons (nVPoly :: rest) s
      = match doPolygon INT_NODATA RTN_OK ext s nCoast nNumPolygons (nVPoly.getD 0 0) with
        | (some nRet, s1) => (some nRet, s1)
        | (none, s1) => doAllPolygons INT_NODATA RTN_OK ext nCoast nNumPolygons rest s1 := by
  conv_lhs => unfold doAllPolygons

/-- One turn of the loop over the coasts. -/
theorem doCoastsFrom_succ (INT_NODATA RTN_OK : Int) (ext : Collaborator) (nCoasts nCoast : Nat)
    (s : CSimulation) :
    doCoastsFrom INT_NODATA RTN_OK ext (nCoasts + 1) nCoast s
      = match doCoast INT_NODATA RTN_OK ext s nCoast with
        | (some nRet, s1) => (nRet, s1)
        | (none, s1) => doCoastsFrom INT_NODATA RTN_OK ext nCoasts (nCoast + 1) s1 := by
  conv_lhs => unfold doCoastsFrom

/-- The loop over the sorted polygons, when it returns a status at once: the polygons before
the failing one were processed without a status returned, and the failing polygon, started in
the simulation they left, returned the status and left the simulation of the loop. -/
theorem doAllPolygons_fails (INT_NODATA RTN_OK : Int) (ext : Collaborator) (nCoast : Nat)
    (nNumPolygons : Int) (l : List (List Int)) (s : CSimulation) (nRet : Int)
    (h : (doAllPolygons INT_NODATA RTN_OK ext nCoast nNumPolygons l s).1 = some nRet) :
    ∃ (pre : List (List Int)) (d : List Int) (post : List (List Int)) (s1 : CSimulation),
      l = pre ++ d :: post
      ∧ doAllPolygons INT_NODATA RTN_OK ext nCoast nNumPolygons pre s = (none, s1)
      ∧ doPolygon INT_NODATA RTN_OK ext s1 nCoast nNumPolygons (d.getD 0 0)
        = (some nRet, (doAllPolygons INT_NODATA RTN_OK ext nCoast nNumPolygons l s).2) := by
  induction l generalizing s with
  | nil => exact Option.noConfusion h
  | cons nVPoly rest ih =>
    rw [doAllPolygons_cons] at h ⊢
    cases h1 : doPolygon INT_NODATA RTN_OK ext s nCoast nNumPolygons (nVPoly.getD 0 0) with
    | mk r1 s1 =>
    rw [h1] at h
    cases r1 with
    | some nRet1 =>
      have hn : nRet1 = nRet := Option.some.inj h
      subst hn
      exact ⟨[], nVPoly, rest, s, rfl, rfl, h1⟩
    | none =>
      obtain ⟨pre, d, post, s2, hl, hpre, hfail⟩ := ih s1 h
      refine ⟨nVPoly :: pre, d, post, s2, by rw [hl]; rfl, ?_, hfail⟩
      rw [doAllPolygons_cons, h1]
      exact hpre

/-- The loop over the coasts, when it returns a status other than `RTN_OK`: the coasts before
the failing one were processed and the loop over them returned `RTN_OK`, and the failing coast,
started in the simulation they left, returned the status and left the simulation of the loop. -/
theorem doCoastsFrom_fails (INT_NODATA RTN_OK : Int) (ext : Collaborator) (nCoasts nCoast : Nat)
    (s : CSimulation) (h : (doCoastsFrom INT_NODATA RTN_OK ext nCoasts nCoast s).1 ≠ RTN_OK) :
    ∃ (k : Nat) (sk : CSimulation), k < nCoasts
      ∧ doCoastsFrom INT_NODATA RTN_OK ext k nCoast s = (RTN_OK, sk)
      ∧ doCoast INT_NODATA RTN_OK ext sk (nCoast + k)
        = (some (doCoastsFrom INT_NODATA RTN_OK ext nCoasts nCoast s).1,
          (doCoastsFrom INT_NODATA RTN_OK ext nCoasts nCoast s).2) := by
  induction nCoasts generalizing nCoast s with
  | zero => exact absurd rfl h
  | succ n ih =>
    rw [doCoastsFrom_succ] at h ⊢
    cases h1 : doCoast INT_NODATA RTN_OK ext s nCoast with
    | mk r1 s1 =>
    rw [h1] at h
    cases r1 with
    | some nRet1 => exact ⟨0, s, Nat.succ_pos n, rfl, h1⟩
    | none =>
      obtain ⟨k, sk, hk, hpre, hfail⟩ := ih (nCoast + 1) s1 h
      refine ⟨k + 1, sk, Nat.succ_lt_succ hk, ?_, ?_⟩
      · rw [doCoastsFrom_succ, h1]
        exact hpre
      · have he : nCoast + (k + 1) = nCoast + 1 + k := by omega
        rw [he]
        exact hfail

/-- C23: a placement failure is fatal and is not rolled back. For every placement routine and
every simulation, the calls made by `nDoAllActualBeachErosionAndDeposition` are recorded after
the earlier ones and (a) the pass returns `RTN_OK` exactly when every call returned `RTN_OK`;
(b) a call which returned another status is the last call made and its status is the status the
pass returns; (c) when the pass does not return `RTN_OK`, the simulation it leaves is exactly
the one in which the failing call was made, with that call recorded and nothing else changed:
there are a coast `k`, a polygon `d` of its sorted sequence `pre ++ d :: post` and a simulation
`e` such that the loop over the coasts before `k` ran to its end and left `sk`, the update of the
stored sediment, the sort and the check for circularities of coast `k` were done on `sk`, the
polygons `pre` were processed without failure and left `s1`, the processing of `d` started in
`s1` made the call `call` in the simulation `e` (as `callMadeAt` says, after the steps of `d`
which were completed), the call returned the status of the pass, and the pass leaves `e` with
the call recorded: every write made before the failing call is in the result and nothing is
written after it; (d) in the loop over the polygons, the result of a failing polygon after
polygons processed without failure is the state those left, changed by the part done of the
failing polygon, whatever polygons follow. -/
theorem placement_failure_is_fatal (INT_NODATA RTN_OK : Int) (ext : Collaborator)
    (s : CSimulation) :
    (∃ new : List PlacementCall,
      (nDoAllActualBeachErosionAndDeposition INT_NODATA RTN_OK ext s).2.placementLog
        = s.placementLog ++ new
      ∧ ((nDoAllActualBeachErosionAndDeposition INT_NODATA RTN_OK ext s).1 = RTN_OK
          ↔ ∀ st ∈ callStatuses ext s.placementLog new, st = RTN_OK)
      ∧ (∀ (pre post : List PlacementCall) (call : PlacementCall), new = pre ++ call :: post →
          (ext (s.placementLog ++ pre) call).1 ≠ RTN_OK →
          post = [] ∧ (nDoAllActualBeachErosionAndDeposition INT_NODATA RTN_OK ext s).1
            = (ext (s.placementLog ++ pre) call).1))
    ∧ ((nDoAllActualBeachErosionAndDeposition INT_NODATA RTN_OK ext s).1 ≠ RTN_OK →
        ∃ (k : Nat) (pre : List (List Int)) (d : List Int) (post : List (List Int))
          (sk s1 e : CSimulation) (call : PlacementCall),
          k < s.m_VCoast.length
          ∧ doCoastsFrom INT_NODATA RTN_OK ext k 0 s = (RTN_OK, sk)
          ∧ sortedPolyAndAdjacent INT_NODATA (AllPolygonsUpdateStoredUncons sk k) k
            = pre ++ d :: post
          ∧ doAllPolygons INT_NODATA RTN_OK ext k
              ((circularityWalk k (pre ++ d :: post) []
                (AllPolygonsUpdateStoredUncons sk k)).nGetNumPolygons k) pre
              (circularityWalk k (pre ++ d :: post) [] (AllPolygonsUpdateStoredUncons sk k))
            = (none, s1)
          ∧ callMadeAt RTN_OK ext s1 k (d.getD 0 0) e call
          ∧ (nDoAllActualBeachErosionAndDeposition INT_NODATA RTN_OK ext s).2
            = { e with placementLog := e.placementLog ++ [call] }
          ∧ (ext e.placementLog call).1
            = (nDoAllActualBeachErosionAndDeposition INT_NODATA RTN_OK ext s).1)
    ∧ (∀ (nCoast : Nat) (nNumPolygons : Int) (pre : List (List Int)) (d : List Int)
        (post : List (List Int)) (s1 s2 : CSimulation) (nRet : Int),
        doAllPolygons INT_NODATA RTN_OK ext nCoast nNumPolygons pre s = (none, s1) →
        doPolygon INT_NODATA RTN_OK ext s1 nCoast nNumPolygons (d.getD 0 0) = (some nRet, s2) →
        doAllPolygons INT_NODATA RTN_OK ext nCoast nNumPolygons (pre ++ d :: post) s
          = (some nRet, s2)) := by
  unfold nDoAllActualBeachErosionAndDeposition
  refine ⟨?_, ?_, ?_⟩
  · obtain ⟨new, hLog, hOut⟩ := doCoastsFrom_calls INT_NODATA RTN_OK ext s.m_VCoast.length 0 s
    refine ⟨new, hLog, ?_, ?_⟩
    · constructor
      · intro hOK
        rw [if_pos hOK] at hOut
        exact hOut
      · intro hAll
        by_contra hne
        rw [if_neg hne] at hOut
        obtain ⟨_, oks, hEq, _⟩ := hOut
        exact hne (hAll _ (by rw [hEq]; simp))
    · intro pre post call hNew hBad
      rw [hNew, callStatuses_split] at hOut
      by_cases hOK : (doCoastsFrom INT_NODATA RTN_OK ext s.m_VCoast.length 0 s).1 = RTN_OK
      · rw [if_pos hOK] at hOut
        exact absurd (hOut _ (by simp)) hBad
      · rw [if_neg hOK] at hOut
        obtain ⟨_, oks, hEq, hOks⟩ := hOut
        obtain ⟨hPost, hSt⟩ := last_of_not_ok RTN_OK oks _ hOks _ _ _ hBad hEq
        refine ⟨?_, hSt.symm⟩
        cases post with
        | nil => rfl
        | cons c rest => simp [callStatuses, placementResults] at hPost
  · intro hne
    obtain ⟨k, sk, hk, hpre, hfail⟩ :=
      doCoastsFrom_fails INT_NODATA RTN_OK ext s.m_VCoast.length 0 s hne
    rw [Nat.zero_add] at hfail
    have hCoast : doCoast INT_NODATA RTN_OK ext sk k
        = doAllPolygons INT_NODATA RTN_OK ext k
          ((circularityWalk k (sortedPolyAndAdjacent INT_NODATA
            (AllPolygonsUpdateStoredUncons sk k) k) []
            (AllPolygonsUpdateStoredUncons sk k)).nGetNumPolygons k)
          (sortedPolyAndAdjacent INT_NODATA (AllPolygonsUpdateStoredUncons sk k) k)
          (circularityWalk k (sortedPolyAndAdjacent INT_NODATA
            (AllPolygonsUpdateStoredUncons sk k) k) []
            (AllPolygonsUpdateStoredUncons sk k)) := by
      unfold doCoast
      rfl
    rw [hCoast] at hfail
    obtain ⟨pre, d, post, s1, hl, hp, hf⟩ := doAllPolygons_fails INT_NODATA RTN_OK ext k _ _ _ _
      (congrArg Prod.fst hfail)
    rw [hfail] at hf
    obtain ⟨e, call, g1, g2, g3⟩ := doPolygon_fails INT_NODATA RTN_OK ext s1 k _ (d.getD 0 0) _
      (congrArg Prod.fst hf)
    rw [hf] at g2
    rw [hl] at hp
    exact ⟨k, pre, d, post, sk, s1, e, call, hk, hpre, hl, hp, g1, g2, g3⟩
  · intro nCoast nNumPolygons pre d post s1 s2 nRet hPre hFail
    exact doAllPolygons_stops INT_NODATA RTN_OK ext nCoast nNumPolygons pre d post s s1 s2 nRet
      hPre hFail

/-- On `shortfallSim`, with placement routines whose second call fails with status 7: the
erosion of sand on polygon 0 succeeds, the deposition of sand on polygon 1 fails, the pass
returns 7 having made these two calls only, and what was written before the failing call is
kept: the ten units eroded on polygon 0 are in its erosion depth, in the erosion total and in
the deposition of polygon 1, and nothing is eroded on polygon 1. -/
theorem placement_failure_is_fatal_witness :
    (nDoAllActualBeachErosionAndDeposition (-9999) 0 placeFailSecond shortfallSim).1 = 7
    ∧ (nDoAllActualBeachErosionAndDeposition (-9999) 0 placeFailSecond shortfallSim).2.placementLog
        = [⟨PlacementKind.erosion, 0, 0, Texture.TEXTURE_SAND, 10⟩,
            ⟨PlacementKind.deposition, 0, 1, Texture.TEXTURE_SAND, 10⟩]
    ∧ ((nDoAllActualBeachErosionAndDeposition (-9999) 0 placeFailSecond
          shortfallSim).2.pGetPolygon 0 0).dGetErosionUnconsSand = -10
    ∧ (nDoAllActualBeachErosionAndDeposition (-9999) 0 placeFailSecond
          shortfallSim).2.m_dThisIterBeachErosionSand = 10
    ∧ ((nDoAllActualBeachErosionAndDeposition (-9999) 0 placeFailSecond
          shortfallSim).2.pGetPolygon 0 1).dGetDepositionUnconsSand = 10
    ∧ ((nDoAllActualBeachErosionAndDeposition (-9999) 0 placeFailSecond
          shortfallSim).2.pGetPolygon 0 1).dGetErosionUnconsSand = 0
    ∧ ∃ (k : Nat) (pre : List (List Int)) (d : List Int) (post : List (List Int))
        (sk s1 e : CSimulation) (call : PlacementCall),
        k < shortfallSim.m_VCoast.length
        ∧ doCoastsFrom (-9999) 0 placeFailSecond k 0 shortfallSim = (0, sk)
        ∧ sortedPolyAndAdjacent (-9999) (AllPolygonsUpdateStoredUncons sk k) k
          = pre ++ d :: post
        ∧ doAllPolygons (-9999) 0 placeFailSecond k
            ((circularityWalk k (pre ++ d :: post) []
              (AllPolygonsUpdateStoredUncons sk k)).nGetNumPolygons k) pre
            (circularityWalk k (pre ++ d :: post) [] (AllPolygonsUpdateStoredUncons sk k))
          = (none, s1)
        ∧ callMadeAt 0 placeFailSecond s1 k (d.getD 0 0) e call
        ∧ (nDoAllActualBeachErosionAndDeposition (-9999) 0 placeFailSecond shortfallSim).2
          = { e with placementLog := e.placementLog ++ [call] }
        ∧ (placeFailSecond e.placementLog call).1
          = (nDoAllActualBeachErosionAndDeposition (-9999) 0 placeFailSecond shortfallSim).1 :=
  ⟨by decide!, by decide!, by decide!, by decide!, by decide!, by decide!,
    (placement_failure_is_fatal (-9999) 0 placeFailSecond shortfallSim).2.1 (by decide!)⟩

end CoastalME
